import Mathlib

/-! SoundTriggerEngineGsl: detection state machine.

A shallow embedding of `session/src/SoundTriggerEngineGsl.cpp`.

* The engine object is the record `Engine`; every member function is a Lean
  function that takes the engine and returns the updated engine (and the
  returned status, an `Int`, where the C++ function returns one).
* Collaborators (the capture session, the payload builder, the voice-UI
  interface, the resource manager, the attached streams) are the fields of
  `Env`.  Every query takes the logical time of the call, which is the number
  of effects the engine has performed so far, so two calls of the same
  collaborator function may answer differently.
* Every call the engine makes on a collaborator is appended to `Engine.trace`.
* Stream pointers are natural numbers, `0` is `nullptr`.
* An operation whose C++ behaviour is undefined (null dereference, indexing an
  empty vector, division by zero) returns `none`.
* Unsigned machine integers are natural numbers reduced modulo `2^32` or
  `2^64` where the C++ arithmetic wraps.
* The processing thread is modelled by `ProcessEventIteration` and
  `StartBuffering`; the loop of `StartBuffering` runs for a bounded number of
  iterations, `bufferingSteps` gives its state after any number of them, and
  where it releases the engine mutex the calls `Env.otherThreads` run.
-/

namespace SoundTrigger

/-! ## Constants and enumerations -/

abbrev StreamPtr := Nat

def EINVAL : Int := 22
def ENOMEM : Int := 12
def ENETRESET : Int := 102

def U32 : Nat := 2 ^ 32
def U64 : Nat := 2 ^ 64

def BITS_PER_BYTE : Nat := 8
def US_PER_SEC : Nat := 1000000

inductive eng_state_t where
  | ENG_IDLE
  | ENG_LOADED
  | ENG_ACTIVE
  | ENG_BUFFERING
  | ENG_DETECTED
  deriving DecidableEq, Repr

inductive st_state_id_t where
  | ST_STATE_NONE
  | ST_STATE_IDLE
  | ST_STATE_LOADED
  | ST_STATE_ACTIVE
  | ST_STATE_DETECTED
  | ST_STATE_BUFFERING
  | ST_STATE_SSR
  deriving DecidableEq, Repr

inductive st_param_id_type_t where
  | LOAD_SOUND_MODEL
  | UNLOAD_SOUND_MODEL
  | WAKEUP_CONFIG
  | BUFFERING_CONFIG
  | ENGINE_RESET
  | MODULE_VERSION
  | CUSTOM_CONFIG
  deriving DecidableEq, Repr

inductive pal_param_id_type_t where
  | PAL_PARAM_ID_LOAD_SOUND_MODEL
  | PAL_PARAM_ID_UNLOAD_SOUND_MODEL
  | PAL_PARAM_ID_WAKEUP_ENGINE_CONFIG
  | PAL_PARAM_ID_WAKEUP_BUFFERING_CONFIG
  | PAL_PARAM_ID_WAKEUP_ENGINE_RESET
  | PAL_PARAM_ID_WAKEUP_CUSTOM_CONFIG
  deriving DecidableEq, Repr

/-- Calls the engine makes on its collaborators, in the order it makes them. -/
inductive Effect where
  | acquireWakeLock
  | releaseWakeLock
  | updateSessionPayload (param : st_param_id_type_t)
  | getMIID (tag_id : Nat)
  | payloadSVAConfig (param : st_param_id_type_t)
  | setParameters (tag_id : Nat) (ses_param_id : pal_param_id_type_t)
  | sessionPrepare (s : StreamPtr)
  | sessionStart (s : StreamPtr)
  | sessionStop (s : StreamPtr)
  | createMmapBuffer (s : StreamPtr)
  | ResetMmapBuffer (s : StreamPtr)
  | GetMmapPosition (s : StreamPtr)
  | waitEOS (signalled : Bool)
  | SetModelState (s : StreamPtr) (state : Bool)
  | UpdateMergeConfLevelsPayload (s : StreamPtr) (set : Bool)
  | GetDetectedStream
  | ParseDetectionPayload (s : StreamPtr)
  | SetReadOffset (s : StreamPtr) (read_offset : Nat)
  | UpdateIndices (s : StreamPtr) (start_index : Nat) (end_index : Nat)
  | notifyProcessingThread
  | sessionOpen (s : StreamPtr)
  | sessionClose (s : StreamPtr)
  | UpdateEngineModel (s : StreamPtr) (add : Bool)
  | sessionRead (s : StreamPtr) (requested : Nat)
  | UpdateFTRTData (bytes : List Nat)
  | bufferWrite (bytes : List Nat)
  | bufferGetFreeSize
  | SetEngineDetectionState (s : StreamPtr)
  | mutexReleased
  | connectSessionDevice (s : StreamPtr)
  | disconnectSessionDevice (s : StreamPtr)
  | setupSessionDevice (s : StreamPtr)
  deriving DecidableEq, Repr

/-! ## Collaborators -/

structure detection_engine_config_voice_wakeup where
  mode : Nat
  custom_payload_size : Nat
  num_active_models : Nat
  reserved : Nat
  confidence_levels : Nat → Nat
  keyword_user_enables : Nat → Nat

/-- The calls that reach the engine from threads other than its processing
thread: the client operations and the event callback of the session. -/
inductive EngineCall where
  | LoadSoundModel (s : StreamPtr) (data : Option (List Nat)) (data_size : Nat)
  | UnloadSoundModel (s : StreamPtr)
  | StartRecognition (s : StreamPtr)
  | StopRecognition (s : StreamPtr)
  | RestartRecognition (s : StreamPtr)
  | HandleSessionEvent (data : List Nat)
  deriving DecidableEq, Repr

/-- What the engine reads from an attached stream. -/
structure StreamInfo where
  isSoundTrigger : Bool
  currentStateId : st_state_id_t
  modelId : Nat
  histBufDuration : Nat
  preRollDuration : Nat
  captureRequested : Bool

/-- The collaborators of the engine.  The first argument of every function is
the logical time of the call.

* `allocate c n` tells whether `malloc`, `calloc` or `realloc` of `n` bytes succeeds.
* `sessionRead c s n` is the status of `session_->read`, the size it reports and
  the bytes it stores at the begin of the buffer of `n` bytes.
* `mmapByte c i` is the byte at offset `i` of the buffer shared with the session.
* `ringFreeSize c` is the answer of `buffer_->getFreeSize()`; it depends on the
  readers of the ring buffer, which run in other threads.
* `exitBufferingRequested c` tells whether a client operation has set
  `exit_buffering_`, which it does before it waits for the engine mutex.
* `otherThreads c` are the calls of other threads that get the engine mutex when
  the processing thread releases it at time `c`.
* `sizeofRegisterMultiSoundModel` is the size of the header of the registration
  data of a PDK sound model. -/
structure Env where
  cardOnline : Nat → Bool
  concurrentEventCapture : Bool
  stream : Nat → StreamPtr → StreamInfo
  getMIID : Nat → Nat → Int × Nat
  payloadSVAConfig : Nat → st_param_id_type_t → Int × Bool
  setParameters : Nat → Nat → pal_param_id_type_t → Int
  sessionPrepare : Nat → StreamPtr → Int
  sessionStart : Nat → StreamPtr → Int
  sessionStop : Nat → StreamPtr → Int
  createMmapBuffer : Nat → StreamPtr → Nat → Int × Nat
  ResetMmapBuffer : Nat → StreamPtr → Int
  GetMmapPosition : Nat → StreamPtr → Int × Nat
  eosSignalled : Nat → Bool
  UpdateMergeConfLevelsPayload : Nat → StreamPtr → Bool → Int × List Nat
  GetDetectedStream : Nat → List Nat → StreamPtr
  ParseDetectionPayload : Nat → StreamPtr → List Nat → Int
  GetKeywordIndex : Nat → StreamPtr → Nat × Nat
  GetBufferingConfigs : Nat → StreamPtr → Nat × Nat
  GetKeywordStats : Nat → StreamPtr → Nat × Nat × Nat
  sessionOpen : Nat → StreamPtr → Int
  sessionClose : Nat → StreamPtr → Int
  UpdateEngineModel : Nat → StreamPtr → Option (List Nat) → Nat → Bool →
    detection_engine_config_voice_wakeup → Int × detection_engine_config_voice_wakeup
  GetSoundModelInfoConfLevels : Nat → List Nat
  allocate : Nat → Nat → Bool
  getBufInfo : Nat → StreamPtr → Nat × Nat
  sessionRead : Nat → StreamPtr → Nat → Int × Int × List Nat
  mmapByte : Nat → Nat → Nat
  ringFreeSize : Nat → Nat
  SetEngineDetectionState : Nat → StreamPtr → Int
  exitBufferingRequested : Nat → Bool
  connectSessionDevice : Nat → StreamPtr → Int
  disconnectSessionDevice : Nat → StreamPtr → Int
  setupSessionDevice : Nat → StreamPtr → Int
  otherThreads : Nat → List EngineCall
  sizeofRegisterMultiSoundModel : Nat

/-! ## Ordered maps (`std::map` with integer keys) -/

def mapFind {V : Type} (m : List (Nat × V)) (k : Nat) : Option V :=
  match m with
  | [] => none
  | (k0, v0) :: t => if k = k0 then some v0 else mapFind t k

def mapSet {V : Type} (m : List (Nat × V)) (k : Nat) (v : V) : List (Nat × V) :=
  match m with
  | [] => [(k, v)]
  | (k0, v0) :: t =>
    if k < k0 then (k, v) :: (k0, v0) :: t
    else if k = k0 then (k, v) :: t
    else (k0, v0) :: mapSet t k v

/-- The value `m[k]` of `std::map::operator[]`: the default where `k` is absent. -/
def mapIndex {V : Type} (dflt : V) (m : List (Nat × V)) (k : Nat) : V :=
  (mapFind m k).getD dflt

/-- The map after evaluating `m[k]`: `operator[]` inserts the default where `k` is absent. -/
def mapTouch {V : Type} (dflt : V) (m : List (Nat × V)) (k : Nat) : List (Nat × V) :=
  match mapFind m k with
  | some _ => m
  | none => mapSet m k dflt

/-! ## Ring buffer -/

structure KwdConfig where
  startIdx : Nat
  endIdx : Nat
  preRoll : Nat
  deriving DecidableEq, Repr

/-- Modelled from the spec: `PalRingBuffer` (its source file is not part of the
sources at hand), "fixed-capacity circular byte buffer with multiple independent
read cursors, supporting resize and per-detection index bookkeeping": a capacity,
the shared write position, the unread byte count of every reader and the
detection window registered for every listener. -/
structure PalRingBuffer where
  bufferSize : Nat
  writeOffset : Nat
  readers : List Nat
  kwCfg : List (StreamPtr × KwdConfig)
  deriving DecidableEq, Repr

/-- Modelled from the spec: `PalRingBuffer::reset`, which rewinds the shared write
position and every reader; the registered detection windows are kept. -/
def PalRingBuffer.reset (b : PalRingBuffer) : PalRingBuffer :=
  { b with writeOffset := 0, readers := b.readers.map (fun _ => 0) }

/-- Modelled from the spec: `PalRingBuffer::updateKwdConfig`, "register the
detection window with the RingBuffer". -/
def PalRingBuffer.updateKwdConfig (b : PalRingBuffer) (s : StreamPtr)
    (start_index end_index pre_roll_sz : Nat) : PalRingBuffer :=
  { b with kwCfg := mapSet b.kwCfg s ⟨start_index, end_index, pre_roll_sz⟩ }

/-- Modelled from the spec: `PalRingBuffer::getIndices`, the window registered for
a listener (zeros where none is registered). -/
def PalRingBuffer.getIndices (b : PalRingBuffer) (s : StreamPtr) : Nat × Nat :=
  match mapFind b.kwCfg s with
  | some c => (c.startIdx, c.endIdx)
  | none => (0, 0)

/-- Modelled from the spec: `PalRingBuffer::getBufferSize`, the capacity. -/
def PalRingBuffer.getBufferSize (b : PalRingBuffer) : Nat :=
  b.bufferSize

/-! ## Engine state -/

structure detection_engine_multi_model_buffering_config where
  model_id : Nat
  hist_buffer_duration_in_ms : Nat
  pre_roll_duration_in_ms : Nat

structure detection_engine_config_stage1_pdk where
  mode : Nat
  num_keywords : Nat
  model_id : Nat
  custom_payload_size : Nat
  confidence_levels : Nat → Nat

def pdkCfgZero : detection_engine_config_stage1_pdk :=
  ⟨0, 0, 0, 0, fun _ => 0⟩

/-- The data members of `SoundTriggerEngineGsl` that the modelled functions use,
and the trace of collaborator calls. -/
structure Engine where
  eng_state_ : eng_state_t
  exit_thread_ : Bool
  exit_buffering_ : Bool
  capture_requested_ : Bool
  eng_streams_ : List StreamPtr
  det_streams_q_ : List StreamPtr
  first_det_stream_ : StreamPtr
  buffer_ : Option PalRingBuffer
  custom_data : Option (List Nat)
  custom_data_size : Nat
  custom_detection_event : Option (List Nat)
  custom_detection_event_size : Nat
  mmap_buffer_size_ : Nat
  mmap_buffer_mapped : Bool
  mmap_write_position_ : Nat
  wakeup_config_ : detection_engine_config_voice_wakeup
  pdk_wakeup_config_ : detection_engine_config_stage1_pdk
  buffer_config_ : detection_engine_multi_model_buffering_config
  mid_stream_map_ : List (Nat × StreamPtr)
  mid_buff_cfg_ : List (Nat × (Nat × Nat))
  mid_wakeup_cfg_ : List (Nat × detection_engine_config_stage1_pdk)
  updated_cfg_ : List Nat
  eng_sm_info_conf_levels : List Nat
  isPDK : Bool
  is_qcva_uuid_ : Bool
  module_tag_ids_ : st_param_id_type_t → Nat
  param_ids_ : st_param_id_type_t → Nat
  use_lpi_ : Bool
  lpi_miid_ : Nat
  nlpi_miid_ : Nat
  sample_rate_ : Nat
  bit_width_ : Nat
  channels_ : Nat
  dev_disconnect_count_ : Int
  sm_data_ : Option (List Nat)
  sm_data_size_ : Nat
  deregister_config_model_id : Nat
  trace : List Effect

/-- The logical time: the number of collaborator calls made so far. -/
def Engine.clk (e : Engine) : Nat :=
  e.trace.length

def Engine.log (e : Engine) (x : Effect) : Engine :=
  { e with trace := e.trace ++ [x] }

/-- The collaborator calls made between the engine `e` and the later engine `e2`. -/
def issued (e e2 : Engine) : List Effect :=
  e2.trace.drop e.trace.length

/-! ## Unit conversions -/

/-- Modelled from the spec: `UsToBytes` (declared in the engine header, which is
not part of the sources at hand), "converted time→bytes via the stream's sample
rate/bit depth/channel count"; the result is a 32-bit unsigned value. -/
def UsToBytes (e : Engine) (input_us : Nat) : Nat :=
  (e.sample_rate_ * e.bit_width_ * e.channels_ * input_us /
    (BITS_PER_BYTE * US_PER_SEC)) % U32

/-- Modelled from the spec: `FrameToBytes` (declared in the engine header), frames
to bytes via bit depth and channel count, a 32-bit unsigned value. -/
def FrameToBytes (e : Engine) (frames : Nat) : Nat :=
  (frames * e.bit_width_ * e.channels_ / BITS_PER_BYTE) % U32

/-- Modelled from the spec: `BytesToFrames` (declared in the engine header), bytes
to frames via bit depth and channel count; undefined when a frame has no bits. -/
def BytesToFrames (e : Engine) (bytes : Nat) : Option Nat :=
  if e.bit_width_ * e.channels_ = 0 then none
  else some ((bytes * BITS_PER_BYTE / (e.bit_width_ * e.channels_)) % U32)

/-! ## State queries -/

def UpdateState (state : eng_state_t) (e : Engine) : Engine :=
  { e with eng_state_ := state }

def IsEngineActive (e : Engine) : Bool :=
  if e.eng_state_ = .ENG_ACTIVE ∨ e.eng_state_ = .ENG_BUFFERING ∨
      e.eng_state_ = .ENG_DETECTED then true
  else false

/-- The result of `dynamic_cast<StreamSoundTrigger *>(s)` is not null. -/
def dynCast (env : Env) (c : Nat) (s : StreamPtr) : Bool :=
  s != 0 && (env.stream c s).isSoundTrigger

def CheckIfOtherStreamsAttached (s : StreamPtr) (e : Engine) : Bool :=
  e.eng_streams_.any (fun x => s != x)

def CheckIfOtherStreamsActive (env : Env) (s : StreamPtr) (e : Engine) : Bool :=
  e.eng_streams_.any (fun x =>
    s != x && dynCast env e.clk x &&
    (decide ((env.stream e.clk x).currentStateId = .ST_STATE_ACTIVE) ||
     decide ((env.stream e.clk x).currentStateId = .ST_STATE_BUFFERING) ||
     decide ((env.stream e.clk x).currentStateId = .ST_STATE_DETECTED)))

def CheckIfOtherStreamsBuffering (env : Env) (s : StreamPtr) (e : Engine) : Bool :=
  e.eng_streams_.any (fun x =>
    s != x && dynCast env e.clk x &&
    decide ((env.stream e.clk x).currentStateId = .ST_STATE_BUFFERING))

/-! ## Session payloads -/

/-- The session parameter id chosen by the `switch` of `UpdateSessionPayload`;
`none` is its `default` branch. -/
def sesParamId : st_param_id_type_t → Option pal_param_id_type_t
  | .LOAD_SOUND_MODEL => some .PAL_PARAM_ID_LOAD_SOUND_MODEL
  | .UNLOAD_SOUND_MODEL => some .PAL_PARAM_ID_UNLOAD_SOUND_MODEL
  | .WAKEUP_CONFIG => some .PAL_PARAM_ID_WAKEUP_ENGINE_CONFIG
  | .BUFFERING_CONFIG => some .PAL_PARAM_ID_WAKEUP_BUFFERING_CONFIG
  | .ENGINE_RESET => some .PAL_PARAM_ID_WAKEUP_ENGINE_RESET
  | .CUSTOM_CONFIG => some .PAL_PARAM_ID_WAKEUP_CUSTOM_CONFIG
  | .MODULE_VERSION => none

/-- The module instance id lookup of `UpdateSessionPayload`: the id is fetched
from the session only while the cached one is zero. -/
def resolveMIID (env : Env) (tag_id : Nat) (e : Engine) : Int × Engine :=
  if e.use_lpi_ then
    if e.lpi_miid_ = 0 then
      ((env.getMIID e.clk tag_id).1,
        { e.log (.getMIID tag_id) with lpi_miid_ := (env.getMIID e.clk tag_id).2 })
    else (0, e)
  else
    if e.nlpi_miid_ = 0 then
      ((env.getMIID e.clk tag_id).1,
        { e.log (.getMIID tag_id) with nlpi_miid_ := (env.getMIID e.clk tag_id).2 })
    else (0, e)

/-- The payload construction of `UpdateSessionPayload`: the builder is called
and, for `CUSTOM_CONFIG`, the local custom data is released. -/
def buildPayload (env : Env) (param : st_param_id_type_t) (e : Engine) :
    (Int × Bool) × Engine :=
  let r := env.payloadSVAConfig e.clk param
  let e1 := e.log (.payloadSVAConfig param)
  if param = .CUSTOM_CONFIG then
    if e1.custom_data.isSome then
      (r, { e1 with custom_data := none, custom_data_size := 0 })
    else (r, e1)
  else (r, e1)

def UpdateSessionPayload (env : Env) (param : st_param_id_type_t) (e : Engine) :
    Int × Engine :=
  let e0 := e.log (.updateSessionPayload param)
  let tag_id := e0.module_tag_ids_ param
  let param_id := e0.param_ids_ param
  if tag_id = 0 ∨ param_id = 0 then (-EINVAL, e0)
  else
    let m := resolveMIID env tag_id e0
    if m.1 ≠ 0 then (m.1, m.2)
    else
      match sesParamId param with
      | none => (-EINVAL, m.2)
      | some ses_param_id =>
        let b := buildPayload env param m.2
        if b.1.1 ≠ 0 ∨ b.1.2 = false then (-ENOMEM, b.2)
        else
          (env.setParameters b.2.clk tag_id ses_param_id,
            b.2.log (.setParameters tag_id ses_param_id))

/-! ## Start, stop, restart -/

def ProcessStopRecognition (env : Env) (s : StreamPtr) (e : Engine) : Int × Engine :=
  let e1 := e.log .acquireWakeLock
  let e2 := { e1 with buffer_ := e1.buffer_.map PalRingBuffer.reset }
  let r := UpdateSessionPayload env .ENGINE_RESET e2
  let status := env.sessionStop r.2.clk s
  let e3 := r.2.log (.sessionStop s)
  let e4 := UpdateState .ENG_LOADED e3
  (status, e4.log .releaseWakeLock)

def UpdateConfigPDK (model_id : Nat) (e : Engine) : Engine :=
  let c := mapIndex pdkCfgZero e.mid_wakeup_cfg_ model_id
  let bc := mapIndex (0, 0) e.mid_buff_cfg_ model_id
  { e with
    mid_wakeup_cfg_ := mapTouch pdkCfgZero e.mid_wakeup_cfg_ model_id
    mid_buff_cfg_ := mapTouch (0, 0) e.mid_buff_cfg_ model_id
    pdk_wakeup_config_ :=
      { mode := c.mode
        num_keywords := c.num_keywords
        model_id := model_id
        custom_payload_size := c.custom_payload_size
        confidence_levels := fun i =>
          if i < c.num_keywords then c.confidence_levels i
          else e.pdk_wakeup_config_.confidence_levels i }
    buffer_config_ :=
      { model_id := model_id
        hist_buffer_duration_in_ms := bc.2
        pre_roll_duration_in_ms := bc.1 } }

def UpdateConfigs (env : Env) (e : Engine) : Int × Engine :=
  let r1 : Int × Engine :=
    if e.is_qcva_uuid_ then UpdateSessionPayload env .WAKEUP_CONFIG e
    else if e.module_tag_ids_ .CUSTOM_CONFIG ≠ 0 ∧ e.param_ids_ .CUSTOM_CONFIG ≠ 0 then
      UpdateSessionPayload env .CUSTOM_CONFIG e
    else (0, e)
  if r1.1 ≠ 0 then r1
  else UpdateSessionPayload env .BUFFERING_CONFIG r1.2

/-- The loop of `ProcessStartRecognition` over `updated_cfg_`: the status, the
stream to start and the engine after it. -/
def startUpdatedCfgLoop (env : Env) (cfgs : List Nat) (s : StreamPtr) (e : Engine) :
    Int × StreamPtr × Engine :=
  match cfgs with
  | [] => (0, s, e)
  | id :: rest =>
    let r := UpdateConfigs env (UpdateConfigPDK id e)
    if r.1 ≠ 0 then (r.1, s, r.2)
    else
      startUpdatedCfgLoop env rest (mapIndex 0 r.2.mid_stream_map_ id)
        { r.2 with mid_stream_map_ := mapTouch 0 r.2.mid_stream_map_ id }

/-- The configuration half of `ProcessStartRecognition`, up to `session_->prepare`. -/
def startConfigs (env : Env) (s : StreamPtr) (e : Engine) :
    Option (Int × StreamPtr × Engine) :=
  if e.updated_cfg_.length > 0 then
    let r := startUpdatedCfgLoop env e.updated_cfg_ s e
    if r.1 ≠ 0 then some r
    else some (0, r.2.1, { r.2.2 with updated_cfg_ := [] })
  else if e.isPDK then
    if dynCast env e.clk s then
      if e.pdk_wakeup_config_.model_id ≠ (env.stream e.clk s).modelId then
        some ((UpdateConfigs env (UpdateConfigPDK (env.stream e.clk s).modelId e)).1, s,
          (UpdateConfigs env (UpdateConfigPDK (env.stream e.clk s).modelId e)).2)
      else some ((UpdateConfigs env e).1, s, (UpdateConfigs env e).2)
    else none
  else some ((UpdateConfigs env e).1, s, (UpdateConfigs env e).2)

/-- The mmap buffer creation of `ProcessStartRecognition`. -/
def startMmap (env : Env) (s : StreamPtr) (e : Engine) : Option (Int × Engine) :=
  if e.mmap_buffer_size_ ≠ 0 ∧ e.mmap_buffer_mapped = false then
    match BytesToFrames e e.mmap_buffer_size_ with
    | none => none
    | some frames =>
      let r := env.createMmapBuffer e.clk s frames
      let e1 := e.log (.createMmapBuffer s)
      if r.1 ≠ 0 then some (r.1, e1)
      else some (0, { e1 with mmap_buffer_mapped := true
                              mmap_buffer_size_ := FrameToBytes e1 r.2 })
  else some (0, e)

/-- The tail of `ProcessStartRecognition` from `session_->start` on. -/
def startSession (env : Env) (s : StreamPtr) (e : Engine) : Int × Engine :=
  let st := env.sessionStart e.clk s
  let e1 := e.log (.sessionStart s)
  if st ≠ 0 then (st, e1.log .releaseWakeLock)
  else
    let r : Int × Engine :=
      if e1.mmap_buffer_size_ ≠ 0 then
        (env.ResetMmapBuffer e1.clk s,
          { e1.log (.ResetMmapBuffer s) with mmap_write_position_ := 0 })
      else (0, e1)
    let e2 := UpdateState .ENG_ACTIVE { r.2 with exit_buffering_ := false }
    (r.1, e2.log .releaseWakeLock)

def ProcessStartRecognition (env : Env) (s : StreamPtr) (e : Engine) :
    Option (Int × Engine) :=
  let e1 := e.log .acquireWakeLock
  let e2 : Engine :=
    if e1.custom_detection_event.isSome then
      { e1 with custom_detection_event := none, custom_detection_event_size := 0 }
    else e1
  match startConfigs env s e2 with
  | none => none
  | some (status, s1, e3) =>
    if status ≠ 0 then some (status, e3.log .releaseWakeLock)
    else
      let e4 := e3.log (.sessionPrepare s1)
      if env.sessionPrepare e3.clk s1 ≠ 0 then
        some (env.sessionPrepare e3.clk s1, e4.log .releaseWakeLock)
      else
        match startMmap env s1 e4 with
        | none => none
        | some (st, e5) =>
          if st ≠ 0 then some (st, e5.log .releaseWakeLock)
          else some (startSession env s1 e5)

/-- The status rewrite at the end of the client operations: a device-disconnected
status, or any status while the sound card is not online, becomes 0. -/
def ssrStatus (env : Env) (status : Int) (e : Engine) : Int :=
  if status = -ENETRESET ∨ env.cardOnline e.clk = false then 0 else status

def StartRecognition (env : Env) (s : StreamPtr) (e : Engine) : Option (Int × Engine) :=
  let e1 := { e with exit_buffering_ := true }
  let e2 := e1.log (.SetModelState s true)
  let stopped : Option Engine :=
    if IsEngineActive e2 then
      match e2.eng_streams_ with
      | [] => none
      | s0 :: _ => some (ProcessStopRecognition env s0 e2).2
    else some e2
  match stopped with
  | none => none
  | some e3 =>
    match ProcessStartRecognition env s e3 with
    | none => none
    | some (status, e4) =>
      if status ≠ 0 then some (ssrStatus env status e4, e4)
      else some (status, e4)

/-- The mmap write position update of `RestartRecognition`. -/
def restartMmap (env : Env) (s : StreamPtr) (status : Int) (e : Engine) :
    Option (Int × Engine) :=
  if e.mmap_buffer_size_ ≠ 0 then
    let p := env.GetMmapPosition e.clk s
    let e1 := e.log (.GetMmapPosition s)
    let e2 : Engine := if p.1 = 0 then { e1 with mmap_write_position_ := p.2 } else e1
    let st := env.ResetMmapBuffer e2.clk s
    let e3 := e2.log (.ResetMmapBuffer s)
    match BytesToFrames e3 e3.mmap_buffer_size_ with
    | none => none
    | some frames =>
      if frames = 0 then none
      else some (st, { e3 with mmap_write_position_ := e3.mmap_write_position_ % frames })
  else some (status, e)

def RestartRecognition (env : Env) (s : StreamPtr) (e : Engine) : Option (Int × Engine) :=
  if IsEngineActive e = false then some (0, e)
  else if env.concurrentEventCapture = true ∧
      (e.det_streams_q_.isEmpty = false ∨ CheckIfOtherStreamsBuffering env s e = true) then
    some (0, e)
  else
    let e1 := { e with exit_buffering_ := true
                       buffer_ := e.buffer_.map PalRingBuffer.reset }
    let e2 : Engine :=
      if e1.custom_detection_event.isSome then
        { e1 with custom_detection_event := none, custom_detection_event_size := 0 }
      else e1
    let r := UpdateSessionPayload env .ENGINE_RESET e2
    let e3 := r.2.log (.waitEOS (env.eosSignalled r.2.clk))
    match restartMmap env s r.1 e3 with
    | none => none
    | some (status, e4) =>
      let e5 := UpdateState .ENG_ACTIVE { e4 with exit_buffering_ := false }
      some (ssrStatus env status e5, e5)

/-! ## Stop -/

/-- The locals of the scan of `UpdateEngineConfigOnStop` over the attached streams. -/
structure StopScan where
  is_any_stream_active : Bool
  hb_duration : Nat
  pr_duration : Nat
  enable_lab : Bool

/-- The loop of `UpdateEngineConfigOnStop` over `eng_streams_`, read at time `c`. -/
def scanRemaining (env : Env) (c : Nat) (s : StreamPtr) :
    List StreamPtr → StopScan → StopScan
  | [], acc => acc
  | x :: t, acc =>
    if s ≠ x ∧ dynCast env c x = true ∧
        (env.stream c x).currentStateId = .ST_STATE_ACTIVE then
      scanRemaining env c s t
        { is_any_stream_active := true
          hb_duration :=
            if acc.hb_duration < (env.stream c x).histBufDuration then
              (env.stream c x).histBufDuration
            else acc.hb_duration
          pr_duration :=
            if acc.pr_duration < (env.stream c x).preRollDuration then
              (env.stream c x).preRollDuration
            else acc.pr_duration
          enable_lab :=
            if acc.enable_lab = false then (env.stream c x).captureRequested
            else acc.enable_lab }
    else scanRemaining env c s t acc

def UpdateEngineConfigOnStop (env : Env) (s : StreamPtr) (e : Engine) : Int × Engine :=
  if CheckIfOtherStreamsAttached s e = false then (0, e)
  else
    let r := scanRemaining env e.clk s e.eng_streams_ ⟨false, 0, 0, false⟩
    if r.is_any_stream_active = false then
      (0, { e with
            buffer_config_ :=
              { e.buffer_config_ with
                hist_buffer_duration_in_ms := 0
                pre_roll_duration_in_ms := 0 }
            capture_requested_ := false })
    else
      let e1 : Engine :=
        { e with
          buffer_config_ :=
            { e.buffer_config_ with
              hist_buffer_duration_in_ms := r.hb_duration
              pre_roll_duration_in_ms := r.pr_duration }
          capture_requested_ := r.enable_lab }
      if e1.isPDK = false then
        let m := env.UpdateMergeConfLevelsPayload e1.clk s false
        let e2 := e1.log (.UpdateMergeConfLevelsPayload s false)
        (m.1,
          { e2 with
            eng_sm_info_conf_levels := m.2
            wakeup_config_ :=
              { e2.wakeup_config_ with
                confidence_levels := fun i =>
                  if i < m.2.length then m.2.getD i 0
                  else e2.wakeup_config_.confidence_levels i
                keyword_user_enables := fun i =>
                  if i < m.2.length then (if m.2.getD i 0 = 100 then 0 else 1)
                  else e2.wakeup_config_.keyword_user_enables i } })
      else (0, e1)

/-- The PDK branch of `StopRecognition`: the confidence levels of the stopped
model become 100 and the model is queued in `updated_cfg_`. -/
def resetConfLevelsPDK (model_id : Nat) (e : Engine) : Engine :=
  let c := mapIndex pdkCfgZero e.mid_wakeup_cfg_ model_id
  { e with
    mid_wakeup_cfg_ :=
      mapSet e.mid_wakeup_cfg_ model_id
        { c with
          confidence_levels := fun i =>
            if i < c.num_keywords then 100 else c.confidence_levels i }
    updated_cfg_ := e.updated_cfg_ ++ [model_id] }

/-- The restart of the remaining streams in `StopRecognition`, entered when
`CheckIfOtherStreamsActive` holds. -/
def stopRestartOthers (env : Env) (s : StreamPtr) (e : Engine) : Option (Int × Engine) :=
  let e3 := (UpdateEngineConfigOnStop env s e).2
  let e4 : Option Engine :=
    if e3.isPDK then
      if dynCast env e3.clk s then
        some (resetConfLevelsPDK (env.stream e3.clk s).modelId e3)
      else none
    else some e3
  match e4 with
  | none => none
  | some e5 =>
    match e5.eng_streams_ with
    | [] => none
    | s0 :: _ => ProcessStartRecognition env s0 e5

def StopRecognition (env : Env) (s : StreamPtr) (e : Engine) : Option (Int × Engine) :=
  let e1 := { e with exit_buffering_ := true }
  let e2 := e1.log (.SetModelState s false)
  if IsEngineActive e2 then
    let r := ProcessStopRecognition env s e2
    if r.1 ≠ 0 then some (ssrStatus env r.1 r.2, r.2)
    else if CheckIfOtherStreamsActive env s r.2 then
      match stopRestartOthers env s r.2 with
      | none => none
      | some (st, e6) => some (ssrStatus env st e6, e6)
    else some (ssrStatus env r.1 r.2, r.2)
  else some (ssrStatus env 0 e2, e2)

/-! ## Detection events -/

/-- The branch of `HandleSessionEvent` for a detection in state `ENG_ACTIVE`. -/
def handleFirstDetection (env : Env) (s : StreamPtr) (e : Engine) : Option Engine :=
  let e1 := { e with det_streams_q_ := [s], first_det_stream_ := s }
  let start_index := (env.GetKeywordIndex e1.clk s).1 % U32
  let end_index := (env.GetKeywordIndex e1.clk s).2 % U32
  let pre_roll_duration := (env.GetBufferingConfigs e1.clk s).2 % U32
  let pre_roll_sz := UsToBytes e1 ((pre_roll_duration * 1000) % U32)
  match e1.buffer_ with
  | none => none
  | some b =>
    let e2 := { e1 with buffer_ := some (b.updateKwdConfig s start_index end_index pre_roll_sz) }
    some ((UpdateState .ENG_DETECTED e2).log .notifyProcessingThread)

/-- The branch of `HandleSessionEvent` for a detection while another listener is
already buffering. -/
def handleConcurrentDetection (env : Env) (s : StreamPtr) (e : Engine) : Option Engine :=
  let e1 := { e with det_streams_q_ := e.det_streams_q_ ++ [s] }
  let kw1 := env.GetKeywordStats e1.clk e1.first_det_stream_
  let kw2 := env.GetKeywordStats e1.clk s
  let kw1_end_ts := kw1.2.1 % U64
  let kw1_ftrt_duration := kw1.2.2 % U64
  let kw2_start_ts := kw2.1 % U64
  let kw2_end_ts := kw2.2.1 % U64
  let buf_begin_ts := (kw1_end_ts + U64 - kw1_ftrt_duration) % U64
  let start_us := ((kw2_start_ts + U64 - buf_begin_ts) % U64) % U32
  let end_us := ((start_us + (kw2_end_ts + U64 - kw2_start_ts) % U64) % U64) % U32
  let start_index := UsToBytes e1 start_us
  let end_index := UsToBytes e1 end_us
  let pre_roll_duration := (env.GetBufferingConfigs e1.clk s).2 % U32
  let pre_roll_sz := UsToBytes e1 ((pre_roll_duration * 1000) % U32)
  match e1.buffer_ with
  | none => none
  | some b =>
    let e2 := { e1 with buffer_ := some (b.updateKwdConfig s start_index end_index pre_roll_sz) }
    if b.getBufferSize = 0 then none
    else
      let start_mod := start_index % b.getBufferSize
      let read_offset := if start_mod > pre_roll_sz then start_mod - pre_roll_sz else 0
      let e3 := e2.log (.SetReadOffset s read_offset)
      let pre_roll_eff := if start_mod < pre_roll_sz then start_mod else pre_roll_sz
      let client_start := pre_roll_eff
      let client_end :=
        (client_start + UsToBytes e1 ((kw2_end_ts + U64 - kw2_start_ts) % U64)) % U32
      some (e3.log (.UpdateIndices s client_start client_end))

def HandleSessionEvent (env : Env) (data : List Nat) (e : Engine) : Option Engine :=
  let eng_state := e.eng_state_
  if eng_state = .ENG_LOADED then some (UpdateSessionPayload env .ENGINE_RESET e).2
  else if eng_state ≠ .ENG_ACTIVE ∧
      (if env.concurrentEventCapture = true then
        eng_state ≠ .ENG_BUFFERING ∧ eng_state ≠ .ENG_DETECTED
      else True) then some e
  else
    let e1 : Option Engine :=
      if eng_state = .ENG_ACTIVE then
        match e.buffer_ with
        | none => none
        | some b => some { e.log .acquireWakeLock with buffer_ := some b.reset }
      else some e
    match e1 with
    | none => none
    | some e2 =>
      let s := env.GetDetectedStream e2.clk data
      let e3 := e2.log .GetDetectedStream
      if s = 0 then
        some (if eng_state = .ENG_ACTIVE then e3.log .releaseWakeLock else e3)
      else
        let e4 := e3.log (.ParseDetectionPayload s)
        if env.ParseDetectionPayload e3.clk s data ≠ 0 then
          some (if eng_state = .ENG_ACTIVE then e4.log .releaseWakeLock else e4)
        else if eng_state = .ENG_ACTIVE then handleFirstDetection env s e4
        else handleConcurrentDetection env s e4

/-! ## Sequences of client calls -/

inductive ClientCall where
  | start
  | stop
  | restart
  deriving DecidableEq, Repr

def applyCall (env : Env) (s : StreamPtr) (c : ClientCall) (e : Engine) : Option Engine :=
  match c with
  | .start => (StartRecognition env s e).map (fun r => r.2)
  | .stop => (StopRecognition env s e).map (fun r => r.2)
  | .restart => (RestartRecognition env s e).map (fun r => r.2)

def runCalls (env : Env) (s : StreamPtr) : List ClientCall → Engine → Option Engine
  | [], e => some e
  | c :: rest, e =>
    match applyCall env s c e with
    | none => none
    | some e1 => runCalls env s rest e1

/-- The sequence contains a start with no later stop. -/
def StartedNoLaterStop (calls : List ClientCall) : Prop :=
  ∃ before after, calls = before ++ ClientCall.start :: after ∧ ClientCall.stop ∉ after

/-! ## Observations on the trace -/

/-- An invocation of `UpdateSessionPayload(ENGINE_RESET)`. -/
def isEngineResetRequest : Effect → Bool
  | .updateSessionPayload .ENGINE_RESET => true
  | _ => false

/-- An engine-reset payload handed to `session_->setParameters`. -/
def isEngineResetWrite : Effect → Bool
  | .setParameters _ .PAL_PARAM_ID_WAKEUP_ENGINE_RESET => true
  | _ => false

def isSetParameters : Effect → Bool
  | .setParameters _ _ => true
  | _ => false

def isSessionStop : Effect → Bool
  | .sessionStop _ => true
  | _ => false

def isLoadSoundModel : Effect → Bool
  | .updateSessionPayload .LOAD_SOUND_MODEL => true
  | .payloadSVAConfig .LOAD_SOUND_MODEL => true
  | .setParameters _ .PAL_PARAM_ID_LOAD_SOUND_MODEL => true
  | _ => false

def isWakeLockAcquire : Effect → Bool
  | .acquireWakeLock => true
  | _ => false

def isWakeLockRelease : Effect → Bool
  | .releaseWakeLock => true
  | _ => false

/-- The calls `UpdateSessionPayload(param)` makes after it has been entered. -/
def isPayloadStep (tag_id : Nat) (param : st_param_id_type_t) (x : Effect) : Prop :=
  x = .getMIID tag_id ∨ x = .payloadSVAConfig param ∨
    ∃ sp, sesParamId param = some sp ∧ x = .setParameters tag_id sp

/-- The engine-reset payload can be built and handed to the session: the tag and
parameter ids are configured, the module instance id resolves and the payload
builder succeeds. -/
def ResetPayloadReady (env : Env) (e : Engine) : Prop :=
  e.module_tag_ids_ .ENGINE_RESET ≠ 0 ∧ e.param_ids_ .ENGINE_RESET ≠ 0 ∧
  (∀ c t, (env.getMIID c t).1 = 0) ∧
  (∀ c, env.payloadSVAConfig c .ENGINE_RESET = (0, true))

/-- The frame count of the mmap buffer is defined and not zero, so that the
division in `RestartRecognition` and in `ProcessStartRecognition` is defined. -/
def MmapFramesOk (e : Engine) : Prop :=
  e.mmap_buffer_size_ ≠ 0 →
    ∃ f, BytesToFrames e e.mmap_buffer_size_ = some f ∧ f ≠ 0

/-- Every collaborator call answers with success. -/
structure AllCallsSucceed (env : Env) : Prop where
  getMIID : ∀ c t, (env.getMIID c t).1 = 0
  payloadSVAConfig : ∀ c p, env.payloadSVAConfig c p = (0, true)
  setParameters : ∀ c t p, env.setParameters c t p = 0
  sessionPrepare : ∀ c s, env.sessionPrepare c s = 0
  sessionStart : ∀ c s, env.sessionStart c s = 0
  sessionStop : ∀ c s, env.sessionStop c s = 0
  createMmapBuffer : ∀ c s n, (env.createMmapBuffer c s n).1 = 0
  ResetMmapBuffer : ∀ c s, env.ResetMmapBuffer c s = 0
  GetMmapPosition : ∀ c s, (env.GetMmapPosition c s).1 = 0

/-- The module tag id and the parameter id of every payload are configured, so
that `UpdateSessionPayload` reaches the session. -/
def PayloadIdsConfigured (e : Engine) : Prop :=
  ∀ p, e.module_tag_ids_ p ≠ 0 ∧ e.param_ids_ p ≠ 0

/-- A step of `UpdateConfigs`: a wakeup, custom or buffering configuration write. -/
def isConfigStep : Effect → Bool
  | .updateSessionPayload .WAKEUP_CONFIG => true
  | .updateSessionPayload .CUSTOM_CONFIG => true
  | .updateSessionPayload .BUFFERING_CONFIG => true
  | .payloadSVAConfig .WAKEUP_CONFIG => true
  | .payloadSVAConfig .CUSTOM_CONFIG => true
  | .payloadSVAConfig .BUFFERING_CONFIG => true
  | .setParameters _ .PAL_PARAM_ID_WAKEUP_ENGINE_CONFIG => true
  | .setParameters _ .PAL_PARAM_ID_WAKEUP_CUSTOM_CONFIG => true
  | .setParameters _ .PAL_PARAM_ID_WAKEUP_BUFFERING_CONFIG => true
  | .getMIID _ => true
  | _ => false

/-- The members of the engine that the configuration writes of
`ProcessStartRecognition` leave alone, and the calls they add to the trace. -/
structure ConfigFrame (e e2 : Engine) : Prop where
  eng_state_ : e2.eng_state_ = e.eng_state_
  exit_buffering_ : e2.exit_buffering_ = e.exit_buffering_
  capture_requested_ : e2.capture_requested_ = e.capture_requested_
  eng_streams_ : e2.eng_streams_ = e.eng_streams_
  det_streams_q_ : e2.det_streams_q_ = e.det_streams_q_
  first_det_stream_ : e2.first_det_stream_ = e.first_det_stream_
  buffer_ : e2.buffer_ = e.buffer_
  custom_detection_event : e2.custom_detection_event = e.custom_detection_event
  mmap_buffer_size_ : e2.mmap_buffer_size_ = e.mmap_buffer_size_
  mmap_buffer_mapped : e2.mmap_buffer_mapped = e.mmap_buffer_mapped
  mmap_write_position_ : e2.mmap_write_position_ = e.mmap_write_position_
  wakeup_config_ : e2.wakeup_config_ = e.wakeup_config_
  isPDK : e2.isPDK = e.isPDK
  is_qcva_uuid_ : e2.is_qcva_uuid_ = e.is_qcva_uuid_
  module_tag_ids_ : e2.module_tag_ids_ = e.module_tag_ids_
  param_ids_ : e2.param_ids_ = e.param_ids_
  sample_rate_ : e2.sample_rate_ = e.sample_rate_
  bit_width_ : e2.bit_width_ = e.bit_width_
  channels_ : e2.channels_ = e.channels_
  trace : ∃ l, e2.trace = e.trace ++ l ∧ ∀ x ∈ l, isConfigStep x = true

/-- The members of the engine that `ProcessStartRecognition` and
`ProcessStopRecognition` leave alone. -/
structure SessionFrame (e e2 : Engine) : Prop where
  capture_requested_ : e2.capture_requested_ = e.capture_requested_
  eng_streams_ : e2.eng_streams_ = e.eng_streams_
  det_streams_q_ : e2.det_streams_q_ = e.det_streams_q_
  first_det_stream_ : e2.first_det_stream_ = e.first_det_stream_
  wakeup_config_ : e2.wakeup_config_ = e.wakeup_config_
  isPDK : e2.isPDK = e.isPDK
  is_qcva_uuid_ : e2.is_qcva_uuid_ = e.is_qcva_uuid_
  module_tag_ids_ : e2.module_tag_ids_ = e.module_tag_ids_
  param_ids_ : e2.param_ids_ = e.param_ids_
  sample_rate_ : e2.sample_rate_ = e.sample_rate_
  bit_width_ : e2.bit_width_ = e.bit_width_
  channels_ : e2.channels_ = e.channels_

/-- In mmap mode a frame has at least one bit, so that the frame count of the
mmap buffer requested in `ProcessStartRecognition` is defined. -/
def MmapFormatOk (e : Engine) : Prop :=
  e.mmap_buffer_size_ ≠ 0 → e.bit_width_ * e.channels_ ≠ 0

/-- The mmap buffers the session creates have a frame count that is defined and
not zero for the sample format of `e`. -/
def MmapBuffersOk (env : Env) (e : Engine) : Prop :=
  ∀ c s n (e2 : Engine), e2.bit_width_ = e.bit_width_ → e2.channels_ = e.channels_ →
    FrameToBytes e2 (env.createMmapBuffer c s n).2 ≠ 0 →
      ∃ f, BytesToFrames e2 (FrameToBytes e2 (env.createMmapBuffer c s n).2) = some f ∧ f ≠ 0

/-- What start, stop and restart calls preserve on an engine with the single
listener `s` that began as `e0`: the listener set, the payload ids, the sample
format, the module type and a usable mmap frame count; the engine state is
Loaded or Active. -/
structure SingleListenerInv (s : StreamPtr) (e0 e : Engine) : Prop where
  eng_streams_ : e.eng_streams_ = [s]
  ids : PayloadIdsConfigured e
  frames : MmapFramesOk e
  bit_width_ : e.bit_width_ = e0.bit_width_
  channels_ : e.channels_ = e0.channels_
  isPDK : e.isPDK = e0.isPDK
  state : e.eng_state_ = .ENG_LOADED ∨ e.eng_state_ = .ENG_ACTIVE

/-! ## Sample collaborators and engines -/

def sampleStream : StreamInfo :=
  { isSoundTrigger := true
    currentStateId := .ST_STATE_ACTIVE
    modelId := 1
    histBufDuration := 2000
    preRollDuration := 500
    captureRequested := true }

/-- Collaborators that always succeed; every event reports listener 1. -/
def sampleEnv : Env :=
  { cardOnline := fun _ => true
    concurrentEventCapture := true
    stream := fun _ _ => sampleStream
    getMIID := fun _ _ => (0, 7)
    payloadSVAConfig := fun _ _ => (0, true)
    setParameters := fun _ _ _ => 0
    sessionPrepare := fun _ _ => 0
    sessionStart := fun _ _ => 0
    sessionStop := fun _ _ => 0
    createMmapBuffer := fun _ _ n => (0, n)
    ResetMmapBuffer := fun _ _ => 0
    GetMmapPosition := fun _ _ => (0, 0)
    eosSignalled := fun _ => true
    UpdateMergeConfLevelsPayload := fun _ _ _ => (0, [60, 70])
    GetDetectedStream := fun _ _ => 1
    ParseDetectionPayload := fun _ _ _ => 0
    GetKeywordIndex := fun _ _ => (1000, 4000)
    GetBufferingConfigs := fun _ _ => (2000, 500)
    GetKeywordStats := fun _ _ => (0, 0, 0)
    sessionOpen := fun _ _ => 0
    sessionClose := fun _ _ => 0
    UpdateEngineModel := fun _ _ _ _ _ w => (0, w)
    GetSoundModelInfoConfLevels := fun _ => [50]
    allocate := fun _ _ => true
    getBufInfo := fun _ _ => (1024, 1)
    sessionRead := fun _ _ n => (0, (n : Int), List.replicate n 0)
    mmapByte := fun _ _ => 0
    ringFreeSize := fun _ => 65536
    SetEngineDetectionState := fun _ _ => 0
    exitBufferingRequested := fun _ => false
    connectSessionDevice := fun _ _ => 0
    disconnectSessionDevice := fun _ _ => 0
    setupSessionDevice := fun _ _ => 0
    otherThreads := fun _ => []
    sizeofRegisterMultiSoundModel := 8 }

/-- A non-PDK engine in pull-read mode with listener 1 attached and its model
loaded: 16 kHz, 16 bit, mono, a 64 KiB ring buffer. -/
def sampleEngine : Engine :=
  { eng_state_ := .ENG_LOADED
    exit_thread_ := false
    exit_buffering_ := false
    capture_requested_ := true
    eng_streams_ := [1]
    det_streams_q_ := []
    first_det_stream_ := 0
    buffer_ := some ⟨65536, 0, [0], []⟩
    custom_data := none
    custom_data_size := 0
    custom_detection_event := none
    custom_detection_event_size := 0
    mmap_buffer_size_ := 0
    mmap_buffer_mapped := false
    mmap_write_position_ := 0
    wakeup_config_ := ⟨1, 0, 1, 0, fun _ => 50, fun _ => 1⟩
    pdk_wakeup_config_ := pdkCfgZero
    buffer_config_ := ⟨0, 2000, 500⟩
    mid_stream_map_ := []
    mid_buff_cfg_ := []
    mid_wakeup_cfg_ := []
    updated_cfg_ := []
    eng_sm_info_conf_levels := [50]
    isPDK := false
    is_qcva_uuid_ := true
    module_tag_ids_ := fun _ => 1
    param_ids_ := fun _ => 1
    use_lpi_ := true
    lpi_miid_ := 0
    nlpi_miid_ := 0
    sample_rate_ := 16000
    bit_width_ := 16
    channels_ := 1
    dev_disconnect_count_ := 0
    sm_data_ := none
    sm_data_size_ := 0
    deregister_config_model_id := 0
    trace := [] }

/-- The sample engine with recognition running. -/
def sampleActiveEngine : Engine :=
  { sampleEngine with eng_state_ := .ENG_ACTIVE }

/-- The sample engine with listeners 1 and 2 attached and recognition running. -/
def sampleSharedEngine : Engine :=
  { sampleEngine with eng_state_ := .ENG_ACTIVE, eng_streams_ := [1, 2] }

/-- The sample engine with listeners 1 and 2 attached while listener 1, detected
first, is being buffered. -/
def sampleBufferingEngine : Engine :=
  { sampleEngine with
    eng_state_ := .ENG_BUFFERING
    eng_streams_ := [1, 2]
    det_streams_q_ := [1]
    first_det_stream_ := 1 }

/-- Collaborators reporting a second detection, of listener 2, whose keyword
starts 2^32 microseconds after the buffer of listener 1 begins: listener 1 has
keyword end 1000000 and replay duration 1000000, listener 2 has keyword start
4295967296 and keyword end 4296467296. -/
def lateDetectionEnv : Env :=
  { sampleEnv with
    GetDetectedStream := fun _ _ => 2
    GetKeywordStats := fun _ s =>
      if s = 1 then (500000, 1000000, 1000000) else (4295967296, 4296467296, 0) }

/-- Collaborators reporting a second detection, of listener 2, whose keyword
starts 2.1 s after the buffer of listener 1 begins and lasts 0.5 s. -/
def wrappedDetectionEnv : Env :=
  { sampleEnv with
    GetDetectedStream := fun _ _ => 2
    GetKeywordStats := fun _ s =>
      if s = 1 then (500000, 1000000, 1000000) else (2100000, 2600000, 0) }

/-! ## The merge rule in the words of the specification -/

/-- The attached listeners other than `s` whose sub-state is Active, read at time `c`. -/
def activeOthers (env : Env) (c : Nat) (s : StreamPtr) (l : List StreamPtr) : List StreamPtr :=
  l.filter (fun x => decide (s ≠ x) && dynCast env c x &&
    decide ((env.stream c x).currentStateId = .ST_STATE_ACTIVE))

/-- The maximum of a requested duration over a list of listeners, `0` for none. -/
def maxDuration (f : StreamPtr → Nat) (l : List StreamPtr) : Nat :=
  (l.map f).foldr max 0

/-! ## Buffering configuration of a listener -/

/-- `UpdateBufConfig`; the model id is read through the cast stream pointer, so
the call is undefined for a stream that is not a sound-trigger stream. -/
def UpdateBufConfig (env : Env) (s : StreamPtr) (hist_buffer_duration pre_roll_duration : Nat)
    (e : Engine) : Option (Int × Engine) :=
  if dynCast env e.clk s = false then none
  else
    let e1 : Engine :=
      { e with buffer_config_ :=
          { e.buffer_config_ with model_id := (env.stream e.clk s).modelId } }
    let e2 : Engine :=
      if CheckIfOtherStreamsAttached s e1 = false then
        { e1 with buffer_config_ :=
            { e1.buffer_config_ with
              hist_buffer_duration_in_ms := hist_buffer_duration
              pre_roll_duration_in_ms := pre_roll_duration } }
      else
        let e1a : Engine :=
          if hist_buffer_duration > e1.buffer_config_.hist_buffer_duration_in_ms then
            { e1 with buffer_config_ :=
                { e1.buffer_config_ with hist_buffer_duration_in_ms := hist_buffer_duration } }
          else e1
        if pre_roll_duration > e1a.buffer_config_.pre_roll_duration_in_ms then
          { e1a with buffer_config_ :=
              { e1a.buffer_config_ with pre_roll_duration_in_ms := pre_roll_duration } }
        else e1a
    let cfg : Nat × Nat := (pre_roll_duration, hist_buffer_duration)
    some (0,
      { e2 with mid_buff_cfg_ := mapSet e2.mid_buff_cfg_ e2.buffer_config_.model_id cfg })

/-! ## Device switch -/

def INT32_MAX : Int := 2 ^ 31 - 1
def INT32_MIN : Int := -(2 ^ 31)

/-- The conversion of a signed value to `size_t`, as in the comparison of the
disconnect counter with `eng_streams_.size()`. -/
def toSizeT (i : Int) : Nat :=
  (i % (U64 : Int)).toNat

def ConnectSessionDevice (env : Env) (s : StreamPtr) (e : Engine) : Int × Engine :=
  let r : Int × Engine :=
    if e.dev_disconnect_count_ = 0 then
      (env.connectSessionDevice e.clk s, e.log (.connectSessionDevice s))
    else (0, e)
  if r.1 ≠ 0 then
    (r.1, { r.2 with dev_disconnect_count_ := r.2.dev_disconnect_count_ + 1 })
  else r

/-- `DisconnectSessionDevice`; incrementing the signed counter at its largest
value is undefined. -/
def DisconnectSessionDevice (env : Env) (s : StreamPtr) (e : Engine) : Option (Int × Engine) :=
  if e.dev_disconnect_count_ = INT32_MAX then none
  else
    let e1 : Engine := { e with dev_disconnect_count_ := e.dev_disconnect_count_ + 1 }
    let r : Int × Engine :=
      if toSizeT e1.dev_disconnect_count_ = e1.eng_streams_.length then
        (env.disconnectSessionDevice e1.clk s, e1.log (.disconnectSessionDevice s))
      else (0, e1)
    if r.1 ≠ 0 then
      some (r.1, { r.2 with dev_disconnect_count_ := r.2.dev_disconnect_count_ - 1 })
    else some r

/-- `SetupSessionDevice`; decrementing the signed counter at its least value is
undefined. -/
def SetupSessionDevice (env : Env) (s : StreamPtr) (e : Engine) : Option (Int × Engine) :=
  if e.dev_disconnect_count_ = INT32_MIN then none
  else
    let e1 : Engine := { e with dev_disconnect_count_ := e.dev_disconnect_count_ - 1 }
    let e2 : Engine :=
      if e1.dev_disconnect_count_ < 0 then { e1 with dev_disconnect_count_ := 0 } else e1
    let r : Int × Engine :=
      if e2.dev_disconnect_count_ = 0 then
        (env.setupSessionDevice e2.clk s, e2.log (.setupSessionDevice s))
      else (0, e2)
    if r.1 ≠ 0 then
      some (r.1, { r.2 with dev_disconnect_count_ := r.2.dev_disconnect_count_ + 1 })
    else some r

inductive DeviceCall where
  | connect (s : StreamPtr)
  | disconnect (s : StreamPtr)
  | setup (s : StreamPtr)
  deriving DecidableEq, Repr

def applyDeviceCall (env : Env) (c : DeviceCall) (e : Engine) : Option Engine :=
  match c with
  | .connect s => some (ConnectSessionDevice env s e).2
  | .disconnect s => (DisconnectSessionDevice env s e).map (fun r => r.2)
  | .setup s => (SetupSessionDevice env s e).map (fun r => r.2)

/-- A sequence of device calls, one after the other. -/
def runDeviceCalls (env : Env) : List DeviceCall → Engine → Option Engine
  | [], e => some e
  | c :: cs, e =>
    match applyDeviceCall env c e with
    | none => none
    | some e2 => runDeviceCalls env cs e2

/-- The sample engine with listeners 1 and 2 attached and its model loaded. -/
def sampleTwoListenerEngine : Engine :=
  { sampleEngine with eng_streams_ := [1, 2] }

/-! ## Loading and unloading a sound model -/

/-- The map without the key `k`, as left by `std::map::erase`. -/
def mapErase {V : Type} (m : List (Nat × V)) (k : Nat) : List (Nat × V) :=
  m.filter (fun p => p.1 != k)

/-- The common part of `HandleMultiStreamLoad` and `HandleMultiStreamUnload` on an
engine that is not PDK: the session is closed, the merged model is recomputed by
the voice-UI interface, and the session is opened again and given the merged
model.  The first component tells whether the end was reached without a jump to
`exit`. -/
def reloadEngineModel (env : Env) (s : StreamPtr) (data : Option (List Nat)) (data_size : Nat)
    (add : Bool) (e : Engine) : Option (Bool × Int × Engine) :=
  match e.eng_streams_ with
  | [] => none
  | s0 :: _ =>
    let e1 := e.log (.sessionClose s0)
    let e2 := UpdateState .ENG_IDLE { e1 with mmap_buffer_mapped := false }
    let u := env.UpdateEngineModel e2.clk s data data_size add e2.wakeup_config_
    let e3 : Engine := { e2.log (.UpdateEngineModel s add) with wakeup_config_ := u.2 }
    if u.1 ≠ 0 then some (false, u.1, e3)
    else
      let o := env.sessionOpen e3.clk s0
      let e4 := e3.log (.sessionOpen s0)
      if o ≠ 0 then some (false, o, e4)
      else
        let e5 : Engine :=
          { e4 with eng_sm_info_conf_levels := env.GetSoundModelInfoConfLevels e4.clk }
        let r := UpdateSessionPayload env .LOAD_SOUND_MODEL e5
        if r.1 ≠ 0 then some (false, r.1, r.2.log (.sessionClose s0))
        else some (true, r.1, r.2)

/-- The stop of the running session at the begin of `HandleMultiStreamLoad` and
`HandleMultiStreamUnload`; the flag is `restore_eng_state`. -/
def stopForReload (env : Env) (e : Engine) : Option (Bool × Engine) :=
  if IsEngineActive e then
    match e.eng_streams_ with
    | [] => none
    | s0 :: _ => some (true, (ProcessStopRecognition env s0 e).2)
  else some (false, e)

def HandleMultiStreamLoad (env : Env) (s : StreamPtr) (data : Option (List Nat))
    (data_size : Nat) (e : Engine) : Option (Int × Engine) :=
  match stopForReload env e with
  | none => none
  | some (restore_eng_state, e1) =>
    let loaded : Option (Bool × Int × Engine) :=
      if e1.isPDK = false then reloadEngineModel env s data data_size true e1
      else
        let r := UpdateSessionPayload env .LOAD_SOUND_MODEL e1
        if r.1 ≠ 0 then some (false, r.1, r.2.log (.sessionClose s))
        else some (true, r.1, r.2)
    match loaded with
    | none => none
    | some (false, status, e2) => some (status, e2)
    | some (true, status, e2) =>
      let e3 := UpdateState .ENG_LOADED e2
      if restore_eng_state then
        match e3.eng_streams_ with
        | [] => none
        | s0 :: _ => ProcessStartRecognition env s0 e3
      else some (status, e3)

/-- `HandleMultiStreamUnloadPDK`; the model id is read through the cast stream
pointer, so the call is undefined for a stream that is not a sound-trigger
stream. -/
def HandleMultiStreamUnloadPDK (env : Env) (s : StreamPtr) (e : Engine) :
    Option (Int × Engine) :=
  if dynCast env e.clk s = false then none
  else
    let model_id := (env.stream e.clk s).modelId
    if model_id = 0 then some (-EINVAL, e)
    else
      let e1 : Engine := { e with deregister_config_model_id := model_id }
      let r := UpdateSessionPayload env .UNLOAD_SOUND_MODEL e1
      if r.1 ≠ 0 then some (-EINVAL, r.2)
      else
        let e2 : Engine := { r.2 with mid_stream_map_ := mapErase r.2.mid_stream_map_ model_id }
        if (mapFind r.2.mid_stream_map_ model_id).isNone then some (-EINVAL, e2)
        else
          let e3 : Engine := { e2 with mid_buff_cfg_ := mapErase e2.mid_buff_cfg_ model_id }
          if (mapFind e2.mid_buff_cfg_ model_id).isNone then some (-EINVAL, e3)
          else
            let e4 : Engine :=
              { e3 with mid_wakeup_cfg_ := mapErase e3.mid_wakeup_cfg_ model_id }
            if (mapFind e3.mid_wakeup_cfg_ model_id).isNone then some (-EINVAL, e4)
            else some (r.1, e4)

/-- The restart at the end of `HandleMultiStreamUnload`; on a PDK engine the
stream is looked up under the least registered model id, which is undefined for
an empty map. -/
def restartAfterUnload (env : Env) (e : Engine) : Option (Int × Engine) :=
  if e.isPDK then
    match e.mid_wakeup_cfg_ with
    | [] => none
    | (model_id, _) :: _ =>
      ProcessStartRecognition env (mapIndex 0 e.mid_stream_map_ model_id)
        { e with mid_stream_map_ := mapTouch 0 e.mid_stream_map_ model_id }
  else
    match e.eng_streams_ with
    | [] => none
    | s0 :: _ => ProcessStartRecognition env s0 e

def HandleMultiStreamUnload (env : Env) (s : StreamPtr) (e : Engine) : Option (Int × Engine) :=
  match stopForReload env e with
  | none => none
  | some (restore_eng_state, e1) =>
    let unloaded : Option (Bool × Int × Engine) :=
      if e1.isPDK then
        (HandleMultiStreamUnloadPDK env s e1).map (fun r => (true, r.1, r.2))
      else
        (reloadEngineModel env s none 0 false e1).map
          (fun r => (r.1, r.2.1, if r.1 then UpdateState .ENG_LOADED r.2.2 else r.2.2))
    match unloaded with
    | none => none
    | some (false, status, e2) => some (status, e2)
    | some (true, status, e2) =>
      if restore_eng_state = true ∧ CheckIfOtherStreamsActive env s e2 = true then
        restartAfterUnload env e2
      else some (status, e2)

/-- The registration data of a PDK engine built at the begin of `LoadSoundModel`:
the result tells whether the allocation succeeded and gives the data size
enlarged by the size of the header.  The model id is read through the cast stream
pointer, and the model bytes are copied from `data`, which is undefined where
`data` holds fewer than `data_size` bytes. -/
def registerModelPDK (env : Env) (s : StreamPtr) (data : List Nat) (data_size : Nat)
    (e : Engine) : Option (Bool × Nat × Engine) :=
  if e.isPDK then
    if dynCast env e.clk s = false then none
    else
      let model_id := (env.stream e.clk s).modelId
      let e1 : Engine := { e with mid_stream_map_ := mapSet e.mid_stream_map_ model_id s }
      if env.allocate e1.clk (env.sizeofRegisterMultiSoundModel + data_size) = false then
        some (false, data_size, e1)
      else if data.length < data_size then none
      else
        let data_size2 := (data_size + env.sizeofRegisterMultiSoundModel) % U32
        some (true, data_size2,
          { e1 with
            sm_data_ := some (model_id :: data_size :: data.take data_size)
            sm_data_size_ := data_size2 })
  else some (true, data_size, e)

/-- `LoadSoundModel` from the assignment of `exit_buffering_` to the label `exit`. -/
def loadModel (env : Env) (s : StreamPtr) (data : List Nat) (data_size : Nat) (e : Engine) :
    Option (Int × Engine) :=
  let e1 : Engine := { e with exit_buffering_ := true }
  if CheckIfOtherStreamsAttached s e1 then HandleMultiStreamLoad env s (some data) data_size e1
  else
    let o := env.sessionOpen e1.clk s
    let e2 := e1.log (.sessionOpen s)
    if o ≠ 0 then some (o, e2)
    else
      let u := env.UpdateEngineModel e2.clk s (some data) data_size true e2.wakeup_config_
      let e3 : Engine :=
        if e2.isPDK = false then
          { e2.log (.UpdateEngineModel s true) with wakeup_config_ := u.2 }
        else e2
      if e2.isPDK = false ∧ u.1 ≠ 0 then some (u.1, e3.log (.sessionClose s))
      else
        let e4 : Engine :=
          { e3 with eng_sm_info_conf_levels := env.GetSoundModelInfoConfLevels e3.clk }
        let r := UpdateSessionPayload env .LOAD_SOUND_MODEL e4
        if r.1 ≠ 0 then some (r.1, r.2.log (.sessionClose s))
        else some (r.1, UpdateState .ENG_LOADED r.2)

def LoadSoundModel (env : Env) (s : StreamPtr) (data : Option (List Nat)) (data_size : Nat)
    (e : Engine) : Option (Int × Engine) :=
  match data with
  | none => some (-EINVAL, e)
  | some d =>
    match registerModelPDK env s d data_size e with
    | none => none
    | some (false, _, e1) => some (-EINVAL, e1)
    | some (true, data_size2, e1) =>
      match loadModel env s d data_size2 e1 with
      | none => none
      | some (status, e2) =>
        let e3 : Engine :=
          if status = 0 then { e2 with eng_streams_ := e2.eng_streams_ ++ [s] } else e2
        some (ssrStatus env status e3, e3)

/-- `UnloadSoundModel` from the assignment of `exit_buffering_` to the label `exit`. -/
def unloadModel (env : Env) (s : StreamPtr) (e : Engine) : Option (Int × Engine) :=
  let e1 : Engine := { e with exit_buffering_ := true }
  if CheckIfOtherStreamsAttached s e1 then HandleMultiStreamUnload env s e1
  else
    let e2 := e1.log (.sessionClose s)
    let u := env.UpdateEngineModel e2.clk s none 0 false e2.wakeup_config_
    let e3 : Engine := { e2.log (.UpdateEngineModel s false) with wakeup_config_ := u.2 }
    some (u.1, UpdateState .ENG_IDLE e3)

/-- `UnloadSoundModel`; the model id is read through the cast stream pointer at
the end, so the call is undefined for a stream that is not a sound-trigger
stream. -/
def UnloadSoundModel (env : Env) (s : StreamPtr) (e : Engine) : Option (Int × Engine) :=
  match unloadModel env s e with
  | none => none
  | some (status, e2) =>
    if dynCast env e2.clk s = false then none
    else
      some (ssrStatus env status e2,
        { e2 with updated_cfg_ := e2.updated_cfg_.erase (env.stream e2.clk s).modelId })

/-- The sample engine before any model is loaded. -/
def sampleIdleEngine : Engine :=
  { sampleEngine with eng_state_ := .ENG_IDLE, eng_streams_ := [] }

/-- The sample engine of the PDK module type before any model is loaded. -/
def sampleIdlePDKEngine : Engine :=
  { sampleIdleEngine with isPDK := true }

/-- Collaborators with the sound card offline and no memory to allocate. -/
def offlineNoMemoryEnv : Env :=
  { sampleEnv with
    cardOnline := fun _ => false
    allocate := fun _ _ => false }

/-- Collaborators whose session reports the device as disconnected when it is
prepared. -/
def disconnectedEnv : Env :=
  { sampleEnv with sessionPrepare := fun _ _ => -ENETRESET }

/-! ## Calls of other threads -/

def applyEngineCall (env : Env) (c : EngineCall) (e : Engine) : Option Engine :=
  match c with
  | .LoadSoundModel s data data_size => (LoadSoundModel env s data data_size e).map (fun r => r.2)
  | .UnloadSoundModel s => (UnloadSoundModel env s e).map (fun r => r.2)
  | .StartRecognition s => (StartRecognition env s e).map (fun r => r.2)
  | .StopRecognition s => (StopRecognition env s e).map (fun r => r.2)
  | .RestartRecognition s => (RestartRecognition env s e).map (fun r => r.2)
  | .HandleSessionEvent data => HandleSessionEvent env data e

/-- A sequence of calls, each running to its end under the engine mutex. -/
def runEngineCalls (env : Env) : List EngineCall → Engine → Option Engine
  | [], e => some e
  | c :: cs, e =>
    match applyEngineCall env c e with
    | none => none
    | some e2 => runEngineCalls env cs e2

/-- The calls of other threads that get the engine mutex while the processing
thread does not hold it. -/
def othersRun (env : Env) (e : Engine) : Option Engine :=
  runEngineCalls env (env.otherThreads e.clk) e

/-- The processing thread releases the engine mutex. -/
def unlocked (env : Env) (e : Engine) : Option Engine :=
  othersRun env (e.log .mutexReleased)

/-- The notification of a detected listener, made with the engine mutex
released: `SetEngineDetectionState`, and `RestartRecognition` where it fails. -/
def notifyDetection (env : Env) (st : StreamPtr) (e : Engine) : Option (Int × Engine) :=
  match unlocked env e with
  | none => none
  | some e1 =>
    let status := env.SetEngineDetectionState e1.clk st
    let e2 := e1.log (.SetEngineDetectionState st)
    let restarted : Option Engine :=
      if status < 0 then (RestartRecognition env st e2).map (fun r => r.2) else some e2
    match restarted with
    | none => none
    | some e3 => (othersRun env e3).map (fun e4 => (status, e4))

/-! ## The capture loop -/

def UINT32_MAX : Nat := U32 - 1
def MS_PER_SEC : Nat := 1000

/-- The value of a `size_t` or `uint32_t` stored in an `int32_t`. -/
def toInt32 (n : Int) : Int :=
  (n + 2 ^ 31) % 2 ^ 32 - 2 ^ 31

/-- The conversion of a signed value to `uint32_t`. -/
def toU32 (i : Int) : Nat :=
  (i % (U32 : Int)).toNat

/-- Modelled from the spec: `PalRingBuffer::write`, "writes beyond capacity
overwrite the oldest unread bytes and readers never report more than capacity
bytes available": the shared write position advances by the number of bytes
written, modulo the capacity, and the unread count of every reader grows by it,
up to the capacity.  The bytes themselves are recorded in the trace. -/
def PalRingBuffer.write (b : PalRingBuffer) (n : Nat) : PalRingBuffer :=
  { b with
    writeOffset := if b.bufferSize = 0 then 0 else (b.writeOffset + n) % b.bufferSize
    readers := b.readers.map (fun u => min b.bufferSize (u + n)) }

/-- The local variables of `StartBuffering`; `buf` is the content of `buf.buffer`
and `buf_size` is `buf.size`. -/
structure BufLocals where
  s : StreamPtr
  status : Int
  size : Int
  buf : List Nat
  buf_size : Nat
  input_buf_size : Nat
  input_buf_num : Nat
  bytes_to_drop : Nat
  total_read_size : Nat
  start_index : Nat
  end_index : Nat
  ftrt_size : Nat
  size_to_read : Nat
  read_offset : Nat
  bytes_written : Nat
  sleep_ms : Nat
  event_notified : Bool

/-- How an iteration of the loop of `StartBuffering` ends: at the head of the
loop again, or at the label `exit`. -/
inductive LoopStep where
  | next (l : BufLocals) (e : Engine)
  | exit (status : Int) (e : Engine)

/-- The bytes `ptr[off .. off + n)` of a buffer; reading beyond its end is
undefined. -/
def chunkOf (buf : List Nat) (off n : Nat) : Option (List Nat) :=
  if off + n ≤ buf.length then some ((buf.drop off).take n) else none

/-- The buffer after `data` has been stored at its begin. -/
def overwrite (buf data : List Nat) : List Nat :=
  data ++ buf.drop data.length

/-- The buffer after `realloc` to `n` bytes. -/
def resize (buf : List Nat) (n : Nat) : List Nat :=
  buf.take n ++ List.replicate (n - buf.length) 0

/-- The one- or two-segment copy of `n` bytes out of the mapped buffer of `M`
bytes at `read_offset`: the bytes copied and the new read offset.  The copy is
undefined where a segment runs beyond the mapped buffer. -/
def mmapCopy (mapped : Nat → Nat) (M read_offset n : Nat) : Option (List Nat × Nat) :=
  if (read_offset + n) % U64 ≤ M then
    if read_offset + n ≤ M then
      some ((List.range n).map (fun i => mapped (read_offset + i)), (read_offset + n) % U64)
    else none
  else if M < read_offset then none
  else
    let second := (n + read_offset + U64 - M) % U64
    if second ≤ M ∧ M - read_offset + second = n then
      some ((List.range (M - read_offset)).map (fun i => mapped (read_offset + i)) ++
        (List.range second).map mapped, second)
    else none

/-- The check for a subsequent detection at the head of the loop. -/
def refreshDetection (l : BufLocals) (e : Engine) : Option BufLocals :=
  if l.event_notified = true ∧ e.det_streams_q_.isEmpty = false then
    match e.det_streams_q_, e.buffer_ with
    | s :: _, some b =>
      some { l with
        s := s
        start_index := (b.getIndices s).1
        end_index := (b.getIndices s).2
        ftrt_size := (b.getIndices s).2
        event_notified := false }
    | _, _ => none
  else some l

/-- What the read of an iteration leaves: the loop goes on to the write with new
locals, starts its next iteration at once (`continue`), or is left. -/
inductive ReadStep where
  | proceed (l : BufLocals) (e : Engine)
  | again (l : BufLocals) (e : Engine)
  | leave (status : Int) (e : Engine)

/-- The read of an iteration in mmap mode. -/
def readMmap (env : Env) (l : BufLocals) (e : Engine) : Option ReadStep :=
  let p := env.GetMmapPosition e.clk l.s
  let e1 := e.log (.GetMmapPosition l.s)
  if p.1 ≠ 0 then some (.leave (-ENOMEM) e1)
  else if p.2 < e1.mmap_write_position_ then some (.leave (-EINVAL) e1)
  else
    let bytes_written := FrameToBytes e1 (p.2 - e1.mmap_write_position_)
    if bytes_written = UINT32_MAX then some (.leave (-EINVAL) e1)
    else if bytes_written ≤ l.total_read_size then
      some (.again { l with status := p.1, bytes_written := bytes_written } e1)
    else
      let size_to_read := bytes_written - l.total_read_size
      if size_to_read > (2 * e1.mmap_buffer_size_ + U64 - l.read_offset % U64) % U64 then
        some (.leave (-EINVAL) e1)
      else if size_to_read ≠ l.buf_size ∧ env.allocate e1.clk size_to_read = false then
        some (.leave (-ENOMEM) e1)
      else
        match mmapCopy (env.mmapByte e1.clk) e1.mmap_buffer_size_ l.read_offset size_to_read with
        | none => none
        | some (bytes, read_offset) =>
          let size := toInt32 (size_to_read : Int)
          some (.proceed
            { l with
              status := p.1
              bytes_written := bytes_written
              size_to_read := size_to_read
              buf := overwrite (resize l.buf size_to_read) bytes
              buf_size := size_to_read
              read_offset := read_offset
              size := size
              total_read_size := (l.total_read_size + toSizeT size) % U64 } e1)

/-- The read of an iteration in pull mode; the free size of the ring buffer
depends on its readers, which run in other threads. -/
def readPull (env : Env) (l : BufLocals) (e : Engine) : Option ReadStep :=
  match e.buffer_ with
  | none => none
  | some _ =>
    let free := env.ringFreeSize e.clk
    let e1 := e.log .bufferGetFreeSize
    if free ≥ l.buf_size then
      let request :=
        if l.total_read_size < l.ftrt_size ∧ l.ftrt_size - l.total_read_size < l.buf_size then
          l.ftrt_size - l.total_read_size
        else l.buf_size
      let r := env.sessionRead e1.clk l.s request
      let e2 := e1.log (.sessionRead l.s request)
      let size := toInt32 r.2.1
      let l1 : BufLocals :=
        { l with
          status := r.1
          size := size
          buf := overwrite l.buf (r.2.2.take request)
          buf_size :=
            if l.total_read_size < l.ftrt_size ∧
                l.ftrt_size - l.total_read_size < l.buf_size then
              (l.input_buf_size * l.input_buf_num) % U64
            else l.buf_size }
      if r.1 ≠ 0 then some (.leave r.1 e2)
      else
        some (.proceed { l1 with total_read_size := (l.total_read_size + toSizeT size) % U64 } e2)
    else some (.proceed l e1)

/-- The write of an iteration: the chunk goes to the FTRT accumulator while the
replay is outstanding and, after the bytes to drop, to the ring buffer. -/
def writeChunk (l : BufLocals) (e : Engine) : Option (BufLocals × Engine) :=
  if l.size = 0 then some (l, e)
  else
    let forwarded : Option Engine :=
      if l.total_read_size < l.ftrt_size then
        (chunkOf l.buf 0 (toSizeT l.size)).map (fun c => e.log (.UpdateFTRTData c))
      else some e
    match forwarded with
    | none => none
    | some e1 =>
      if l.bytes_to_drop ≠ 0 ∧ toU32 l.size < l.bytes_to_drop then
        some ({ l with bytes_to_drop := l.bytes_to_drop - toU32 l.size }, e1)
      else
        let n := if l.bytes_to_drop ≠ 0 then toU32 l.size - l.bytes_to_drop else toSizeT l.size
        match chunkOf l.buf l.bytes_to_drop n, e1.buffer_ with
        | some c, some b =>
          some ({ l with bytes_to_drop := 0 },
            { e1.log (.bufferWrite c) with buffer_ := some (b.write n) })
        | _, _ => none

/-- The notification at the end of an iteration, once the bytes read cover the
replay size: the head of the detection queue is popped and the listener is
notified, and the loop sleeps with the engine mutex released.  Popping an empty
queue is undefined. -/
def notifyWhenReplayRead (env : Env) (l : BufLocals) (e : Engine) : Option LoopStep :=
  if l.total_read_size ≥ l.ftrt_size then
    if l.event_notified = false then
      match e.det_streams_q_ with
      | [] => none
      | _ :: q =>
        let e1 : Engine := { e with det_streams_q_ := q }
        let r : Option (Int × Engine) :=
          if dynCast env e1.clk l.s then notifyDetection env l.s e1 else some (l.status, e1)
        match r with
        | none => none
        | some (status, e2) =>
          if status ≠ 0 then some (.exit status e2)
          else
            (unlocked env e2).map
              (fun e3 => LoopStep.next { l with status := status, event_notified := true } e3)
    else (unlocked env e).map (fun e2 => LoopStep.next l e2)
  else some (.next l e)

/-- One iteration of the loop of `StartBuffering`, from the test of
`exit_buffering_` on.  The flag is set by the client operations before they wait
for the engine mutex, so it may be found set at any test. -/
def bufferingIteration (env : Env) (l : BufLocals) (e : Engine) : Option LoopStep :=
  let e0 : Engine :=
    if env.exitBufferingRequested e.clk then { e with exit_buffering_ := true } else e
  if e0.exit_buffering_ then some (.exit l.status e0)
  else if e0.eng_state_ ≠ .ENG_BUFFERING then some (.exit l.status e0)
  else
    match refreshDetection l e0 with
    | none => none
    | some l1 =>
      let rd : Option ReadStep :=
        if e0.mmap_buffer_size_ ≠ 0 then readMmap env l1 e0 else readPull env l1 e0
      match rd with
      | none => none
      | some (.leave status e1) => some (.exit status e1)
      | some (.again l2 e1) => some (.next l2 e1)
      | some (.proceed l2 e1) =>
        match writeChunk l2 e1 with
        | none => none
        | some (l3, e2) => notifyWhenReplayRead env l3 e2

/-- The state of the loop of `StartBuffering` after at most `n` iterations. -/
def bufferingSteps (env : Env) : Nat → BufLocals → Engine → Option LoopStep
  | 0, l, e => some (.next l e)
  | n + 1, l, e =>
    match bufferingIteration env l e with
    | none => none
    | some (.exit status e2) => some (.exit status e2)
    | some (.next l2 e2) => bufferingSteps env n l2 e2

/-- `StartBuffering` up to the head of its loop: the locals and the engine there,
or the jump to `exit` where the read buffer cannot be allocated.  The call is
undefined for a null stream, for a sample format of zero bits per second, which
the sleep time is divided by, and, on a PDK engine, for a stream that is not a
sound-trigger stream, whose model id is read. -/
def startBufferingInit (env : Env) (s : StreamPtr) (e : Engine) : Option LoopStep :=
  let e1 := UpdateState .ENG_BUFFERING e
  let info := env.getBufInfo e1.clk s
  let bits_per_sec := (e1.sample_rate_ * e1.bit_width_ * e1.channels_) % U32
  if s = 0 ∨ bits_per_sec = 0 ∨ (e1.isPDK = true ∧ dynCast env e1.clk s = false) then none
  else
    let buf_size := (info.1 * info.2) % U64
    let sleep_ms := ((buf_size * BITS_PER_BYTE * MS_PER_SEC) % U64 / bits_per_sec) % U32
    if env.allocate e1.clk buf_size = false then some (.exit (-ENOMEM) e1)
    else
      let model_id := (env.stream e1.clk s).modelId
      let drop_duration :=
        (e1.buffer_config_.pre_roll_duration_in_ms + U32 -
          (mapIndex (0, 0) e1.mid_buff_cfg_ model_id).1 % U32) % U32
      let bytes_to_drop := if e1.isPDK then UsToBytes e1 ((drop_duration * 1000) % U64) else 0
      let e2 : Engine :=
        if e1.isPDK then { e1 with mid_buff_cfg_ := mapTouch (0, 0) e1.mid_buff_cfg_ model_id }
        else e1
      let read_offset :=
        if e2.mmap_buffer_size_ ≠ 0 then FrameToBytes e2 e2.mmap_write_position_ else 0
      match e2.buffer_ with
      | none => none
      | some b =>
        some (.next
          { s := s
            status := 0
            size := 0
            buf := List.replicate buf_size 0
            buf_size := buf_size
            input_buf_size := info.1
            input_buf_num := info.2
            bytes_to_drop := bytes_to_drop
            total_read_size := 0
            start_index := (b.getIndices s).1
            end_index := (b.getIndices s).2
            ftrt_size := (b.getIndices s).2
            size_to_read := 0
            read_offset := read_offset
            bytes_written := 0
            sleep_ms := sleep_ms
            event_notified := false } e2)

/-- The loop of `StartBuffering`, run for at most `fuel` iterations. -/
def bufferingLoop (env : Env) : Nat → BufLocals → Engine → Option (Int × Engine)
  | 0, _, _ => none
  | fuel + 1, l, e =>
    match bufferingIteration env l e with
    | none => none
    | some (.exit status e2) => some (status, e2)
    | some (.next l2 e2) => bufferingLoop env fuel l2 e2

/-- `StartBuffering`; the result is `none` where the behaviour is undefined and
where the loop has not ended within `fuel` iterations. -/
def StartBuffering (env : Env) (fuel : Nat) (s : StreamPtr) (e : Engine) :
    Option (Int × Engine) :=
  match startBufferingInit env s e with
  | none => none
  | some (.exit status e1) => some (status, { e1 with first_det_stream_ := 0 })
  | some (.next l e1) =>
    match bufferingLoop env fuel l e1 with
    | none => none
    | some (status, e2) => some (status, { e2 with first_det_stream_ := 0 })

/-! ## The processing thread -/

/-- The handling of a detection in `ProcessEventTask`, between the test of the
engine state and the release of the wake lock. -/
def handleDetection (env : Env) (fuel : Nat) (det_str : StreamPtr) (e : Engine) :
    Option Engine :=
  if e.capture_requested_ then
    match StartBuffering env fuel det_str e with
    | none => none
    | some (status, e1) =>
      if status < 0 then
        match unlocked env e1 with
        | none => none
        | some e2 =>
          match RestartRecognition env det_str e2 with
          | none => none
          | some (_, e3) => othersRun env e3
      else some e1
  else
    let r := UpdateSessionPayload env .ENGINE_RESET e
    let e1 : Engine := { r.2 with det_streams_q_ := r.2.det_streams_q_.tail }
    (notifyDetection env det_str e1).map (fun x => x.2)

/-- One round of the loop of `ProcessEventTask`, from the return of the wait on
the condition variable to the next wait.  Reading the front of an empty
detection queue is undefined. -/
def ProcessEventIteration (env : Env) (fuel : Nat) (e : Engine) : Option Engine :=
  if e.exit_thread_ then some (e.log .releaseWakeLock)
  else if e.eng_state_ ≠ .ENG_DETECTED then some (e.log .releaseWakeLock)
  else
    match e.det_streams_q_ with
    | [] => none
    | det_str :: _ =>
      if dynCast env e.clk det_str then
        match handleDetection env fuel det_str e with
        | none => none
        | some e1 =>
          let e2 : Engine :=
            if CheckIfOtherStreamsActive env det_str e1 then UpdateState .ENG_ACTIVE e1 else e1
          some (e2.log .releaseWakeLock)
      else some (e.log .releaseWakeLock)

/-- The listeners notified in a stretch of the trace, in the order of their
notification. -/
def notifiedListeners (t : List Effect) : List StreamPtr :=
  t.filterMap (fun x => match x with
    | .SetEngineDetectionState s => some s
    | _ => none)

/-- The sample engine with a detection of listener 1 waiting for the processing
thread; no capture is requested. -/
def sampleDetectedEngine : Engine :=
  { sampleEngine with
    eng_state_ := .ENG_DETECTED
    capture_requested_ := false
    det_streams_q_ := [1]
    first_det_stream_ := 1 }

/-! ## The order of service -/

def LoopStep.engine : LoopStep → Engine
  | .next _ e => e
  | .exit _ e => e

/-- The other threads deliver detection events only. -/
def EventsOnly (env : Env) : Prop :=
  ∀ c, ∀ x ∈ env.otherThreads c, ∃ data, x = EngineCall.HandleSessionEvent data

/-- Every stream is a sound-trigger stream. -/
def SoundTriggerStreams (env : Env) : Prop :=
  ∀ c s, (env.stream c s).isSoundTrigger = true

/-- Since the engine `e0` the listeners notified, followed by the listeners still
queued, are the listeners queued at `e0` followed by later arrivals. -/
def Served (e0 e : Engine) : Prop :=
  ∃ t arrivals, e.trace = e0.trace ++ t ∧
    notifiedListeners t ++ e.det_streams_q_ = e0.det_streams_q_ ++ arrivals

/-- No null stream is queued, and the queue is empty in state Active. -/
def QueueSafe (e : Engine) : Prop :=
  (∀ x ∈ e.det_streams_q_, x ≠ 0) ∧ (e.eng_state_ = .ENG_ACTIVE → e.det_streams_q_ = [])

/-- The later engine has the same queue and state and has notified no listener. -/
def Quiet (e e2 : Engine) : Prop :=
  e2.det_streams_q_ = e.det_streams_q_ ∧ e2.eng_state_ = e.eng_state_ ∧
    ∃ t, e2.trace = e.trace ++ t ∧ notifiedListeners t = []

/-- The later engine has a queue grown at its tail and has notified no listener. -/
def Grown (e e2 : Engine) : Prop :=
  (∃ a, e2.det_streams_q_ = e.det_streams_q_ ++ a) ∧
    ∃ t, e2.trace = e.trace ++ t ∧ notifiedListeners t = []
/-- What the read of an iteration keeps: the engine is changed quietly, and the
locals keep the listener served and the notification flag. -/
def ReadKeeps (l : BufLocals) (e : Engine) : ReadStep → Prop
  | .proceed l2 e2 => Quiet e e2 ∧ l2.s = l.s ∧ l2.event_notified = l.event_notified
  | .again l2 e2 => Quiet e e2 ∧ l2.s = l.s ∧ l2.event_notified = l.event_notified
  | .leave _ e2 => Quiet e e2

/-- The invariant of the loop of `StartBuffering` with respect to the engine `e0`
it started from: the service so far is in order, the queue is safe, and while
the listener `l.s` has not been notified it is the head of the queue. -/
def LoopInv (e0 : Engine) (l : BufLocals) (e : Engine) : Prop :=
  Served e0 e ∧ QueueSafe e ∧ (l.event_notified = false → e.det_streams_q_.head? = some l.s)

def StepInv (e0 : Engine) : LoopStep → Prop
  | .next l e => LoopInv e0 l e
  | .exit _ e => Served e0 e

/-- Collaborators for a capture of 4 bytes at a time: a detection event of
listener 2 arrives while the capture loop sleeps for the first time, and the
client asks the loop to end once 24 calls have been made. -/
def fifoEnv : Env :=
  { sampleEnv with
    GetDetectedStream := fun _ _ => 2
    getBufInfo := fun _ _ => (4, 1)
    exitBufferingRequested := fun c => decide (24 ≤ c)
    otherThreads := fun c => if c = 10 then [.HandleSessionEvent []] else [] }

/-- The sample engine with listeners 1 and 2 attached and a detection of
listener 1, with a replay of 8 bytes, waiting for the processing thread. -/
def sampleQueuedEngine : Engine :=
  { sampleEngine with
    eng_state_ := .ENG_DETECTED
    eng_streams_ := [1, 2]
    det_streams_q_ := [1]
    first_det_stream_ := 1
    buffer_ := some ⟨65536, 0, [0], [(1, ⟨0, 8, 0⟩)]⟩ }

/-! ## The wake lock -/

/-- The wake-lock calls in a stretch of the trace, in their order: `true` for
`acquireWakeLock` and `false` for `releaseWakeLock`. -/
def wakeLockOps (t : List Effect) : List Bool :=
  t.filterMap (fun x => match x with
    | .acquireWakeLock => some true
    | .releaseWakeLock => some false
    | _ => none)

/-- The balance of a sequence of wake-lock calls, `+1` for every acquire and `-1`
for every release. -/
def wakeLockBalance (ops : List Bool) : Int :=
  (ops.map (fun b => if b then (1 : Int) else -1)).sum

/-- The sample engine in memory-mapped mode, with a mapped buffer of 4096 bytes
requested. -/
def sampleMmapEngine : Engine :=
  { sampleEngine with mmap_buffer_size_ := 4096 }

/-- Collaborators whose reset of the mmap buffer fails with `-5`; every other
call succeeds and the sound card is online. -/
def mmapResetFailsEnv : Env :=
  { sampleEnv with ResetMmapBuffer := fun _ _ => -5 }

/-! ## Observations on the capture loop -/

/-- The bytes handed to the FTRT accumulator in a stretch of the trace. -/
def forwardedBytes : List Effect → List Nat
  | [] => []
  | .UpdateFTRTData c :: t => c ++ forwardedBytes t
  | _ :: t => forwardedBytes t

/-- The bytes submitted to the ring buffer in a stretch of the trace. -/
def submittedBytes : List Effect → List Nat
  | [] => []
  | .bufferWrite c :: t => c ++ submittedBytes t
  | _ :: t => submittedBytes t

/-- The reads of the session in a stretch of the trace. -/
def isSessionRead : Effect → Bool
  | .sessionRead _ _ => true
  | _ => false

/-- Collaborators for a capture of 4 bytes at a time; the session returns as
many bytes as are requested, numbered from the time of the read. -/
def captureEnv : Env :=
  { sampleEnv with
    getBufInfo := fun _ _ => (4, 1)
    sessionRead := fun c _ n => (0, (n : Int), (List.range n).map (fun i => c + i)) }

/-- The capture collaborators with a ring buffer that has no free room from the
second iteration of the capture loop on. -/
def fullRingEnv : Env :=
  { captureEnv with ringFreeSize := fun c => if c < 2 then 65536 else 0 }

/-- Collaborators whose session fails every read with `-5`; concurrent capture
is enabled. -/
def readFailsEnv : Env :=
  { sampleEnv with sessionRead := fun _ _ _ => (-5, 0, []) }

/-- The collaborators with failing reads and concurrent capture disabled. -/
def readFailsSerialEnv : Env :=
  { readFailsEnv with concurrentEventCapture := false }

/-- Collaborators whose session reports the mmap position 3. -/
def badPositionEnv : Env :=
  { sampleEnv with GetMmapPosition := fun _ _ => (0, 3) }

/-- The sample engine with the single listener 1 detected, a capture requested
and a replay of 8 bytes registered. -/
def sampleCaptureEngine : Engine :=
  { sampleDetectedEngine with
    capture_requested_ := true
    buffer_ := some ⟨65536, 0, [0], [(1, ⟨0, 8, 0⟩)]⟩ }

/-- The capture engine in memory-mapped mode with the write position 10. -/
def sampleMmapCaptureEngine : Engine :=
  { sampleCaptureEngine with
    mmap_buffer_size_ := 4096
    mmap_buffer_mapped := true
    mmap_write_position_ := 10 }

/-- Collaborators with two listeners: listener 1 of model 1 asks for a history
of 2000 ms and a pre-roll of 500 ms, listener 2 of model 2 for 1000 ms and
100 ms; every event reports listener 1. -/
def twoModelEnv : Env :=
  { sampleEnv with
    stream := fun _ s =>
      if s = 2 then
        { sampleStream with modelId := 2, histBufDuration := 1000, preRollDuration := 100 }
      else sampleStream }

/-- A PDK engine with listeners 1 and 2 attached, their models loaded and no
buffering configuration yet. -/
def samplePDKEngine : Engine :=
  { sampleEngine with isPDK := true, eng_streams_ := [1, 2], buffer_config_ := ⟨0, 0, 0⟩ }

/-- A call that hands captured bytes on, to the FTRT accumulator or to the ring
buffer. -/
def isCaptureData : Effect → Bool
  | .UpdateFTRTData _ => true
  | .bufferWrite _ => true
  | _ => false

/-- The later engine has made further calls, none of which hands captured bytes
on. -/
def CaptureFree (e e2 : Engine) : Prop :=
  ∃ t, e2.trace = e.trace ++ t ∧ ∀ x ∈ t, isCaptureData x = false

/-- The size an iteration in pull mode requests from the session: the rest of the
replay where that is less than the read buffer, the size of the read buffer
otherwise. -/
def pullRequest (l : BufLocals) : Nat :=
  if l.total_read_size < l.ftrt_size ∧ l.ftrt_size - l.total_read_size < l.buf_size then
    l.ftrt_size - l.total_read_size
  else l.buf_size

/-- The chunk the read of an iteration of the capture loop leaves at the begin of
the read buffer: the first `size` bytes of the buffer after a read that returns
a size that is not negative, no bytes after the `continue` of the mmap mode.
There is no chunk where the iteration is left before or by its read, and where
an iteration in pull mode issues no read. -/
def chunkRead (env : Env) (l : BufLocals) (e : Engine) : Option (List Nat) :=
  if env.exitBufferingRequested e.clk = true ∨ e.exit_buffering_ = true ∨
      e.eng_state_ ≠ .ENG_BUFFERING then none
  else
    match refreshDetection l e with
    | none => none
    | some l1 =>
      if e.mmap_buffer_size_ ≠ 0 then
        match readMmap env l1 e with
        | some (.proceed l2 _) =>
          if 0 ≤ l2.size then chunkOf l2.buf 0 (toSizeT l2.size) else none
        | some (.again _ _) => some []
        | _ => none
      else if env.ringFreeSize e.clk ≥ l1.buf_size then
        match readPull env l1 e with
        | some (.proceed l2 _) =>
          if 0 ≤ l2.size then chunkOf l2.buf 0 (toSizeT l2.size) else none
        | _ => none
      else none

/-- The bytes read in the first `n` iterations of the capture loop, chunk after
chunk, where each of these iterations has a chunk; the iterations end with the
one that leaves the loop. -/
def chunksRead (env : Env) : Nat → BufLocals → Engine → Option (List Nat)
  | 0, _, _ => some []
  | n + 1, l, e =>
    match chunkRead env l e, bufferingIteration env l e with
    | some c, some (.next l2 e2) => (chunksRead env n l2 e2).map (fun r => c ++ r)
    | some c, some (.exit _ _) => some c
    | _, _ => none

/-- The capture collaborators with a read buffer of 20 bytes. -/
def dropEnv : Env :=
  { captureEnv with getBufInfo := fun _ _ => (20, 1) }

/-- A PDK engine with a detection of listener 1 waiting: the pre-roll of the
buffering configuration is 501 ms, the pre-roll recorded for model 1 is 500 ms,
and the replay has 8 bytes. -/
def sampleDropEngine : Engine :=
  { sampleQueuedEngine with
    isPDK := true
    buffer_config_ := ⟨1, 2000, 501⟩
    mid_buff_cfg_ := [(1, (500, 2000))] }

/-- Each of the first `n` iterations of the capture loop returns to the head of
the loop with fewer than `ftrt` bytes read. -/
def replayOutstanding (env : Env) (ftrt : Nat) : Nat → BufLocals → Engine → Bool
  | 0, _, _ => true
  | n + 1, l, e =>
    match bufferingIteration env l e with
    | some (.next l2 e2) =>
      decide (l2.total_read_size < ftrt) && replayOutstanding env ftrt n l2 e2
    | _ => false
/-- The locals of `StartBuffering` at the head of its loop for the capture of
4 bytes at a time with a replay of 8 bytes for listener 1. -/
def sampleCaptureLocals : BufLocals :=
  { s := 1
    status := 0
    size := 0
    buf := [0, 0, 0, 0]
    buf_size := 4
    input_buf_size := 4
    input_buf_num := 1
    bytes_to_drop := 0
    total_read_size := 0
    start_index := 0
    end_index := 8
    ftrt_size := 8
    size_to_read := 0
    read_offset := 0
    bytes_written := 0
    sleep_ms := 0
    event_notified := false }

/-- The sample engine with the detection of listener 1 queued, at the head of the
capture loop. -/
def sampleLoopEngine : Engine :=
  UpdateState .ENG_BUFFERING sampleQueuedEngine

/-- The first block of the destructor `~SoundTriggerEngineGsl`, up to the join of
the processing thread: the capture loop and the thread are asked to end and the
thread is woken.  No wake lock is acquired. -/
def requestThreadExit (e : Engine) : Engine :=
  ({ e with exit_buffering_ := true, exit_thread_ := true } : Engine).log
    .notifyProcessingThread

/-- The sample engine with recognition running and no capture requested. -/
def sampleNoCaptureEngine : Engine :=
  { sampleActiveEngine with capture_requested_ := false }

/-- The sample engine with the detection of listener 1 queued and a replay of no
bytes registered. -/
def sampleNoReplayEngine : Engine :=
  { sampleQueuedEngine with buffer_ := some ⟨65536, 0, [0], [(1, ⟨0, 0, 0⟩)]⟩ }

/-! ## The operations before the status rewrite -/

/-- The engine of `StartRecognition` and of `StopRecognition` after the capture
loop has been asked to end and the model state has been recorded. -/
def modelStateSet (s : StreamPtr) (state : Bool) (e : Engine) : Engine :=
  ({ e with exit_buffering_ := true } : Engine).log (.SetModelState s state)

/-- The engine of `RestartRecognition` when it writes the engine reset: the
capture loop has been asked to end, the ring buffer is reset and the custom
detection event is released. -/
def restartEntry (e : Engine) : Engine :=
  let e1 : Engine :=
    { e with exit_buffering_ := true
             buffer_ := e.buffer_.map PalRingBuffer.reset }
  if e1.custom_detection_event.isSome then
    { e1 with custom_detection_event := none, custom_detection_event_size := 0 }
  else e1

/-- The engine of `RestartRecognition` after the engine reset has been written
and the end of stream has been waited for. -/
def restartReset (env : Env) (e : Engine) : Engine :=
  (UpdateSessionPayload env .ENGINE_RESET (restartEntry e)).2.log
    (.waitEOS (env.eosSignalled (UpdateSessionPayload env .ENGINE_RESET (restartEntry e)).2.clk))

/-- The capture collaborators with concurrent capture disabled. -/
def serialCaptureEnv : Env :=
  { captureEnv with concurrentEventCapture := false }

/-! ## Lemmas on payload writes -/

theorem issued_of_trace (e e2 : Engine) (l : List Effect) (h : e2.trace = e.trace ++ l) :
    issued e e2 = l := by
  simp [issued, h]

theorem drop_length_append {α : Type} (l r : List α) (n : Nat) (h : n = l.length) :
    (l ++ r).drop n = r := by
  subst h
  simp

theorem issued_self (e : Engine) : issued e e = [] := by
  simp [issued]

theorem resolveMIID_shape (env : Env) (t : Nat) (e : Engine) :
    ∃ suffix m1 m2,
      (resolveMIID env t e).2 =
        { e with trace := e.trace ++ suffix, lpi_miid_ := m1, nlpi_miid_ := m2 } ∧
      (∀ x ∈ suffix, x = Effect.getMIID t) := by
  unfold resolveMIID
  by_cases h1 : e.use_lpi_ = true
  · by_cases h2 : e.lpi_miid_ = 0
    · exact ⟨[Effect.getMIID t], (env.getMIID e.clk t).2, e.nlpi_miid_, by simp [h1, h2, Engine.log], by simp⟩
    · exact ⟨[], e.lpi_miid_, e.nlpi_miid_, by rw [if_pos h1, if_neg h2]; simp, by simp⟩
  · by_cases h3 : e.nlpi_miid_ = 0
    · exact ⟨[Effect.getMIID t], e.lpi_miid_, (env.getMIID e.clk t).2, by simp [h1, h3, Engine.log], by simp⟩
    · exact ⟨[], e.lpi_miid_, e.nlpi_miid_, by rw [if_neg h1, if_neg h3]; simp, by simp⟩

theorem buildPayload_shape (env : Env) (p : st_param_id_type_t) (e : Engine) :
    ∃ cd cds,
      (buildPayload env p e).2 =
        { e with trace := e.trace ++ [Effect.payloadSVAConfig p]
                 custom_data := cd, custom_data_size := cds } := by
  unfold buildPayload
  by_cases h1 : p = .CUSTOM_CONFIG
  · by_cases h2 : e.custom_data.isSome = true
    · exact ⟨none, 0, by simp [h1, h2, Engine.log]⟩
    · exact ⟨e.custom_data, e.custom_data_size, by simp [h1, h2, Engine.log]⟩
  · exact ⟨e.custom_data, e.custom_data_size, by simp [h1, Engine.log]⟩

theorem UpdateSessionPayload_shape (env : Env) (p : st_param_id_type_t) (e : Engine) :
    ∃ suffix m1 m2 cd cds,
      (UpdateSessionPayload env p e).2 =
        { e with
          trace := e.trace ++ Effect.updateSessionPayload p :: suffix
          lpi_miid_ := m1
          nlpi_miid_ := m2
          custom_data := cd
          custom_data_size := cds } ∧
      (∀ x ∈ suffix, isPayloadStep (e.module_tag_ids_ p) p x) ∧
      suffix.countP isSetParameters ≤ 1 := by
  obtain ⟨s1, m1, m2, hm, hs1⟩ := resolveMIID_shape env (e.module_tag_ids_ p)
    (e.log (.updateSessionPayload p))
  obtain ⟨cd, cds, hb⟩ := buildPayload_shape env p
    (resolveMIID env (e.module_tag_ids_ p) (e.log (.updateSessionPayload p))).2
  have hc1 : s1.countP isSetParameters = 0 := by
    rw [List.countP_eq_zero]
    intro x hx
    rw [hs1 x hx]
    simp [isSetParameters]
  have hp1 : ∀ x ∈ s1, isPayloadStep (e.module_tag_ids_ p) p x := fun x hx =>
    Or.inl (hs1 x hx)
  unfold UpdateSessionPayload
  dsimp only
  rw [show (e.log (.updateSessionPayload p)).module_tag_ids_ = e.module_tag_ids_ from rfl,
    show (e.log (.updateSessionPayload p)).param_ids_ = e.param_ids_ from rfl]
  by_cases h0 : e.module_tag_ids_ p = 0 ∨ e.param_ids_ p = 0
  · rw [if_pos h0]
    exact ⟨[], e.lpi_miid_, e.nlpi_miid_, e.custom_data, e.custom_data_size, rfl, by simp, by simp⟩
  · rw [if_neg h0]
    generalize resolveMIID env (e.module_tag_ids_ p) (e.log (.updateSessionPayload p)) = M
      at hm hb ⊢
    by_cases h1 : M.1 ≠ 0
    · rw [if_pos h1]
      exact ⟨s1, m1, m2, e.custom_data, e.custom_data_size, by rw [hm]; simp [Engine.log], hp1, by omega⟩
    · rw [if_neg h1]
      cases hsp : sesParamId p with
      | none =>
        exact ⟨s1, m1, m2, e.custom_data, e.custom_data_size, by rw [hm]; simp [Engine.log], hp1, by omega⟩
      | some sp =>
        dsimp only
        generalize buildPayload env p M.2 = B at hb ⊢
        by_cases h2 : B.1.1 ≠ 0 ∨ B.1.2 = false
        · rw [if_pos h2]
          refine ⟨s1 ++ [.payloadSVAConfig p], m1, m2, cd, cds, by rw [hb, hm]; simp [Engine.log], ?_, ?_⟩
          · intro x hx
            rcases List.mem_append.1 hx with hx | hx
            · exact hp1 x hx
            · simp at hx; subst hx; exact Or.inr (Or.inl rfl)
          · simp [List.countP_append, hc1, isSetParameters]
        · rw [if_neg h2]
          refine ⟨s1 ++ [.payloadSVAConfig p, .setParameters (e.module_tag_ids_ p) sp], m1, m2, cd, cds,
            by rw [hb, hm]; simp [Engine.log], ?_, ?_⟩
          · intro x hx
            rcases List.mem_append.1 hx with hx | hx
            · exact hp1 x hx
            · simp at hx
              rcases hx with hx | hx
              · subst hx; exact Or.inr (Or.inl rfl)
              · subst hx; exact Or.inr (Or.inr ⟨sp, hsp, rfl⟩)
          · simp [List.countP_append, hc1, isSetParameters, List.countP_cons]

theorem resolveMIID_status (env : Env) (t : Nat) (e : Engine)
    (hm : ∀ c t, (env.getMIID c t).1 = 0) : (resolveMIID env t e).1 = 0 := by
  unfold resolveMIID
  split_ifs <;> simp [hm]

theorem buildPayload_result (env : Env) (p : st_param_id_type_t) (e : Engine) :
    (buildPayload env p e).1 = env.payloadSVAConfig e.clk p := by
  unfold buildPayload
  dsimp only
  split_ifs <;> rfl

theorem UpdateSessionPayload_ready (env : Env) (p : st_param_id_type_t)
    (sp : pal_param_id_type_t) (e : Engine)
    (ht : e.module_tag_ids_ p ≠ 0) (hp : e.param_ids_ p ≠ 0)
    (hm : ∀ c t, (env.getMIID c t).1 = 0)
    (hb : ∀ c, env.payloadSVAConfig c p = (0, true))
    (hsp : sesParamId p = some sp) :
    ∃ suffix m1 m2 cd cds c,
      (UpdateSessionPayload env p e).2 =
        { e with
          trace := e.trace ++ Effect.updateSessionPayload p :: suffix
          lpi_miid_ := m1
          nlpi_miid_ := m2
          custom_data := cd
          custom_data_size := cds } ∧
      (∀ x ∈ suffix, isPayloadStep (e.module_tag_ids_ p) p x) ∧
      suffix.countP isSetParameters = 1 ∧
      (UpdateSessionPayload env p e).1 = env.setParameters c (e.module_tag_ids_ p) sp := by
  obtain ⟨s1, m1, m2, hM, hs1⟩ := resolveMIID_shape env (e.module_tag_ids_ p)
    (e.log (.updateSessionPayload p))
  obtain ⟨cd, cds, hB⟩ := buildPayload_shape env p
    (resolveMIID env (e.module_tag_ids_ p) (e.log (.updateSessionPayload p))).2
  have hst := resolveMIID_status env (e.module_tag_ids_ p) (e.log (.updateSessionPayload p)) hm
  have hbr := buildPayload_result env p
    (resolveMIID env (e.module_tag_ids_ p) (e.log (.updateSessionPayload p))).2
  have hc1 : s1.countP isSetParameters = 0 := by
    rw [List.countP_eq_zero]
    intro x hx
    rw [hs1 x hx]
    simp [isSetParameters]
  have hp1 : ∀ x ∈ s1, isPayloadStep (e.module_tag_ids_ p) p x := fun x hx =>
    Or.inl (hs1 x hx)
  have h0 : ¬ (e.module_tag_ids_ p = 0 ∨ e.param_ids_ p = 0) := by
    intro h; rcases h with h | h
    · exact ht h
    · exact hp h
  unfold UpdateSessionPayload
  dsimp only
  rw [show (e.log (.updateSessionPayload p)).module_tag_ids_ = e.module_tag_ids_ from rfl,
    show (e.log (.updateSessionPayload p)).param_ids_ = e.param_ids_ from rfl]
  rw [if_neg h0]
  generalize resolveMIID env (e.module_tag_ids_ p) (e.log (.updateSessionPayload p)) = M
    at hM hB hst hbr ⊢
  rw [if_neg (by simp [hst])]
  rw [hsp]
  dsimp only
  rw [hb] at hbr
  generalize buildPayload env p M.2 = B at hB hbr ⊢
  rw [if_neg (by simp [hbr])]
  refine ⟨s1 ++ [.payloadSVAConfig p, .setParameters (e.module_tag_ids_ p) sp], m1, m2, cd, cds,
    B.2.clk, by rw [hB, hM]; simp [Engine.log], ?_, ?_, rfl⟩
  · intro x hx
    rcases List.mem_append.1 hx with hx | hx
    · exact hp1 x hx
    · simp at hx
      rcases hx with hx | hx
      · subst hx; exact Or.inr (Or.inl rfl)
      · subst hx; exact Or.inr (Or.inr ⟨sp, hsp, rfl⟩)
  · simp [List.countP_append, hc1, isSetParameters, List.countP_cons]

/-- Counting over the steps of one `UpdateSessionPayload(ENGINE_RESET)`. -/
theorem reset_steps_counts (tag : Nat) (suffix : List Effect)
    (h : ∀ x ∈ suffix, isPayloadStep tag .ENGINE_RESET x) :
    suffix.countP isEngineResetRequest = 0 ∧
    suffix.countP isSessionStop = 0 ∧
    suffix.countP isWakeLockAcquire = 0 ∧
    suffix.countP isWakeLockRelease = 0 ∧
    suffix.countP isEngineResetWrite = suffix.countP isSetParameters := by
  refine ⟨?_, ?_, ?_, ?_, ?_⟩
  · rw [List.countP_eq_zero]; intro x hx
    rcases h x hx with h | h | ⟨sp, _, h⟩ <;> subst h <;> simp [isEngineResetRequest]
  · rw [List.countP_eq_zero]; intro x hx
    rcases h x hx with h | h | ⟨sp, _, h⟩ <;> subst h <;> simp [isSessionStop]
  · rw [List.countP_eq_zero]; intro x hx
    rcases h x hx with h | h | ⟨sp, _, h⟩ <;> subst h <;> simp [isWakeLockAcquire]
  · rw [List.countP_eq_zero]; intro x hx
    rcases h x hx with h | h | ⟨sp, _, h⟩ <;> subst h <;> simp [isWakeLockRelease]
  · apply List.countP_congr
    intro x hx
    rcases h x hx with h | h | ⟨sp, hsp, h⟩ <;> subst h
    · simp [isEngineResetWrite, isSetParameters]
    · simp [isEngineResetWrite, isSetParameters]
    · simp [sesParamId] at hsp; subst hsp; simp [isEngineResetWrite, isSetParameters]


theorem IsEngineActive_iff (e : Engine) :
    IsEngineActive e = true ↔
      e.eng_state_ = .ENG_ACTIVE ∨ e.eng_state_ = .ENG_BUFFERING ∨
        e.eng_state_ = .ENG_DETECTED := by
  unfold IsEngineActive
  split_ifs with h <;> simp [h]

theorem CheckIfOtherStreamsBuffering_iff (env : Env) (s : StreamPtr) (e : Engine) :
    CheckIfOtherStreamsBuffering env s e = true ↔
      ∃ x ∈ e.eng_streams_, x ≠ s ∧ dynCast env e.clk x = true ∧
        (env.stream e.clk x).currentStateId = .ST_STATE_BUFFERING := by
  unfold CheckIfOtherStreamsBuffering
  simp only [List.any_eq_true, Bool.and_eq_true, bne_iff_ne, decide_eq_true_eq]
  constructor
  · rintro ⟨x, hx, ⟨h1, h2⟩, h3⟩
    exact ⟨x, hx, fun h => h1 h.symm, h2, h3⟩
  · rintro ⟨x, hx, h1, h2, h3⟩
    exact ⟨x, hx, ⟨fun h => h1 h.symm, h2⟩, h3⟩

/-- C2: while the engine state is Idle or Loaded, `RestartRecognition` returns 0
and changes nothing: the engine state, `exit_buffering_`, the ring buffer, the
pending custom detection payload and the mmap write position are as before, and
no collaborator is called, so no engine-reset write is issued. -/
theorem restart_is_noop_when_not_active (env : Env) (s : StreamPtr) (e : Engine)
    (h : e.eng_state_ = .ENG_IDLE ∨ e.eng_state_ = .ENG_LOADED) :
    ∃ e2, RestartRecognition env s e = some (0, e2) ∧
      e2.eng_state_ = e.eng_state_ ∧
      e2.exit_buffering_ = e.exit_buffering_ ∧
      e2.buffer_ = e.buffer_ ∧
      e2.custom_detection_event = e.custom_detection_event ∧
      e2.mmap_write_position_ = e.mmap_write_position_ ∧
      issued e e2 = [] ∧
      (issued e e2).countP isEngineResetRequest = 0 ∧
      (issued e e2).countP isEngineResetWrite = 0 := by
  have hna : IsEngineActive e = false := by
    cases hact : IsEngineActive e with
    | false => rfl
    | true =>
      rw [IsEngineActive_iff] at hact
      rcases h with h | h <;> rw [h] at hact <;> simp at hact
  refine ⟨e, ?_, rfl, rfl, rfl, rfl, rfl, ?_, ?_, ?_⟩
  · unfold RestartRecognition
    rw [if_pos hna]
  all_goals simp [issued_self]

/-- C3: in an engine-active state with concurrent capture enabled, when the
detection queue is not empty or another attached listener is in sub-state
Buffering, `RestartRecognition` returns 0 and resets nothing: the engine state,
the ring buffer, the detection queue and `exit_buffering_` are as before and no
collaborator is called, so no engine-reset write is issued. -/
theorem restart_is_deferred_while_buffering (env : Env) (s : StreamPtr) (e : Engine)
    (hact : e.eng_state_ = .ENG_ACTIVE ∨ e.eng_state_ = .ENG_BUFFERING ∨
      e.eng_state_ = .ENG_DETECTED)
    (hcc : env.concurrentEventCapture = true)
    (hbusy : e.det_streams_q_ ≠ [] ∨
      ∃ x ∈ e.eng_streams_, x ≠ s ∧ dynCast env e.clk x = true ∧
        (env.stream e.clk x).currentStateId = .ST_STATE_BUFFERING) :
    ∃ e2, RestartRecognition env s e = some (0, e2) ∧
      e2.eng_state_ = e.eng_state_ ∧
      e2.buffer_ = e.buffer_ ∧
      e2.det_streams_q_ = e.det_streams_q_ ∧
      e2.exit_buffering_ = e.exit_buffering_ ∧
      issued e e2 = [] ∧
      (issued e e2).countP isEngineResetRequest = 0 ∧
      (issued e e2).countP isEngineResetWrite = 0 := by
  have ha : ¬ (IsEngineActive e = false) := by
    rw [(IsEngineActive_iff e).2 hact]; simp
  have hd : env.concurrentEventCapture = true ∧
      (e.det_streams_q_.isEmpty = false ∨ CheckIfOtherStreamsBuffering env s e = true) := by
    refine ⟨hcc, ?_⟩
    rcases hbusy with hq | hb
    · left
      cases hq2 : e.det_streams_q_ with
      | nil => exact absurd hq2 hq
      | cons a t => rfl
    · right
      exact (CheckIfOtherStreamsBuffering_iff env s e).2 hb
  refine ⟨e, ?_, rfl, rfl, rfl, rfl, ?_, ?_, ?_⟩
  · unfold RestartRecognition
    rw [if_neg ha, if_pos hd]
  all_goals simp [issued_self]


theorem restartMmap_shape (env : Env) (s : StreamPtr) (status : Int) (e : Engine)
    (hmm : MmapFramesOk e) :
    ∃ st wp suffix,
      restartMmap env s status e =
        some (st, { e with trace := e.trace ++ suffix, mmap_write_position_ := wp }) ∧
      (∀ x ∈ suffix, x = Effect.GetMmapPosition s ∨ x = Effect.ResetMmapBuffer s) := by
  unfold restartMmap
  by_cases h0 : e.mmap_buffer_size_ ≠ 0
  · obtain ⟨f, hf, hf0⟩ := hmm h0
    rw [if_pos h0]
    dsimp only
    have hb : ∀ e3 : Engine, e3.bit_width_ = e.bit_width_ → e3.channels_ = e.channels_ →
        e3.mmap_buffer_size_ = e.mmap_buffer_size_ →
        BytesToFrames e3 e3.mmap_buffer_size_ = some f := by
      intro e3 h1 h2 h3
      rw [← hf]
      unfold BytesToFrames
      rw [h1, h2, h3]
    by_cases hp : (env.GetMmapPosition e.clk s).1 = 0
    · rw [if_pos hp]
      rw [hb]; rotate_left; rfl; rfl; rfl
      dsimp only
      rw [if_neg hf0]
      exact ⟨_, _, [.GetMmapPosition s, .ResetMmapBuffer s], by simp only [Engine.log, List.append_assoc, List.singleton_append]; rfl, by simp⟩
    · rw [if_neg hp]
      rw [hb]; rotate_left; rfl; rfl; rfl
      dsimp only
      rw [if_neg hf0]
      exact ⟨_, _, [.GetMmapPosition s, .ResetMmapBuffer s], by simp only [Engine.log, List.append_assoc, List.singleton_append]; rfl, by simp⟩
  · rw [if_neg h0]
    exact ⟨status, e.mmap_write_position_, [], by simp, by simp⟩

/-- C4: in an engine-active state in which the restart is not deferred,
`RestartRecognition` ends with the engine state Active and `exit_buffering_`
false, the ring buffer reset, no pending custom detection payload, and exactly
one invocation of the engine-reset configuration write; this holds whatever the
reset write, the end-of-stream wait and the mmap queries answer.  The reset
payload reaches `session_->setParameters` at most once, and exactly once when it
can be built. -/
theorem restart_resets_engine_to_active (env : Env) (s : StreamPtr) (e : Engine)
    (hact : e.eng_state_ = .ENG_ACTIVE ∨ e.eng_state_ = .ENG_BUFFERING ∨
      e.eng_state_ = .ENG_DETECTED)
    (hnd : ¬ (env.concurrentEventCapture = true ∧
      (e.det_streams_q_ ≠ [] ∨
        ∃ x ∈ e.eng_streams_, x ≠ s ∧ dynCast env e.clk x = true ∧
          (env.stream e.clk x).currentStateId = .ST_STATE_BUFFERING)))
    (hmm : MmapFramesOk e) :
    ∃ status e2, RestartRecognition env s e = some (status, e2) ∧
      e2.eng_state_ = .ENG_ACTIVE ∧
      e2.exit_buffering_ = false ∧
      e2.buffer_ = e.buffer_.map PalRingBuffer.reset ∧
      e2.custom_detection_event = none ∧
      (issued e e2).countP isEngineResetRequest = 1 ∧
      (issued e e2).countP isEngineResetWrite ≤ 1 ∧
      (ResetPayloadReady env e → (issued e e2).countP isEngineResetWrite = 1) := by
  have ha : ¬ (IsEngineActive e = false) := by
    rw [(IsEngineActive_iff e).2 hact]; simp
  have hd : ¬ (env.concurrentEventCapture = true ∧
      (e.det_streams_q_.isEmpty = false ∨ CheckIfOtherStreamsBuffering env s e = true)) := by
    rintro ⟨h1, h2⟩
    apply hnd
    refine ⟨h1, ?_⟩
    rcases h2 with h | h
    · left
      intro hq
      rw [hq] at h
      simp at h
    · right
      exact (CheckIfOtherStreamsBuffering_iff env s e).1 h
  unfold RestartRecognition
  rw [if_neg ha, if_neg hd]
  dsimp only
  -- the engine handed to the reset write
  have he2 : ∃ cds, (if e.custom_detection_event.isSome = true then
        ({ e with exit_buffering_ := true, buffer_ := e.buffer_.map PalRingBuffer.reset,
                  custom_detection_event := none, custom_detection_event_size := 0 } : Engine)
      else { e with exit_buffering_ := true, buffer_ := e.buffer_.map PalRingBuffer.reset }) =
      { e with exit_buffering_ := true, buffer_ := e.buffer_.map PalRingBuffer.reset,
               custom_detection_event := none, custom_detection_event_size := cds } := by
    cases hc : e.custom_detection_event with
    | none => exact ⟨e.custom_detection_event_size, by simp [hc]⟩
    | some v => exact ⟨0, by simp⟩
  obtain ⟨cds, he2⟩ := he2
  rw [he2]
  generalize hE : ({ e with exit_buffering_ := true, buffer_ := e.buffer_.map PalRingBuffer.reset,
                              custom_detection_event := none,
                              custom_detection_event_size := cds } : Engine) = E
  have hEt : E.trace = e.trace := by rw [← hE]
  have hEtag : E.module_tag_ids_ = e.module_tag_ids_ := by rw [← hE]
  have hEpar : E.param_ids_ = e.param_ids_ := by rw [← hE]
  obtain ⟨suffix, m1, m2, cd, cds2, hU, hsteps, hcnt⟩ :=
    UpdateSessionPayload_shape env .ENGINE_RESET E
  obtain ⟨hc1, hc2, hc3, hc4, hc5⟩ := reset_steps_counts _ suffix hsteps
  have hmm3 : MmapFramesOk ((UpdateSessionPayload env .ENGINE_RESET E).2.log
      (.waitEOS (env.eosSignalled (UpdateSessionPayload env .ENGINE_RESET E).2.clk))) := by
    rw [hU, ← hE]
    exact hmm
  obtain ⟨st, wp, sfx2, hR, hsfx2⟩ := restartMmap_shape env s
    (UpdateSessionPayload env .ENGINE_RESET E).1 _ hmm3
  rw [hR]
  dsimp only
  have hz1 : sfx2.countP isEngineResetRequest = 0 := by
    rw [List.countP_eq_zero]; intro x hx
    rcases hsfx2 x hx with h | h <;> subst h <;> simp [isEngineResetRequest]
  have hz2 : sfx2.countP isEngineResetWrite = 0 := by
    rw [List.countP_eq_zero]; intro x hx
    rcases hsfx2 x hx with h | h <;> subst h <;> simp [isEngineResetWrite]
  clear he2
  have hcounts : ∀ F : Engine,
      F.trace = e.trace ++ (Effect.updateSessionPayload .ENGINE_RESET :: suffix ++
        Effect.waitEOS (env.eosSignalled (UpdateSessionPayload env .ENGINE_RESET E).2.clk) ::
          sfx2) →
      (issued e F).countP isEngineResetRequest = 1 ∧
      (issued e F).countP isEngineResetWrite ≤ 1 ∧
      (ResetPayloadReady env e → (issued e F).countP isEngineResetWrite = 1) := by
    intro F hF
    rw [issued_of_trace e F _ hF]
    refine ⟨?_, ?_, ?_⟩
    · simp [List.countP_append, List.countP_cons, hc1, hz1, isEngineResetRequest]
    · simp [List.countP_append, List.countP_cons, hc5, hz2, isEngineResetWrite]
      exact hcnt
    · rintro ⟨ht, hp, hgm, hpl⟩
      obtain ⟨suffix3, m13, m23, cd3, cds3, c3, hU3, hsteps3, hcnt3, _⟩ :=
        UpdateSessionPayload_ready env .ENGINE_RESET .PAL_PARAM_ID_WAKEUP_ENGINE_RESET E
          (by rw [hEtag]; exact ht) (by rw [hEpar]; exact hp) hgm hpl rfl
      have hsame : suffix3 = suffix := by
        have h3 := congrArg Engine.trace (hU3.symm.trans hU)
        simpa using h3
      subst hsame
      simp [List.countP_append, List.countP_cons, hc5, hz2, isEngineResetWrite]
      exact hcnt3
  refine ⟨_, _, rfl, rfl, rfl, ?_, ?_, ?_⟩
  · rw [hU, ← hE]; rfl
  · rw [hU, ← hE]; rfl
  · apply hcounts
    simp only [UpdateState, Engine.log]
    rw [hU]
    simp [hEt]


theorem mapFind_mapSet_self {V : Type} (m : List (Nat × V)) (k : Nat) (v : V) :
    mapFind (mapSet m k v) k = some v := by
  induction m with
  | nil => simp [mapSet, mapFind]
  | cons a t ih =>
    obtain ⟨k0, v0⟩ := a
    unfold mapSet
    by_cases h1 : k < k0
    · simp [h1, mapFind]
    · by_cases h2 : k = k0
      · simp [h2, mapFind]
      · simp [h1, h2, mapFind, ih]


/-- C8: `HandleSessionEvent` in state Loaded, or in a state that is neither
Active nor (with concurrent capture enabled) Buffering or Detected, leaves the
engine state, the detection queue, the primary-listener marker and the ring
buffer as they are and acquires no wake-lock; the engine-reset configuration
write is invoked once in state Loaded and no collaborator is called otherwise. -/
theorem stale_or_unhandled_event_is_ignored (env : Env) (data : List Nat) (e : Engine)
    (h : e.eng_state_ = .ENG_LOADED ∨
      (e.eng_state_ ≠ .ENG_ACTIVE ∧
        ¬ (env.concurrentEventCapture = true ∧
          (e.eng_state_ = .ENG_BUFFERING ∨ e.eng_state_ = .ENG_DETECTED)))) :
    ∃ e2, HandleSessionEvent env data e = some e2 ∧
      e2.eng_state_ = e.eng_state_ ∧
      e2.det_streams_q_ = e.det_streams_q_ ∧
      e2.first_det_stream_ = e.first_det_stream_ ∧
      e2.buffer_ = e.buffer_ ∧
      (issued e e2).countP isWakeLockAcquire = 0 ∧
      (e.eng_state_ = .ENG_LOADED → (issued e e2).countP isEngineResetRequest = 1) ∧
      (e.eng_state_ ≠ .ENG_LOADED → issued e e2 = []) := by
  by_cases hl : e.eng_state_ = .ENG_LOADED
  · obtain ⟨suffix, m1, m2, cd, cds, hU, hsteps, hcnt⟩ :=
      UpdateSessionPayload_shape env .ENGINE_RESET e
    obtain ⟨hc1, hc2, hc3, hc4, hc5⟩ := reset_steps_counts _ suffix hsteps
    refine ⟨(UpdateSessionPayload env .ENGINE_RESET e).2, ?_, ?_, ?_, ?_, ?_, ?_, ?_, ?_⟩
    · unfold HandleSessionEvent
      dsimp only
      rw [if_pos hl]
    · rw [hU]
    · rw [hU]
    · rw [hU]
    · rw [hU]
    · rw [issued_of_trace e _ (Effect.updateSessionPayload .ENGINE_RESET :: suffix) (by rw [hU])]
      simp [List.countP_cons, hc3, isWakeLockAcquire]
    · intro _
      rw [issued_of_trace e _ (Effect.updateSessionPayload .ENGINE_RESET :: suffix) (by rw [hU])]
      simp [List.countP_cons, hc1, isEngineResetRequest]
    · intro hn; exact absurd hl hn
  · have h2 : e.eng_state_ ≠ .ENG_ACTIVE ∧
        ¬ (env.concurrentEventCapture = true ∧
          (e.eng_state_ = .ENG_BUFFERING ∨ e.eng_state_ = .ENG_DETECTED)) := by
      rcases h with h | h
      · exact absurd h hl
      · exact h
    refine ⟨e, ?_, rfl, rfl, rfl, rfl, by simp [issued_self], fun h => absurd h hl,
      fun _ => issued_self e⟩
    unfold HandleSessionEvent
    dsimp only
    rw [if_neg hl]
    have hc : e.eng_state_ ≠ .ENG_ACTIVE ∧
        (if env.concurrentEventCapture = true then
          e.eng_state_ ≠ .ENG_BUFFERING ∧ e.eng_state_ ≠ .ENG_DETECTED
        else True) := by
      refine ⟨h2.1, ?_⟩
      by_cases hcc : env.concurrentEventCapture = true
      · rw [if_pos hcc]
        exact ⟨fun hb => h2.2 ⟨hcc, Or.inl hb⟩, fun hb => h2.2 ⟨hcc, Or.inr hb⟩⟩
      · rw [if_neg hcc]; trivial
    rw [if_pos hc]

/-- C9: a detection event received in state Active whose detected listener `s`
is resolved and whose payload parses leaves the detection queue equal to `[s]`
whatever it held, records `s` as the first detected listener, resets the ring
buffer and registers the window of `s` with the parsed keyword indices and the
pre-roll bytes `UsToBytes(pre_roll_duration * 1000)` (the product taken in 32
bits), acquires the wake-lock once without releasing it, and moves the engine to
Detected. -/
theorem first_detection_in_active (env : Env) (data : List Nat) (e : Engine)
    (b : PalRingBuffer) (s : StreamPtr)
    (hst : e.eng_state_ = .ENG_ACTIVE)
    (hbuf : e.buffer_ = some b)
    (hs : env.GetDetectedStream (e.clk + 1) data = s) (hs0 : s ≠ 0)
    (hparse : env.ParseDetectionPayload (e.clk + 2) s data = 0) :
    ∃ e2 b2, HandleSessionEvent env data e = some e2 ∧
      e2.det_streams_q_ = [s] ∧
      e2.first_det_stream_ = s ∧
      e2.buffer_ = some b2 ∧
      b2 = b.reset.updateKwdConfig s
        ((env.GetKeywordIndex (e.clk + 3) s).1 % U32)
        ((env.GetKeywordIndex (e.clk + 3) s).2 % U32)
        (UsToBytes e (((env.GetBufferingConfigs (e.clk + 3) s).2 % U32 * 1000) % U32)) ∧
      mapFind b2.kwCfg s = some
        ⟨(env.GetKeywordIndex (e.clk + 3) s).1 % U32,
         (env.GetKeywordIndex (e.clk + 3) s).2 % U32,
         UsToBytes e (((env.GetBufferingConfigs (e.clk + 3) s).2 % U32 * 1000) % U32)⟩ ∧
      ((env.GetBufferingConfigs (e.clk + 3) s).2 * 1000 < U32 →
        mapFind b2.kwCfg s = some
          ⟨(env.GetKeywordIndex (e.clk + 3) s).1 % U32,
           (env.GetKeywordIndex (e.clk + 3) s).2 % U32,
           UsToBytes e ((env.GetBufferingConfigs (e.clk + 3) s).2 * 1000)⟩) ∧
      (issued e e2).countP isWakeLockAcquire = 1 ∧
      (issued e e2).countP isWakeLockRelease = 0 ∧
      e2.eng_state_ = .ENG_DETECTED := by
  have hl : ¬ (e.eng_state_ = .ENG_LOADED) := by rw [hst]; simp
  have hc : ¬ (e.eng_state_ ≠ .ENG_ACTIVE ∧
        (if env.concurrentEventCapture = true then
          e.eng_state_ ≠ .ENG_BUFFERING ∧ e.eng_state_ ≠ .ENG_DETECTED
        else True)) := by
    rintro ⟨h1, _⟩; exact h1 hst
  have hclk1 : (e.log .acquireWakeLock).clk = e.clk + 1 := by simp [Engine.log, Engine.clk]
  unfold HandleSessionEvent
  dsimp only
  rw [if_neg hl, if_neg hc, if_pos hst, hbuf]
  dsimp only
  simp only [Engine.clk, Engine.log, List.length_append, List.length_singleton] at hs hparse ⊢
  rw [hs, if_neg hs0, hparse]
  simp only [ne_eq, not_true_eq_false, if_false]
  rw [if_pos hst]
  unfold handleFirstDetection
  dsimp only
  refine ⟨_, _, rfl, rfl, rfl, rfl, ?_, ?_, ?_, ?_, ?_, rfl⟩
  · simp [Engine.clk, UsToBytes]
  · simp [Engine.clk, UsToBytes, PalRingBuffer.updateKwdConfig, mapFind_mapSet_self]
  · intro hlt
    have hpr : (env.GetBufferingConfigs (e.trace.length + 3) s).2 % U32 =
        (env.GetBufferingConfigs (e.trace.length + 3) s).2 := by
      apply Nat.mod_eq_of_lt; omega
    simp [Engine.clk, UsToBytes, PalRingBuffer.updateKwdConfig, mapFind_mapSet_self, hpr,
      Nat.mod_eq_of_lt hlt]
  · simp [issued, UpdateState, Engine.log, List.countP_cons, isWakeLockAcquire]
  · simp [issued, UpdateState, Engine.log, List.countP_cons, isWakeLockRelease]


theorem concurrent_start_index_is_truncated :
    ∃ e2 b2, HandleSessionEvent lateDetectionEnv [] sampleBufferingEngine = some e2 ∧
      e2.buffer_ = some b2 ∧
      (b2.getIndices 2).1 = 32000 ∧
      (4295967296 : Nat) ≥ 1000000 - 1000000 ∧
      UsToBytes sampleBufferingEngine (4295967296 - (1000000 - 1000000)) = 137470953 :=
  ⟨_, _, rfl, rfl, by decide, by decide, by decide⟩

/-! ## Frames of the configuration writes and of a successful start -/

theorem ConfigFrame.same (e : Engine) : ConfigFrame e e := by
  constructor <;> first | rfl | exact ⟨[], by simp, by simp⟩

theorem ConfigFrame.andThen {a b c : Engine} (h1 : ConfigFrame a b) (h2 : ConfigFrame b c) :
    ConfigFrame a c := by
  obtain ⟨l1, ht1, hl1⟩ := h1.trace
  obtain ⟨l2, ht2, hl2⟩ := h2.trace
  constructor
  · exact h2.eng_state_.trans h1.eng_state_
  · exact h2.exit_buffering_.trans h1.exit_buffering_
  · exact h2.capture_requested_.trans h1.capture_requested_
  · exact h2.eng_streams_.trans h1.eng_streams_
  · exact h2.det_streams_q_.trans h1.det_streams_q_
  · exact h2.first_det_stream_.trans h1.first_det_stream_
  · exact h2.buffer_.trans h1.buffer_
  · exact h2.custom_detection_event.trans h1.custom_detection_event
  · exact h2.mmap_buffer_size_.trans h1.mmap_buffer_size_
  · exact h2.mmap_buffer_mapped.trans h1.mmap_buffer_mapped
  · exact h2.mmap_write_position_.trans h1.mmap_write_position_
  · exact h2.wakeup_config_.trans h1.wakeup_config_
  · exact h2.isPDK.trans h1.isPDK
  · exact h2.is_qcva_uuid_.trans h1.is_qcva_uuid_
  · exact h2.module_tag_ids_.trans h1.module_tag_ids_
  · exact h2.param_ids_.trans h1.param_ids_
  · exact h2.sample_rate_.trans h1.sample_rate_
  · exact h2.bit_width_.trans h1.bit_width_
  · exact h2.channels_.trans h1.channels_
  · refine ⟨l1 ++ l2, by rw [ht2, ht1, List.append_assoc], ?_⟩
    intro x hx
    rcases List.mem_append.1 hx with h | h
    · exact hl1 x h
    · exact hl2 x h

theorem configStep_of_payloadStep (tag : Nat) (p : st_param_id_type_t) (x : Effect)
    (hp : p = .WAKEUP_CONFIG ∨ p = .CUSTOM_CONFIG ∨ p = .BUFFERING_CONFIG)
    (h : isPayloadStep tag p x) : isConfigStep x = true := by
  rcases h with h | h | ⟨sp, hsp, h⟩
  · subst h; rfl
  · subst h; rcases hp with hp | hp | hp <;> subst hp <;> rfl
  · subst h
    rcases hp with hp | hp | hp <;> subst hp <;> simp [sesParamId] at hsp <;> subst hsp <;> rfl

theorem UpdateSessionPayload_configFrame (env : Env) (p : st_param_id_type_t) (e : Engine)
    (hp : p = .WAKEUP_CONFIG ∨ p = .CUSTOM_CONFIG ∨ p = .BUFFERING_CONFIG) :
    ConfigFrame e (UpdateSessionPayload env p e).2 := by
  obtain ⟨suffix, m1, m2, cd, cds, hU, hsteps, _⟩ := UpdateSessionPayload_shape env p e
  rw [hU]
  constructor
  case trace =>
    refine ⟨Effect.updateSessionPayload p :: suffix, rfl, ?_⟩
    intro x hx
    rcases List.mem_cons.1 hx with h | h
    · subst h; rcases hp with hp | hp | hp <;> subst hp <;> rfl
    · exact configStep_of_payloadStep _ p x hp (hsteps x h)
  all_goals rfl

theorem UpdateSessionPayload_ok (env : Env) (p : st_param_id_type_t)
    (sp : pal_param_id_type_t) (e : Engine)
    (hok : AllCallsSucceed env) (hid : PayloadIdsConfigured e)
    (hsp : sesParamId p = some sp) : (UpdateSessionPayload env p e).1 = 0 := by
  obtain ⟨_, _, _, _, _, c, _, _, _, hst⟩ :=
    UpdateSessionPayload_ready env p sp e (hid p).1 (hid p).2 hok.getMIID
      (fun c => hok.payloadSVAConfig c p) hsp
  rw [hst]
  exact hok.setParameters _ _ _

theorem PayloadIdsConfigured_of_frame {e e2 : Engine} (h : ConfigFrame e e2)
    (hid : PayloadIdsConfigured e) : PayloadIdsConfigured e2 := by
  intro p
  rw [h.module_tag_ids_, h.param_ids_]
  exact hid p

theorem UpdateConfigs_configFrame (env : Env) (e : Engine) :
    ConfigFrame e (UpdateConfigs env e).2 := by
  unfold UpdateConfigs
  dsimp only
  have h1 : ConfigFrame e (if e.is_qcva_uuid_ = true then
      UpdateSessionPayload env .WAKEUP_CONFIG e
    else if e.module_tag_ids_ .CUSTOM_CONFIG ≠ 0 ∧ e.param_ids_ .CUSTOM_CONFIG ≠ 0 then
      UpdateSessionPayload env .CUSTOM_CONFIG e
    else (0, e)).2 := by
    split_ifs
    · exact UpdateSessionPayload_configFrame env _ e (Or.inl rfl)
    · exact UpdateSessionPayload_configFrame env _ e (Or.inr (Or.inl rfl))
    · exact ConfigFrame.same e
  generalize (if e.is_qcva_uuid_ = true then
      UpdateSessionPayload env .WAKEUP_CONFIG e
    else if e.module_tag_ids_ .CUSTOM_CONFIG ≠ 0 ∧ e.param_ids_ .CUSTOM_CONFIG ≠ 0 then
      UpdateSessionPayload env .CUSTOM_CONFIG e
    else (0, e)) = r1 at h1 ⊢
  split_ifs
  · exact h1
  · exact h1.andThen (UpdateSessionPayload_configFrame env _ r1.2 (Or.inr (Or.inr rfl)))

theorem UpdateConfigs_ok (env : Env) (e : Engine)
    (hok : AllCallsSucceed env) (hid : PayloadIdsConfigured e) :
    (UpdateConfigs env e).1 = 0 := by
  unfold UpdateConfigs
  dsimp only
  have h1 : ConfigFrame e (if e.is_qcva_uuid_ = true then
      UpdateSessionPayload env .WAKEUP_CONFIG e
    else if e.module_tag_ids_ .CUSTOM_CONFIG ≠ 0 ∧ e.param_ids_ .CUSTOM_CONFIG ≠ 0 then
      UpdateSessionPayload env .CUSTOM_CONFIG e
    else (0, e)).2 ∧ (if e.is_qcva_uuid_ = true then
      UpdateSessionPayload env .WAKEUP_CONFIG e
    else if e.module_tag_ids_ .CUSTOM_CONFIG ≠ 0 ∧ e.param_ids_ .CUSTOM_CONFIG ≠ 0 then
      UpdateSessionPayload env .CUSTOM_CONFIG e
    else (0, e)).1 = 0 := by
    split_ifs
    · exact ⟨UpdateSessionPayload_configFrame env _ e (Or.inl rfl),
        UpdateSessionPayload_ok env _ _ e hok hid rfl⟩
    · exact ⟨UpdateSessionPayload_configFrame env _ e (Or.inr (Or.inl rfl)),
        UpdateSessionPayload_ok env _ _ e hok hid rfl⟩
    · exact ⟨ConfigFrame.same e, rfl⟩
  generalize (if e.is_qcva_uuid_ = true then
      UpdateSessionPayload env .WAKEUP_CONFIG e
    else if e.module_tag_ids_ .CUSTOM_CONFIG ≠ 0 ∧ e.param_ids_ .CUSTOM_CONFIG ≠ 0 then
      UpdateSessionPayload env .CUSTOM_CONFIG e
    else (0, e)) = r1 at h1 ⊢
  rw [if_neg (by simp [h1.2])]
  exact UpdateSessionPayload_ok env _ _ r1.2 hok (PayloadIdsConfigured_of_frame h1.1 hid) rfl

theorem UpdateConfigPDK_configFrame (model_id : Nat) (e : Engine) :
    ConfigFrame e (UpdateConfigPDK model_id e) := by
  unfold UpdateConfigPDK
  constructor <;> first | rfl | exact ⟨[], by simp, by simp⟩

theorem startUpdatedCfgLoop_configFrame (env : Env) (cfgs : List Nat) :
    ∀ (s : StreamPtr) (e : Engine), ConfigFrame e (startUpdatedCfgLoop env cfgs s e).2.2 := by
  induction cfgs with
  | nil => intro s e; exact ConfigFrame.same e
  | cons id rest ih =>
    intro s e
    unfold startUpdatedCfgLoop
    dsimp only
    have h1 : ConfigFrame e (UpdateConfigs env (UpdateConfigPDK id e)).2 :=
      (UpdateConfigPDK_configFrame id e).andThen (UpdateConfigs_configFrame env _)
    generalize UpdateConfigs env (UpdateConfigPDK id e) = r at h1 ⊢
    split_ifs
    · exact h1
    · refine (h1.andThen ?_).andThen (ih _ _)
      constructor <;> first | rfl | exact ⟨[], by simp, by simp⟩

theorem startUpdatedCfgLoop_ok (env : Env) (hok : AllCallsSucceed env) (cfgs : List Nat) :
    ∀ (s : StreamPtr) (e : Engine), PayloadIdsConfigured e →
      (startUpdatedCfgLoop env cfgs s e).1 = 0 := by
  induction cfgs with
  | nil => intro s e _; rfl
  | cons id rest ih =>
    intro s e hid
    unfold startUpdatedCfgLoop
    dsimp only
    have hid1 : PayloadIdsConfigured (UpdateConfigPDK id e) :=
      PayloadIdsConfigured_of_frame (UpdateConfigPDK_configFrame id e) hid
    have h0 := UpdateConfigs_ok env _ hok hid1
    have h1 := UpdateConfigs_configFrame env (UpdateConfigPDK id e)
    generalize UpdateConfigs env (UpdateConfigPDK id e) = r at h0 h1 ⊢
    rw [if_neg (by simp [h0])]
    apply ih
    intro p
    exact PayloadIdsConfigured_of_frame h1 hid1 p

theorem startConfigs_some (env : Env) (s : StreamPtr) (e : Engine)
    (hdef : e.isPDK = true → e.updated_cfg_ = [] → dynCast env e.clk s = true) :
    ∃ st s1 e3, startConfigs env s e = some (st, s1, e3) ∧ ConfigFrame e e3 ∧
      (e.updated_cfg_ = [] → s1 = s) ∧
      (AllCallsSucceed env → PayloadIdsConfigured e → st = 0) := by
  unfold startConfigs
  by_cases hu : e.updated_cfg_.length > 0
  · rw [if_pos hu]
    have hne : e.updated_cfg_ ≠ [] := by
      intro h; rw [h] at hu; simp at hu
    dsimp only
    have hf := startUpdatedCfgLoop_configFrame env e.updated_cfg_ s e
    by_cases h1 : (startUpdatedCfgLoop env e.updated_cfg_ s e).1 ≠ 0
    · rw [if_pos h1]
      exact ⟨_, _, _, rfl, hf, fun h => absurd h hne,
        fun hok hid => startUpdatedCfgLoop_ok env hok _ s e hid⟩
    · rw [if_neg h1]
      refine ⟨_, _, _, rfl, hf.andThen ?_, fun h => absurd h hne, fun _ _ => rfl⟩
      constructor <;> first | rfl | exact ⟨[], by simp, by simp⟩
  · rw [if_neg hu]
    have hnil : e.updated_cfg_ = [] := by
      cases h : e.updated_cfg_ with
      | nil => rfl
      | cons a t => rw [h] at hu; simp at hu
    by_cases hp : e.isPDK = true
    · rw [if_pos hp, if_pos (hdef hp hnil)]
      split_ifs
      · exact ⟨_, _, _, rfl,
          (UpdateConfigPDK_configFrame _ e).andThen (UpdateConfigs_configFrame env _),
          fun _ => rfl,
          fun hok hid => UpdateConfigs_ok env _ hok
            (PayloadIdsConfigured_of_frame (UpdateConfigPDK_configFrame _ e) hid)⟩
      · exact ⟨_, _, _, rfl, UpdateConfigs_configFrame env _, fun _ => rfl,
          fun hok hid => UpdateConfigs_ok env _ hok hid⟩
    · rw [if_neg hp]
      exact ⟨_, _, _, rfl, UpdateConfigs_configFrame env _, fun _ => rfl,
        fun hok hid => UpdateConfigs_ok env _ hok hid⟩



theorem SessionFrame.unchanged (e : Engine) : SessionFrame e e := by
  constructor <;> rfl

theorem SessionFrame.followedBy {a b c : Engine} (h1 : SessionFrame a b) (h2 : SessionFrame b c) :
    SessionFrame a c := by
  constructor
  · exact h2.capture_requested_.trans h1.capture_requested_
  · exact h2.eng_streams_.trans h1.eng_streams_
  · exact h2.det_streams_q_.trans h1.det_streams_q_
  · exact h2.first_det_stream_.trans h1.first_det_stream_
  · exact h2.wakeup_config_.trans h1.wakeup_config_
  · exact h2.isPDK.trans h1.isPDK
  · exact h2.is_qcva_uuid_.trans h1.is_qcva_uuid_
  · exact h2.module_tag_ids_.trans h1.module_tag_ids_
  · exact h2.param_ids_.trans h1.param_ids_
  · exact h2.sample_rate_.trans h1.sample_rate_
  · exact h2.bit_width_.trans h1.bit_width_
  · exact h2.channels_.trans h1.channels_

theorem SessionFrame.ofConfigFrame {e e2 : Engine} (h : ConfigFrame e e2) : SessionFrame e e2 := by
  constructor
  · exact h.capture_requested_
  · exact h.eng_streams_
  · exact h.det_streams_q_
  · exact h.first_det_stream_
  · exact h.wakeup_config_
  · exact h.isPDK
  · exact h.is_qcva_uuid_
  · exact h.module_tag_ids_
  · exact h.param_ids_
  · exact h.sample_rate_
  · exact h.bit_width_
  · exact h.channels_

theorem FrameToBytes_congr (e e2 : Engine) (n : Nat) (h1 : e2.bit_width_ = e.bit_width_)
    (h2 : e2.channels_ = e.channels_) : FrameToBytes e2 n = FrameToBytes e n := by
  unfold FrameToBytes
  rw [h1, h2]

theorem BytesToFrames_congr (e e2 : Engine) (n : Nat) (h1 : e2.bit_width_ = e.bit_width_)
    (h2 : e2.channels_ = e.channels_) : BytesToFrames e2 n = BytesToFrames e n := by
  unfold BytesToFrames
  rw [h1, h2]

theorem startMmap_ok (env : Env) (s : StreamPtr) (e : Engine) (hok : AllCallsSucceed env)
    (hdef : e.mmap_buffer_size_ ≠ 0 → e.mmap_buffer_mapped = false →
      e.bit_width_ * e.channels_ ≠ 0) :
    ∃ e5 mm, startMmap env s e = some (0, e5) ∧ SessionFrame e e5 ∧
      e5.buffer_ = e.buffer_ ∧
      e5.trace = e.trace ++ mm ∧ (∀ x ∈ mm, x = Effect.createMmapBuffer s) ∧
      (e5.mmap_buffer_size_ = e.mmap_buffer_size_ ∨
        ∃ c n, e5.mmap_buffer_size_ = FrameToBytes e5 (env.createMmapBuffer c s n).2) := by
  unfold startMmap
  by_cases hm : e.mmap_buffer_size_ ≠ 0 ∧ e.mmap_buffer_mapped = false
  · rw [if_pos hm]
    have hbc := hdef hm.1 hm.2
    have hbtf : BytesToFrames e e.mmap_buffer_size_ =
        some ((e.mmap_buffer_size_ * BITS_PER_BYTE / (e.bit_width_ * e.channels_)) % U32) := by
      unfold BytesToFrames
      rw [if_neg hbc]
    rw [hbtf]
    dsimp only
    rw [if_neg (by simp [hok.createMmapBuffer])]
    refine ⟨_, [.createMmapBuffer s], rfl, by constructor <;> rfl, rfl, rfl, by simp,
      Or.inr ⟨_, _, rfl⟩⟩
  · rw [if_neg hm]
    exact ⟨e, [], rfl, SessionFrame.unchanged e, rfl, by simp, by simp, Or.inl rfl⟩

theorem startSession_ok (env : Env) (s : StreamPtr) (e : Engine) (hok : AllCallsSucceed env) :
    ∃ e6 rs, startSession env s e = (0, e6) ∧ e6.eng_state_ = .ENG_ACTIVE ∧
      e6.exit_buffering_ = false ∧ SessionFrame e e6 ∧ e6.buffer_ = e.buffer_ ∧
      e6.mmap_buffer_size_ = e.mmap_buffer_size_ ∧
      e6.trace = e.trace ++ (Effect.sessionStart s :: rs ++ [Effect.releaseWakeLock]) ∧
      (∀ x ∈ rs, x = Effect.ResetMmapBuffer s) := by
  unfold startSession
  dsimp only
  rw [if_neg (by simp [hok.sessionStart])]
  simp only [hok.ResetMmapBuffer]
  by_cases hms : (e.log (.sessionStart s)).mmap_buffer_size_ ≠ 0
  · rw [if_pos hms]
    refine ⟨_, [.ResetMmapBuffer s], rfl, rfl, rfl, by constructor <;> rfl, rfl, rfl, ?_,
      by simp⟩
    simp [UpdateState, Engine.log]
  · rw [if_neg hms]
    refine ⟨_, [], rfl, rfl, rfl, by constructor <;> rfl, rfl, rfl, ?_, by simp⟩
    simp [UpdateState, Engine.log]

/-- A successful `ProcessStartRecognition`: the engine becomes Active and the
trace gains the wake-lock pair around the configuration writes, `prepare`, the
optional mmap buffer creation, `start` and the optional mmap reset. -/
theorem ProcessStartRecognition_ok (env : Env) (s : StreamPtr) (e : Engine)
    (hok : AllCallsSucceed env) (hid : PayloadIdsConfigured e)
    (hdef1 : e.isPDK = true → e.updated_cfg_ = [] → dynCast env (e.clk + 1) s = true)
    (hdef2 : e.mmap_buffer_size_ ≠ 0 → e.mmap_buffer_mapped = false →
      e.bit_width_ * e.channels_ ≠ 0) :
    ∃ e2 s1 cfg mm rs, ProcessStartRecognition env s e = some (0, e2) ∧
      e2.eng_state_ = .ENG_ACTIVE ∧
      e2.exit_buffering_ = false ∧
      e2.buffer_ = e.buffer_ ∧
      SessionFrame e e2 ∧
      (e2.mmap_buffer_size_ = e.mmap_buffer_size_ ∨
        ∃ c n, e2.mmap_buffer_size_ = FrameToBytes e2 (env.createMmapBuffer c s1 n).2) ∧
      e2.trace = e.trace ++ (Effect.acquireWakeLock :: cfg ++ Effect.sessionPrepare s1 :: mm ++
        Effect.sessionStart s1 :: rs ++ [Effect.releaseWakeLock]) ∧
      (∀ x ∈ cfg, isConfigStep x = true) ∧
      (∀ x ∈ mm, x = Effect.createMmapBuffer s1) ∧
      (∀ x ∈ rs, x = Effect.ResetMmapBuffer s1) ∧
      (e.updated_cfg_ = [] → s1 = s) := by
  unfold ProcessStartRecognition
  dsimp only
  -- the engine handed to the configuration phase
  have hE : ∃ E : Engine, (if (e.log .acquireWakeLock).custom_detection_event.isSome = true then
        ({ e.log .acquireWakeLock with custom_detection_event := none,
                                       custom_detection_event_size := 0 } : Engine)
      else e.log .acquireWakeLock) = E ∧ E.trace = e.trace ++ [Effect.acquireWakeLock] ∧
      SessionFrame e E ∧ E.buffer_ = e.buffer_ ∧ E.updated_cfg_ = e.updated_cfg_ ∧
      E.mmap_buffer_size_ = e.mmap_buffer_size_ ∧ E.mmap_buffer_mapped = e.mmap_buffer_mapped := by
    refine ⟨_, rfl, ?_⟩
    split_ifs <;> exact ⟨rfl, by constructor <;> rfl, rfl, rfl, rfl, rfl⟩
  obtain ⟨E, hEq, hEt, hEf, hEb, hEu, hEms, hEmm⟩ := hE
  rw [hEq]
  clear hEq
  have hidE : PayloadIdsConfigured E := by
    intro p; rw [hEf.module_tag_ids_, hEf.param_ids_]; exact hid p
  have hclkE : E.clk = e.clk + 1 := by simp [Engine.clk, hEt]
  obtain ⟨st, s1, e3, hsc, hcf, hs1, hst0⟩ := startConfigs_some env s E
    (by rw [hEf.isPDK, hEu, hclkE]; exact hdef1)
  have hst : st = 0 := hst0 hok hidE
  subst hst
  rw [hsc]
  dsimp only
  rw [if_neg (by simp), if_neg (by simp [hok.sessionPrepare])]
  obtain ⟨cfg, hcfgt, hcfg⟩ := hcf.trace
  generalize hE4 : e3.log (.sessionPrepare s1) = e4
  have h4f : SessionFrame e3 e4 := by rw [← hE4]; constructor <;> rfl
  have h4t : e4.trace = e3.trace ++ [Effect.sessionPrepare s1] := by rw [← hE4]; rfl
  have h4b : e4.buffer_ = e3.buffer_ := by rw [← hE4]; rfl
  have h4s : e4.mmap_buffer_size_ = e3.mmap_buffer_size_ := by rw [← hE4]; rfl
  have h4m : e4.mmap_buffer_mapped = e3.mmap_buffer_mapped := by rw [← hE4]; rfl
  obtain ⟨e5, mm, h5, h5f, h5b, h5t, h5mm, h5s⟩ := startMmap_ok env s1 e4 hok (by
    rw [h4s, h4m, hcf.mmap_buffer_size_, hcf.mmap_buffer_mapped, hEms, hEmm,
      h4f.bit_width_, h4f.channels_, hcf.bit_width_, hcf.channels_,
      hEf.bit_width_, hEf.channels_]
    exact hdef2)
  rw [h5]
  dsimp only
  rw [if_neg (by simp)]
  obtain ⟨e6, rs, h6, h6st, h6x, h6f, h6b, h6s, h6t, h6rs⟩ := startSession_ok env s1 e5 hok
  rw [h6]
  have hfr : SessionFrame e e6 :=
    hEf.followedBy ((SessionFrame.ofConfigFrame hcf).followedBy (h4f.followedBy (h5f.followedBy h6f)))
  refine ⟨e6, s1, cfg, mm, rs, rfl, h6st, h6x, ?_, hfr, ?_, ?_, hcfg, h5mm, h6rs,
    fun h => hs1 (hEu.trans h)⟩
  · rw [h6b, h5b, h4b, hcf.buffer_, hEb]
  · rcases h5s with h | ⟨c, n, h⟩
    · left
      rw [h6s, h, h4s, hcf.mmap_buffer_size_, hEms]
    · right
      refine ⟨c, n, ?_⟩
      rw [h6s, h]
      exact (FrameToBytes_congr e5 e6 _ h6f.bit_width_ h6f.channels_).symm
  · rw [h6t, h5t, h4t, hcfgt, hEt]
    simp




theorem ProcessStopRecognition_shape (env : Env) (s : StreamPtr) (e : Engine) :
    ∃ suffix,
      (ProcessStopRecognition env s e).2.eng_state_ = .ENG_LOADED ∧
      (ProcessStopRecognition env s e).2.buffer_ = e.buffer_.map PalRingBuffer.reset ∧
      SessionFrame e (ProcessStopRecognition env s e).2 ∧
      (ProcessStopRecognition env s e).2.exit_buffering_ = e.exit_buffering_ ∧
      (ProcessStopRecognition env s e).2.mmap_buffer_size_ = e.mmap_buffer_size_ ∧
      (ProcessStopRecognition env s e).2.mmap_buffer_mapped = e.mmap_buffer_mapped ∧
      (ProcessStopRecognition env s e).2.updated_cfg_ = e.updated_cfg_ ∧
      (ProcessStopRecognition env s e).2.trace =
        e.trace ++ (Effect.acquireWakeLock :: Effect.updateSessionPayload .ENGINE_RESET ::
          suffix ++ [Effect.sessionStop s, Effect.releaseWakeLock]) ∧
      (∀ x ∈ suffix, isPayloadStep (e.module_tag_ids_ .ENGINE_RESET) .ENGINE_RESET x) ∧
      suffix.countP isSetParameters ≤ 1 ∧
      (ProcessStopRecognition env s e).1 =
        env.sessionStop (e.trace.length + 2 + suffix.length) s := by
  unfold ProcessStopRecognition
  dsimp only
  generalize hE : ({ e.log .acquireWakeLock with
    buffer_ := (e.log .acquireWakeLock).buffer_.map PalRingBuffer.reset } : Engine) = E
  obtain ⟨suffix, m1, m2, cd, cds, hU, hsteps, hcnt⟩ :=
    UpdateSessionPayload_shape env .ENGINE_RESET E
  have hEtag : E.module_tag_ids_ = e.module_tag_ids_ := by rw [← hE]; rfl
  rw [hEtag] at hsteps
  refine ⟨suffix, rfl, ?_, ?_, ?_, ?_, ?_, ?_, ?_, hsteps, hcnt, ?_⟩
  · rw [hU, ← hE]; rfl
  · rw [hU, ← hE]; constructor <;> rfl
  · rw [hU, ← hE]; rfl
  · rw [hU, ← hE]; rfl
  · rw [hU, ← hE]; rfl
  · rw [hU, ← hE]; rfl
  · rw [hU, ← hE]; simp [UpdateState, Engine.log]
  · rw [hU, ← hE]; simp [Engine.clk, Engine.log]; congr 1; omega

theorem CheckIfOtherStreamsActive_single (env : Env) (s : StreamPtr) (e : Engine)
    (h : e.eng_streams_ = [s]) : CheckIfOtherStreamsActive env s e = false := by
  unfold CheckIfOtherStreamsActive
  rw [h]
  simp

theorem CheckIfOtherStreamsActive_iff (env : Env) (s : StreamPtr) (e : Engine) :
    CheckIfOtherStreamsActive env s e = true ↔
      ∃ x ∈ e.eng_streams_, x ≠ s ∧ dynCast env e.clk x = true ∧
        ((env.stream e.clk x).currentStateId = .ST_STATE_ACTIVE ∨
         (env.stream e.clk x).currentStateId = .ST_STATE_BUFFERING ∨
         (env.stream e.clk x).currentStateId = .ST_STATE_DETECTED) := by
  unfold CheckIfOtherStreamsActive
  simp only [List.any_eq_true, Bool.and_eq_true, bne_iff_ne, Bool.or_eq_true,
    decide_eq_true_eq]
  constructor
  · rintro ⟨x, hx, ⟨h1, h2⟩, h3⟩
    exact ⟨x, hx, fun h => h1 h.symm, h2, by tauto⟩
  · rintro ⟨x, hx, h1, h2, h3⟩
    exact ⟨x, hx, ⟨fun h => h1 h.symm, h2⟩, by tauto⟩

/-! ## Stop -/

theorem StopRecognition_inactive (env : Env) (s : StreamPtr) (e : Engine)
    (h : IsEngineActive e = false) :
    StopRecognition env s e =
      some (0, ({ e with exit_buffering_ := true } : Engine).log (.SetModelState s false)) := by
  unfold StopRecognition
  dsimp only
  have h2 : ¬ (IsEngineActive (({ e with exit_buffering_ := true } : Engine).log
      (.SetModelState s false)) = true) := by
    have : IsEngineActive (({ e with exit_buffering_ := true } : Engine).log
      (.SetModelState s false)) = IsEngineActive e := rfl
    rw [this, h]; simp
  rw [if_neg h2]
  simp [ssrStatus]

theorem StopRecognition_single (env : Env) (s : StreamPtr) (e : Engine)
    (h : IsEngineActive e = true) (hs : e.eng_streams_ = [s]) :
    ∃ st, StopRecognition env s e =
      some (st, (ProcessStopRecognition env s
        (({ e with exit_buffering_ := true } : Engine).log (.SetModelState s false))).2) := by
  unfold StopRecognition
  dsimp only
  have h2 : IsEngineActive (({ e with exit_buffering_ := true } : Engine).log
      (.SetModelState s false)) = true := h
  rw [if_pos h2]
  obtain ⟨suffix, _, _, hfr, _⟩ := ProcessStopRecognition_shape env s
    (({ e with exit_buffering_ := true } : Engine).log (.SetModelState s false))
  have hno : CheckIfOtherStreamsActive env s (ProcessStopRecognition env s
      (({ e with exit_buffering_ := true } : Engine).log (.SetModelState s false))).2 = false :=
    CheckIfOtherStreamsActive_single env s _ (by rw [hfr.eng_streams_]; exact hs)
  rw [hno]
  simp only [Bool.false_eq_true, if_false]
  split_ifs <;> exact ⟨_, rfl⟩

theorem not_active_of_stopped (e : Engine)
    (h : e.eng_state_ = .ENG_LOADED ∨ e.eng_state_ = .ENG_IDLE) : IsEngineActive e = false := by
  cases hact : IsEngineActive e with
  | false => rfl
  | true =>
    rw [IsEngineActive_iff] at hact
    rcases h with h | h <;> rw [h] at hact <;> simp at hact

/-- C6: `StopRecognition` on an engine in state Loaded or Idle returns 0, keeps
the engine state and the ring buffer, and its only collaborator call is the
model-state update: no session stop, no wake-lock acquire or release.  Hence two
consecutive `StopRecognition` calls on an engine-active single-listener engine
end in the state the first call reached, Loaded, and perform one session stop. -/
theorem stop_twice_is_stop_once (env : Env) (s : StreamPtr) (e : Engine) :
    ((e.eng_state_ = .ENG_LOADED ∨ e.eng_state_ = .ENG_IDLE) →
      ∃ e2, StopRecognition env s e = some (0, e2) ∧
        e2.eng_state_ = e.eng_state_ ∧
        e2.buffer_ = e.buffer_ ∧
        issued e e2 = [Effect.SetModelState s false] ∧
        (issued e e2).countP isSessionStop = 0 ∧
        (issued e e2).countP isWakeLockAcquire = 0 ∧
        (issued e e2).countP isWakeLockRelease = 0) ∧
    ((e.eng_state_ = .ENG_ACTIVE ∨ e.eng_state_ = .ENG_BUFFERING ∨
        e.eng_state_ = .ENG_DETECTED) → e.eng_streams_ = [s] →
      ∃ r1 e1 r2 e2, StopRecognition env s e = some (r1, e1) ∧
        StopRecognition env s e1 = some (r2, e2) ∧
        e1.eng_state_ = .ENG_LOADED ∧
        e2.eng_state_ = e1.eng_state_ ∧
        (issued e e1).countP isSessionStop = 1 ∧
        (issued e e2).countP isSessionStop = 1) := by
  constructor
  · intro h
    refine ⟨_, StopRecognition_inactive env s e (not_active_of_stopped e h), rfl, rfl, ?_⟩
    have hi : issued e (({ e with exit_buffering_ := true } : Engine).log
        (.SetModelState s false)) = [Effect.SetModelState s false] :=
      issued_of_trace e _ _ rfl
    rw [hi]
    simp [isSessionStop, isWakeLockAcquire, isWakeLockRelease]
  · intro hact hs
    obtain ⟨st, h1⟩ := StopRecognition_single env s e ((IsEngineActive_iff e).2 hact) hs
    obtain ⟨suffix, hst, _, hfr, _, _, _, _, htr, hsteps, _, _⟩ :=
      ProcessStopRecognition_shape env s
        (({ e with exit_buffering_ := true } : Engine).log (.SetModelState s false))
    obtain ⟨_, hc2, _, _, _⟩ := reset_steps_counts _ suffix hsteps
    generalize (ProcessStopRecognition env s
        (({ e with exit_buffering_ := true } : Engine).log (.SetModelState s false))).2 = e1
      at h1 hst hfr htr
    have h2 := StopRecognition_inactive env s e1 (not_active_of_stopped e1 (Or.inl hst))
    have ht1 : e1.trace = e.trace ++ (Effect.SetModelState s false ::
        Effect.acquireWakeLock :: Effect.updateSessionPayload .ENGINE_RESET ::
          suffix ++ [Effect.sessionStop s, Effect.releaseWakeLock]) := by
      rw [htr]; simp [Engine.log]
    refine ⟨st, e1, 0, _, h1, h2, hst, rfl, ?_, ?_⟩
    · rw [issued_of_trace e e1 _ ht1]
      simp [List.countP_cons, List.countP_append, hc2, isSessionStop]
    · rw [issued_of_trace e _ (Effect.SetModelState s false ::
        Effect.acquireWakeLock :: Effect.updateSessionPayload .ENGINE_RESET ::
          suffix ++ [Effect.sessionStop s, Effect.releaseWakeLock,
            Effect.SetModelState s false]) (by simp [Engine.log, ht1])]
      simp [List.countP_cons, List.countP_append, hc2, isSessionStop]



theorem startMmap_total (env : Env) (s : StreamPtr) (e : Engine)
    (hdef : e.mmap_buffer_size_ ≠ 0 → e.mmap_buffer_mapped = false →
      e.bit_width_ * e.channels_ ≠ 0) :
    ∃ st e5 mm, startMmap env s e = some (st, e5) ∧ e5.trace = e.trace ++ mm := by
  unfold startMmap
  by_cases hm : e.mmap_buffer_size_ ≠ 0 ∧ e.mmap_buffer_mapped = false
  · rw [if_pos hm]
    have hbc := hdef hm.1 hm.2
    have hbtf : BytesToFrames e e.mmap_buffer_size_ =
        some ((e.mmap_buffer_size_ * BITS_PER_BYTE / (e.bit_width_ * e.channels_)) % U32) := by
      unfold BytesToFrames
      rw [if_neg hbc]
    rw [hbtf]
    dsimp only
    split_ifs
    · exact ⟨_, _, [.createMmapBuffer s], rfl, rfl⟩
    · exact ⟨_, _, [.createMmapBuffer s], rfl, rfl⟩
  · rw [if_neg hm]
    exact ⟨_, e, [], rfl, by simp⟩

theorem startSession_trace (env : Env) (s : StreamPtr) (e : Engine) :
    ∃ l, (startSession env s e).2.trace = e.trace ++ l := by
  unfold startSession
  dsimp only
  split_ifs
  · exact ⟨[.sessionStart s, .releaseWakeLock], by simp [Engine.log]⟩
  · exact ⟨[.sessionStart s, .ResetMmapBuffer s, .releaseWakeLock],
      by simp [Engine.log, UpdateState]⟩
  · exact ⟨[.sessionStart s, .releaseWakeLock], by simp [Engine.log, UpdateState]⟩

/-- `ProcessStartRecognition` returns on every path, with a trace that extends
the one it was given. -/
theorem ProcessStartRecognition_total (env : Env) (s : StreamPtr) (e : Engine)
    (hdef1 : e.isPDK = true → e.updated_cfg_ = [] → dynCast env (e.clk + 1) s = true)
    (hdef2 : e.mmap_buffer_size_ ≠ 0 → e.mmap_buffer_mapped = false →
      e.bit_width_ * e.channels_ ≠ 0) :
    ∃ st e2 l, ProcessStartRecognition env s e = some (st, e2) ∧ e2.trace = e.trace ++ l := by
  unfold ProcessStartRecognition
  dsimp only
  have hE : ∃ E : Engine, (if (e.log .acquireWakeLock).custom_detection_event.isSome = true then
        ({ e.log .acquireWakeLock with custom_detection_event := none,
                                       custom_detection_event_size := 0 } : Engine)
      else e.log .acquireWakeLock) = E ∧ E.trace = e.trace ++ [Effect.acquireWakeLock] ∧
      SessionFrame e E ∧ E.updated_cfg_ = e.updated_cfg_ ∧
      E.mmap_buffer_size_ = e.mmap_buffer_size_ ∧ E.mmap_buffer_mapped = e.mmap_buffer_mapped := by
    refine ⟨_, rfl, ?_⟩
    split_ifs <;> exact ⟨rfl, by constructor <;> rfl, rfl, rfl, rfl⟩
  obtain ⟨E, hEq, hEt, hEf, hEu, hEms, hEmm⟩ := hE
  rw [hEq]
  clear hEq
  have hclkE : E.clk = e.clk + 1 := by simp [Engine.clk, hEt]
  obtain ⟨st, s1, e3, hsc, hcf, _, _⟩ := startConfigs_some env s E
    (by rw [hEf.isPDK, hEu, hclkE]; exact hdef1)
  rw [hsc]
  dsimp only
  obtain ⟨cfg, hcfgt, _⟩ := hcf.trace
  by_cases h1 : st ≠ 0
  · rw [if_pos h1]
    exact ⟨_, _, [.acquireWakeLock] ++ cfg ++ [.releaseWakeLock], rfl,
      by simp [Engine.log, hcfgt, hEt]⟩
  · rw [if_neg h1]
    by_cases h2 : env.sessionPrepare e3.clk s1 ≠ 0
    · rw [if_pos h2]
      exact ⟨_, _, [.acquireWakeLock] ++ cfg ++ [.sessionPrepare s1, .releaseWakeLock], rfl,
        by simp [Engine.log, hcfgt, hEt]⟩
    · rw [if_neg h2]
      generalize hE4 : e3.log (.sessionPrepare s1) = e4
      have h4f : SessionFrame e3 e4 := by rw [← hE4]; constructor <;> rfl
      have h4t : e4.trace = e3.trace ++ [Effect.sessionPrepare s1] := by rw [← hE4]; rfl
      have h4s : e4.mmap_buffer_size_ = e3.mmap_buffer_size_ := by rw [← hE4]; rfl
      have h4m : e4.mmap_buffer_mapped = e3.mmap_buffer_mapped := by rw [← hE4]; rfl
      obtain ⟨st5, e5, mm, h5, h5t⟩ := startMmap_total env s1 e4 (by
        rw [h4s, h4m, hcf.mmap_buffer_size_, hcf.mmap_buffer_mapped, hEms, hEmm,
          h4f.bit_width_, h4f.channels_, hcf.bit_width_, hcf.channels_,
          hEf.bit_width_, hEf.channels_]
        exact hdef2)
      rw [h5]
      dsimp only
      by_cases h3 : st5 ≠ 0
      · rw [if_pos h3]
        exact ⟨_, _, [.acquireWakeLock] ++ cfg ++ [.sessionPrepare s1] ++ mm ++
          [.releaseWakeLock], rfl, by simp [Engine.log, h5t, h4t, hcfgt, hEt]⟩
      · rw [if_neg h3]
        obtain ⟨l6, h6⟩ := startSession_trace env s1 e5
        exact ⟨(startSession env s1 e5).1, (startSession env s1 e5).2,
          [.acquireWakeLock] ++ cfg ++ [.sessionPrepare s1] ++ mm ++ l6, rfl,
          by rw [h6, h5t, h4t, hcfgt, hEt]; simp⟩

/-- The members `UpdateEngineConfigOnStop` leaves alone, and its trace. -/
theorem UpdateEngineConfigOnStop_frame (env : Env) (s : StreamPtr) (e : Engine) :
    (UpdateEngineConfigOnStop env s e).2.eng_state_ = e.eng_state_ ∧
    (UpdateEngineConfigOnStop env s e).2.eng_streams_ = e.eng_streams_ ∧
    (UpdateEngineConfigOnStop env s e).2.isPDK = e.isPDK ∧
    (UpdateEngineConfigOnStop env s e).2.updated_cfg_ = e.updated_cfg_ ∧
    (UpdateEngineConfigOnStop env s e).2.mmap_buffer_size_ = e.mmap_buffer_size_ ∧
    (UpdateEngineConfigOnStop env s e).2.mmap_buffer_mapped = e.mmap_buffer_mapped ∧
    (UpdateEngineConfigOnStop env s e).2.bit_width_ = e.bit_width_ ∧
    (UpdateEngineConfigOnStop env s e).2.channels_ = e.channels_ ∧
    (UpdateEngineConfigOnStop env s e).2.module_tag_ids_ = e.module_tag_ids_ ∧
    (UpdateEngineConfigOnStop env s e).2.param_ids_ = e.param_ids_ ∧
    ∃ l, (UpdateEngineConfigOnStop env s e).2.trace = e.trace ++ l ∧
      ∀ x ∈ l, x = Effect.UpdateMergeConfLevelsPayload s false := by
  unfold UpdateEngineConfigOnStop
  dsimp only
  split_ifs
  · exact ⟨rfl, rfl, rfl, rfl, rfl, rfl, rfl, rfl, rfl, rfl, [], by simp, by simp⟩
  · exact ⟨rfl, rfl, rfl, rfl, rfl, rfl, rfl, rfl, rfl, rfl, [], by simp, by simp⟩
  · exact ⟨rfl, rfl, rfl, rfl, rfl, rfl, rfl, rfl, rfl, rfl,
      [.UpdateMergeConfLevelsPayload s false], rfl, by simp⟩
  · exact ⟨rfl, rfl, rfl, rfl, rfl, rfl, rfl, rfl, rfl, rfl, [], by simp, by simp⟩

theorem stopRestartOthers_total (env : Env) (s : StreamPtr) (e : Engine)
    (hpdk : e.isPDK = true → ∀ c, dynCast env c s = true)
    (hstreams : e.eng_streams_ ≠ [])
    (hfmt : MmapFormatOk e) :
    ∃ st e2 l, stopRestartOthers env s e = some (st, e2) ∧ e2.trace = e.trace ++ l := by
  unfold stopRestartOthers
  dsimp only
  obtain ⟨_, hstr, hp, hu, hms, hmm, hbw, hch, _, _, l0, hl0, _⟩ :=
    UpdateEngineConfigOnStop_frame env s e
  generalize (UpdateEngineConfigOnStop env s e).2 = e3 at hstr hp hu hms hmm hbw hch hl0
  have key : ∀ e5 : Engine, e5.eng_streams_ = e3.eng_streams_ → e5.trace = e3.trace →
      e5.isPDK = e3.isPDK → (e5.isPDK = true → e5.updated_cfg_ ≠ []) →
      e5.mmap_buffer_size_ = e3.mmap_buffer_size_ → e5.bit_width_ = e3.bit_width_ →
      e5.channels_ = e3.channels_ →
      ∃ st e2 l, (match e5.eng_streams_ with
        | [] => none
        | s0 :: _ => ProcessStartRecognition env s0 e5) = some (st, e2) ∧
        e2.trace = e.trace ++ l := by
    intro e5 h1 h2 h3 h4 h5 h6 h7
    cases hs : e5.eng_streams_ with
    | nil => rw [h1, hstr] at hs; exact absurd hs hstreams
    | cons s0 rest =>
      dsimp only
      obtain ⟨st, e2, l, hps, hpt⟩ := ProcessStartRecognition_total env s0 e5
        (fun hp5 hu5 => absurd hu5 (h4 hp5))
        (fun hm5 _ => by
          rw [h6, h7, hbw, hch]
          exact hfmt (by rw [← hms, ← h5]; exact hm5))
      exact ⟨st, e2, l0 ++ l, hps, by rw [hpt, h2, hl0, List.append_assoc]⟩
  by_cases hpd : e3.isPDK = true
  · rw [if_pos hpd, if_pos (hpdk (hp ▸ hpd) _)]
    dsimp only
    exact key _ rfl rfl rfl (fun _ => by simp [resetConfLevelsPDK]) rfl rfl rfl
  · rw [if_neg hpd]
    dsimp only
    exact key e3 rfl rfl rfl (fun h => absurd h hpd) rfl rfl rfl




/-- When the reset payload can be built, the steps of the engine-reset write
include the hand-over to `session_->setParameters`. -/
theorem reset_write_reaches_session (env : Env) (e : Engine) (suffix : List Effect)
    (m1 m2 : Nat) (cd : Option (List Nat)) (cds : Nat)
    (hU : (UpdateSessionPayload env .ENGINE_RESET e).2 =
        { e with
          trace := e.trace ++ Effect.updateSessionPayload .ENGINE_RESET :: suffix
          lpi_miid_ := m1
          nlpi_miid_ := m2
          custom_data := cd
          custom_data_size := cds })
    (hready : ResetPayloadReady env e) :
    Effect.setParameters (e.module_tag_ids_ .ENGINE_RESET) .PAL_PARAM_ID_WAKEUP_ENGINE_RESET ∈
      suffix := by
  obtain ⟨ht, hp, hgm, hpl⟩ := hready
  obtain ⟨suffix3, m13, m23, cd3, cds3, c3, hU3, hsteps3, hcnt3, _⟩ :=
    UpdateSessionPayload_ready env .ENGINE_RESET .PAL_PARAM_ID_WAKEUP_ENGINE_RESET e
      ht hp hgm hpl rfl
  have hsame : suffix3 = suffix := by
    have h3 := congrArg Engine.trace (hU3.symm.trans hU)
    simpa using h3
  subst hsame
  have hpos : 0 < suffix3.countP isSetParameters := by omega
  obtain ⟨x, hx, hpx⟩ := List.countP_pos_iff.1 hpos
  rcases hsteps3 x hx with h | h | ⟨sp, hsp, h⟩
  · subst h; simp [isSetParameters] at hpx
  · subst h; simp [isSetParameters] at hpx
  · simp [sesParamId] at hsp
    subst hsp
    subst h
    exact hx

theorem ProcessStopRecognition_trace (env : Env) (s : StreamPtr) (e : Engine) :
    ∃ l, (ProcessStopRecognition env s e).2.trace = e.trace ++ l ∧
      Effect.updateSessionPayload .ENGINE_RESET ∈ l ∧ Effect.sessionStop s ∈ l ∧
      (ResetPayloadReady env e →
        Effect.setParameters (e.module_tag_ids_ .ENGINE_RESET)
          .PAL_PARAM_ID_WAKEUP_ENGINE_RESET ∈ l) := by
  unfold ProcessStopRecognition
  dsimp only
  generalize hE : ({ e.log .acquireWakeLock with
    buffer_ := (e.log .acquireWakeLock).buffer_.map PalRingBuffer.reset } : Engine) = E
  obtain ⟨suffix, m1, m2, cd, cds, hU, hsteps, hcnt⟩ :=
    UpdateSessionPayload_shape env .ENGINE_RESET E
  have hEtag : E.module_tag_ids_ = e.module_tag_ids_ := by rw [← hE]; rfl
  have hEpar : E.param_ids_ = e.param_ids_ := by rw [← hE]; rfl
  have hEt : E.trace = e.trace ++ [Effect.acquireWakeLock] := by rw [← hE]; rfl
  refine ⟨Effect.acquireWakeLock :: Effect.updateSessionPayload .ENGINE_RESET ::
      suffix ++ [Effect.sessionStop s, Effect.releaseWakeLock], ?_, by simp, by simp, ?_⟩
  · rw [hU]; simp [UpdateState, Engine.log, hEt]
  · intro hready
    have hr : ResetPayloadReady env E := by
      unfold ResetPayloadReady at hready ⊢
      rw [hEtag, hEpar]; exact hready
    have := reset_write_reaches_session env E suffix m1 m2 cd cds hU hr
    rw [hEtag] at this
    simp [this]

/-- C5, as the code has it: in an engine-active state `StopRecognition` invokes
the engine-reset configuration write and stops the session (and the reset
payload reaches the session when it can be built); in state Idle or Loaded it
does neither. -/
theorem stop_resets_and_stops_only_when_active (env : Env) (s : StreamPtr) (e : Engine)
    (hpdk : e.isPDK = true → ∀ c, dynCast env c s = true)
    (hfmt : MmapFormatOk e) :
    ((e.eng_state_ = .ENG_ACTIVE ∨ e.eng_state_ = .ENG_BUFFERING ∨
        e.eng_state_ = .ENG_DETECTED) →
      ∃ st e2, StopRecognition env s e = some (st, e2) ∧
        Effect.updateSessionPayload .ENGINE_RESET ∈ issued e e2 ∧
        Effect.sessionStop s ∈ issued e e2 ∧
        (ResetPayloadReady env e →
          Effect.setParameters (e.module_tag_ids_ .ENGINE_RESET)
            .PAL_PARAM_ID_WAKEUP_ENGINE_RESET ∈ issued e e2)) ∧
    ((e.eng_state_ = .ENG_IDLE ∨ e.eng_state_ = .ENG_LOADED) →
      ∃ e2, StopRecognition env s e = some (0, e2) ∧
        (issued e e2).countP isEngineResetRequest = 0 ∧
        (issued e e2).countP isEngineResetWrite = 0 ∧
        (issued e e2).countP isSessionStop = 0) := by
  constructor
  · intro hact
    generalize hE : (({ e with exit_buffering_ := true } : Engine).log
      (.SetModelState s false)) = E
    have hEt : E.trace = e.trace ++ [Effect.SetModelState s false] := by rw [← hE]; rfl
    have hEa : IsEngineActive E = true := by
      rw [← hE]; exact (IsEngineActive_iff e).2 hact
    obtain ⟨l, hl, hreset, hstop, hwrite⟩ := ProcessStopRecognition_trace env s E
    obtain ⟨_, _, _, hfr, _, hms, _, _, _, _, _, _⟩ := ProcessStopRecognition_shape env s E
    have hw : ResetPayloadReady env e →
        Effect.setParameters (e.module_tag_ids_ .ENGINE_RESET)
          .PAL_PARAM_ID_WAKEUP_ENGINE_RESET ∈ l := by
      intro hr
      have := hwrite (by rw [← hE]; exact hr)
      rw [← hE] at this
      exact this
    have key : ∀ e2 l2, e2.trace = (ProcessStopRecognition env s E).2.trace ++ l2 →
        Effect.updateSessionPayload .ENGINE_RESET ∈ issued e e2 ∧
        Effect.sessionStop s ∈ issued e e2 ∧
        (ResetPayloadReady env e →
          Effect.setParameters (e.module_tag_ids_ .ENGINE_RESET)
            .PAL_PARAM_ID_WAKEUP_ENGINE_RESET ∈ issued e e2) := by
      intro e2 l2 h2
      rw [issued_of_trace e e2 (Effect.SetModelState s false :: l ++ l2)
        (by rw [h2, hl, hEt]; simp)]
      refine ⟨by simp [hreset], by simp [hstop], fun hr => by simp [hw hr]⟩
    unfold StopRecognition
    dsimp only
    rw [hE, if_pos hEa]
    by_cases h1 : (ProcessStopRecognition env s E).1 ≠ 0
    · rw [if_pos h1]
      exact ⟨_, _, rfl, key _ [] (by simp)⟩
    · rw [if_neg h1]
      by_cases h2 : CheckIfOtherStreamsActive env s (ProcessStopRecognition env s E).2 = true
      · rw [if_pos h2]
        obtain ⟨x, hx, _⟩ := (CheckIfOtherStreamsActive_iff env s _).1 h2
        obtain ⟨st, e2, l2, hso, hst⟩ := stopRestartOthers_total env s
          (ProcessStopRecognition env s E).2
          (by rw [hfr.isPDK, ← hE]; exact hpdk)
          (by intro hnil; rw [hnil] at hx; simp at hx)
          (by
            intro hm
            rw [hfr.bit_width_, hfr.channels_, ← hE]
            exact hfmt (by rw [hms, ← hE] at hm; exact hm))
        rw [hso]
        exact ⟨_, _, rfl, key e2 l2 hst⟩
      · rw [if_neg h2]
        exact ⟨_, _, rfl, key _ [] (by simp)⟩
  · intro h
    refine ⟨_, StopRecognition_inactive env s e (not_active_of_stopped e (by tauto)), ?_⟩
    have hi : issued e (({ e with exit_buffering_ := true } : Engine).log
        (.SetModelState s false)) = [Effect.SetModelState s false] :=
      issued_of_trace e _ _ rfl
    rw [hi]
    simp [isSessionStop, isEngineResetRequest, isEngineResetWrite]

/-- C5 fails as stated: `StopRecognition` on the loaded, not started sample
engine invokes no engine-reset write and no session stop. -/
theorem stop_on_loaded_engine_issues_neither :
    ∃ e2, StopRecognition sampleEnv 1 sampleEngine = some (0, e2) ∧
      sampleEngine.eng_state_ = .ENG_LOADED ∧
      (issued sampleEngine e2).countP isEngineResetRequest = 0 ∧
      (issued sampleEngine e2).countP isEngineResetWrite = 0 ∧
      (issued sampleEngine e2).countP isSessionStop = 0 :=
  ⟨_, rfl, rfl, by decide, by decide, by decide⟩




theorem scanRemaining_keeps_active (env : Env) (c : Nat) (s : StreamPtr) (l : List StreamPtr) :
    ∀ acc : StopScan, acc.is_any_stream_active = true →
      (scanRemaining env c s l acc).is_any_stream_active = true := by
  induction l with
  | nil => intro acc h; exact h
  | cons x t ih =>
    intro acc h
    unfold scanRemaining
    by_cases hc : s ≠ x ∧ dynCast env c x = true ∧
        (env.stream c x).currentStateId = .ST_STATE_ACTIVE
    · rw [if_pos hc]; exact ih _ rfl
    · rw [if_neg hc]; exact ih _ h

theorem scanRemaining_finds_active (env : Env) (c : Nat) (s : StreamPtr) (l : List StreamPtr)
    (b : StreamPtr) (hb : b ∈ l) (hne : b ≠ s) (hd : dynCast env c b = true)
    (hst : (env.stream c b).currentStateId = .ST_STATE_ACTIVE) :
    ∀ acc : StopScan, (scanRemaining env c s l acc).is_any_stream_active = true := by
  induction l with
  | nil => simp at hb
  | cons x t ih =>
    intro acc
    unfold scanRemaining
    rcases List.mem_cons.1 hb with h | h
    · subst h
      rw [if_pos ⟨fun h => hne h.symm, hd, hst⟩]
      exact scanRemaining_keeps_active env c s t _ rfl
    · by_cases hc : s ≠ x ∧ dynCast env c x = true ∧
          (env.stream c x).currentStateId = .ST_STATE_ACTIVE
      · rw [if_pos hc]; exact ih h _
      · rw [if_neg hc]; exact ih h _

theorem CheckIfOtherStreamsAttached_of_mem (s b : StreamPtr) (e : Engine)
    (hb : b ∈ e.eng_streams_) (hne : b ≠ s) : CheckIfOtherStreamsAttached s e = true := by
  unfold CheckIfOtherStreamsAttached
  simp only [List.any_eq_true, bne_iff_ne]
  exact ⟨b, hb, fun h => hne h.symm⟩

/-- `UpdateEngineConfigOnStop` on a non-PDK engine with another listener in
sub-state Active: the merged confidence levels are recomputed without the
stopped listener and copied into the wakeup configuration. -/
theorem UpdateEngineConfigOnStop_merge (env : Env) (s b : StreamPtr) (e : Engine)
    (hpdk : e.isPDK = false) (hb : b ∈ e.eng_streams_) (hne : b ≠ s)
    (hd : dynCast env e.clk b = true)
    (hst : (env.stream e.clk b).currentStateId = .ST_STATE_ACTIVE) :
    (UpdateEngineConfigOnStop env s e).2.trace =
      e.trace ++ [Effect.UpdateMergeConfLevelsPayload s false] ∧
    ∀ i, i < (env.UpdateMergeConfLevelsPayload e.clk s false).2.length →
      (UpdateEngineConfigOnStop env s e).2.wakeup_config_.confidence_levels i =
        (env.UpdateMergeConfLevelsPayload e.clk s false).2.getD i 0 := by
  unfold UpdateEngineConfigOnStop
  dsimp only
  rw [if_neg (by simp [CheckIfOtherStreamsAttached_of_mem s b e hb hne])]
  rw [if_neg (by simp [scanRemaining_finds_active env e.clk s _ b hb hne hd hst])]
  rw [if_pos hpdk]
  refine ⟨rfl, ?_⟩
  intro i hi
  simp only [Engine.log, Engine.clk] at hi ⊢
  rw [if_pos hi]


theorem isLoadSoundModel_of_configStep (x : Effect) (h : isConfigStep x = true) :
    isLoadSoundModel x = false := by
  cases x with
  | updateSessionPayload p => cases p <;> simp_all [isConfigStep, isLoadSoundModel]
  | payloadSVAConfig p => cases p <;> simp_all [isConfigStep, isLoadSoundModel]
  | setParameters t sp => cases sp <;> simp_all [isConfigStep, isLoadSoundModel]
  | _ => simp_all [isConfigStep, isLoadSoundModel]

theorem isLoadSoundModel_of_resetStep (tag : Nat) (x : Effect)
    (h : isPayloadStep tag .ENGINE_RESET x) : isLoadSoundModel x = false := by
  rcases h with h | h | ⟨sp, hsp, h⟩
  · subst h; rfl
  · subst h; rfl
  · simp [sesParamId] at hsp; subst hsp; subst h; rfl

/-- C7: on an engine-active non-PDK engine with listeners A and B attached and
every collaborator call succeeding, `StopRecognition(A)` while B is in sub-state
Active ends in state Active, with the confidence levels of the wakeup
configuration equal to the merged levels recomputed without A, after a session
stop followed by prepare and start and without any load-sound-model write; while
no attached listener other than A is in sub-state Active, Buffering or Detected
it ends in state Loaded. -/
theorem stop_of_one_listener_among_several (env : Env) (A B : StreamPtr) (e : Engine)
    (hact : e.eng_state_ = .ENG_ACTIVE ∨ e.eng_state_ = .ENG_BUFFERING ∨
      e.eng_state_ = .ENG_DETECTED)
    (hpdk : e.isPDK = false)
    (_hA : A ∈ e.eng_streams_) (hB : B ∈ e.eng_streams_) (hAB : B ≠ A)
    (hok : AllCallsSucceed env) (hid : PayloadIdsConfigured e) (hfmt : MmapFormatOk e) :
    ((∀ c, dynCast env c B = true ∧
        (env.stream c B).currentStateId = .ST_STATE_ACTIVE) →
      ∃ e2 s1 before after, StopRecognition env A e = some (0, e2) ∧
        e2.eng_state_ = .ENG_ACTIVE ∧
        e2.trace = before ++ Effect.UpdateMergeConfLevelsPayload A false :: after ∧
        e.trace.length ≤ before.length ∧
        (∀ i, i < (env.UpdateMergeConfLevelsPayload before.length A false).2.length →
          e2.wakeup_config_.confidence_levels i =
            (env.UpdateMergeConfLevelsPayload before.length A false).2.getD i 0) ∧
        (∃ l1 l2 l3 l4, issued e e2 =
          l1 ++ Effect.sessionStop A :: (l2 ++ Effect.sessionPrepare s1 ::
            (l3 ++ Effect.sessionStart s1 :: l4))) ∧
        (issued e e2).countP isLoadSoundModel = 0) ∧
    ((∀ c, ∀ x ∈ e.eng_streams_, x ≠ A → dynCast env c x = true →
        (env.stream c x).currentStateId ≠ .ST_STATE_ACTIVE ∧
        (env.stream c x).currentStateId ≠ .ST_STATE_BUFFERING ∧
        (env.stream c x).currentStateId ≠ .ST_STATE_DETECTED) →
      ∃ st e2, StopRecognition env A e = some (st, e2) ∧ e2.eng_state_ = .ENG_LOADED) := by
  generalize hE : (({ e with exit_buffering_ := true } : Engine).log
      (.SetModelState A false)) = E
  have hEt : E.trace = e.trace ++ [Effect.SetModelState A false] := by rw [← hE]; rfl
  have hEa : IsEngineActive E = true := by
    rw [← hE]; exact (IsEngineActive_iff e).2 hact
  obtain ⟨suffix, hrst, _, hrf, _, hrms, hrmm, hru, hrt, hsteps, _, hr1⟩ :=
    ProcessStopRecognition_shape env A E
  have hEstr : E.eng_streams_ = e.eng_streams_ := by rw [← hE]; rfl
  have hEtag : E.module_tag_ids_ = e.module_tag_ids_ := by rw [← hE]; rfl
  constructor
  · intro hBst
    generalize hR : (ProcessStopRecognition env A E).2 = R at hrst hrf hrms hrmm hru hrt
    have hRB : B ∈ R.eng_streams_ := by rw [hrf.eng_streams_, hEstr]; exact hB
    have hchk : CheckIfOtherStreamsActive env A R = true :=
      (CheckIfOtherStreamsActive_iff env A R).2 ⟨B, hRB, hAB, (hBst _).1, Or.inl (hBst _).2⟩
    have hRpdk : R.isPDK = false := by rw [hrf.isPDK, ← hE]; exact hpdk
    obtain ⟨hmt, hmc⟩ := UpdateEngineConfigOnStop_merge env A B R hRpdk hRB hAB
      (hBst _).1 (hBst _).2
    obtain ⟨_, h3str, h3pdk, h3u, h3ms, h3mm, h3bw, h3ch, h3tag, h3par, _⟩ :=
      UpdateEngineConfigOnStop_frame env A R
    generalize h3 : (UpdateEngineConfigOnStop env A R).2 = e3
      at hmt hmc h3str h3pdk h3u h3ms h3mm h3bw h3ch h3tag h3par
    have h3id : PayloadIdsConfigured e3 := by
      intro p
      rw [h3tag, h3par, hrf.module_tag_ids_, hrf.param_ids_, ← hE]
      exact hid p
    have h3ne : ∃ s0 rest, e3.eng_streams_ = s0 :: rest := by
      cases hs : e3.eng_streams_ with
      | nil => rw [← h3str, hs] at hRB; simp at hRB
      | cons s0 rest => exact ⟨s0, rest, rfl⟩
    obtain ⟨s0, rest, hs0⟩ := h3ne
    obtain ⟨e2, s1, cfg, mm, rs, hps, hst2, _, _, hf2, _, ht2, hcfg, hmm2, hrs2, _⟩ :=
      ProcessStartRecognition_ok env s0 e3 hok h3id
        (fun hp _ => by rw [h3pdk, hRpdk] at hp; simp at hp)
        (fun hm _ => by
          rw [h3bw, h3ch, hrf.bit_width_, hrf.channels_, ← hE]
          exact hfmt (by rw [h3ms, hrms, ← hE] at hm; exact hm))
    have hstop : StopRecognition env A e = some (0, e2) := by
      unfold StopRecognition
      dsimp only
      rw [hE, if_pos hEa, hR, if_neg (by rw [hr1]; simp [hok.sessionStop]), if_pos hchk]
      unfold stopRestartOthers
      dsimp only
      rw [h3, if_neg (by rw [h3pdk, hRpdk]; simp)]
      dsimp only
      rw [hs0]
      dsimp only
      rw [hps]
      simp [ssrStatus]
    have htr : e2.trace = R.trace ++ Effect.UpdateMergeConfLevelsPayload A false ::
        (Effect.acquireWakeLock :: cfg ++ Effect.sessionPrepare s1 :: mm ++
          Effect.sessionStart s1 :: rs ++ [Effect.releaseWakeLock]) := by
      rw [ht2, hmt]; simp
    refine ⟨e2, s1, R.trace, _, hstop, hst2, htr, ?_, ?_, ?_, ?_⟩
    · rw [hrt, hEt]; simp
    · intro i hi
      rw [hf2.wakeup_config_]
      exact hmc i hi
    · refine ⟨Effect.SetModelState A false :: Effect.acquireWakeLock ::
          Effect.updateSessionPayload .ENGINE_RESET :: suffix,
        Effect.releaseWakeLock :: Effect.UpdateMergeConfLevelsPayload A false ::
          Effect.acquireWakeLock :: cfg, mm, rs ++ [Effect.releaseWakeLock], ?_⟩
      apply issued_of_trace
      rw [htr, hrt, hEt]
      simp
    · rw [issued_of_trace e e2 (Effect.SetModelState A false :: Effect.acquireWakeLock ::
          Effect.updateSessionPayload .ENGINE_RESET :: suffix ++
          [Effect.sessionStop A, Effect.releaseWakeLock,
            Effect.UpdateMergeConfLevelsPayload A false, Effect.acquireWakeLock] ++ cfg ++
          [Effect.sessionPrepare s1] ++ mm ++ [Effect.sessionStart s1] ++ rs ++
          [Effect.releaseWakeLock]) (by rw [htr, hrt, hEt]; simp)]
      have c1 : suffix.countP isLoadSoundModel = 0 :=
        List.countP_eq_zero.2 (fun y hy => by
          simp [isLoadSoundModel_of_resetStep _ y (hsteps y hy)])
      have c2 : cfg.countP isLoadSoundModel = 0 :=
        List.countP_eq_zero.2 (fun y hy => by
          simp [isLoadSoundModel_of_configStep y (hcfg y hy)])
      have c3 : mm.countP isLoadSoundModel = 0 :=
        List.countP_eq_zero.2 (fun y hy => by rw [hmm2 y hy]; simp [isLoadSoundModel])
      have c4 : rs.countP isLoadSoundModel = 0 :=
        List.countP_eq_zero.2 (fun y hy => by rw [hrs2 y hy]; simp [isLoadSoundModel])
      simp [List.countP_append, List.countP_cons, c1, c2, c3, c4, isLoadSoundModel]
  · intro hnone
    have hchk : CheckIfOtherStreamsActive env A (ProcessStopRecognition env A E).2 = false := by
      cases hc : CheckIfOtherStreamsActive env A (ProcessStopRecognition env A E).2 with
      | false => rfl
      | true =>
        obtain ⟨x, hx, hxA, hxd, hxs⟩ := (CheckIfOtherStreamsActive_iff env A _).1 hc
        rw [hrf.eng_streams_, hEstr] at hx
        have := hnone _ x hx hxA hxd
        tauto
    unfold StopRecognition
    dsimp only
    rw [hE, if_pos hEa, hchk]
    simp only [Bool.false_eq_true, if_false]
    split_ifs
    · exact ⟨_, _, rfl, hrst⟩
    · exact ⟨_, _, rfl, hrst⟩

/-! ## Sequences of client calls and the concurrent offset -/

theorem MmapFramesOk_congr {e e2 : Engine} (h : MmapFramesOk e)
    (hs : e2.mmap_buffer_size_ = e.mmap_buffer_size_)
    (hb : e2.bit_width_ = e.bit_width_) (hc : e2.channels_ = e.channels_) :
    MmapFramesOk e2 := by
  intro hne
  rw [hs] at hne ⊢
  rw [BytesToFrames_congr e e2 _ hb hc]
  exact h hne

theorem MmapFormatOk_of_frames {e : Engine} (h : MmapFramesOk e) : MmapFormatOk e := by
  intro hne hz
  obtain ⟨f, hf, _⟩ := h hne
  unfold BytesToFrames at hf
  rw [if_pos hz] at hf
  simp at hf

theorem StartedNoLaterStop_cons (c : ClientCall) (rest : List ClientCall) :
    StartedNoLaterStop (c :: rest) ↔
      (c = .start ∧ ClientCall.stop ∉ rest) ∨ StartedNoLaterStop rest := by
  constructor
  · rintro ⟨before, after, heq, hno⟩
    cases before with
    | nil =>
      simp at heq
      left
      exact ⟨heq.1, by rw [heq.2]; exact hno⟩
    | cons b bs =>
      simp at heq
      right
      exact ⟨bs, after, heq.2, hno⟩
  · rintro (⟨hc, hno⟩ | ⟨before, after, heq, hno⟩)
    · exact ⟨[], rest, by simp [hc], hno⟩
    · exact ⟨c :: before, after, by simp [heq], hno⟩

theorem StartedNoLaterStop_nil : ¬ StartedNoLaterStop [] := by
  rintro ⟨before, after, heq, _⟩
  simp at heq

/-- `RestartRecognition` returns, keeps the listener set, the payload ids, the
sample format and the mmap buffer size, and keeps the engine state or, from an
engine-active state, ends in Active. -/
theorem RestartRecognition_frame (env : Env) (s : StreamPtr) (e : Engine)
    (hmm : MmapFramesOk e) :
    ∃ st e2, RestartRecognition env s e = some (st, e2) ∧ SessionFrame e e2 ∧
      e2.mmap_buffer_size_ = e.mmap_buffer_size_ ∧
      (e2.eng_state_ = e.eng_state_ ∨
        (IsEngineActive e = true ∧ e2.eng_state_ = .ENG_ACTIVE)) := by
  unfold RestartRecognition
  by_cases ha : IsEngineActive e = false
  · rw [if_pos ha]
    exact ⟨0, e, rfl, SessionFrame.unchanged e, rfl, Or.inl rfl⟩
  · rw [if_neg ha]
    by_cases hd : env.concurrentEventCapture = true ∧
        (e.det_streams_q_.isEmpty = false ∨ CheckIfOtherStreamsBuffering env s e = true)
    · rw [if_pos hd]
      exact ⟨0, e, rfl, SessionFrame.unchanged e, rfl, Or.inl rfl⟩
    · rw [if_neg hd]
      dsimp only
      have he2 : ∃ E : Engine, (if e.custom_detection_event.isSome = true then
          ({ e with exit_buffering_ := true, buffer_ := e.buffer_.map PalRingBuffer.reset,
                    custom_detection_event := none, custom_detection_event_size := 0 } : Engine)
        else { e with exit_buffering_ := true, buffer_ := e.buffer_.map PalRingBuffer.reset }) =
          E ∧ SessionFrame e E ∧ E.mmap_buffer_size_ = e.mmap_buffer_size_ := by
        refine ⟨_, rfl, ?_⟩
        split_ifs <;> exact ⟨by constructor <;> rfl, rfl⟩
      obtain ⟨E, hEq, hEf, hEs⟩ := he2
      rw [hEq]
      clear hEq
      obtain ⟨suffix, m1, m2, cd, cds, hU, _, _⟩ :=
        UpdateSessionPayload_shape env .ENGINE_RESET E
      have hUf : SessionFrame E (UpdateSessionPayload env .ENGINE_RESET E).2 := by
        rw [hU]; constructor <;> rfl
      have hUs : (UpdateSessionPayload env .ENGINE_RESET E).2.mmap_buffer_size_ =
          E.mmap_buffer_size_ := by rw [hU]
      generalize (UpdateSessionPayload env .ENGINE_RESET E) = r at hUf hUs
      generalize hW : r.2.log (.waitEOS (env.eosSignalled r.2.clk)) = W
      have hWf : SessionFrame r.2 W := by rw [← hW]; constructor <;> rfl
      have hWs : W.mmap_buffer_size_ = r.2.mmap_buffer_size_ := by rw [← hW]; rfl
      have hmmW : MmapFramesOk W :=
        MmapFramesOk_congr hmm (by rw [hWs, hUs, hEs])
          (by rw [hWf.bit_width_, hUf.bit_width_, hEf.bit_width_])
          (by rw [hWf.channels_, hUf.channels_, hEf.channels_])
      obtain ⟨st, wp, sfx2, hR, _⟩ := restartMmap_shape env s r.1 W hmmW
      rw [hR]
      dsimp only
      have hact : IsEngineActive e = true := by
        cases h : IsEngineActive e with
        | true => rfl
        | false => exact absurd h ha
      refine ⟨_, _, rfl, ?_, ?_, Or.inr ⟨hact, rfl⟩⟩
      · exact hEf.followedBy (hUf.followedBy (hWf.followedBy (by constructor <;> rfl)))
      · show W.mmap_buffer_size_ = e.mmap_buffer_size_
        rw [hWs, hUs, hEs]


theorem StartRecognition_step (env : Env) (s : StreamPtr) (e0 e : Engine)
    (hok : AllCallsSucceed env) (hbuf : MmapBuffersOk env e0)
    (hpdk : e0.isPDK = true → ∀ c, dynCast env c s = true)
    (hinv : SingleListenerInv s e0 e) :
    ∃ st e2, StartRecognition env s e = some (st, e2) ∧ SingleListenerInv s e0 e2 ∧
      e2.eng_state_ = .ENG_ACTIVE := by
  unfold StartRecognition
  dsimp only
  generalize hE : (({ e with exit_buffering_ := true } : Engine).log
      (.SetModelState s true)) = E
  have hEf : SessionFrame e E := by rw [← hE]; constructor <;> rfl
  have hEs : E.mmap_buffer_size_ = e.mmap_buffer_size_ := by rw [← hE]; rfl
  have key : ∀ R : Engine, SessionFrame e R → R.mmap_buffer_size_ = e.mmap_buffer_size_ →
      ∃ e2, ProcessStartRecognition env s R = some (0, e2) ∧ SingleListenerInv s e0 e2 ∧
        e2.eng_state_ = .ENG_ACTIVE := by
    intro R hRf hRs
    have hRid : PayloadIdsConfigured R := by
      intro p; rw [hRf.module_tag_ids_, hRf.param_ids_]; exact hinv.ids p
    have hRmm : MmapFramesOk R :=
      MmapFramesOk_congr hinv.frames hRs hRf.bit_width_ hRf.channels_
    obtain ⟨e2, s1, cfg, mm, rs, hps, hst2, _, _, hf2, hsz, _, _, _, _, _⟩ :=
      ProcessStartRecognition_ok env s R hok hRid
        (fun hp _ => hpdk (by rw [← hinv.isPDK, ← hRf.isPDK]; exact hp) _)
        (fun hm _ => MmapFormatOk_of_frames hRmm hm)
    have hf : SessionFrame e e2 := hRf.followedBy hf2
    refine ⟨e2, hps, ?_, hst2⟩
    constructor
    · rw [hf.eng_streams_]; exact hinv.eng_streams_
    · intro p; rw [hf.module_tag_ids_, hf.param_ids_]; exact hinv.ids p
    · rcases hsz with h | ⟨c, n, h⟩
      · exact MmapFramesOk_congr hinv.frames (by rw [h, hRs]) hf.bit_width_ hf.channels_
      · intro hne
        rw [h] at hne ⊢
        exact hbuf c s1 n e2 (by rw [hf.bit_width_]; exact hinv.bit_width_)
          (by rw [hf.channels_]; exact hinv.channels_) hne
    · rw [hf.bit_width_]; exact hinv.bit_width_
    · rw [hf.channels_]; exact hinv.channels_
    · rw [hf.isPDK]; exact hinv.isPDK
    · exact Or.inr hst2
  by_cases ha : IsEngineActive E = true
  · rw [if_pos ha, hEf.eng_streams_, hinv.eng_streams_]
    dsimp only
    obtain ⟨_, _, _, hfr, _, hms, _, _, _, _, _, _⟩ := ProcessStopRecognition_shape env s E
    obtain ⟨e2, hps, hinv2, hst2⟩ := key _ (hEf.followedBy hfr) (by rw [hms, hEs])
    rw [hps]
    dsimp only
    rw [if_neg (by simp)]
    exact ⟨_, e2, rfl, hinv2, hst2⟩
  · rw [if_neg ha]
    dsimp only
    obtain ⟨e2, hps, hinv2, hst2⟩ := key E hEf hEs
    rw [hps]
    dsimp only
    rw [if_neg (by simp)]
    exact ⟨_, e2, rfl, hinv2, hst2⟩

theorem StopRecognition_step (env : Env) (s : StreamPtr) (e0 e : Engine)
    (hinv : SingleListenerInv s e0 e) :
    ∃ st e2, StopRecognition env s e = some (st, e2) ∧ SingleListenerInv s e0 e2 ∧
      e2.eng_state_ = .ENG_LOADED := by
  rcases hinv.state with hl | ha
  · refine ⟨_, _, StopRecognition_inactive env s e (not_active_of_stopped e (Or.inl hl)), ?_, hl⟩
    constructor
    · exact hinv.eng_streams_
    · exact hinv.ids
    · exact hinv.frames
    · exact hinv.bit_width_
    · exact hinv.channels_
    · exact hinv.isPDK
    · exact Or.inl hl
  · obtain ⟨st, h1⟩ := StopRecognition_single env s e
      ((IsEngineActive_iff e).2 (Or.inl ha)) hinv.eng_streams_
    obtain ⟨_, hst, _, hfr, _, hms, _, _, _, _, _, _⟩ := ProcessStopRecognition_shape env s
      (({ e with exit_buffering_ := true } : Engine).log (.SetModelState s false))
    generalize (ProcessStopRecognition env s
      (({ e with exit_buffering_ := true } : Engine).log (.SetModelState s false))).2 = e2
      at h1 hst hfr hms
    have hf : SessionFrame e e2 :=
      SessionFrame.followedBy (by constructor <;> rfl) hfr
    refine ⟨st, e2, h1, ?_, hst⟩
    constructor
    · rw [hf.eng_streams_]; exact hinv.eng_streams_
    · intro p; rw [hf.module_tag_ids_, hf.param_ids_]; exact hinv.ids p
    · exact MmapFramesOk_congr hinv.frames hms hf.bit_width_ hf.channels_
    · rw [hf.bit_width_]; exact hinv.bit_width_
    · rw [hf.channels_]; exact hinv.channels_
    · rw [hf.isPDK]; exact hinv.isPDK
    · exact Or.inl hst

theorem RestartRecognition_step (env : Env) (s : StreamPtr) (e0 e : Engine)
    (hinv : SingleListenerInv s e0 e) :
    ∃ st e2, RestartRecognition env s e = some (st, e2) ∧ SingleListenerInv s e0 e2 ∧
      e2.eng_state_ = e.eng_state_ := by
  obtain ⟨st, e2, h1, hf, hms, hstate⟩ := RestartRecognition_frame env s e hinv.frames
  have hsame : e2.eng_state_ = e.eng_state_ := by
    rcases hstate with h | ⟨hact, h⟩
    · exact h
    · rcases hinv.state with hl | ha
      · rw [not_active_of_stopped e (Or.inl hl)] at hact
        simp at hact
      · rw [h, ha]
  refine ⟨st, e2, h1, ?_, hsame⟩
  constructor
  · rw [hf.eng_streams_]; exact hinv.eng_streams_
  · intro p; rw [hf.module_tag_ids_, hf.param_ids_]; exact hinv.ids p
  · exact MmapFramesOk_congr hinv.frames hms hf.bit_width_ hf.channels_
  · rw [hf.bit_width_]; exact hinv.bit_width_
  · rw [hf.channels_]; exact hinv.channels_
  · rw [hf.isPDK]; exact hinv.isPDK
  · rw [hsame]; exact hinv.state

theorem runCalls_single_listener (env : Env) (s : StreamPtr) (e0 : Engine)
    (hok : AllCallsSucceed env) (hbuf : MmapBuffersOk env e0)
    (hpdk : e0.isPDK = true → ∀ c, dynCast env c s = true) (calls : List ClientCall) :
    ∀ e, SingleListenerInv s e0 e →
      ∃ e2, runCalls env s calls e = some e2 ∧
        (e2.eng_state_ = .ENG_LOADED ∨ e2.eng_state_ = .ENG_ACTIVE) ∧
        (e2.eng_state_ = .ENG_ACTIVE ↔
          (StartedNoLaterStop calls ∨
            (e.eng_state_ = .ENG_ACTIVE ∧ ClientCall.stop ∉ calls))) := by
  induction calls with
  | nil =>
    intro e hinv
    refine ⟨e, rfl, hinv.state, ?_⟩
    constructor
    · intro h; exact Or.inr ⟨h, by simp⟩
    · rintro (h | ⟨h, _⟩)
      · exact absurd h StartedNoLaterStop_nil
      · exact h
  | cons c rest ih =>
    intro e hinv
    cases c with
    | start =>
      obtain ⟨st, e1, h1, hinv1, hs1⟩ := StartRecognition_step env s e0 e hok hbuf hpdk hinv
      obtain ⟨e2, h2, hst2, hiff⟩ := ih e1 hinv1
      refine ⟨e2, by simp [runCalls, applyCall, h1, h2], hst2, ?_⟩
      rw [hiff, StartedNoLaterStop_cons]
      simp [hs1]
      tauto
    | stop =>
      obtain ⟨st, e1, h1, hinv1, hs1⟩ := StopRecognition_step env s e0 e hinv
      obtain ⟨e2, h2, hst2, hiff⟩ := ih e1 hinv1
      refine ⟨e2, by simp [runCalls, applyCall, h1, h2], hst2, ?_⟩
      rw [hiff, StartedNoLaterStop_cons]
      simp [hs1]
    | restart =>
      obtain ⟨st, e1, h1, hinv1, hs1⟩ := RestartRecognition_step env s e0 e hinv
      obtain ⟨e2, h2, hst2, hiff⟩ := ih e1 hinv1
      refine ⟨e2, by simp [runCalls, applyCall, h1, h2], hst2, ?_⟩
      rw [hiff, StartedNoLaterStop_cons]
      simp [hs1]

/-- C1: on a single-listener engine in state Loaded whose collaborator calls all
succeed, after every finite sequence of `StartRecognition`, `StopRecognition` and
`RestartRecognition` calls the engine state is one of Active, Buffering, Detected
if and only if the sequence contains a start with no later stop, it is Loaded
otherwise, and it is never Idle. -/
theorem state_after_client_calls (env : Env) (s : StreamPtr) (e : Engine)
    (calls : List ClientCall)
    (hst : e.eng_state_ = .ENG_LOADED) (hs : e.eng_streams_ = [s])
    (hok : AllCallsSucceed env) (hid : PayloadIdsConfigured e)
    (hmm : MmapFramesOk e) (hbuf : MmapBuffersOk env e)
    (hpdk : e.isPDK = true → ∀ c, dynCast env c s = true) :
    ∃ e2, runCalls env s calls e = some e2 ∧
      ((e2.eng_state_ = .ENG_ACTIVE ∨ e2.eng_state_ = .ENG_BUFFERING ∨
          e2.eng_state_ = .ENG_DETECTED) ↔ StartedNoLaterStop calls) ∧
      (¬ StartedNoLaterStop calls → e2.eng_state_ = .ENG_LOADED) ∧
      e2.eng_state_ ≠ .ENG_IDLE := by
  obtain ⟨e2, h2, hst2, hiff⟩ := runCalls_single_listener env s e hok hbuf hpdk calls e
    ⟨hs, hid, hmm, rfl, rfl, rfl, Or.inl hst⟩
  have hiff2 : e2.eng_state_ = .ENG_ACTIVE ↔ StartedNoLaterStop calls := by
    rw [hiff, hst]; simp
  refine ⟨e2, h2, ?_, ?_, ?_⟩
  · rw [← hiff2]
    rcases hst2 with h | h <;> simp [h]
  · intro hn
    rcases hst2 with h | h
    · exact h
    · exact absurd (hiff2.1 h) hn
  · rcases hst2 with h | h <;> simp [h]



/-- The offset arithmetic of a concurrent detection while the offset of the
second keyword from the begin of the buffer fits in 32 bits. -/
theorem concurrent_offset_arith (E1 R1 S2 : Nat) (h1 : E1 < U64) (h2 : R1 < U64)
    (h3 : S2 < U64) (hge : E1 ≤ S2 + R1) (hfit : S2 + R1 - E1 < U32) :
    ((S2 % U64 + U64 - (E1 % U64 + U64 - R1 % U64) % U64) % U64) % U32 = S2 + R1 - E1 := by
  simp only [U64, U32] at *
  omega

/-- The concurrent-detection offset law holds while the offset fits in 32 bits:
the start index registered for the second listener is the byte conversion of
`S2 - (E1 - R1)`. -/
theorem concurrent_start_index_when_it_fits (env : Env) (data : List Nat) (e : Engine)
    (b : PalRingBuffer) (s : StreamPtr) (S1 E1 R1 S2 E2 R2 : Nat)
    (hstate : e.eng_state_ = .ENG_BUFFERING ∨ e.eng_state_ = .ENG_DETECTED)
    (hcc : env.concurrentEventCapture = true)
    (hbuf : e.buffer_ = some b) (hcap : b.bufferSize ≠ 0)
    (hs : env.GetDetectedStream e.clk data = s) (hs0 : s ≠ 0)
    (hparse : env.ParseDetectionPayload (e.clk + 1) s data = 0)
    (hk1 : env.GetKeywordStats (e.clk + 2) e.first_det_stream_ = (S1, E1, R1))
    (hk2 : env.GetKeywordStats (e.clk + 2) s = (S2, E2, R2))
    (h1 : E1 < U64) (h2 : R1 < U64) (h3 : S2 < U64)
    (hge : E1 ≤ S2 + R1) (hfit : S2 + R1 - E1 < U32) :
    ∃ e2 b2, HandleSessionEvent env data e = some e2 ∧ e2.buffer_ = some b2 ∧
      (b2.getIndices s).1 = UsToBytes e (S2 + R1 - E1) ∧
      e2.det_streams_q_ = e.det_streams_q_ ++ [s] := by
  have hl : ¬ (e.eng_state_ = .ENG_LOADED) := by rcases hstate with h | h <;> rw [h] <;> simp
  have hna : ¬ (e.eng_state_ = .ENG_ACTIVE) := by rcases hstate with h | h <;> rw [h] <;> simp
  have hc : ¬ (e.eng_state_ ≠ .ENG_ACTIVE ∧
        (if env.concurrentEventCapture = true then
          e.eng_state_ ≠ .ENG_BUFFERING ∧ e.eng_state_ ≠ .ENG_DETECTED
        else True)) := by
    rintro ⟨_, h⟩
    rw [if_pos hcc] at h
    rcases hstate with h2 | h2
    · exact h.1 h2
    · exact h.2 h2
  unfold HandleSessionEvent
  dsimp only
  rw [if_neg hl, if_neg hc, if_neg hna]
  dsimp only
  simp only [Engine.clk, Engine.log, List.length_append, List.length_singleton] at hs hparse hk1 hk2 ⊢
  rw [hs, if_neg hs0, hparse]
  simp only [ne_eq, not_true_eq_false, if_false]
  rw [if_neg hna]
  unfold handleConcurrentDetection
  dsimp only
  simp only [Engine.clk, List.length_append, List.length_singleton, hbuf, hk1, hk2,
    PalRingBuffer.getBufferSize, if_neg hcap]
  refine ⟨_, _, rfl, rfl, ?_, rfl⟩
  simp only [PalRingBuffer.updateKwdConfig, PalRingBuffer.getIndices, mapFind_mapSet_self,
    UsToBytes]
  rw [concurrent_offset_arith E1 R1 S2 h1 h2 h3 hge hfit]

/-! ## The claims at the sample engines -/

theorem sampleEnv_succeeds : AllCallsSucceed sampleEnv :=
  ⟨fun _ _ => rfl, fun _ _ => rfl, fun _ _ _ => rfl, fun _ _ => rfl, fun _ _ => rfl,
    fun _ _ => rfl, fun _ _ _ => rfl, fun _ _ => rfl, fun _ _ => rfl⟩

theorem sampleEngine_ids (e : Engine) (h1 : e.module_tag_ids_ = sampleEngine.module_tag_ids_)
    (h2 : e.param_ids_ = sampleEngine.param_ids_) : PayloadIdsConfigured e := by
  intro p
  rw [h1, h2]
  exact ⟨Nat.one_ne_zero, Nat.one_ne_zero⟩

theorem sampleEnv_buffers : MmapBuffersOk sampleEnv sampleEngine := by
  intro c s n e2 hb hc hne
  have hb2 : e2.bit_width_ = 16 := hb
  have hc2 : e2.channels_ = 1 := hc
  unfold FrameToBytes at hne ⊢
  unfold BytesToFrames
  rw [hb2, hc2] at hne ⊢
  simp only [sampleEnv, BITS_PER_BYTE, U32] at hne ⊢
  rw [if_neg (by decide)]
  refine ⟨_, rfl, ?_⟩
  omega

/-- C1 at the sample engine: after start, restart, stop, start the engine is
engine-active. -/
theorem state_after_client_calls_witness :
    ∃ e2, runCalls sampleEnv 1 [.start, .restart, .stop, .start] sampleEngine = some e2 ∧
      ((e2.eng_state_ = .ENG_ACTIVE ∨ e2.eng_state_ = .ENG_BUFFERING ∨
          e2.eng_state_ = .ENG_DETECTED) ↔
        StartedNoLaterStop [.start, .restart, .stop, .start]) ∧
      (¬ StartedNoLaterStop [.start, .restart, .stop, .start] →
        e2.eng_state_ = .ENG_LOADED) ∧
      e2.eng_state_ ≠ .ENG_IDLE :=
  state_after_client_calls sampleEnv 1 sampleEngine [.start, .restart, .stop, .start]
    rfl rfl sampleEnv_succeeds (sampleEngine_ids sampleEngine rfl rfl)
    (fun h => absurd rfl h) sampleEnv_buffers (fun h => absurd h (by decide))

/-- C2 at the loaded sample engine. -/
theorem restart_is_noop_when_not_active_witness :
    ∃ e2, RestartRecognition sampleEnv 1 sampleEngine = some (0, e2) ∧
      e2.eng_state_ = sampleEngine.eng_state_ ∧
      e2.exit_buffering_ = sampleEngine.exit_buffering_ ∧
      e2.buffer_ = sampleEngine.buffer_ ∧
      e2.custom_detection_event = sampleEngine.custom_detection_event ∧
      e2.mmap_write_position_ = sampleEngine.mmap_write_position_ ∧
      issued sampleEngine e2 = [] ∧
      (issued sampleEngine e2).countP isEngineResetRequest = 0 ∧
      (issued sampleEngine e2).countP isEngineResetWrite = 0 :=
  restart_is_noop_when_not_active sampleEnv 1 sampleEngine (Or.inr rfl)

/-- C3 at the sample engine that is buffering the detection of listener 1. -/
theorem restart_is_deferred_while_buffering_witness :
    ∃ e2, RestartRecognition sampleEnv 2 sampleBufferingEngine = some (0, e2) ∧
      e2.eng_state_ = sampleBufferingEngine.eng_state_ ∧
      e2.buffer_ = sampleBufferingEngine.buffer_ ∧
      e2.det_streams_q_ = sampleBufferingEngine.det_streams_q_ ∧
      e2.exit_buffering_ = sampleBufferingEngine.exit_buffering_ ∧
      issued sampleBufferingEngine e2 = [] ∧
      (issued sampleBufferingEngine e2).countP isEngineResetRequest = 0 ∧
      (issued sampleBufferingEngine e2).countP isEngineResetWrite = 0 :=
  restart_is_deferred_while_buffering sampleEnv 2 sampleBufferingEngine
    (Or.inr (Or.inl rfl)) rfl (Or.inl (by decide))

/-- C4 at the active sample engine. -/
theorem restart_resets_engine_to_active_witness :
    ∃ status e2, RestartRecognition sampleEnv 1 sampleActiveEngine = some (status, e2) ∧
      e2.eng_state_ = .ENG_ACTIVE ∧
      e2.exit_buffering_ = false ∧
      e2.buffer_ = sampleActiveEngine.buffer_.map PalRingBuffer.reset ∧
      e2.custom_detection_event = none ∧
      (issued sampleActiveEngine e2).countP isEngineResetRequest = 1 ∧
      (issued sampleActiveEngine e2).countP isEngineResetWrite ≤ 1 ∧
      (ResetPayloadReady sampleEnv sampleActiveEngine →
        (issued sampleActiveEngine e2).countP isEngineResetWrite = 1) :=
  restart_resets_engine_to_active sampleEnv 1 sampleActiveEngine (Or.inl rfl)
    (by
      rintro ⟨_, h | ⟨x, hx, hne, _⟩⟩
      · exact h rfl
      · exact hne (List.mem_singleton.1 hx))
    (fun h => absurd rfl h)

/-- C5, as the code has it, at the active sample engine. -/
theorem stop_resets_and_stops_only_when_active_witness :
    ∃ st e2, StopRecognition sampleEnv 1 sampleActiveEngine = some (st, e2) ∧
      Effect.updateSessionPayload .ENGINE_RESET ∈ issued sampleActiveEngine e2 ∧
      Effect.sessionStop 1 ∈ issued sampleActiveEngine e2 ∧
      (ResetPayloadReady sampleEnv sampleActiveEngine →
        Effect.setParameters (sampleActiveEngine.module_tag_ids_ .ENGINE_RESET)
          .PAL_PARAM_ID_WAKEUP_ENGINE_RESET ∈ issued sampleActiveEngine e2) :=
  (stop_resets_and_stops_only_when_active sampleEnv 1 sampleActiveEngine
    (fun h => absurd h (by decide)) (fun h => absurd rfl h)).1 (Or.inl rfl)

/-- C6 at the active sample engine: two stops in a row. -/
theorem stop_twice_is_stop_once_witness :
    ∃ r1 e1 r2 e2, StopRecognition sampleEnv 1 sampleActiveEngine = some (r1, e1) ∧
      StopRecognition sampleEnv 1 e1 = some (r2, e2) ∧
      e1.eng_state_ = .ENG_LOADED ∧
      e2.eng_state_ = e1.eng_state_ ∧
      (issued sampleActiveEngine e1).countP isSessionStop = 1 ∧
      (issued sampleActiveEngine e2).countP isSessionStop = 1 :=
  (stop_twice_is_stop_once sampleEnv 1 sampleActiveEngine).2 (Or.inl rfl) rfl

/-- C7 at the sample engine shared by listeners 1 and 2: listener 1 stops while
listener 2 is in sub-state Active. -/
theorem stop_of_one_listener_among_several_witness :
    ∃ e2 s1 before after, StopRecognition sampleEnv 1 sampleSharedEngine = some (0, e2) ∧
      e2.eng_state_ = .ENG_ACTIVE ∧
      e2.trace = before ++ Effect.UpdateMergeConfLevelsPayload 1 false :: after ∧
      sampleSharedEngine.trace.length ≤ before.length ∧
      (∀ i, i < (sampleEnv.UpdateMergeConfLevelsPayload before.length 1 false).2.length →
        e2.wakeup_config_.confidence_levels i =
          (sampleEnv.UpdateMergeConfLevelsPayload before.length 1 false).2.getD i 0) ∧
      (∃ l1 l2 l3 l4, issued sampleSharedEngine e2 =
        l1 ++ Effect.sessionStop 1 :: (l2 ++ Effect.sessionPrepare s1 ::
          (l3 ++ Effect.sessionStart s1 :: l4))) ∧
      (issued sampleSharedEngine e2).countP isLoadSoundModel = 0 :=
  (stop_of_one_listener_among_several sampleEnv 1 2 sampleSharedEngine (Or.inl rfl) rfl
    (by decide) (by decide) (by decide) sampleEnv_succeeds
    (sampleEngine_ids sampleSharedEngine rfl rfl) (fun h => absurd rfl h)).1
    (fun _ => ⟨rfl, rfl⟩)

/-- C8 at the loaded sample engine. -/
theorem stale_or_unhandled_event_is_ignored_witness :
    ∃ e2, HandleSessionEvent sampleEnv [] sampleEngine = some e2 ∧
      e2.eng_state_ = sampleEngine.eng_state_ ∧
      e2.det_streams_q_ = sampleEngine.det_streams_q_ ∧
      e2.first_det_stream_ = sampleEngine.first_det_stream_ ∧
      e2.buffer_ = sampleEngine.buffer_ ∧
      (issued sampleEngine e2).countP isWakeLockAcquire = 0 ∧
      (sampleEngine.eng_state_ = .ENG_LOADED →
        (issued sampleEngine e2).countP isEngineResetRequest = 1) ∧
      (sampleEngine.eng_state_ ≠ .ENG_LOADED → issued sampleEngine e2 = []) :=
  stale_or_unhandled_event_is_ignored sampleEnv [] sampleEngine (Or.inl rfl)

/-- C9 at the active sample engine: listener 1 is detected. -/
theorem first_detection_in_active_witness :
    ∃ e2 b2, HandleSessionEvent sampleEnv [] sampleActiveEngine = some e2 ∧
      e2.det_streams_q_ = [1] ∧
      e2.first_det_stream_ = 1 ∧
      e2.buffer_ = some b2 ∧
      b2 = (PalRingBuffer.mk 65536 0 [0] []).reset.updateKwdConfig 1
        ((sampleEnv.GetKeywordIndex (sampleActiveEngine.clk + 3) 1).1 % U32)
        ((sampleEnv.GetKeywordIndex (sampleActiveEngine.clk + 3) 1).2 % U32)
        (UsToBytes sampleActiveEngine
          (((sampleEnv.GetBufferingConfigs (sampleActiveEngine.clk + 3) 1).2 % U32 * 1000) %
            U32)) ∧
      mapFind b2.kwCfg 1 = some
        ⟨(sampleEnv.GetKeywordIndex (sampleActiveEngine.clk + 3) 1).1 % U32,
         (sampleEnv.GetKeywordIndex (sampleActiveEngine.clk + 3) 1).2 % U32,
         UsToBytes sampleActiveEngine
          (((sampleEnv.GetBufferingConfigs (sampleActiveEngine.clk + 3) 1).2 % U32 * 1000) %
            U32)⟩ ∧
      ((sampleEnv.GetBufferingConfigs (sampleActiveEngine.clk + 3) 1).2 * 1000 < U32 →
        mapFind b2.kwCfg 1 = some
          ⟨(sampleEnv.GetKeywordIndex (sampleActiveEngine.clk + 3) 1).1 % U32,
           (sampleEnv.GetKeywordIndex (sampleActiveEngine.clk + 3) 1).2 % U32,
           UsToBytes sampleActiveEngine
            ((sampleEnv.GetBufferingConfigs (sampleActiveEngine.clk + 3) 1).2 * 1000)⟩) ∧
      (issued sampleActiveEngine e2).countP isWakeLockAcquire = 1 ∧
      (issued sampleActiveEngine e2).countP isWakeLockRelease = 0 ∧
      e2.eng_state_ = .ENG_DETECTED :=
  first_detection_in_active sampleEnv [] sampleActiveEngine ⟨65536, 0, [0], []⟩ 1
    rfl rfl rfl (by decide) rfl

/-! ## Concurrent detections: the indices handed to the client -/

/-- The effects of a concurrent detection: the window registered with the ring
buffer and the two values published to the client. -/
theorem HandleSessionEvent_concurrent_shape (env : Env) (data : List Nat) (e : Engine)
    (b : PalRingBuffer) (s : StreamPtr) (S2 E2 R2 : Nat)
    (hstate : e.eng_state_ = .ENG_BUFFERING ∨ e.eng_state_ = .ENG_DETECTED)
    (hcc : env.concurrentEventCapture = true)
    (hbuf : e.buffer_ = some b) (hcap : b.bufferSize ≠ 0)
    (hs : env.GetDetectedStream e.clk data = s) (hs0 : s ≠ 0)
    (hparse : env.ParseDetectionPayload (e.clk + 1) s data = 0)
    (hk2 : env.GetKeywordStats (e.clk + 2) s = (S2, E2, R2)) :
    ∃ e2 cfg, HandleSessionEvent env data e = some e2 ∧
      e2.buffer_ = some { b with kwCfg := mapSet b.kwCfg s cfg } ∧
      cfg.preRoll =
        UsToBytes e (((env.GetBufferingConfigs (e.clk + 2) s).2 % U32 * 1000) % U32) ∧
      e2.trace = e.trace ++ [.GetDetectedStream, .ParseDetectionPayload s,
        .SetReadOffset s (cfg.startIdx % b.bufferSize - cfg.preRoll),
        .UpdateIndices s (min cfg.preRoll (cfg.startIdx % b.bufferSize))
          ((min cfg.preRoll (cfg.startIdx % b.bufferSize) +
            UsToBytes e ((E2 % U64 + U64 - S2 % U64) % U64)) % U32)] ∧
      e2.det_streams_q_ = e.det_streams_q_ ++ [s] ∧
      e2.eng_state_ = e.eng_state_ ∧ e2.eng_streams_ = e.eng_streams_ := by
  have hl : ¬ (e.eng_state_ = .ENG_LOADED) := by rcases hstate with h | h <;> rw [h] <;> simp
  have hna : ¬ (e.eng_state_ = .ENG_ACTIVE) := by rcases hstate with h | h <;> rw [h] <;> simp
  have hc : ¬ (e.eng_state_ ≠ .ENG_ACTIVE ∧
        (if env.concurrentEventCapture = true then
          e.eng_state_ ≠ .ENG_BUFFERING ∧ e.eng_state_ ≠ .ENG_DETECTED
        else True)) := by
    rintro ⟨_, h⟩
    rw [if_pos hcc] at h
    rcases hstate with h2 | h2
    · exact h.1 h2
    · exact h.2 h2
  unfold HandleSessionEvent
  dsimp only
  rw [if_neg hl, if_neg hc, if_neg hna]
  dsimp only
  simp only [Engine.clk, Engine.log, List.length_append, List.length_singleton] at hs hparse hk2 ⊢
  rw [hs, if_neg hs0, hparse]
  simp only [ne_eq, not_true_eq_false, if_false]
  rw [if_neg hna]
  unfold handleConcurrentDetection
  dsimp only
  simp only [Engine.clk, List.length_append, List.length_singleton, hbuf, hk2,
    PalRingBuffer.getBufferSize, if_neg hcap]
  refine ⟨_, ⟨_, _, _⟩, rfl, rfl, ?_, ?_, rfl, rfl, rfl⟩
  · simp [UsToBytes]
  · have hm : ∀ a c : Nat, (if a < c then a else c) = min c a := by
      intro a c; split_ifs with h <;> omega
    have hsub : ∀ a c : Nat, (if a > c then a - c else 0) = a - c := by
      intro a c; split_ifs with h <;> omega
    rw [hm, hsub]
    simp [UsToBytes, Engine.log, PalRingBuffer.updateKwdConfig]

/-- C11, as the claim states it, fails once the ring has wrapped: listener 2 is
detected 2.1 s after the buffer begins, so its registered linear start is 67200
bytes in a ring of 65536 bytes; the configured pre-roll is 16000 bytes, and the
keyword start handed to the client is 1664, which is `67200 mod 65536`, not
`min 16000 67200`. -/
theorem concurrent_preroll_is_clamped_to_wrapped_start :
    ∃ e2 b2 cfg, HandleSessionEvent wrappedDetectionEnv [] sampleBufferingEngine = some e2 ∧
      e2.buffer_ = some b2 ∧ mapFind b2.kwCfg 2 = some cfg ∧
      cfg.startIdx = 67200 ∧ cfg.preRoll = 16000 ∧
      issued sampleBufferingEngine e2 =
        [.GetDetectedStream, .ParseDetectionPayload 2, .SetReadOffset 2 0,
          .UpdateIndices 2 1664 17664] ∧
      (1664 : Nat) ≠ min 16000 67200 :=
  ⟨_, _, _, rfl, rfl, rfl, by decide, by decide, by decide, by decide⟩

/-- C11 (amended): for a concurrent detection the keyword start index handed to
the client is `min(configuredPreRollBytes, thisStart mod C)`, where `thisStart`
is the linear byte offset registered with the ring buffer and `C` the capacity
of the ring, so it is `min(configuredPreRollBytes, thisStart)` while
`thisStart < C`; the client-facing end index is that start index plus the byte
length of the keyword, in 32-bit arithmetic, hence exactly the sum when the
sum fits in 32 bits. -/
theorem concurrent_client_indices (env : Env) (data : List Nat) (e : Engine)
    (b : PalRingBuffer) (s : StreamPtr) (S2 E2 R2 : Nat)
    (hstate : e.eng_state_ = .ENG_BUFFERING ∨ e.eng_state_ = .ENG_DETECTED)
    (hcc : env.concurrentEventCapture = true)
    (hbuf : e.buffer_ = some b) (hcap : b.bufferSize ≠ 0)
    (hs : env.GetDetectedStream e.clk data = s) (hs0 : s ≠ 0)
    (hparse : env.ParseDetectionPayload (e.clk + 1) s data = 0)
    (hk2 : env.GetKeywordStats (e.clk + 2) s = (S2, E2, R2))
    (hle : S2 ≤ E2) (hE : E2 < U64) :
    ∃ e2 b2 cfg ro cs ce, HandleSessionEvent env data e = some e2 ∧
      e2.buffer_ = some b2 ∧ mapFind b2.kwCfg s = some cfg ∧
      (b2.getIndices s).1 = cfg.startIdx ∧
      cfg.preRoll =
        UsToBytes e (((env.GetBufferingConfigs (e.clk + 2) s).2 % U32 * 1000) % U32) ∧
      issued e e2 = [.GetDetectedStream, .ParseDetectionPayload s, .SetReadOffset s ro,
        .UpdateIndices s cs ce] ∧
      cs = min cfg.preRoll (cfg.startIdx % b.bufferSize) ∧
      (cfg.startIdx < b.bufferSize → cs = min cfg.preRoll cfg.startIdx) ∧
      ce = (cs + UsToBytes e (E2 - S2)) % U32 ∧
      (cs + UsToBytes e (E2 - S2) < U32 → ce = cs + UsToBytes e (E2 - S2)) := by
  obtain ⟨e2, cfg, hrun, hb2, hpre, htr, -, -, -⟩ :=
    HandleSessionEvent_concurrent_shape env data e b s S2 E2 R2 hstate hcc hbuf hcap hs hs0
      hparse hk2
  have hdiff : (E2 % U64 + U64 - S2 % U64) % U64 = E2 - S2 := by
    have hS : S2 < U64 := lt_of_le_of_lt hle hE
    rw [Nat.mod_eq_of_lt hE, Nat.mod_eq_of_lt hS]
    simp only [U64] at *
    omega
  rw [hdiff] at htr
  refine ⟨e2, _, cfg, _, _, _, hrun, hb2, mapFind_mapSet_self _ _ _, ?_, hpre,
    issued_of_trace e e2 _ htr, rfl, ?_, rfl, ?_⟩
  · simp [PalRingBuffer.getIndices, mapFind_mapSet_self]
  · intro h
    rw [Nat.mod_eq_of_lt h]
  · intro h
    exact Nat.mod_eq_of_lt h

/-- C12: for a concurrent detection with ring capacity `C > 0` the read offset
published to the client is `max(0, (thisStart mod C) - configuredPreRollBytes)`,
and the published read offset plus the client-facing keyword start index is
`thisStart mod C`. -/
theorem concurrent_read_offset_and_start (env : Env) (data : List Nat) (e : Engine)
    (b : PalRingBuffer) (s : StreamPtr)
    (hstate : e.eng_state_ = .ENG_BUFFERING ∨ e.eng_state_ = .ENG_DETECTED)
    (hcc : env.concurrentEventCapture = true)
    (hbuf : e.buffer_ = some b) (hcap : 0 < b.bufferSize)
    (hs : env.GetDetectedStream e.clk data = s) (hs0 : s ≠ 0)
    (hparse : env.ParseDetectionPayload (e.clk + 1) s data = 0) :
    ∃ e2 b2 cfg ro cs ce, HandleSessionEvent env data e = some e2 ∧
      e2.buffer_ = some b2 ∧ mapFind b2.kwCfg s = some cfg ∧
      (b2.getIndices s).1 = cfg.startIdx ∧
      cfg.preRoll =
        UsToBytes e (((env.GetBufferingConfigs (e.clk + 2) s).2 % U32 * 1000) % U32) ∧
      issued e e2 = [.GetDetectedStream, .ParseDetectionPayload s, .SetReadOffset s ro,
        .UpdateIndices s cs ce] ∧
      (ro : Int) = max 0 (((cfg.startIdx % b.bufferSize : Nat) : Int) - (cfg.preRoll : Int)) ∧
      ro + cs = cfg.startIdx % b.bufferSize := by
  obtain ⟨e2, cfg, hrun, hb2, hpre, htr, -, -, -⟩ :=
    HandleSessionEvent_concurrent_shape env data e b s _ _ _ hstate hcc hbuf
      (Nat.pos_iff_ne_zero.mp hcap) hs hs0 hparse rfl
  refine ⟨e2, _, cfg, _, _, _, hrun, hb2, mapFind_mapSet_self _ _ _, ?_, hpre,
    issued_of_trace e e2 _ htr, ?_, ?_⟩
  · simp [PalRingBuffer.getIndices, mapFind_mapSet_self]
  · omega
  · omega

theorem concurrent_client_indices_witness :
    ∃ e2 b2 cfg ro cs ce, HandleSessionEvent wrappedDetectionEnv [] sampleBufferingEngine = some e2 ∧
      e2.buffer_ = some b2 ∧ mapFind b2.kwCfg 2 = some cfg ∧
      (b2.getIndices 2).1 = cfg.startIdx ∧
      cfg.preRoll =
        UsToBytes sampleBufferingEngine
          (((wrappedDetectionEnv.GetBufferingConfigs (sampleBufferingEngine.clk + 2) 2).2 % U32
            * 1000) % U32) ∧
      issued sampleBufferingEngine e2 =
        [.GetDetectedStream, .ParseDetectionPayload 2, .SetReadOffset 2 ro,
          .UpdateIndices 2 cs ce] ∧
      cs = min cfg.preRoll (cfg.startIdx % (PalRingBuffer.mk 65536 0 [0] []).bufferSize) ∧
      (cfg.startIdx < (PalRingBuffer.mk 65536 0 [0] []).bufferSize →
        cs = min cfg.preRoll cfg.startIdx) ∧
      ce = (cs + UsToBytes sampleBufferingEngine (2600000 - 2100000)) % U32 ∧
      (cs + UsToBytes sampleBufferingEngine (2600000 - 2100000) < U32 →
        ce = cs + UsToBytes sampleBufferingEngine (2600000 - 2100000)) :=
  concurrent_client_indices wrappedDetectionEnv [] sampleBufferingEngine
    (PalRingBuffer.mk 65536 0 [0] []) 2 2100000 2600000 0 (Or.inl rfl) rfl rfl (by decide)
    rfl (by decide) rfl rfl (by decide) (by decide)

theorem concurrent_read_offset_and_start_witness :
    ∃ e2 b2 cfg ro cs ce, HandleSessionEvent wrappedDetectionEnv [] sampleBufferingEngine = some e2 ∧
      e2.buffer_ = some b2 ∧ mapFind b2.kwCfg 2 = some cfg ∧
      (b2.getIndices 2).1 = cfg.startIdx ∧
      cfg.preRoll =
        UsToBytes sampleBufferingEngine
          (((wrappedDetectionEnv.GetBufferingConfigs (sampleBufferingEngine.clk + 2) 2).2 % U32
            * 1000) % U32) ∧
      issued sampleBufferingEngine e2 =
        [.GetDetectedStream, .ParseDetectionPayload 2, .SetReadOffset 2 ro,
          .UpdateIndices 2 cs ce] ∧
      (ro : Int) = max 0 (((cfg.startIdx % (PalRingBuffer.mk 65536 0 [0] []).bufferSize : Nat)
        : Int) - (cfg.preRoll : Int)) ∧
      ro + cs = cfg.startIdx % (PalRingBuffer.mk 65536 0 [0] []).bufferSize :=
  concurrent_read_offset_and_start wrappedDetectionEnv [] sampleBufferingEngine
    (PalRingBuffer.mk 65536 0 [0] []) 2 (Or.inl rfl) rfl rfl (by decide)
    rfl (by decide) rfl

/-! ## The merged configuration after a stop -/

theorem scanRemaining_eq (env : Env) (c : Nat) (s : StreamPtr) (l : List StreamPtr) :
    ∀ acc : StopScan,
      (scanRemaining env c s l acc).is_any_stream_active =
          (acc.is_any_stream_active || !(activeOthers env c s l).isEmpty) ∧
      (scanRemaining env c s l acc).hb_duration =
          max acc.hb_duration
            (maxDuration (fun x => (env.stream c x).histBufDuration) (activeOthers env c s l)) ∧
      (scanRemaining env c s l acc).pr_duration =
          max acc.pr_duration
            (maxDuration (fun x => (env.stream c x).preRollDuration) (activeOthers env c s l)) ∧
      (scanRemaining env c s l acc).enable_lab =
          (acc.enable_lab ||
            (activeOthers env c s l).any (fun x => (env.stream c x).captureRequested)) := by
  induction l with
  | nil => intro acc; simp [scanRemaining, activeOthers, maxDuration]
  | cons x t ih =>
    intro acc
    unfold scanRemaining
    by_cases hc : s ≠ x ∧ dynCast env c x = true ∧
        (env.stream c x).currentStateId = .ST_STATE_ACTIVE
    · rw [if_pos hc]
      have hf : activeOthers env c s (x :: t) = x :: activeOthers env c s t := by
        unfold activeOthers
        rw [List.filter_cons_of_pos]
        simp [hc.1, hc.2.1, hc.2.2]
      obtain ⟨h1, h2, h3, h4⟩ := ih
        { is_any_stream_active := true
          hb_duration :=
            if acc.hb_duration < (env.stream c x).histBufDuration then
              (env.stream c x).histBufDuration
            else acc.hb_duration
          pr_duration :=
            if acc.pr_duration < (env.stream c x).preRollDuration then
              (env.stream c x).preRollDuration
            else acc.pr_duration
          enable_lab :=
            if acc.enable_lab = false then (env.stream c x).captureRequested
            else acc.enable_lab }
      rw [h1, h2, h3, h4, hf]
      refine ⟨by simp, ?_, ?_, ?_⟩
      · simp only [maxDuration, List.map_cons, List.foldr_cons]
        split_ifs with h <;> omega
      · simp only [maxDuration, List.map_cons, List.foldr_cons]
        split_ifs with h <;> omega
      · cases hl : acc.enable_lab <;> simp [Bool.or_assoc]
    · rw [if_neg hc]
      have hf : activeOthers env c s (x :: t) = activeOthers env c s t := by
        unfold activeOthers
        rw [List.filter_cons_of_neg]
        simp only [Bool.and_eq_true, decide_eq_true_eq, not_and]
        intro h1 h2
        exact hc ⟨h1.1, h1.2, h2⟩
      rw [hf]
      exact ih acc

/-- C16: `UpdateEngineConfigOnStop(s)`, when some listener other than `s` is
attached, sets the merged history and pre-roll durations to the maxima of the
requested durations over the attached listeners other than `s` in sub-state
Active and capture-requested to the OR of their capture-requested flags; when
none of them is Active both durations become 0 and capture-requested false; when
no listener other than `s` is attached the engine is returned unchanged. -/
theorem stop_merges_over_remaining_active_listeners (env : Env) (s : StreamPtr) (e : Engine) :
    ((∃ x ∈ e.eng_streams_, x ≠ s) → activeOthers env e.clk s e.eng_streams_ ≠ [] →
      (UpdateEngineConfigOnStop env s e).2.buffer_config_.hist_buffer_duration_in_ms =
        maxDuration (fun x => (env.stream e.clk x).histBufDuration)
          (activeOthers env e.clk s e.eng_streams_) ∧
      (UpdateEngineConfigOnStop env s e).2.buffer_config_.pre_roll_duration_in_ms =
        maxDuration (fun x => (env.stream e.clk x).preRollDuration)
          (activeOthers env e.clk s e.eng_streams_) ∧
      (UpdateEngineConfigOnStop env s e).2.capture_requested_ =
        (activeOthers env e.clk s e.eng_streams_).any
          (fun x => (env.stream e.clk x).captureRequested)) ∧
    ((∃ x ∈ e.eng_streams_, x ≠ s) → activeOthers env e.clk s e.eng_streams_ = [] →
      UpdateEngineConfigOnStop env s e =
        (0, { e with
              buffer_config_ :=
                { e.buffer_config_ with
                  hist_buffer_duration_in_ms := 0
                  pre_roll_duration_in_ms := 0 }
              capture_requested_ := false })) ∧
    ((¬ ∃ x ∈ e.eng_streams_, x ≠ s) → UpdateEngineConfigOnStop env s e = (0, e)) := by
  have hatt : CheckIfOtherStreamsAttached s e = true ↔ ∃ x ∈ e.eng_streams_, x ≠ s := by
    unfold CheckIfOtherStreamsAttached
    simp only [List.any_eq_true, bne_iff_ne]
    constructor
    · rintro ⟨x, hx, h⟩; exact ⟨x, hx, fun h2 => h h2.symm⟩
    · rintro ⟨x, hx, h⟩; exact ⟨x, hx, fun h2 => h h2.symm⟩
  obtain ⟨h1, h2, h3, h4⟩ := scanRemaining_eq env e.clk s e.eng_streams_ ⟨false, 0, 0, false⟩
  simp only [Bool.false_or, Nat.zero_max] at h1 h2 h3 h4
  refine ⟨?_, ?_, ?_⟩
  · intro ha hne
    have hact : ¬ ((scanRemaining env e.clk s e.eng_streams_
        ⟨false, 0, 0, false⟩).is_any_stream_active = false) := by
      rw [h1]; simpa using hne
    unfold UpdateEngineConfigOnStop
    dsimp only
    rw [if_neg (by simp [hatt.2 ha]), if_neg hact]
    by_cases hp : e.isPDK = false
    · rw [if_pos hp]; exact ⟨h2, h3, h4⟩
    · rw [if_neg hp]; exact ⟨h2, h3, h4⟩
  · intro ha hnil
    have hact : (scanRemaining env e.clk s e.eng_streams_
        ⟨false, 0, 0, false⟩).is_any_stream_active = false := by
      rw [h1, hnil]; rfl
    unfold UpdateEngineConfigOnStop
    dsimp only
    rw [if_neg (by simp [hatt.2 ha]), if_pos hact]
  · intro hna
    have hf : CheckIfOtherStreamsAttached s e = false := by
      cases h : CheckIfOtherStreamsAttached s e
      · rfl
      · exact absurd (hatt.1 h) hna
    unfold UpdateEngineConfigOnStop
    rw [if_pos hf]

theorem stop_merges_over_remaining_active_listeners_witness :
    (UpdateEngineConfigOnStop sampleEnv 1 sampleSharedEngine).2.buffer_config_.hist_buffer_duration_in_ms =
        maxDuration (fun x => (sampleEnv.stream sampleSharedEngine.clk x).histBufDuration)
          (activeOthers sampleEnv sampleSharedEngine.clk 1 sampleSharedEngine.eng_streams_) ∧
      (UpdateEngineConfigOnStop sampleEnv 1 sampleSharedEngine).2.buffer_config_.pre_roll_duration_in_ms =
        maxDuration (fun x => (sampleEnv.stream sampleSharedEngine.clk x).preRollDuration)
          (activeOthers sampleEnv sampleSharedEngine.clk 1 sampleSharedEngine.eng_streams_) ∧
      (UpdateEngineConfigOnStop sampleEnv 1 sampleSharedEngine).2.capture_requested_ =
        (activeOthers sampleEnv sampleSharedEngine.clk 1 sampleSharedEngine.eng_streams_).any
          (fun x => (sampleEnv.stream sampleSharedEngine.clk x).captureRequested) :=
  (stop_merges_over_remaining_active_listeners sampleEnv 1 sampleSharedEngine).1
    ⟨2, by decide, by decide⟩ (by decide)

/-! ## Buffering configuration of a listener -/

/-- C15: `UpdateBufConfig(s, hist, preRoll)` sets the merged history and pre-roll
durations to `(hist, preRoll)` when no listener other than `s` is attached and to
`(max oldHist hist, max oldPreRoll preRoll)` when another listener is attached;
with another listener attached the merged durations do not decrease, and a
history duration larger than the current merged value becomes the merged value. -/
theorem UpdateBufConfig_merges_by_maximum (env : Env) (s : StreamPtr) (hist preRoll : Nat)
    (e : Engine) (hs : dynCast env e.clk s = true) :
    ∃ e2, UpdateBufConfig env s hist preRoll e = some (0, e2) ∧
      ((¬ ∃ x ∈ e.eng_streams_, x ≠ s) →
        e2.buffer_config_.hist_buffer_duration_in_ms = hist ∧
        e2.buffer_config_.pre_roll_duration_in_ms = preRoll) ∧
      ((∃ x ∈ e.eng_streams_, x ≠ s) →
        e2.buffer_config_.hist_buffer_duration_in_ms =
          max e.buffer_config_.hist_buffer_duration_in_ms hist ∧
        e2.buffer_config_.pre_roll_duration_in_ms =
          max e.buffer_config_.pre_roll_duration_in_ms preRoll ∧
        e.buffer_config_.hist_buffer_duration_in_ms ≤
          e2.buffer_config_.hist_buffer_duration_in_ms ∧
        e.buffer_config_.pre_roll_duration_in_ms ≤
          e2.buffer_config_.pre_roll_duration_in_ms ∧
        (e.buffer_config_.hist_buffer_duration_in_ms < hist →
          e2.buffer_config_.hist_buffer_duration_in_ms = hist)) ∧
      e2.buffer_config_.model_id = (env.stream e.clk s).modelId ∧
      mapFind e2.mid_buff_cfg_ (env.stream e.clk s).modelId = some (preRoll, hist) ∧
      e2.eng_state_ = e.eng_state_ ∧ e2.eng_streams_ = e.eng_streams_ ∧
      e2.trace = e.trace := by
  have hatt : CheckIfOtherStreamsAttached s e = true ↔ ∃ x ∈ e.eng_streams_, x ≠ s := by
    unfold CheckIfOtherStreamsAttached
    simp only [List.any_eq_true, bne_iff_ne]
    constructor
    · rintro ⟨x, hx, h⟩; exact ⟨x, hx, fun h2 => h h2.symm⟩
    · rintro ⟨x, hx, h⟩; exact ⟨x, hx, fun h2 => h h2.symm⟩
  unfold UpdateBufConfig
  rw [if_neg (by simp [hs])]
  dsimp only
  by_cases ha : CheckIfOtherStreamsAttached s e = false
  · have ha1 : CheckIfOtherStreamsAttached s
        { e with buffer_config_ :=
            { e.buffer_config_ with model_id := (env.stream e.clk s).modelId } } = false := ha
    rw [if_pos ha1]
    refine ⟨_, rfl, fun _ => ⟨rfl, rfl⟩, ?_, rfl, mapFind_mapSet_self _ _ _, rfl, rfl, rfl⟩
    intro h
    rw [hatt.2 h] at ha
    exact absurd ha (by simp)
  · have ha1 : ¬ CheckIfOtherStreamsAttached s
        { e with buffer_config_ :=
            { e.buffer_config_ with model_id := (env.stream e.clk s).modelId } } = false := ha
    rw [if_neg ha1]
    have hex : ∃ x ∈ e.eng_streams_, x ≠ s := by
      apply hatt.1
      cases h : CheckIfOtherStreamsAttached s e
      · exact absurd h ha
      · rfl
    by_cases h1 : hist > e.buffer_config_.hist_buffer_duration_in_ms <;>
      by_cases h2 : preRoll > e.buffer_config_.pre_roll_duration_in_ms
    all_goals
      first
        | rw [if_pos h1] | rw [if_neg h1]
      first
        | rw [if_pos h2] | rw [if_neg h2]
      refine ⟨_, rfl, fun hn => absurd hex hn, fun _ => ?_, rfl, mapFind_mapSet_self _ _ _,
        rfl, rfl, rfl⟩
      dsimp only
      refine ⟨?_, ?_, ?_, ?_, ?_⟩ <;> omega

theorem UpdateBufConfig_merges_by_maximum_witness :
    ∃ e2, UpdateBufConfig sampleEnv 2 3000 100 sampleTwoListenerEngine = some (0, e2) ∧
      ((¬ ∃ x ∈ sampleTwoListenerEngine.eng_streams_, x ≠ 2) →
        e2.buffer_config_.hist_buffer_duration_in_ms = 3000 ∧
        e2.buffer_config_.pre_roll_duration_in_ms = 100) ∧
      ((∃ x ∈ sampleTwoListenerEngine.eng_streams_, x ≠ 2) →
        e2.buffer_config_.hist_buffer_duration_in_ms =
          max sampleTwoListenerEngine.buffer_config_.hist_buffer_duration_in_ms 3000 ∧
        e2.buffer_config_.pre_roll_duration_in_ms =
          max sampleTwoListenerEngine.buffer_config_.pre_roll_duration_in_ms 100 ∧
        sampleTwoListenerEngine.buffer_config_.hist_buffer_duration_in_ms ≤
          e2.buffer_config_.hist_buffer_duration_in_ms ∧
        sampleTwoListenerEngine.buffer_config_.pre_roll_duration_in_ms ≤
          e2.buffer_config_.pre_roll_duration_in_ms ∧
        (sampleTwoListenerEngine.buffer_config_.hist_buffer_duration_in_ms < 3000 →
          e2.buffer_config_.hist_buffer_duration_in_ms = 3000)) ∧
      e2.buffer_config_.model_id = (sampleEnv.stream sampleTwoListenerEngine.clk 2).modelId ∧
      mapFind e2.mid_buff_cfg_ (sampleEnv.stream sampleTwoListenerEngine.clk 2).modelId =
        some (100, 3000) ∧
      e2.eng_state_ = sampleTwoListenerEngine.eng_state_ ∧
      e2.eng_streams_ = sampleTwoListenerEngine.eng_streams_ ∧
      e2.trace = sampleTwoListenerEngine.trace :=
  UpdateBufConfig_merges_by_maximum sampleEnv 2 3000 100 sampleTwoListenerEngine rfl

/-! ## Device switch -/

theorem toSizeT_of_nat (n : Nat) (h : n < U64) : toSizeT (n : Int) = n := by
  unfold toSizeT
  have h2 : ((n : Int) % (U64 : Int)) = (n : Int) :=
    Int.emod_eq_of_lt (Int.ofNat_nonneg n) (by exact_mod_cast h)
  rw [h2]
  simp

theorem runDeviceCalls_append (env : Env) (a b : List DeviceCall) :
    ∀ e : Engine, runDeviceCalls env (a ++ b) e =
      (runDeviceCalls env a e).bind (runDeviceCalls env b) := by
  induction a with
  | nil => intro e; rfl
  | cons c cs ih =>
    intro e
    simp only [List.cons_append, runDeviceCalls]
    cases h : applyDeviceCall env c e with
    | none => rfl
    | some e2 => exact ih e2

/-- A disconnect call that does not bring the counter to the number of attached
listeners only counts. -/
theorem DisconnectSessionDevice_counts (env : Env) (s : StreamPtr) (e : Engine) (k : Nat)
    (hk : e.dev_disconnect_count_ = (k : Int)) (hlt : k + 1 < e.eng_streams_.length)
    (hsmall : e.eng_streams_.length < 2 ^ 31) :
    DisconnectSessionDevice env s e =
      some (0, { e with dev_disconnect_count_ := ((k + 1 : Nat) : Int) }) := by
  unfold DisconnectSessionDevice
  have h1 : ¬ e.dev_disconnect_count_ = INT32_MAX := by
    rw [hk]; unfold INT32_MAX; omega
  rw [if_neg h1]
  dsimp only
  have h2 : e.dev_disconnect_count_ + 1 = ((k + 1 : Nat) : Int) := by rw [hk]; simp
  rw [h2, toSizeT_of_nat (k + 1) (by unfold U64; omega)]
  have hne : ¬ (k + 1 = e.eng_streams_.length) := by omega
  rw [if_neg hne]
  simp

/-- The disconnect call that brings the counter to the number of attached
listeners disconnects the device of the session. -/
theorem DisconnectSessionDevice_last (env : Env) (s : StreamPtr) (e : Engine) (k : Nat)
    (hd : ∀ c x, env.disconnectSessionDevice c x = 0)
    (hk : e.dev_disconnect_count_ = (k : Int)) (hlt : k + 1 = e.eng_streams_.length)
    (hsmall : e.eng_streams_.length < 2 ^ 31) :
    DisconnectSessionDevice env s e =
      some (0, ({ e with dev_disconnect_count_ := ((k + 1 : Nat) : Int) } : Engine).log
        (.disconnectSessionDevice s)) := by
  unfold DisconnectSessionDevice
  have h1 : ¬ e.dev_disconnect_count_ = INT32_MAX := by
    rw [hk]; unfold INT32_MAX; omega
  rw [if_neg h1]
  dsimp only
  have h2 : e.dev_disconnect_count_ + 1 = ((k + 1 : Nat) : Int) := by rw [hk]; simp
  rw [h2, toSizeT_of_nat (k + 1) (by unfold U64; omega)]
  rw [if_pos hlt, hd]
  simp

/-- A setup call that leaves the counter positive only counts. -/
theorem SetupSessionDevice_counts (env : Env) (s : StreamPtr) (e : Engine) (k : Nat)
    (hk : e.dev_disconnect_count_ = ((k + 2 : Nat) : Int)) :
    SetupSessionDevice env s e =
      some (0, { e with dev_disconnect_count_ := ((k + 1 : Nat) : Int) }) := by
  unfold SetupSessionDevice
  have h1 : ¬ e.dev_disconnect_count_ = INT32_MIN := by
    rw [hk]; unfold INT32_MIN; omega
  rw [if_neg h1]
  dsimp only
  have h2 : e.dev_disconnect_count_ - 1 = ((k + 1 : Nat) : Int) := by rw [hk]; push_cast; ring
  rw [h2]
  have hnn : ¬ (((k + 1 : Nat) : Int) < 0) := by omega
  have hnz : ¬ (((k + 1 : Nat) : Int) = 0) := by omega
  rw [if_neg hnn, if_neg hnz]
  simp

/-- The setup call that brings the counter to zero sets up the device of the
session. -/
theorem SetupSessionDevice_last (env : Env) (s : StreamPtr) (e : Engine)
    (hs : ∀ c x, env.setupSessionDevice c x = 0)
    (hk : e.dev_disconnect_count_ = 1) :
    SetupSessionDevice env s e =
      some (0, ({ e with dev_disconnect_count_ := 0 } : Engine).log
        (.setupSessionDevice s)) := by
  unfold SetupSessionDevice
  have h1 : ¬ e.dev_disconnect_count_ = INT32_MIN := by
    rw [hk]; unfold INT32_MIN; omega
  rw [if_neg h1]
  dsimp only
  rw [hk]
  simp [hs]

theorem runDisconnects_count (env : Env) (ss : List StreamPtr) :
    ∀ (e : Engine) (k : Nat), e.dev_disconnect_count_ = (k : Int) →
      k + ss.length < e.eng_streams_.length → e.eng_streams_.length < 2 ^ 31 →
      runDeviceCalls env (ss.map .disconnect) e =
        some { e with dev_disconnect_count_ := ((k + ss.length : Nat) : Int) } := by
  induction ss with
  | nil =>
    intro e k hk _ _
    simp only [List.map_nil, runDeviceCalls, List.length_nil, Nat.add_zero]
    rw [← hk]
  | cons x t ih =>
    intro e k hk hlt hsmall
    simp only [List.length_cons] at hlt
    simp only [List.map_cons, runDeviceCalls, applyDeviceCall]
    rw [DisconnectSessionDevice_counts env x e k hk (by omega) hsmall]
    simp only [Option.map_some']
    rw [ih { e with dev_disconnect_count_ := ((k + 1 : Nat) : Int) } (k + 1) rfl
      (by show k + 1 + t.length < e.eng_streams_.length; omega) hsmall]
    simp only [List.length_cons]
    have hl : k + 1 + t.length = k + (t.length + 1) := by omega
    rw [hl]

theorem runSetups_count (env : Env) (ts : List StreamPtr) :
    ∀ (e : Engine) (k : Nat), e.dev_disconnect_count_ = ((k + ts.length + 1 : Nat) : Int) →
      runDeviceCalls env (ts.map .setup) e =
        some { e with dev_disconnect_count_ := ((k + 1 : Nat) : Int) } := by
  induction ts with
  | nil =>
    intro e k hk
    simp only [List.map_nil, runDeviceCalls]
    simp only [List.length_nil, Nat.add_zero] at hk
    rw [← hk]
  | cons x t ih =>
    intro e k hk
    simp only [List.length_cons] at hk
    simp only [List.map_cons, runDeviceCalls, applyDeviceCall]
    rw [SetupSessionDevice_counts env x e (k + t.length) (by rw [hk]; congr 1)]
    simp only [Option.map_some']
    rw [ih { e with dev_disconnect_count_ := ((k + t.length + 1 : Nat) : Int) } k rfl]

/-- C19, as the claim states it, fails for two attached listeners: the first
`DisconnectSessionDevice` call only counts, and it is the second, last, call that
disconnects the device of the session. -/
theorem first_disconnect_call_does_not_reach_session :
    ∃ e1 e2, applyDeviceCall sampleEnv (.disconnect 1) sampleTwoListenerEngine = some e1 ∧
      issued sampleTwoListenerEngine e1 = [] ∧
      applyDeviceCall sampleEnv (.disconnect 2) e1 = some e2 ∧
      issued e1 e2 = [.disconnectSessionDevice 2] :=
  ⟨_, _, rfl, by decide, rfl, by decide⟩

/-- C19 (amended): with `N >= 1` attached listeners, the disconnect counter at 0
and the device calls of the session succeeding, `N` `DisconnectSessionDevice`
calls followed by `N` `SetupSessionDevice` calls invoke the device disconnect of
the session exactly once, on the last disconnect call, and its device setup
exactly once, on the last setup call, and leave the counter at 0. -/
theorem device_switch_happens_on_last_calls (env : Env) (e : Engine)
    (ss ts : List StreamPtr) (sl tl : StreamPtr)
    (hN : e.eng_streams_.length = ss.length + 1) (hts : ts.length = ss.length)
    (hsmall : e.eng_streams_.length < 2 ^ 31)
    (hc : e.dev_disconnect_count_ = 0)
    (hd : ∀ c x, env.disconnectSessionDevice c x = 0)
    (hs : ∀ c x, env.setupSessionDevice c x = 0) :
    ∃ e1 e2 e3 e4,
      runDeviceCalls env (ss.map .disconnect) e = some e1 ∧ issued e e1 = [] ∧
      applyDeviceCall env (.disconnect sl) e1 = some e2 ∧
      issued e1 e2 = [.disconnectSessionDevice sl] ∧
      runDeviceCalls env (ts.map .setup) e2 = some e3 ∧ issued e2 e3 = [] ∧
      applyDeviceCall env (.setup tl) e3 = some e4 ∧
      issued e3 e4 = [.setupSessionDevice tl] ∧
      e4.dev_disconnect_count_ = 0 ∧
      runDeviceCalls env ((ss ++ [sl]).map .disconnect ++ (ts ++ [tl]).map .setup) e =
        some e4 ∧
      issued e e4 = [.disconnectSessionDevice sl, .setupSessionDevice tl] := by
  have h1 := runDisconnects_count env ss e 0 (by simpa using hc) (by omega) hsmall
  simp only [Nat.zero_add] at h1
  have h2 := DisconnectSessionDevice_last env sl
    { e with dev_disconnect_count_ := ((ss.length : Nat) : Int) } ss.length hd rfl
    (by show ss.length + 1 = e.eng_streams_.length; omega) hsmall
  have h3 := runSetups_count env ts
    (({ e with dev_disconnect_count_ := ((ss.length + 1 : Nat) : Int) } : Engine).log
      (.disconnectSessionDevice sl)) 0
    (by show ((ss.length + 1 : Nat) : Int) = ((0 + ts.length + 1 : Nat) : Int)
        rw [hts, Nat.zero_add])
  have h4 := SetupSessionDevice_last env tl
    { (({ e with dev_disconnect_count_ := ((ss.length + 1 : Nat) : Int) } : Engine).log
        (.disconnectSessionDevice sl)) with dev_disconnect_count_ := ((0 + 1 : Nat) : Int) }
    hs (by simp)
  refine ⟨{ e with dev_disconnect_count_ := ((ss.length : Nat) : Int) },
    ({ e with dev_disconnect_count_ := ((ss.length + 1 : Nat) : Int) } : Engine).log
      (.disconnectSessionDevice sl),
    { (({ e with dev_disconnect_count_ := ((ss.length + 1 : Nat) : Int) } : Engine).log
        (.disconnectSessionDevice sl)) with dev_disconnect_count_ := ((0 + 1 : Nat) : Int) },
    ({ (({ e with dev_disconnect_count_ := ((ss.length + 1 : Nat) : Int) } : Engine).log
        (.disconnectSessionDevice sl)) with dev_disconnect_count_ := 0 } : Engine).log
      (.setupSessionDevice tl),
    h1, ?_, ?_, ?_, h3, ?_, ?_, ?_, ?_, ?_, ?_⟩
  · simp [issued]
  · simp only [applyDeviceCall]
    rw [h2]
    rfl
  · simp [issued, Engine.log]
  · simp [issued, Engine.log]
  · simp only [applyDeviceCall]
    rw [h4]
    rfl
  · simp [issued, Engine.log]
  · rfl
  · simp only [List.map_append, List.map_cons, List.map_nil, List.append_assoc,
      List.singleton_append]
    rw [runDeviceCalls_append, h1]
    simp only [Option.bind_eq_bind, Option.some_bind, runDeviceCalls, applyDeviceCall]
    rw [h2]
    simp only [Option.map_some']
    rw [runDeviceCalls_append, h3]
    simp only [Option.bind_eq_bind, Option.some_bind, runDeviceCalls, applyDeviceCall]
    rw [h4]
    rfl
  · simp [issued, Engine.log]

theorem device_switch_happens_on_last_calls_witness :
    ∃ e1 e2 e3 e4,
      runDeviceCalls sampleEnv ([1].map .disconnect) sampleTwoListenerEngine = some e1 ∧
      issued sampleTwoListenerEngine e1 = [] ∧
      applyDeviceCall sampleEnv (.disconnect 2) e1 = some e2 ∧
      issued e1 e2 = [.disconnectSessionDevice 2] ∧
      runDeviceCalls sampleEnv ([1].map .setup) e2 = some e3 ∧ issued e2 e3 = [] ∧
      applyDeviceCall sampleEnv (.setup 2) e3 = some e4 ∧
      issued e3 e4 = [.setupSessionDevice 2] ∧
      e4.dev_disconnect_count_ = 0 ∧
      runDeviceCalls sampleEnv (([1] ++ [2]).map .disconnect ++ ([1] ++ [2]).map .setup)
        sampleTwoListenerEngine = some e4 ∧
      issued sampleTwoListenerEngine e4 =
        [.disconnectSessionDevice 2, .setupSessionDevice 2] :=
  device_switch_happens_on_last_calls sampleEnv sampleTwoListenerEngine [1] [1] 2 2
    rfl rfl (by decide) rfl (fun _ _ => rfl) (fun _ _ => rfl)

/-! ## Loading a sound model -/

/-- C17, as the claim states it, fails for empty model data: on the sample engine
before any load, with collaborators that accept it, `LoadSoundModel` of
zero-length data that is not null returns 0, enters Loaded and attaches the
listener. -/
theorem load_of_empty_model_is_not_rejected :
    ∃ e2, LoadSoundModel sampleEnv 1 (some []) 0 sampleIdleEngine = some (0, e2) ∧
      e2.eng_state_ = .ENG_LOADED ∧ e2.eng_streams_ = [1] ∧
      sampleIdleEngine.eng_state_ = .ENG_IDLE ∧ sampleIdleEngine.eng_streams_ = [] ∧
      issued sampleIdleEngine e2 =
        [.sessionOpen 1, .UpdateEngineModel 1 true, .updateSessionPayload .LOAD_SOUND_MODEL,
          .getMIID 1, .payloadSVAConfig .LOAD_SOUND_MODEL,
          .setParameters 1 .PAL_PARAM_ID_LOAD_SOUND_MODEL] :=
  ⟨_, rfl, rfl, rfl, rfl, rfl, by decide⟩

/-- On an engine that is not PDK and has no other listener attached, a load of
data that is not null begins with the open of the session, whatever the data and
its size. -/
theorem loadModel_opens_session (env : Env) (s : StreamPtr) (d : List Nat) (n : Nat)
    (e : Engine) (hpdk : e.isPDK = false) (hno : ¬ ∃ x ∈ e.eng_streams_, x ≠ s) :
    ∃ st e2 t, loadModel env s d n e = some (st, e2) ∧
      e2.trace = e.trace ++ Effect.sessionOpen s :: t := by
  have hatt : ¬ (CheckIfOtherStreamsAttached s ({ e with exit_buffering_ := true } : Engine) =
      true) := by
    intro h
    apply hno
    unfold CheckIfOtherStreamsAttached at h
    simp only [List.any_eq_true, bne_iff_ne] at h
    obtain ⟨x, hx, hne⟩ := h
    exact ⟨x, hx, fun h2 => hne h2.symm⟩
  unfold loadModel
  dsimp only
  rw [if_neg hatt]
  by_cases ho : env.sessionOpen ({ e with exit_buffering_ := true } : Engine).clk s ≠ 0
  · rw [if_pos ho]
    exact ⟨_, _, [], rfl, rfl⟩
  · rw [if_neg ho]
    have hp : (({ e with exit_buffering_ := true } : Engine).log (.sessionOpen s)).isPDK =
        false := hpdk
    simp only [hp, true_and, if_true]
    have key : ∀ X : Engine,
        X.trace = (e.trace ++ [Effect.sessionOpen s]) ++ [Effect.UpdateEngineModel s true] →
        ∃ suffix, (UpdateSessionPayload env .LOAD_SOUND_MODEL X).2.trace =
          e.trace ++ Effect.sessionOpen s :: (Effect.UpdateEngineModel s true ::
            Effect.updateSessionPayload .LOAD_SOUND_MODEL :: suffix) := by
      intro X hX
      obtain ⟨suffix, m1, m2, cd, cds, hU, _, _⟩ :=
        UpdateSessionPayload_shape env .LOAD_SOUND_MODEL X
      refine ⟨suffix, ?_⟩
      rw [hU]
      simp [hX]
    split_ifs
    · exact ⟨_, _, [.UpdateEngineModel s true, .sessionClose s], rfl, by simp [Engine.log]⟩
    · obtain ⟨suffix, hs⟩ := key
        ({ (({ e with exit_buffering_ := true } : Engine).log (.sessionOpen s)).log
            (.UpdateEngineModel s true) with
          wakeup_config_ :=
            (env.UpdateEngineModel
              (({ e with exit_buffering_ := true } : Engine).log (.sessionOpen s)).clk s
              (some d) n true
              (({ e with exit_buffering_ := true } : Engine).log
                (.sessionOpen s)).wakeup_config_).2
          eng_sm_info_conf_levels :=
            env.GetSoundModelInfoConfLevels
              ((({ e with exit_buffering_ := true } : Engine).log (.sessionOpen s)).log
                (.UpdateEngineModel s true)).clk } : Engine) rfl
      have h2 : ((UpdateSessionPayload env .LOAD_SOUND_MODEL
        ({ (({ e with exit_buffering_ := true } : Engine).log (.sessionOpen s)).log
            (.UpdateEngineModel s true) with
          wakeup_config_ :=
            (env.UpdateEngineModel
              (({ e with exit_buffering_ := true } : Engine).log (.sessionOpen s)).clk s
              (some d) n true
              (({ e with exit_buffering_ := true } : Engine).log
                (.sessionOpen s)).wakeup_config_).2
          eng_sm_info_conf_levels :=
            env.GetSoundModelInfoConfLevels
              ((({ e with exit_buffering_ := true } : Engine).log (.sessionOpen s)).log
                (.UpdateEngineModel s true)).clk } : Engine)).2.log (.sessionClose s)).trace =
          e.trace ++ Effect.sessionOpen s :: (Effect.UpdateEngineModel s true ::
            Effect.updateSessionPayload .LOAD_SOUND_MODEL :: (suffix ++ [.sessionClose s])) := by
        show _ ++ [Effect.sessionClose s] = _
        rw [hs]
        simp
      exact ⟨_, _, _, rfl, h2⟩
    · obtain ⟨suffix, hs⟩ := key
        ({ (({ e with exit_buffering_ := true } : Engine).log (.sessionOpen s)).log
            (.UpdateEngineModel s true) with
          wakeup_config_ :=
            (env.UpdateEngineModel
              (({ e with exit_buffering_ := true } : Engine).log (.sessionOpen s)).clk s
              (some d) n true
              (({ e with exit_buffering_ := true } : Engine).log
                (.sessionOpen s)).wakeup_config_).2
          eng_sm_info_conf_levels :=
            env.GetSoundModelInfoConfLevels
              ((({ e with exit_buffering_ := true } : Engine).log (.sessionOpen s)).log
                (.UpdateEngineModel s true)).clk } : Engine) rfl
      exact ⟨_, _, _, rfl, hs⟩

/-- C17 (amended): `LoadSoundModel` returns `-EINVAL` whenever the model data is
null, whatever its stated size, and then leaves the engine, with its state and
its attached listeners, as it was.  The size of data that is not null is not
checked: on an engine that is not PDK and has no other listener attached every
load of data that is not null, also of no bytes, returns after it has opened the
session. -/
theorem load_of_null_model_is_rejected (env : Env) (s : StreamPtr) (data_size : Nat)
    (e : Engine) :
    LoadSoundModel env s none data_size e = some (-EINVAL, e) ∧
    (e.isPDK = false → (¬ ∃ x ∈ e.eng_streams_, x ≠ s) → ∀ d : List Nat,
      ∃ st e2 t, LoadSoundModel env s (some d) data_size e = some (st, e2) ∧
        e2.trace = e.trace ++ Effect.sessionOpen s :: t) := by
  refine ⟨rfl, ?_⟩
  intro hpdk hno d
  have hreg : registerModelPDK env s d data_size e = some (true, data_size, e) := by
    unfold registerModelPDK
    rw [if_neg (by simp [hpdk])]
  obtain ⟨st, e2, t, hl, ht⟩ := loadModel_opens_session env s d data_size e hpdk hno
  unfold LoadSoundModel
  dsimp only
  rw [hreg]
  dsimp only
  rw [hl]
  dsimp only
  refine ⟨_, _, t, rfl, ?_⟩
  split_ifs
  · exact ht
  · exact ht

theorem load_of_null_model_is_rejected_witness :
    LoadSoundModel sampleEnv 1 none 0 sampleIdleEngine = some (-EINVAL, sampleIdleEngine) ∧
    ∃ st e2 t, LoadSoundModel sampleEnv 1 (some []) 0 sampleIdleEngine = some (st, e2) ∧
      e2.trace = sampleIdleEngine.trace ++ Effect.sessionOpen 1 :: t :=
  ⟨(load_of_null_model_is_rejected sampleEnv 1 0 sampleIdleEngine).1,
    (load_of_null_model_is_rejected sampleEnv 1 0 sampleIdleEngine).2 rfl (by simp [sampleIdleEngine])
      []⟩

/-! ## The status rewrite of the client operations -/

theorem ssrStatus_zero (env : Env) (e : Engine) : ssrStatus env 0 e = 0 := by
  unfold ssrStatus
  split_ifs <;> rfl

theorem StartRecognition_status (env : Env) (s : StreamPtr) (e : Engine) (r : Int)
    (e2 : Engine) (h : StartRecognition env s e = some (r, e2)) :
    ∃ e3 u, ProcessStartRecognition env s e3 = some (u, e2) ∧ r = ssrStatus env u e2 := by
  unfold StartRecognition at h
  dsimp only at h
  split at h
  · exact absurd h (by simp)
  · rename_i e3 _
    split at h
    · exact absurd h (by simp)
    · rename_i status e4 hp
      by_cases hst : status ≠ 0
      · rw [if_pos hst] at h
        simp only [Option.some.injEq, Prod.mk.injEq] at h
        obtain ⟨h1, h2⟩ := h
        subst h2
        exact ⟨e3, status, hp, h1.symm⟩
      · rw [if_neg hst] at h
        simp only [Option.some.injEq, Prod.mk.injEq] at h
        obtain ⟨h1, h2⟩ := h
        subst h2
        have h0 : status = 0 := by simpa using hst
        subst h0
        exact ⟨e3, 0, hp, by rw [← h1, ssrStatus_zero]⟩

theorem StopRecognition_status (env : Env) (s : StreamPtr) (e : Engine) (r : Int)
    (e2 : Engine) (h : StopRecognition env s e = some (r, e2)) :
    ∃ u, r = ssrStatus env u e2 ∧
      (u = 0 ∨ (∃ e1, u = (ProcessStopRecognition env s e1).1) ∨
        ∃ e1, stopRestartOthers env s e1 = some (u, e2)) := by
  unfold StopRecognition at h
  dsimp only at h
  split_ifs at h with h1 h2 h3
  · simp only [Option.some.injEq, Prod.mk.injEq] at h
    obtain ⟨ha, hb⟩ := h
    subst hb
    exact ⟨_, ha.symm, Or.inr (Or.inl ⟨_, rfl⟩)⟩
  · split at h
    · exact absurd h (by simp)
    · rename_i st e6 hp
      simp only [Option.some.injEq, Prod.mk.injEq] at h
      obtain ⟨ha, hb⟩ := h
      subst hb
      exact ⟨st, ha.symm, Or.inr (Or.inr ⟨_, hp⟩)⟩
  · simp only [Option.some.injEq, Prod.mk.injEq] at h
    obtain ⟨ha, hb⟩ := h
    subst hb
    exact ⟨_, ha.symm, Or.inr (Or.inl ⟨_, rfl⟩)⟩
  · simp only [Option.some.injEq, Prod.mk.injEq] at h
    obtain ⟨ha, hb⟩ := h
    subst hb
    exact ⟨0, ha.symm, Or.inl rfl⟩

theorem RestartRecognition_status (env : Env) (s : StreamPtr) (e : Engine) (r : Int)
    (e2 : Engine) (h : RestartRecognition env s e = some (r, e2)) :
    ∃ u, r = ssrStatus env u e2 ∧
      (u = 0 ∨ ∃ u0 e3 e4, restartMmap env s u0 e3 = some (u, e4)) := by
  unfold RestartRecognition at h
  split_ifs at h with h1 h2
  · simp only [Option.some.injEq, Prod.mk.injEq] at h
    obtain ⟨ha, hb⟩ := h
    subst hb
    exact ⟨0, by rw [← ha, ssrStatus_zero], Or.inl rfl⟩
  · simp only [Option.some.injEq, Prod.mk.injEq] at h
    obtain ⟨ha, hb⟩ := h
    subst hb
    exact ⟨0, by rw [← ha, ssrStatus_zero], Or.inl rfl⟩
  · dsimp only at h
    split at h
    · exact absurd h (by simp)
    · rename_i status e4 hp
      simp only [Option.some.injEq, Prod.mk.injEq] at h
      obtain ⟨ha, hb⟩ := h
      subst hb
      exact ⟨status, ha.symm, Or.inr ⟨_, _, _, hp⟩⟩

theorem LoadSoundModel_status (env : Env) (s : StreamPtr) (d : List Nat) (n : Nat)
    (e : Engine) (r : Int) (e2 : Engine)
    (h : LoadSoundModel env s (some d) n e = some (r, e2)) :
    (∃ n2 e1, registerModelPDK env s d n e = some (false, n2, e1) ∧ r = -EINVAL ∧ e2 = e1) ∨
    ∃ n2 e1 u ex, registerModelPDK env s d n e = some (true, n2, e1) ∧
      loadModel env s d n2 e1 = some (u, ex) ∧ r = ssrStatus env u e2 := by
  unfold LoadSoundModel at h
  dsimp only at h
  split at h
  · exact absurd h (by simp)
  · rename_i n2 e1 hp
    simp only [Option.some.injEq, Prod.mk.injEq] at h
    exact Or.inl ⟨n2, e1, hp, h.1.symm, h.2.symm⟩
  · rename_i n2 e1 hp
    split at h
    · exact absurd h (by simp)
    · rename_i status ex hl
      simp only [Option.some.injEq, Prod.mk.injEq] at h
      obtain ⟨ha, hb⟩ := h
      subst hb
      exact Or.inr ⟨n2, e1, status, ex, hp, hl, ha.symm⟩

theorem UnloadSoundModel_status (env : Env) (s : StreamPtr) (e : Engine) (r : Int)
    (e2 : Engine) (h : UnloadSoundModel env s e = some (r, e2)) :
    ∃ u ex, unloadModel env s e = some (u, ex) ∧ r = ssrStatus env u e2 := by
  unfold UnloadSoundModel at h
  split at h
  · exact absurd h (by simp)
  · rename_i status ex hp
    split_ifs at h
    simp only [Option.some.injEq, Prod.mk.injEq] at h
    obtain ⟨ha, hb⟩ := h
    subst hb
    exact ⟨status, ex, hp, ha.symm⟩

/-- C18, as the claim states it, fails for `LoadSoundModel` on a PDK engine whose
registration data cannot be allocated: the data is not null and the sound card is
not online, yet the call returns `-EINVAL`, not 0. -/
theorem load_allocation_failure_is_not_rewritten :
    ∃ e2, LoadSoundModel offlineNoMemoryEnv 1 (some [1, 2, 3]) 3 sampleIdlePDKEngine =
        some (-EINVAL, e2) ∧
      offlineNoMemoryEnv.cardOnline e2.clk = false ∧ (-EINVAL : Int) ≠ 0 :=
  ⟨_, rfl, rfl, by decide⟩

/-! ## The processing thread after a detection -/

theorem notifiedListeners_append (a b : List Effect) :
    notifiedListeners (a ++ b) = notifiedListeners a ++ notifiedListeners b := by
  simp [notifiedListeners, List.filterMap_append]

theorem notifiedListeners_payloadSteps (tag : Nat) (p : st_param_id_type_t) (l : List Effect)
    (h : ∀ x ∈ l, isPayloadStep tag p x) : notifiedListeners l = [] := by
  induction l with
  | nil => rfl
  | cons x t ih =>
    have hx := h x (List.mem_cons_self x t)
    have ht := ih (fun y hy => h y (List.mem_cons_of_mem x hy))
    unfold notifiedListeners at ht ⊢
    rw [List.filterMap_cons]
    rcases hx with hx | hx | ⟨sp, _, hx⟩ <;> subst hx <;> exact ht

theorem othersRun_idle (env : Env) (e : Engine) (h : ∀ c, env.otherThreads c = []) :
    othersRun env e = some e := by
  unfold othersRun
  rw [h]
  rfl

/-- The notification of a listener that accepts it, while no other thread
calls the engine. -/
theorem notifyDetection_accepted (env : Env) (s : StreamPtr) (e : Engine)
    (h : ∀ c, env.otherThreads c = []) (hok : ∀ c, 0 ≤ env.SetEngineDetectionState c s) :
    notifyDetection env s e =
      some (env.SetEngineDetectionState (e.clk + 1) s,
        (e.log .mutexReleased).log (.SetEngineDetectionState s)) := by
  unfold notifyDetection unlocked
  rw [othersRun_idle env _ h]
  dsimp only
  have hc : (e.log .mutexReleased).clk = e.clk + 1 := by simp [Engine.log, Engine.clk]
  rw [hc, if_neg (not_lt.mpr (hok _))]
  dsimp only
  rw [othersRun_idle env _ h]
  rfl

/-- C20, as the claim states it, fails for a single attached listener: the
processing thread handles the detection of listener 1, for which no capture is
requested, and notifies the listener successfully; no detection is left in the
queue, and the engine state is still Detected. -/
theorem single_listener_stays_detected_after_notification :
    ∃ e2, ProcessEventIteration sampleEnv 0 sampleDetectedEngine = some e2 ∧
      e2.eng_state_ = .ENG_DETECTED ∧ e2.det_streams_q_ = [] ∧
      notifiedListeners (issued sampleDetectedEngine e2) = [1] ∧
      sampleDetectedEngine.eng_streams_ = [1] :=
  ⟨_, rfl, rfl, rfl, by decide, rfl⟩

/-- C20 (amended): after the processing thread has handled a detection the
engine state is Active if another attached listener is in sub-state Active,
Buffering or Detected, and otherwise it is the state the handling has left.
Where no capture is requested, no other thread calls the engine meanwhile and
the listener accepts the notification, the handling leaves the state Detected
and the queue without the detection handled; so the state is then Active if
another attached listener is active and Detected otherwise, in particular for an
engine with a single attached listener. -/
theorem processing_thread_state_after_detection (env : Env) (fuel : Nat) (e : Engine)
    (d : StreamPtr) (q : List StreamPtr)
    (hstate : e.eng_state_ = .ENG_DETECTED) (hexit : e.exit_thread_ = false)
    (hq : e.det_streams_q_ = d :: q) (hd : dynCast env e.clk d = true) :
    (∀ h, handleDetection env fuel d e = some h →
      ProcessEventIteration env fuel e =
        some ((if CheckIfOtherStreamsActive env d h then UpdateState .ENG_ACTIVE h
          else h).log .releaseWakeLock)) ∧
    (e.capture_requested_ = false → (∀ c, env.otherThreads c = []) →
      (∀ c, 0 ≤ env.SetEngineDetectionState c d) →
      ∃ h e2, handleDetection env fuel d e = some h ∧
        ProcessEventIteration env fuel e = some e2 ∧
        h.eng_state_ = .ENG_DETECTED ∧ h.eng_streams_ = e.eng_streams_ ∧
        e2.det_streams_q_ = q ∧ notifiedListeners (issued e e2) = [d] ∧
        (CheckIfOtherStreamsActive env d h = true → e2.eng_state_ = .ENG_ACTIVE) ∧
        (CheckIfOtherStreamsActive env d h = false → e2.eng_state_ = .ENG_DETECTED) ∧
        (e.eng_streams_ = [d] → e2.eng_state_ = .ENG_DETECTED)) := by
  have hshape : ∀ h, handleDetection env fuel d e = some h →
      ProcessEventIteration env fuel e =
        some ((if CheckIfOtherStreamsActive env d h then UpdateState .ENG_ACTIVE h
          else h).log .releaseWakeLock) := by
    intro h hh
    unfold ProcessEventIteration
    rw [if_neg (by simp [hexit]), if_neg (by simp [hstate]), hq]
    dsimp only
    rw [if_pos hd, hh]
  refine ⟨hshape, ?_⟩
  intro hcap hidle hok
  obtain ⟨suffix, m1, m2, cd, cds, hU, hsteps, _⟩ :=
    UpdateSessionPayload_shape env .ENGINE_RESET e
  have hh : handleDetection env fuel d e =
      some ((({ (UpdateSessionPayload env .ENGINE_RESET e).2 with
        det_streams_q_ := (UpdateSessionPayload env .ENGINE_RESET e).2.det_streams_q_.tail }
          : Engine).log .mutexReleased).log (.SetEngineDetectionState d)) := by
    unfold handleDetection
    rw [if_neg (by simp [hcap])]
    dsimp only
    rw [notifyDetection_accepted env d _ hidle hok]
    rfl
  have hst : (UpdateSessionPayload env .ENGINE_RESET e).2.eng_state_ = .ENG_DETECTED := by
    rw [hU]; exact hstate
  have hstr : (UpdateSessionPayload env .ENGINE_RESET e).2.eng_streams_ = e.eng_streams_ := by
    rw [hU]
  have hqu : (UpdateSessionPayload env .ENGINE_RESET e).2.det_streams_q_ = d :: q := by
    rw [hU]; exact hq
  have htr : (UpdateSessionPayload env .ENGINE_RESET e).2.trace =
      e.trace ++ Effect.updateSessionPayload .ENGINE_RESET :: suffix := by
    rw [hU]
  refine ⟨_, _, hh, hshape _ hh, hst, hstr, ?_, ?_, ?_, ?_, ?_⟩
  · split_ifs
    · simp [UpdateState, Engine.log, hqu]
    · simp [Engine.log, hqu]
  · have ht : ∀ x : Engine, (x.log .releaseWakeLock).trace = x.trace ++ [.releaseWakeLock] :=
      fun _ => rfl
    have hu : ∀ x : Engine, (UpdateState .ENG_ACTIVE x).trace = x.trace := fun _ => rfl
    have key : ((({ (UpdateSessionPayload env .ENGINE_RESET e).2 with
        det_streams_q_ := (UpdateSessionPayload env .ENGINE_RESET e).2.det_streams_q_.tail }
          : Engine).log .mutexReleased).log (.SetEngineDetectionState d)).trace =
        e.trace ++ (Effect.updateSessionPayload .ENGINE_RESET :: suffix ++
          [.mutexReleased, .SetEngineDetectionState d]) := by
      simp [Engine.log, htr]
    rw [issued_of_trace e _ ((Effect.updateSessionPayload .ENGINE_RESET :: suffix ++
          [.mutexReleased, .SetEngineDetectionState d]) ++ [.releaseWakeLock])]
    · rw [notifiedListeners_append, notifiedListeners_append]
      have h1 : notifiedListeners (Effect.updateSessionPayload .ENGINE_RESET :: suffix) = [] := by
        have := notifiedListeners_payloadSteps _ _ suffix hsteps
        unfold notifiedListeners at this ⊢
        rw [List.filterMap_cons]
        exact this
      rw [h1]
      rfl
    · split_ifs
      · rw [ht, hu, key]; simp
      · rw [ht, key]; simp
  · intro hc
    rw [if_pos hc]
    rfl
  · intro hc
    rw [if_neg (by simp [hc])]
    exact hst
  · intro hone
    rw [if_neg (by
      rw [CheckIfOtherStreamsActive_single env d _ (by
        show (UpdateSessionPayload env .ENGINE_RESET e).2.eng_streams_ = [d]
        rw [hstr, hone])]
      simp)]
    exact hst

theorem processing_thread_state_after_detection_witness :
    (∀ h, handleDetection sampleEnv 0 1 sampleDetectedEngine = some h →
      ProcessEventIteration sampleEnv 0 sampleDetectedEngine =
        some ((if CheckIfOtherStreamsActive sampleEnv 1 h then UpdateState .ENG_ACTIVE h
          else h).log .releaseWakeLock)) ∧
    (sampleDetectedEngine.capture_requested_ = false → (∀ c, sampleEnv.otherThreads c = []) →
      (∀ c, 0 ≤ sampleEnv.SetEngineDetectionState c 1) →
      ∃ h e2, handleDetection sampleEnv 0 1 sampleDetectedEngine = some h ∧
        ProcessEventIteration sampleEnv 0 sampleDetectedEngine = some e2 ∧
        h.eng_state_ = .ENG_DETECTED ∧ h.eng_streams_ = sampleDetectedEngine.eng_streams_ ∧
        e2.det_streams_q_ = [] ∧ notifiedListeners (issued sampleDetectedEngine e2) = [1] ∧
        (CheckIfOtherStreamsActive sampleEnv 1 h = true → e2.eng_state_ = .ENG_ACTIVE) ∧
        (CheckIfOtherStreamsActive sampleEnv 1 h = false → e2.eng_state_ = .ENG_DETECTED) ∧
        (sampleDetectedEngine.eng_streams_ = [1] → e2.eng_state_ = .ENG_DETECTED)) :=
  processing_thread_state_after_detection sampleEnv 0 sampleDetectedEngine 1 [] rfl rfl rfl rfl

/-! ## The detection queue under the client operations -/

theorem UpdateSessionPayload_queue (env : Env) (p : st_param_id_type_t) (e : Engine) :
    (UpdateSessionPayload env p e).2.det_streams_q_ = e.det_streams_q_ := by
  obtain ⟨suffix, m1, m2, cd, cds, hU, _, _⟩ := UpdateSessionPayload_shape env p e
  rw [hU]

theorem ProcessStopRecognition_queue (env : Env) (s : StreamPtr) (e : Engine) :
    (ProcessStopRecognition env s e).2.det_streams_q_ = e.det_streams_q_ := by
  obtain ⟨suffix, _, _, hf, _⟩ := ProcessStopRecognition_shape env s e
  exact hf.det_streams_q_

theorem startConfigs_queue (env : Env) (s : StreamPtr) (e : Engine) (st : Int)
    (s1 : StreamPtr) (e2 : Engine) (h : startConfigs env s e = some (st, s1, e2)) :
    e2.det_streams_q_ = e.det_streams_q_ := by
  unfold startConfigs at h
  by_cases h1 : e.updated_cfg_.length > 0
  · rw [if_pos h1] at h
    dsimp only at h
    have hf := (startUpdatedCfgLoop_configFrame env e.updated_cfg_ s e).det_streams_q_
    by_cases h2 : (startUpdatedCfgLoop env e.updated_cfg_ s e).1 ≠ 0
    · rw [if_pos h2] at h
      simp only [Option.some.injEq] at h
      rw [h] at hf
      exact hf
    · rw [if_neg h2] at h
      simp only [Option.some.injEq, Prod.mk.injEq] at h
      obtain ⟨-, -, rfl⟩ := h
      exact hf
  · rw [if_neg h1] at h
    by_cases h2 : e.isPDK = true
    · rw [if_pos h2] at h
      by_cases h3 : dynCast env e.clk s = true
      · rw [if_pos h3] at h
        by_cases h4 : e.pdk_wakeup_config_.model_id ≠ (env.stream e.clk s).modelId
        · rw [if_pos h4] at h
          simp only [Option.some.injEq, Prod.mk.injEq] at h
          obtain ⟨-, -, rfl⟩ := h
          exact ((UpdateConfigs_configFrame env _).det_streams_q_).trans
            (UpdateConfigPDK_configFrame _ e).det_streams_q_
        · rw [if_neg h4] at h
          simp only [Option.some.injEq, Prod.mk.injEq] at h
          obtain ⟨-, -, rfl⟩ := h
          exact (UpdateConfigs_configFrame env e).det_streams_q_
      · rw [if_neg h3] at h
        exact absurd h (by simp)
    · rw [if_neg h2] at h
      simp only [Option.some.injEq, Prod.mk.injEq] at h
      obtain ⟨-, -, rfl⟩ := h
      exact (UpdateConfigs_configFrame env e).det_streams_q_

theorem startMmap_queue (env : Env) (s : StreamPtr) (e : Engine) (st : Int) (e2 : Engine)
    (h : startMmap env s e = some (st, e2)) : e2.det_streams_q_ = e.det_streams_q_ := by
  unfold startMmap at h
  split_ifs at h
  · split at h
    · exact absurd h (by simp)
    · dsimp only at h
      split_ifs at h
      all_goals
        simp only [Option.some.injEq, Prod.mk.injEq] at h
        obtain ⟨-, rfl⟩ := h
        rfl
  · simp only [Option.some.injEq, Prod.mk.injEq] at h
    obtain ⟨-, rfl⟩ := h
    rfl

theorem startSession_queue (env : Env) (s : StreamPtr) (e : Engine) :
    (startSession env s e).2.det_streams_q_ = e.det_streams_q_ := by
  unfold startSession
  dsimp only
  split_ifs <;> rfl

theorem ProcessStartRecognition_queue (env : Env) (s : StreamPtr) (e : Engine) (st : Int)
    (e2 : Engine) (h : ProcessStartRecognition env s e = some (st, e2)) :
    e2.det_streams_q_ = e.det_streams_q_ := by
  unfold ProcessStartRecognition at h
  dsimp only at h
  have h0 : ∀ x : Engine, x.det_streams_q_ = e.det_streams_q_ →
      ∀ st1 s1 e3, startConfigs env s x = some (st1, s1, e3) →
        e3.det_streams_q_ = e.det_streams_q_ :=
    fun x hx st1 s1 e3 h3 => (startConfigs_queue env s x st1 s1 e3 h3).trans hx
  split at h
  · exact absurd h (by simp)
  · rename_i status s1 e3 hc
    have h3 : e3.det_streams_q_ = e.det_streams_q_ := by
      refine h0 _ ?_ _ _ _ hc
      split_ifs <;> rfl
    split_ifs at h
    · simp only [Option.some.injEq, Prod.mk.injEq] at h
      obtain ⟨-, rfl⟩ := h
      exact h3
    · simp only [Option.some.injEq, Prod.mk.injEq] at h
      obtain ⟨-, rfl⟩ := h
      exact h3
    · split at h
      · exact absurd h (by simp)
      · rename_i st5 e5 hm
        have h5 : e5.det_streams_q_ = e.det_streams_q_ :=
          (startMmap_queue env s1 _ st5 e5 hm).trans h3
        split_ifs at h
        · simp only [Option.some.injEq, Prod.mk.injEq] at h
          obtain ⟨-, rfl⟩ := h
          exact h5
        · simp only [Option.some.injEq] at h
          have hs := startSession_queue env s1 e5
          rw [h] at hs
          exact hs.trans h5

theorem UpdateEngineConfigOnStop_queue (env : Env) (s : StreamPtr) (e : Engine) :
    (UpdateEngineConfigOnStop env s e).2.det_streams_q_ = e.det_streams_q_ := by
  unfold UpdateEngineConfigOnStop
  dsimp only
  split_ifs <;> rfl

theorem stopRestartOthers_queue (env : Env) (s : StreamPtr) (e : Engine) (st : Int)
    (e2 : Engine) (h : stopRestartOthers env s e = some (st, e2)) :
    e2.det_streams_q_ = e.det_streams_q_ := by
  unfold stopRestartOthers at h
  dsimp only at h
  have hu := UpdateEngineConfigOnStop_queue env s e
  split at h
  · exact absurd h (by simp)
  · rename_i e5 he5
    have h5 : e5.det_streams_q_ = e.det_streams_q_ := by
      split_ifs at he5
      · simp only [Option.some.injEq] at he5
        rw [← he5]
        exact hu
      · simp only [Option.some.injEq] at he5
        rw [← he5]
        exact hu
    split at h
    · exact absurd h (by simp)
    · exact (ProcessStartRecognition_queue env _ e5 st e2 h).trans h5

theorem StartRecognition_queue (env : Env) (s : StreamPtr) (e : Engine) (r : Int)
    (e2 : Engine) (h : StartRecognition env s e = some (r, e2)) :
    e2.det_streams_q_ = e.det_streams_q_ := by
  unfold StartRecognition at h
  dsimp only at h
  split at h
  · exact absurd h (by simp)
  · rename_i e3 he3
    have h3 : e3.det_streams_q_ = e.det_streams_q_ := by
      split_ifs at he3
      · split at he3
        · exact absurd he3 (by simp)
        · simp only [Option.some.injEq] at he3
          rw [← he3]
          exact ProcessStopRecognition_queue env _ _
      · simp only [Option.some.injEq] at he3
        rw [← he3]
        rfl
    split at h
    · exact absurd h (by simp)
    · rename_i status e4 hp
      have h4 := (ProcessStartRecognition_queue env s e3 status e4 hp).trans h3
      split_ifs at h
      all_goals
        simp only [Option.some.injEq, Prod.mk.injEq] at h
        obtain ⟨-, rfl⟩ := h
        exact h4

theorem StopRecognition_queue (env : Env) (s : StreamPtr) (e : Engine) (r : Int)
    (e2 : Engine) (h : StopRecognition env s e = some (r, e2)) :
    e2.det_streams_q_ = e.det_streams_q_ := by
  unfold StopRecognition at h
  dsimp only at h
  have hs : (ProcessStopRecognition env s
      (({ e with exit_buffering_ := true } : Engine).log (.SetModelState s false))).2.det_streams_q_ =
        e.det_streams_q_ := ProcessStopRecognition_queue env s _
  split_ifs at h
  · simp only [Option.some.injEq, Prod.mk.injEq] at h
    obtain ⟨-, rfl⟩ := h
    exact hs
  · split at h
    · exact absurd h (by simp)
    · rename_i st e6 hp
      simp only [Option.some.injEq, Prod.mk.injEq] at h
      obtain ⟨-, rfl⟩ := h
      exact (stopRestartOthers_queue env s _ st _ hp).trans hs
  · simp only [Option.some.injEq, Prod.mk.injEq] at h
    obtain ⟨-, rfl⟩ := h
    exact hs
  · simp only [Option.some.injEq, Prod.mk.injEq] at h
    obtain ⟨-, rfl⟩ := h
    rfl

theorem restartMmap_queue (env : Env) (s : StreamPtr) (u : Int) (e : Engine) (st : Int)
    (e2 : Engine) (h : restartMmap env s u e = some (st, e2)) :
    e2.det_streams_q_ = e.det_streams_q_ ∧ e2.eng_state_ = e.eng_state_ ∧
      ∃ t, e2.trace = e.trace ++ t ∧ notifiedListeners t = [] := by
  unfold restartMmap at h
  split_ifs at h
  · dsimp only at h
    split at h
    · exact absurd h (by simp)
    · split_ifs at h
      all_goals
        simp only [Option.some.injEq, Prod.mk.injEq] at h
        obtain ⟨-, rfl⟩ := h
        refine ⟨rfl, rfl, [.GetMmapPosition s, .ResetMmapBuffer s], ?_, rfl⟩
        simp [Engine.log]
  · simp only [Option.some.injEq, Prod.mk.injEq] at h
    obtain ⟨-, rfl⟩ := h
    exact ⟨rfl, rfl, [], by simp, rfl⟩

/-- `RestartRecognition` leaves the detection queue alone and notifies no
listener; it either leaves the engine state alone or enters Active, and with
concurrent capture it enters Active only while the queue is empty. -/
theorem RestartRecognition_quiet (env : Env) (s : StreamPtr) (e : Engine) (r : Int)
    (e2 : Engine) (h : RestartRecognition env s e = some (r, e2)) :
    e2.det_streams_q_ = e.det_streams_q_ ∧
      (∃ t, e2.trace = e.trace ++ t ∧ notifiedListeners t = []) ∧
      (e2.eng_state_ = e.eng_state_ ∨
        (e2.eng_state_ = .ENG_ACTIVE ∧
          (env.concurrentEventCapture = true → e.det_streams_q_ = []))) := by
  unfold RestartRecognition at h
  split_ifs at h with h1 h2
  · simp only [Option.some.injEq, Prod.mk.injEq] at h
    obtain ⟨-, rfl⟩ := h
    exact ⟨rfl, ⟨[], by simp, rfl⟩, Or.inl rfl⟩
  · simp only [Option.some.injEq, Prod.mk.injEq] at h
    obtain ⟨-, rfl⟩ := h
    exact ⟨rfl, ⟨[], by simp, rfl⟩, Or.inl rfl⟩
  · dsimp only at h
    have hE : ∃ E : Engine, (if e.custom_detection_event.isSome = true then
        ({ e with exit_buffering_ := true, buffer_ := e.buffer_.map PalRingBuffer.reset,
                  custom_detection_event := none, custom_detection_event_size := 0 } : Engine)
      else { e with exit_buffering_ := true, buffer_ := e.buffer_.map PalRingBuffer.reset }) =
        E ∧ E.det_streams_q_ = e.det_streams_q_ ∧ E.trace = e.trace := by
      refine ⟨_, rfl, ?_⟩
      split_ifs <;> exact ⟨rfl, rfl⟩
    obtain ⟨E, hEq, hEqu, hEt⟩ := hE
    rw [hEq] at h
    clear hEq
    obtain ⟨suffix, m1, m2, cd, cds, hU, hsteps, _⟩ :=
      UpdateSessionPayload_shape env .ENGINE_RESET E
    have hUq : (UpdateSessionPayload env .ENGINE_RESET E).2.det_streams_q_ =
        e.det_streams_q_ := by rw [hU]; exact hEqu
    have hUt : (UpdateSessionPayload env .ENGINE_RESET E).2.trace =
        e.trace ++ Effect.updateSessionPayload .ENGINE_RESET :: suffix := by
      rw [hU]; simp [hEt]
    have hn1 : notifiedListeners (Effect.updateSessionPayload .ENGINE_RESET :: suffix) = [] := by
      have := notifiedListeners_payloadSteps _ _ suffix hsteps
      unfold notifiedListeners at this ⊢
      rw [List.filterMap_cons]
      exact this
    split at h
    · exact absurd h (by simp)
    · rename_i status e4 hp
      simp only [Option.some.injEq, Prod.mk.injEq] at h
      obtain ⟨-, rfl⟩ := h
      obtain ⟨hq, -, t, ht, hn⟩ := restartMmap_queue env s _ _ status e4 hp
      refine ⟨?_, ?_, Or.inr ⟨rfl, ?_⟩⟩
      · show e4.det_streams_q_ = e.det_streams_q_
        rw [hq]
        exact hUq
      · refine ⟨(Effect.updateSessionPayload .ENGINE_RESET :: suffix) ++
          [.waitEOS (env.eosSignalled (UpdateSessionPayload env .ENGINE_RESET E).2.clk)] ++ t,
          ?_, ?_⟩
        · show e4.trace = _
          rw [ht]
          simp [Engine.log, hUt]
        · rw [notifiedListeners_append, notifiedListeners_append, hn1, hn]
          rfl
      · intro hcc
        have hne : ¬ (e.det_streams_q_.isEmpty = false) := fun hx => h2 ⟨hcc, Or.inl hx⟩
        cases hq0 : e.det_streams_q_ with
        | nil => rfl
        | cons a b => rw [hq0] at hne; simp at hne

theorem reloadEngineModel_queue (env : Env) (s : StreamPtr) (data : Option (List Nat))
    (n : Nat) (add : Bool) (e : Engine) (ok : Bool) (st : Int) (e2 : Engine)
    (h : reloadEngineModel env s data n add e = some (ok, st, e2)) :
    e2.det_streams_q_ = e.det_streams_q_ := by
  unfold reloadEngineModel at h
  split at h
  · exact absurd h (by simp)
  · dsimp only at h
    split_ifs at h
    all_goals
      simp only [Option.some.injEq, Prod.mk.injEq] at h
      obtain ⟨-, -, rfl⟩ := h
    · rfl
    · rfl
    · exact UpdateSessionPayload_queue env _ _
    · exact UpdateSessionPayload_queue env _ _

theorem stopForReload_queue (env : Env) (e : Engine) (r : Bool) (e2 : Engine)
    (h : stopForReload env e = some (r, e2)) : e2.det_streams_q_ = e.det_streams_q_ := by
  unfold stopForReload at h
  split_ifs at h
  · split at h
    · exact absurd h (by simp)
    · simp only [Option.some.injEq, Prod.mk.injEq] at h
      obtain ⟨-, rfl⟩ := h
      exact ProcessStopRecognition_queue env _ _
  · simp only [Option.some.injEq, Prod.mk.injEq] at h
    obtain ⟨-, rfl⟩ := h
    rfl

theorem HandleMultiStreamLoad_queue (env : Env) (s : StreamPtr) (data : Option (List Nat))
    (n : Nat) (e : Engine) (st : Int) (e2 : Engine)
    (h : HandleMultiStreamLoad env s data n e = some (st, e2)) :
    e2.det_streams_q_ = e.det_streams_q_ := by
  unfold HandleMultiStreamLoad at h
  split at h
  · exact absurd h (by simp)
  · rename_i restore e1 hs
    have h1 := stopForReload_queue env e restore e1 hs
    dsimp only at h
    have hl : ∀ ok status ex,
        (if e1.isPDK = false then reloadEngineModel env s data n true e1
          else if (UpdateSessionPayload env .LOAD_SOUND_MODEL e1).1 ≠ 0 then
            some (false, (UpdateSessionPayload env .LOAD_SOUND_MODEL e1).1,
              (UpdateSessionPayload env .LOAD_SOUND_MODEL e1).2.log (.sessionClose s))
          else some (true, (UpdateSessionPayload env .LOAD_SOUND_MODEL e1).1,
              (UpdateSessionPayload env .LOAD_SOUND_MODEL e1).2)) = some (ok, status, ex) →
        ex.det_streams_q_ = e.det_streams_q_ := by
      intro ok status ex hx
      split_ifs at hx
      · exact (reloadEngineModel_queue env s data n true e1 ok status ex hx).trans h1
      · simp only [Option.some.injEq, Prod.mk.injEq] at hx
        obtain ⟨-, -, rfl⟩ := hx
        exact (UpdateSessionPayload_queue env _ e1).trans h1
      · simp only [Option.some.injEq, Prod.mk.injEq] at hx
        obtain ⟨-, -, rfl⟩ := hx
        exact (UpdateSessionPayload_queue env _ e1).trans h1
    split at h
    · exact absurd h (by simp)
    · rename_i status ex hx
      simp only [Option.some.injEq, Prod.mk.injEq] at h
      obtain ⟨-, rfl⟩ := h
      exact hl _ _ _ hx
    · rename_i status ex hx
      have hq := hl _ _ _ hx
      split_ifs at h
      · split at h
        · exact absurd h (by simp)
        · exact (ProcessStartRecognition_queue env _ _ st e2 h).trans hq
      · simp only [Option.some.injEq, Prod.mk.injEq] at h
        obtain ⟨-, rfl⟩ := h
        exact hq

theorem HandleMultiStreamUnloadPDK_queue (env : Env) (s : StreamPtr) (e : Engine) (st : Int)
    (e2 : Engine) (h : HandleMultiStreamUnloadPDK env s e = some (st, e2)) :
    e2.det_streams_q_ = e.det_streams_q_ := by
  unfold HandleMultiStreamUnloadPDK at h
  have hu : (UpdateSessionPayload env .UNLOAD_SOUND_MODEL
      { e with deregister_config_model_id := (env.stream e.clk s).modelId }).2.det_streams_q_ =
        e.det_streams_q_ := UpdateSessionPayload_queue env _ _
  dsimp only at h
  split_ifs at h
  all_goals
    simp only [Option.some.injEq, Prod.mk.injEq] at h
    obtain ⟨-, rfl⟩ := h
  · rfl
  all_goals exact hu

theorem restartAfterUnload_queue (env : Env) (e : Engine) (st : Int) (e2 : Engine)
    (h : restartAfterUnload env e = some (st, e2)) :
    e2.det_streams_q_ = e.det_streams_q_ := by
  unfold restartAfterUnload at h
  split_ifs at h
  · split at h
    · exact absurd h (by simp)
    · have hq := ProcessStartRecognition_queue env _ _ st e2 h
      exact hq
  · split at h
    · exact absurd h (by simp)
    · have hq := ProcessStartRecognition_queue env _ _ st e2 h
      exact hq

theorem HandleMultiStreamUnload_queue (env : Env) (s : StreamPtr) (e : Engine) (st : Int)
    (e2 : Engine) (h : HandleMultiStreamUnload env s e = some (st, e2)) :
    e2.det_streams_q_ = e.det_streams_q_ := by
  unfold HandleMultiStreamUnload at h
  split at h
  · exact absurd h (by simp)
  · rename_i restore e1 hs
    have h1 := stopForReload_queue env e restore e1 hs
    dsimp only at h
    have hl : ∀ ok status ex,
        (if e1.isPDK = true then
          (HandleMultiStreamUnloadPDK env s e1).map (fun r => (true, r.1, r.2))
        else
          (reloadEngineModel env s none 0 false e1).map
            (fun r => (r.1, r.2.1, if r.1 = true then UpdateState .ENG_LOADED r.2.2 else r.2.2))) =
          some (ok, status, ex) →
        ex.det_streams_q_ = e.det_streams_q_ := by
      intro ok status ex hx
      split_ifs at hx
      · cases hp : HandleMultiStreamUnloadPDK env s e1 with
        | none => rw [hp] at hx; exact absurd hx (by simp)
        | some r =>
          rw [hp] at hx
          simp only [Option.map_some', Option.some.injEq, Prod.mk.injEq] at hx
          obtain ⟨-, -, rfl⟩ := hx
          exact (HandleMultiStreamUnloadPDK_queue env s e1 r.1 r.2 hp).trans h1
      · cases hp : reloadEngineModel env s none 0 false e1 with
        | none => rw [hp] at hx; exact absurd hx (by simp)
        | some r =>
          rw [hp] at hx
          simp only [Option.map_some', Option.some.injEq, Prod.mk.injEq] at hx
          obtain ⟨-, -, rfl⟩ := hx
          have := (reloadEngineModel_queue env s none 0 false e1 r.1 r.2.1 r.2.2 hp).trans h1
          split_ifs
          · exact this
          · exact this
    split at h
    · exact absurd h (by simp)
    · rename_i status ex hx
      simp only [Option.some.injEq, Prod.mk.injEq] at h
      obtain ⟨-, rfl⟩ := h
      exact hl _ _ _ hx
    · rename_i status ex hx
      have hq := hl _ _ _ hx
      split_ifs at h
      · exact (restartAfterUnload_queue env _ st e2 h).trans hq
      · simp only [Option.some.injEq, Prod.mk.injEq] at h
        obtain ⟨-, rfl⟩ := h
        exact hq

theorem registerModelPDK_queue (env : Env) (s : StreamPtr) (d : List Nat) (n : Nat)
    (e : Engine) (ok : Bool) (n2 : Nat) (e2 : Engine)
    (h : registerModelPDK env s d n e = some (ok, n2, e2)) :
    e2.det_streams_q_ = e.det_streams_q_ := by
  unfold registerModelPDK at h
  dsimp only at h
  split_ifs at h
  all_goals
    simp only [Option.some.injEq, Prod.mk.injEq] at h
    obtain ⟨-, -, rfl⟩ := h
    rfl

theorem loadModel_queue (env : Env) (s : StreamPtr) (d : List Nat) (n : Nat) (e : Engine)
    (st : Int) (e2 : Engine) (h : loadModel env s d n e = some (st, e2)) :
    e2.det_streams_q_ = e.det_streams_q_ := by
  unfold loadModel at h
  dsimp only at h
  by_cases h1 : CheckIfOtherStreamsAttached s { e with exit_buffering_ := true } = true
  · rw [if_pos h1] at h
    exact HandleMultiStreamLoad_queue env s _ n { e with exit_buffering_ := true } st e2 h
  · rw [if_neg h1] at h
    have hE : ∀ E : Engine, E.det_streams_q_ = e.det_streams_q_ →
        (UpdateSessionPayload env .LOAD_SOUND_MODEL E).2.det_streams_q_ = e.det_streams_q_ :=
      fun E hE => (UpdateSessionPayload_queue env _ E).trans hE
    split_ifs at h
    all_goals
      simp only [Option.some.injEq, Prod.mk.injEq] at h
      obtain ⟨-, rfl⟩ := h
    all_goals first
      | rfl
      | exact hE _ rfl

theorem LoadSoundModel_queue (env : Env) (s : StreamPtr) (data : Option (List Nat))
    (n : Nat) (e : Engine) (r : Int) (e2 : Engine)
    (h : LoadSoundModel env s data n e = some (r, e2)) :
    e2.det_streams_q_ = e.det_streams_q_ := by
  unfold LoadSoundModel at h
  split at h
  · simp only [Option.some.injEq, Prod.mk.injEq] at h
    obtain ⟨-, rfl⟩ := h
    rfl
  · rename_i d
    split at h
    · exact absurd h (by simp)
    · rename_i n2 e1 hp
      simp only [Option.some.injEq, Prod.mk.injEq] at h
      obtain ⟨-, rfl⟩ := h
      exact registerModelPDK_queue env s d n e _ _ _ hp
    · rename_i n2 e1 hp
      have h1 := registerModelPDK_queue env s d n e _ _ _ hp
      split at h
      · exact absurd h (by simp)
      · rename_i status ex hl
        have h2 := (loadModel_queue env s d n2 e1 status ex hl).trans h1
        simp only [Option.some.injEq, Prod.mk.injEq] at h
        obtain ⟨-, rfl⟩ := h
        split_ifs
        · exact h2
        · exact h2

theorem unloadModel_queue (env : Env) (s : StreamPtr) (e : Engine) (st : Int) (e2 : Engine)
    (h : unloadModel env s e = some (st, e2)) : e2.det_streams_q_ = e.det_streams_q_ := by
  unfold unloadModel at h
  dsimp only at h
  split_ifs at h
  · exact HandleMultiStreamUnload_queue env s { e with exit_buffering_ := true } st e2 h
  · simp only [Option.some.injEq, Prod.mk.injEq] at h
    obtain ⟨-, rfl⟩ := h
    rfl

theorem UnloadSoundModel_queue (env : Env) (s : StreamPtr) (e : Engine) (r : Int)
    (e2 : Engine) (h : UnloadSoundModel env s e = some (r, e2)) :
    e2.det_streams_q_ = e.det_streams_q_ := by
  unfold UnloadSoundModel at h
  split at h
  · exact absurd h (by simp)
  · rename_i status ex hu
    split_ifs at h
    simp only [Option.some.injEq, Prod.mk.injEq] at h
    obtain ⟨-, rfl⟩ := h
    exact unloadModel_queue env s e status ex hu

theorem noNotification_intro (e e2 : Engine) (hp : e.trace <+: e2.trace)
    (hn : notifiedListeners (issued e e2) = []) :
    ∃ t, e2.trace = e.trace ++ t ∧ notifiedListeners t = [] := by
  obtain ⟨t, ht⟩ := hp
  refine ⟨t, ht.symm, ?_⟩
  rwa [issued_of_trace e e2 t ht.symm] at hn

/-- What a detection event does to the detection queue: nothing, or, in state
Active, it replaces the queue by the detected listener and enters Detected, or,
in state Buffering or Detected, it appends the detected listener.  It notifies no
listener. -/
theorem HandleSessionEvent_queue (env : Env) (data : List Nat) (e e2 : Engine)
    (h : HandleSessionEvent env data e = some e2) :
    (∃ t, e2.trace = e.trace ++ t ∧ notifiedListeners t = []) ∧
    ((e2.det_streams_q_ = e.det_streams_q_ ∧ e2.eng_state_ = e.eng_state_) ∨
     (∃ s, s ≠ 0 ∧ e.eng_state_ = .ENG_ACTIVE ∧ e2.eng_state_ = .ENG_DETECTED ∧
        e2.det_streams_q_ = [s]) ∨
     (∃ s, s ≠ 0 ∧ (e.eng_state_ = .ENG_BUFFERING ∨ e.eng_state_ = .ENG_DETECTED) ∧
        e2.eng_state_ = e.eng_state_ ∧ e2.det_streams_q_ = e.det_streams_q_ ++ [s])) := by
  unfold HandleSessionEvent at h
  dsimp only at h
  by_cases hl : e.eng_state_ = .ENG_LOADED
  · rw [if_pos hl] at h
    simp only [Option.some.injEq] at h
    subst h
    obtain ⟨suffix, m1, m2, cd, cds, hU, hsteps, _⟩ :=
      UpdateSessionPayload_shape env .ENGINE_RESET e
    rw [hU]
    refine ⟨⟨Effect.updateSessionPayload .ENGINE_RESET :: suffix, rfl, ?_⟩, Or.inl ⟨rfl, rfl⟩⟩
    have := notifiedListeners_payloadSteps _ _ suffix hsteps
    unfold notifiedListeners at this ⊢
    rw [List.filterMap_cons]
    exact this
  · rw [if_neg hl] at h
    by_cases hc : (e.eng_state_ ≠ .ENG_ACTIVE ∧
        (if env.concurrentEventCapture = true then
          e.eng_state_ ≠ .ENG_BUFFERING ∧ e.eng_state_ ≠ .ENG_DETECTED
        else True))
    · rw [if_pos hc] at h
      simp only [Option.some.injEq] at h
      subst h
      exact ⟨⟨[], by simp, rfl⟩, Or.inl ⟨rfl, rfl⟩⟩
    · rw [if_neg hc] at h
      by_cases ha : e.eng_state_ = .ENG_ACTIVE
      · simp only [if_pos ha] at h
        cases hb : e.buffer_ with
        | none => rw [hb] at h; exact absurd h (by simp)
        | some b =>
          rw [hb] at h
          dsimp only at h
          split_ifs at h with h0 hp
          · simp only [Option.some.injEq] at h
            subst h
            exact ⟨noNotification_intro _ _ (by simp [Engine.log])
              (by simp [issued, Engine.log, notifiedListeners]), Or.inl ⟨rfl, rfl⟩⟩
          · simp only [Option.some.injEq] at h
            subst h
            exact ⟨noNotification_intro _ _ (by simp [Engine.log])
              (by simp [issued, Engine.log, notifiedListeners]), Or.inl ⟨rfl, rfl⟩⟩
          · unfold handleFirstDetection at h
            simp only [Engine.log, Option.some.injEq] at h
            subst h
            exact ⟨noNotification_intro _ _ (by simp [Engine.log, UpdateState])
              (by simp [issued, Engine.log, notifiedListeners, UpdateState]),
              Or.inr (Or.inl ⟨_, h0, ha, rfl, rfl⟩)⟩
      · simp only [if_neg ha] at h
        have hst : e.eng_state_ = .ENG_BUFFERING ∨ e.eng_state_ = .ENG_DETECTED := by
          by_contra hn
          apply hc
          refine ⟨ha, ?_⟩
          by_cases hcc : env.concurrentEventCapture = true
          · rw [if_pos hcc]
            exact ⟨fun hx => hn (Or.inl hx), fun hx => hn (Or.inr hx)⟩
          · rw [if_neg hcc]
            trivial
        by_cases h0 : env.GetDetectedStream e.clk data = 0
        · rw [if_pos h0] at h
          simp only [Option.some.injEq] at h
          subst h
          exact ⟨noNotification_intro _ _ (by simp [Engine.log])
            (by simp [issued, Engine.log, notifiedListeners]), Or.inl ⟨rfl, rfl⟩⟩
        · rw [if_neg h0] at h
          by_cases hp : env.ParseDetectionPayload (e.log .GetDetectedStream).clk
              (env.GetDetectedStream e.clk data) data ≠ 0
          · rw [if_pos hp] at h
            simp only [Option.some.injEq] at h
            subst h
            exact ⟨noNotification_intro _ _ (by simp [Engine.log])
              (by simp [issued, Engine.log, notifiedListeners]), Or.inl ⟨rfl, rfl⟩⟩
          · rw [if_neg hp] at h
            unfold handleConcurrentDetection at h
            dsimp only at h
            cases hb : e.buffer_ with
            | none =>
              simp only [Engine.log, hb] at h
              exact absurd h (by simp)
            | some b =>
              simp only [Engine.log, hb] at h
              by_cases hz : b.getBufferSize = 0
              · rw [if_pos hz] at h
                exact absurd h (by simp)
              · rw [if_neg hz] at h
                simp only [Option.some.injEq] at h
                subst h
                exact ⟨noNotification_intro _ _ (by simp)
                  (by simp [issued, notifiedListeners]),
                  Or.inr (Or.inr ⟨_, h0, hst, rfl, rfl⟩)⟩

theorem applyEngineCall_queue (env : Env) (c : EngineCall) (e e2 : Engine)
    (hc : ∀ d, c ≠ .HandleSessionEvent d) (h : applyEngineCall env c e = some e2) :
    e2.det_streams_q_ = e.det_streams_q_ := by
  cases c with
  | LoadSoundModel s data n =>
    simp only [applyEngineCall, Option.map_eq_some'] at h
    obtain ⟨r, hr, rfl⟩ := h
    exact LoadSoundModel_queue env s data n e r.1 r.2 hr
  | UnloadSoundModel s =>
    simp only [applyEngineCall, Option.map_eq_some'] at h
    obtain ⟨r, hr, rfl⟩ := h
    exact UnloadSoundModel_queue env s e r.1 r.2 hr
  | StartRecognition s =>
    simp only [applyEngineCall, Option.map_eq_some'] at h
    obtain ⟨r, hr, rfl⟩ := h
    exact StartRecognition_queue env s e r.1 r.2 hr
  | StopRecognition s =>
    simp only [applyEngineCall, Option.map_eq_some'] at h
    obtain ⟨r, hr, rfl⟩ := h
    exact StopRecognition_queue env s e r.1 r.2 hr
  | RestartRecognition s =>
    simp only [applyEngineCall, Option.map_eq_some'] at h
    obtain ⟨r, hr, rfl⟩ := h
    exact (RestartRecognition_quiet env s e r.1 r.2 hr).1
  | HandleSessionEvent d => exact absurd rfl (hc d)

theorem runEngineCalls_queue (env : Env) (calls : List EngineCall) :
    ∀ e e2 : Engine, (∀ c ∈ calls, ∀ d, c ≠ .HandleSessionEvent d) →
      runEngineCalls env calls e = some e2 → e2.det_streams_q_ = e.det_streams_q_ := by
  induction calls with
  | nil =>
    intro e e2 _ h
    simp only [runEngineCalls, Option.some.injEq] at h
    rw [h]
  | cons c cs ih =>
    intro e e2 hc h
    simp only [runEngineCalls] at h
    cases h1 : applyEngineCall env c e with
    | none => rw [h1] at h; exact absurd h (by simp)
    | some e1 =>
      rw [h1] at h
      exact (ih e1 e2 (fun x hx => hc x (List.mem_cons_of_mem c hx)) h).trans
        (applyEngineCall_queue env c e e1 (hc c (List.mem_cons_self c cs)) h1)

/-- C14, as the claim states it, fails: load, start, a detection of listener 1
and a stop that gets the engine mutex before the processing thread leave the
engine in state Loaded with listener 1 still in the detection queue, and the
processing thread, finding the state not Detected, leaves the queue as it is. -/
theorem stop_leaves_the_detection_queued :
    ∃ e2 e3, runEngineCalls sampleEnv [.LoadSoundModel 1 (some [1, 2, 3]) 3,
        .StartRecognition 1, .HandleSessionEvent [], .StopRecognition 1] sampleIdleEngine =
        some e2 ∧
      sampleIdleEngine.det_streams_q_ = [] ∧
      e2.eng_state_ = .ENG_LOADED ∧ e2.det_streams_q_ = [1] ∧
      ProcessEventIteration sampleEnv 0 e2 = some e3 ∧
      e3.eng_state_ = .ENG_LOADED ∧ e3.det_streams_q_ = [1] :=
  ⟨_, _, rfl, rfl, rfl, rfl, rfl, rfl, rfl⟩

/-- C14 (amended): the client operations load, unload, start, stop and restart
never change the detection queue, so in every state reached by them alone from
an empty queue the queue is empty; a detection event leaves the queue as it is,
or, in state Active, replaces it by the detected listener and enters Detected,
or, in state Buffering or Detected, appends the detected listener; and the
processing thread leaves the queue as it is when it finds a state other than
Detected. -/
theorem detection_queue_changes_only_by_detections (env : Env) (e e2 : Engine) :
    (∀ calls, (∀ c ∈ calls, ∀ d, c ≠ EngineCall.HandleSessionEvent d) →
      runEngineCalls env calls e = some e2 → e2.det_streams_q_ = e.det_streams_q_) ∧
    (∀ data, HandleSessionEvent env data e = some e2 →
      (e2.det_streams_q_ = e.det_streams_q_ ∧ e2.eng_state_ = e.eng_state_) ∨
      (∃ s, s ≠ 0 ∧ e.eng_state_ = .ENG_ACTIVE ∧ e2.eng_state_ = .ENG_DETECTED ∧
        e2.det_streams_q_ = [s]) ∨
      (∃ s, s ≠ 0 ∧ (e.eng_state_ = .ENG_BUFFERING ∨ e.eng_state_ = .ENG_DETECTED) ∧
        e2.eng_state_ = e.eng_state_ ∧ e2.det_streams_q_ = e.det_streams_q_ ++ [s])) ∧
    (∀ fuel, e.eng_state_ ≠ .ENG_DETECTED →
      ProcessEventIteration env fuel e = some (e.log .releaseWakeLock)) := by
  refine ⟨fun calls hc h => runEngineCalls_queue env calls e e2 hc h,
    fun data h => (HandleSessionEvent_queue env data e e2 h).2, ?_⟩
  intro fuel hs
  unfold ProcessEventIteration
  split_ifs <;> rfl

theorem detection_queue_changes_only_by_detections_witness :
    ∃ e2, runEngineCalls sampleEnv [.StartRecognition 1, .StopRecognition 1] sampleEngine =
        some e2 ∧
      e2.det_streams_q_ = sampleEngine.det_streams_q_ :=
  ⟨_, rfl,
    (detection_queue_changes_only_by_detections sampleEnv sampleEngine _).1
      [.StartRecognition 1, .StopRecognition 1] (by simp) rfl⟩

/-! ## The order of service -/

theorem grown_same (e : Engine) : Grown e e :=
  ⟨⟨[], by simp⟩, [], by simp, rfl⟩

theorem grown_step {a b c : Engine} (h1 : Grown a b) (h2 : Grown b c) : Grown a c := by
  obtain ⟨⟨x, hx⟩, t, ht, hn⟩ := h1
  obtain ⟨⟨y, hy⟩, u, hu, hm⟩ := h2
  refine ⟨⟨x ++ y, by rw [hy, hx, List.append_assoc]⟩, t ++ u, by rw [hu, ht, List.append_assoc], ?_⟩
  rw [notifiedListeners_append, hn, hm]
  rfl

theorem HandleSessionEvent_grows (env : Env) (data : List Nat) (e e2 : Engine)
    (h : HandleSessionEvent env data e = some e2) (hs : QueueSafe e) :
    Grown e e2 ∧ QueueSafe e2 := by
  obtain ⟨hn, hq⟩ := HandleSessionEvent_queue env data e e2 h
  rcases hq with ⟨h1, h2⟩ | ⟨s, hs0, ha, hd, h1⟩ | ⟨s, hs0, hb, h2, h1⟩
  · refine ⟨⟨⟨[], by simp [h1]⟩, hn⟩, ?_, ?_⟩
    · rw [h1]; exact hs.1
    · rw [h1, h2]; exact hs.2
  · refine ⟨⟨⟨[s], by rw [h1, hs.2 ha]; rfl⟩, hn⟩, ?_, ?_⟩
    · rw [h1]
      intro x hx
      simp only [List.mem_singleton] at hx
      rw [hx]
      exact hs0
    · intro hact
      rw [hd] at hact
      exact absurd hact (by simp)
  · refine ⟨⟨⟨[s], h1⟩, hn⟩, ?_, ?_⟩
    · rw [h1]
      intro x hx
      rcases List.mem_append.1 hx with hx | hx
      · exact hs.1 x hx
      · simp only [List.mem_singleton] at hx
        rw [hx]
        exact hs0
    · intro hact
      rw [h2] at hact
      rcases hb with hb | hb <;> rw [hb] at hact <;> exact absurd hact (by simp)

theorem runEvents_grow (env : Env) (calls : List EngineCall)
    (hev : ∀ x ∈ calls, ∃ data, x = EngineCall.HandleSessionEvent data) :
    ∀ e e2 : Engine, runEngineCalls env calls e = some e2 → QueueSafe e →
      Grown e e2 ∧ QueueSafe e2 := by
  induction calls with
  | nil =>
    intro e e2 h hs
    simp only [runEngineCalls, Option.some.injEq] at h
    subst h
    exact ⟨grown_same e, hs⟩
  | cons c cs ih =>
    intro e e2 h hs
    simp only [runEngineCalls] at h
    cases h1 : applyEngineCall env c e with
    | none => rw [h1] at h; exact absurd h (by simp)
    | some e1 =>
      rw [h1] at h
      obtain ⟨data, hc⟩ := hev c (List.mem_cons_self c cs)
      subst hc
      have hg := HandleSessionEvent_grows env data e e1 h1 hs
      have hr := ih (fun x hx => hev x (List.mem_cons_of_mem _ hx)) e1 e2 h hg.2
      exact ⟨grown_step hg.1 hr.1, hr.2⟩

theorem othersRun_grows (env : Env) (hev : EventsOnly env) (e e2 : Engine)
    (h : othersRun env e = some e2) (hs : QueueSafe e) : Grown e e2 ∧ QueueSafe e2 :=
  runEvents_grow env _ (hev e.clk) e e2 h hs

theorem unlocked_grows (env : Env) (hev : EventsOnly env) (e e2 : Engine)
    (h : unlocked env e = some e2) (hs : QueueSafe e) : Grown e e2 ∧ QueueSafe e2 := by
  unfold unlocked at h
  have hg := othersRun_grows env hev _ e2 h hs
  refine ⟨grown_step ⟨⟨[], by simp [Engine.log]⟩, [.mutexReleased], rfl, rfl⟩ hg.1, hg.2⟩

/-- The notification of the listener `s`, with detection events arriving
meanwhile: `s` is the one listener notified and the queue grows at its tail. -/
theorem notifyDetection_serves (env : Env) (hcc : env.concurrentEventCapture = true)
    (hev : EventsOnly env) (s : StreamPtr) (e : Engine) (st : Int) (e2 : Engine)
    (h : notifyDetection env s e = some (st, e2)) (hs : QueueSafe e) :
    (∃ a, e2.det_streams_q_ = e.det_streams_q_ ++ a) ∧
    (∃ t, e2.trace = e.trace ++ t ∧ notifiedListeners t = [s]) ∧ QueueSafe e2 := by
  unfold notifyDetection at h
  split at h
  · exact absurd h (by simp)
  · rename_i e1 h1
    obtain ⟨⟨⟨a1, hq1⟩, t1, ht1, hn1⟩, hs1⟩ := unlocked_grows env hev e e1 h1 hs
    dsimp only at h
    split at h
    · exact absurd h (by simp)
    · rename_i e3 h3
      have hmid : e3.det_streams_q_ = e1.det_streams_q_ ∧ QueueSafe e3 ∧
          ∃ t3, e3.trace = e1.trace ++ Effect.SetEngineDetectionState s :: t3 ∧
            notifiedListeners t3 = [] := by
        split_ifs at h3
        · simp only [Option.map_eq_some'] at h3
          obtain ⟨r, hr, rfl⟩ := h3
          obtain ⟨hq, ⟨t, ht, hn⟩, hst⟩ := RestartRecognition_quiet env s _ r.1 r.2 hr
          refine ⟨hq, ⟨?_, ?_⟩, t, by rw [ht]; simp [Engine.log], hn⟩
          · rw [hq]; exact hs1.1
          · intro hact
            rcases hst with hst | ⟨_, hst⟩
            · rw [hq]
              exact hs1.2 (hst ▸ hact)
            · rw [hq]
              exact hst hcc
        · simp only [Option.some.injEq] at h3
          subst h3
          exact ⟨rfl, hs1, [], by simp [Engine.log], rfl⟩
      obtain ⟨hq3, hs3, t3, ht3, hn3⟩ := hmid
      simp only [Option.map_eq_some', Prod.mk.injEq] at h
      obtain ⟨e4, h4, -, rfl⟩ := h
      obtain ⟨⟨⟨a4, hq4⟩, t4, ht4, hn4⟩, hs4⟩ := othersRun_grows env hev e3 e4 h4 hs3
      refine ⟨⟨a1 ++ a4, by rw [hq4, hq3, hq1, List.append_assoc]⟩,
        ⟨t1 ++ (Effect.SetEngineDetectionState s :: t3) ++ t4, ?_, ?_⟩, hs4⟩
      · rw [ht4, ht3, ht1]
        simp
      · rw [notifiedListeners_append, notifiedListeners_append, hn1, hn4]
        have : notifiedListeners (Effect.SetEngineDetectionState s :: t3) = [s] := by
          unfold notifiedListeners at hn3 ⊢
          rw [List.filterMap_cons]
          simp [hn3]
        rw [this]
        rfl

theorem quiet_same (e : Engine) : Quiet e e :=
  ⟨rfl, rfl, [], by simp, rfl⟩

theorem quiet_intro (e e2 : Engine) (hq : e2.det_streams_q_ = e.det_streams_q_)
    (hst : e2.eng_state_ = e.eng_state_) (hp : e.trace <+: e2.trace)
    (hn : notifiedListeners (issued e e2) = []) : Quiet e e2 :=
  ⟨hq, hst, noNotification_intro e e2 hp hn⟩

theorem quiet_step {a b c : Engine} (h1 : Quiet a b) (h2 : Quiet b c) : Quiet a c := by
  obtain ⟨hq1, hs1, t, ht, hn⟩ := h1
  obtain ⟨hq2, hs2, u, hu, hm⟩ := h2
  refine ⟨hq2.trans hq1, hs2.trans hs1, t ++ u, by rw [hu, ht, List.append_assoc], ?_⟩
  rw [notifiedListeners_append, hn, hm]
  rfl

theorem readMmap_keeps (env : Env) (l : BufLocals) (e : Engine) (rs : ReadStep)
    (h : readMmap env l e = some rs) : ReadKeeps l e rs := by
  have hq : Quiet e (e.log (.GetMmapPosition l.s)) :=
    ⟨rfl, rfl, [.GetMmapPosition l.s], rfl, rfl⟩
  unfold readMmap at h
  dsimp only at h
  split_ifs at h
  all_goals first
    | (simp only [Option.some.injEq] at h
       subst h
       first
         | exact hq
         | exact ⟨hq, rfl, rfl⟩)
    | (split at h
       · exact absurd h (by simp)
       · simp only [Option.some.injEq] at h
         subst h
         exact ⟨hq, rfl, rfl⟩)

theorem readPull_keeps (env : Env) (l : BufLocals) (e : Engine) (rs : ReadStep)
    (h : readPull env l e = some rs) : ReadKeeps l e rs := by
  unfold readPull at h
  split at h
  · exact absurd h (by simp)
  · dsimp only at h
    by_cases hf : env.ringFreeSize e.clk ≥ l.buf_size
    · rw [if_pos hf] at h
      have hq : ∀ n, Quiet e ((e.log .bufferGetFreeSize).log (.sessionRead l.s n)) :=
        fun n => ⟨rfl, rfl, [.bufferGetFreeSize, .sessionRead l.s n], by simp [Engine.log], rfl⟩
      split_ifs at h
      all_goals
        simp only [Option.some.injEq] at h
        subst h
        first
          | exact hq _
          | exact ⟨hq _, rfl, rfl⟩
    · rw [if_neg hf] at h
      simp only [Option.some.injEq] at h
      subst h
      exact ⟨⟨rfl, rfl, [.bufferGetFreeSize], rfl, rfl⟩, rfl, rfl⟩

theorem writeChunk_keeps (l : BufLocals) (e : Engine) (l2 : BufLocals) (e2 : Engine)
    (h : writeChunk l e = some (l2, e2)) :
    Quiet e e2 ∧ l2.s = l.s ∧ l2.event_notified = l.event_notified ∧
      l2.total_read_size = l.total_read_size ∧ l2.ftrt_size = l.ftrt_size ∧
      l2.status = l.status := by
  unfold writeChunk at h
  by_cases h0 : l.size = 0
  · rw [if_pos h0] at h
    simp only [Option.some.injEq, Prod.mk.injEq] at h
    obtain ⟨rfl, rfl⟩ := h
    exact ⟨quiet_same e, rfl, rfl, rfl, rfl, rfl⟩
  · rw [if_neg h0] at h
    dsimp only at h
    split at h
    · exact absurd h (by simp)
    · rename_i e1 h1
      have hq1 : Quiet e e1 := by
        split_ifs at h1
        · simp only [Option.map_eq_some'] at h1
          obtain ⟨c, -, rfl⟩ := h1
          exact ⟨rfl, rfl, [.UpdateFTRTData c], rfl, rfl⟩
        · simp only [Option.some.injEq] at h1
          subst h1
          exact quiet_same e
      by_cases hd : l.bytes_to_drop ≠ 0 ∧ toU32 l.size < l.bytes_to_drop
      · rw [if_pos hd] at h
        simp only [Option.some.injEq, Prod.mk.injEq] at h
        obtain ⟨rfl, rfl⟩ := h
        exact ⟨hq1, rfl, rfl, rfl, rfl, rfl⟩
      · rw [if_neg hd] at h
        split at h
        · simp only [Option.some.injEq, Prod.mk.injEq] at h
          obtain ⟨rfl, rfl⟩ := h
          rename_i c b _ _
          exact ⟨quiet_step hq1 ⟨rfl, rfl, [.bufferWrite c], rfl, rfl⟩, rfl, rfl, rfl, rfl, rfl⟩
        · exact absurd h (by simp)

theorem queueSafe_of_quiet {e e2 : Engine} (h : Quiet e e2) (hs : QueueSafe e) :
    QueueSafe e2 := by
  obtain ⟨hq, hst, _⟩ := h
  refine ⟨?_, ?_⟩
  · rw [hq]; exact hs.1
  · rw [hq, hst]; exact hs.2

theorem served_of_quiet {e0 e e2 : Engine} (h0 : Served e0 e) (h : Quiet e e2) :
    Served e0 e2 := by
  obtain ⟨t, a, ht, hr⟩ := h0
  obtain ⟨hq, _, u, hu, hn⟩ := h
  refine ⟨t ++ u, a, by rw [hu, ht, List.append_assoc], ?_⟩
  rw [notifiedListeners_append, hn, hq, List.append_nil]
  exact hr

theorem served_of_grown {e0 e e2 : Engine} (h0 : Served e0 e) (h : Grown e e2) :
    Served e0 e2 := by
  obtain ⟨t, a, ht, hr⟩ := h0
  obtain ⟨⟨x, hx⟩, u, hu, hn⟩ := h
  refine ⟨t ++ u, a ++ x, by rw [hu, ht, List.append_assoc], ?_⟩
  rw [notifiedListeners_append, hn, hx, List.append_nil, ← List.append_assoc, hr,
    List.append_assoc]

theorem dynCast_of_soundTrigger (env : Env) (hst : SoundTriggerStreams env) (c : Nat)
    (s : StreamPtr) (hs : s ≠ 0) : dynCast env c s = true := by
  unfold dynCast
  simp [hs, hst c s]

theorem notifyWhenReplayRead_inv (env : Env) (hcc : env.concurrentEventCapture = true)
    (hev : EventsOnly env) (hst : SoundTriggerStreams env) (e0 : Engine) (l : BufLocals)
    (e : Engine) (step : LoopStep) (h : notifyWhenReplayRead env l e = some step)
    (hinv : LoopInv e0 l e) (hb : e.eng_state_ = .ENG_BUFFERING) : StepInv e0 step := by
  obtain ⟨hserved, hsafe, hhead⟩ := hinv
  unfold notifyWhenReplayRead at h
  by_cases ht : l.total_read_size ≥ l.ftrt_size
  · rw [if_pos ht] at h
    by_cases hn : l.event_notified = false
    · rw [if_pos hn] at h
      cases hq : e.det_streams_q_ with
      | nil =>
        rw [hq] at h
        exact absurd h (by simp)
      | cons x q =>
        rw [hq] at h
        dsimp only at h
        have hx : x = l.s := by
          have := hhead hn
          rw [hq] at this
          simpa using this
        have hx0 : l.s ≠ 0 := by
          rw [← hx]
          exact hsafe.1 x (by rw [hq]; exact List.mem_cons_self x q)
        rw [if_pos (dynCast_of_soundTrigger env hst _ l.s hx0)] at h
        have hsafe1 : QueueSafe { e with det_streams_q_ := q } := by
          refine ⟨fun y hy => hsafe.1 y (by rw [hq]; exact List.mem_cons_of_mem x hy), ?_⟩
          intro hact
          rw [show ({ e with det_streams_q_ := q } : Engine).eng_state_ = e.eng_state_ from rfl,
            hb] at hact
          exact absurd hact (by simp)
        cases hr : notifyDetection env l.s { e with det_streams_q_ := q } with
        | none =>
          rw [hr] at h
          exact absurd h (by simp)
        | some r =>
          obtain ⟨status, e2⟩ := r
          rw [hr] at h
          dsimp only at h
          obtain ⟨⟨a2, hq2⟩, ⟨t2, ht2, hn2⟩, hsafe2⟩ :=
            notifyDetection_serves env hcc hev l.s _ status e2 hr hsafe1
          have hserved2 : Served e0 e2 := by
            obtain ⟨t, a, htr, hrel⟩ := hserved
            refine ⟨t ++ t2, a ++ a2, ?_, ?_⟩
            · rw [ht2]
              show e.trace ++ t2 = e0.trace ++ (t ++ t2)
              rw [htr, List.append_assoc]
            · rw [notifiedListeners_append, hn2, hq2]
              show notifiedListeners t ++ [l.s] ++ (q ++ a2) = _
              rw [hq] at hrel
              rw [← List.append_assoc e0.det_streams_q_, ← hrel, ← hx]
              simp
          by_cases hs0 : status ≠ 0
          · rw [if_pos hs0] at h
            simp only [Option.some.injEq] at h
            subst h
            exact hserved2
          · rw [if_neg hs0] at h
            simp only [Option.map_eq_some'] at h
            obtain ⟨e3, h3, rfl⟩ := h
            obtain ⟨hg, hsafe3⟩ := unlocked_grows env hev e2 e3 h3 hsafe2
            exact ⟨served_of_grown hserved2 hg, hsafe3, fun hf => absurd hf (by simp)⟩
    · rw [if_neg hn] at h
      simp only [Option.map_eq_some'] at h
      obtain ⟨e2, h2, rfl⟩ := h
      obtain ⟨hg, hsafe2⟩ := unlocked_grows env hev e e2 h2 hsafe
      exact ⟨served_of_grown hserved hg, hsafe2, fun hf => absurd hf hn⟩
  · rw [if_neg ht] at h
    simp only [Option.some.injEq] at h
    subst h
    exact ⟨hserved, hsafe, hhead⟩

theorem refreshDetection_head (l : BufLocals) (e : Engine) (l1 : BufLocals)
    (h : refreshDetection l e = some l1)
    (hhead : l.event_notified = false → e.det_streams_q_.head? = some l.s) :
    l1.event_notified = false → e.det_streams_q_.head? = some l1.s := by
  unfold refreshDetection at h
  split_ifs at h
  · split at h
    · rename_i s t b hq hb
      simp only [Option.some.injEq] at h
      subst h
      intro _
      rw [hq]
      rfl
    · exact absurd h (by simp)
  · simp only [Option.some.injEq] at h
    subst h
    exact hhead

theorem bufferingIteration_inv (env : Env) (hcc : env.concurrentEventCapture = true)
    (hev : EventsOnly env) (hst : SoundTriggerStreams env) (e0 : Engine) (l : BufLocals)
    (e : Engine) (step : LoopStep) (h : bufferingIteration env l e = some step)
    (hinv : LoopInv e0 l e) : StepInv e0 step := by
  obtain ⟨hserved, hsafe, hhead⟩ := hinv
  unfold bufferingIteration at h
  have hE : ∃ E : Engine,
      (if env.exitBufferingRequested e.clk = true then { e with exit_buffering_ := true }
        else e) = E ∧ Quiet e E := by
    refine ⟨_, rfl, ?_⟩
    split_ifs
    · exact ⟨rfl, rfl, [], by simp, rfl⟩
    · exact quiet_same e
  obtain ⟨E, hEq, hEquiet⟩ := hE
  dsimp only at h
  rw [hEq] at h
  clear hEq
  have hservedE := served_of_quiet hserved hEquiet
  have hsafeE := queueSafe_of_quiet hEquiet hsafe
  have hheadE : l.event_notified = false → E.det_streams_q_.head? = some l.s := by
    rw [hEquiet.1]; exact hhead
  by_cases hx : E.exit_buffering_ = true
  · rw [if_pos hx] at h
    simp only [Option.some.injEq] at h
    subst h
    exact hservedE
  · rw [if_neg hx] at h
    by_cases hb : E.eng_state_ ≠ .ENG_BUFFERING
    · rw [if_pos hb] at h
      simp only [Option.some.injEq] at h
      subst h
      exact hservedE
    · rw [if_neg hb] at h
      have hbuf : E.eng_state_ = .ENG_BUFFERING := by simpa using hb
      cases hr : refreshDetection l E with
      | none => rw [hr] at h; exact absurd h (by simp)
      | some l1 =>
        rw [hr] at h
        dsimp only at h
        have hhead1 := refreshDetection_head l E l1 hr hheadE
        have hkeep : ∀ rs, (if E.mmap_buffer_size_ ≠ 0 then readMmap env l1 E
            else readPull env l1 E) = some rs → ReadKeeps l1 E rs := by
          intro rs hrs
          split_ifs at hrs
          · exact readMmap_keeps env l1 E rs hrs
          · exact readPull_keeps env l1 E rs hrs
        cases hrd : (if E.mmap_buffer_size_ ≠ 0 then readMmap env l1 E
            else readPull env l1 E) with
        | none => rw [hrd] at h; exact absurd h (by simp)
        | some rs =>
          rw [hrd] at h
          have hk := hkeep rs hrd
          cases rs with
          | leave status e1 =>
            simp only [Option.some.injEq] at h
            subst h
            exact served_of_quiet hservedE hk
          | again l2 e1 =>
            simp only [Option.some.injEq] at h
            subst h
            obtain ⟨hq, hs, hn⟩ := hk
            refine ⟨served_of_quiet hservedE hq, queueSafe_of_quiet hq hsafeE, ?_⟩
            rw [hs, hn, hq.1]
            exact hhead1
          | proceed l2 e1 =>
            dsimp only at h
            obtain ⟨hq, hs, hn⟩ := hk
            cases hw : writeChunk l2 e1 with
            | none => rw [hw] at h; exact absurd h (by simp)
            | some w =>
              obtain ⟨l3, e2⟩ := w
              rw [hw] at h
              dsimp only at h
              obtain ⟨hq2, hs2, hn2, -, -, -⟩ := writeChunk_keeps l2 e1 l3 e2 hw
              have hq12 := quiet_step hq hq2
              refine notifyWhenReplayRead_inv env hcc hev hst e0 l3 e2 step h
                ⟨served_of_quiet hservedE hq12, queueSafe_of_quiet hq12 hsafeE, ?_⟩
                (hq12.2.1.trans hbuf)
              rw [hs2, hn2, hs, hn, hq12.1]
              exact hhead1

theorem bufferingSteps_inv (env : Env) (hcc : env.concurrentEventCapture = true)
    (hev : EventsOnly env) (hst : SoundTriggerStreams env) (e0 : Engine) (n : Nat) :
    ∀ (l : BufLocals) (e : Engine) (step : LoopStep),
      bufferingSteps env n l e = some step → LoopInv e0 l e → StepInv e0 step := by
  induction n with
  | zero =>
    intro l e step h hinv
    simp only [bufferingSteps, Option.some.injEq] at h
    subst h
    exact hinv
  | succ n ih =>
    intro l e step h hinv
    simp only [bufferingSteps] at h
    cases hi : bufferingIteration env l e with
    | none => rw [hi] at h; exact absurd h (by simp)
    | some s1 =>
      rw [hi] at h
      have h1 := bufferingIteration_inv env hcc hev hst e0 l e s1 hi hinv
      cases s1 with
      | exit status e2 =>
        simp only [Option.some.injEq] at h
        subst h
        exact h1
      | next l2 e2 =>
        exact ih l2 e2 step h h1

theorem bufferingLoop_steps (env : Env) (fuel : Nat) :
    ∀ (l : BufLocals) (e : Engine) (st : Int) (e2 : Engine),
      bufferingLoop env fuel l e = some (st, e2) →
        bufferingSteps env fuel l e = some (.exit st e2) := by
  induction fuel with
  | zero =>
    intro l e st e2 h
    simp [bufferingLoop] at h
  | succ n ih =>
    intro l e st e2 h
    simp only [bufferingLoop] at h
    simp only [bufferingSteps]
    cases hi : bufferingIteration env l e with
    | none => rw [hi] at h; exact absurd h (by simp)
    | some s1 =>
      rw [hi] at h
      cases s1 with
      | exit status e3 =>
        simp only [Option.some.injEq, Prod.mk.injEq] at h
        obtain ⟨rfl, rfl⟩ := h
        rfl
      | next l2 e3 => exact ih l2 e3 st e2 h

theorem stepInv_served (e0 : Engine) (step : LoopStep) (h : StepInv e0 step) :
    ∃ arrivals, notifiedListeners (issued e0 step.engine) ++ step.engine.det_streams_q_ =
      e0.det_streams_q_ ++ arrivals := by
  have hs : Served e0 step.engine := by
    cases step with
    | next l e => exact h.1
    | exit st e => exact h
  obtain ⟨t, a, ht, hr⟩ := hs
  exact ⟨a, by rw [issued_of_trace e0 _ t ht]; exact hr⟩

theorem startBufferingInit_next (env : Env) (s : StreamPtr) (e : Engine) (l : BufLocals)
    (e1 : Engine) (h : startBufferingInit env s e = some (.next l e1)) :
    l.s = s ∧ l.event_notified = false ∧ e1.det_streams_q_ = e.det_streams_q_ ∧
      e1.eng_state_ = .ENG_BUFFERING ∧ e1.trace = e.trace := by
  unfold startBufferingInit at h
  dsimp only at h
  split_ifs at h
  all_goals first
    | cases h
    | (split at h
       · cases h
       · simp only [Option.some.injEq, LoopStep.next.injEq] at h
         obtain ⟨rfl, rfl⟩ := h
         exact ⟨rfl, rfl, rfl, rfl, rfl⟩)

theorem startBufferingInit_exit (env : Env) (s : StreamPtr) (e : Engine) (st : Int)
    (e1 : Engine) (h : startBufferingInit env s e = some (.exit st e1)) :
    e1.det_streams_q_ = e.det_streams_q_ ∧ e1.trace = e.trace := by
  unfold startBufferingInit at h
  dsimp only at h
  split_ifs at h
  all_goals first
    | (cases h; done)
    | (simp only [Option.some.injEq, LoopStep.exit.injEq] at h
       obtain ⟨-, rfl⟩ := h
       exact ⟨rfl, rfl⟩)
    | (split at h
       · cases h
       · cases h)

/-- C13: detections are served first-in first-out.  With concurrent capture
enabled and the engine in Buffering or Detected, `HandleSessionEvent` appends the
newly detected listener at the tail of the detection queue and leaves the engine
state as it is.  While the other threads deliver detection events only, after
any number of iterations of the loop of `StartBuffering`, and at its return, the
listeners notified so far followed by the listeners still queued are the
listeners queued at the begin followed by the later arrivals: the loop pops
only the head of the queue and notifies the listener it pops. -/
theorem detections_are_served_in_arrival_order (env : Env)
    (hcc : env.concurrentEventCapture = true) :
    (∀ (data : List Nat) (e : Engine) (b : PalRingBuffer) (s : StreamPtr),
      (e.eng_state_ = .ENG_BUFFERING ∨ e.eng_state_ = .ENG_DETECTED) →
      e.buffer_ = some b → b.bufferSize ≠ 0 →
      env.GetDetectedStream e.clk data = s → s ≠ 0 →
      env.ParseDetectionPayload (e.clk + 1) s data = 0 →
      ∃ e2, HandleSessionEvent env data e = some e2 ∧
        e2.det_streams_q_ = e.det_streams_q_ ++ [s] ∧ e2.eng_state_ = e.eng_state_) ∧
    (EventsOnly env → SoundTriggerStreams env →
      (∀ (n : Nat) (l : BufLocals) (e : Engine) (step : LoopStep),
        e.eng_state_ = .ENG_BUFFERING → (∀ x ∈ e.det_streams_q_, x ≠ 0) →
        l.event_notified = false → e.det_streams_q_.head? = some l.s →
        bufferingSteps env n l e = some step →
        ∃ arrivals, notifiedListeners (issued e step.engine) ++ step.engine.det_streams_q_ =
          e.det_streams_q_ ++ arrivals) ∧
      (∀ (fuel : Nat) (s : StreamPtr) (e : Engine) (st : Int) (e2 : Engine),
        (∀ x ∈ e.det_streams_q_, x ≠ 0) → e.det_streams_q_.head? = some s →
        StartBuffering env fuel s e = some (st, e2) →
        ∃ arrivals, notifiedListeners (issued e e2) ++ e2.det_streams_q_ =
          e.det_streams_q_ ++ arrivals)) := by
  refine ⟨?_, ?_⟩
  · intro data e b s hstate hbuf hcap hs hs0 hparse
    obtain ⟨e2, cfg, hrun, -, -, -, hq, hst, -⟩ :=
      HandleSessionEvent_concurrent_shape env data e b s _ _ _ hstate hcc hbuf hcap hs hs0
        hparse rfl
    exact ⟨e2, hrun, hq, hst⟩
  · intro hev hst
    have hloop : ∀ (n : Nat) (l : BufLocals) (e : Engine) (step : LoopStep),
        e.eng_state_ = .ENG_BUFFERING → (∀ x ∈ e.det_streams_q_, x ≠ 0) →
        l.event_notified = false → e.det_streams_q_.head? = some l.s →
        bufferingSteps env n l e = some step →
        ∃ arrivals, notifiedListeners (issued e step.engine) ++ step.engine.det_streams_q_ =
          e.det_streams_q_ ++ arrivals := by
      intro n l e step hb hnz _ hhead hsteps
      refine stepInv_served e step (bufferingSteps_inv env hcc hev hst e n l e step hsteps
        ⟨⟨[], [], by simp, by simp [notifiedListeners]⟩, ⟨hnz, ?_⟩, fun _ => hhead⟩)
      intro hact
      rw [hb] at hact
      exact absurd hact (by simp)
    refine ⟨hloop, ?_⟩
    intro fuel s e st e2 hnz hhead h
    unfold StartBuffering at h
    split at h
    · exact absurd h (by simp)
    · rename_i status e1 hinit
      simp only [Option.some.injEq, Prod.mk.injEq] at h
      obtain ⟨-, rfl⟩ := h
      obtain ⟨hq, ht⟩ := startBufferingInit_exit env s e status e1 hinit
      refine ⟨[], ?_⟩
      rw [issued_of_trace e _ [] (by simp [ht])]
      simp [notifiedListeners, hq]
    · rename_i l e1 hinit
      obtain ⟨hls, hln, hq, hb, ht⟩ := startBufferingInit_next env s e l e1 hinit
      split at h
      · exact absurd h (by simp)
      · rename_i status e3 hl
        simp only [Option.some.injEq, Prod.mk.injEq] at h
        obtain ⟨-, rfl⟩ := h
        have hsteps := bufferingLoop_steps env fuel l e1 status e3 hl
        obtain ⟨arr, harr⟩ := hloop fuel l e1 (.exit status e3) hb (by rw [hq]; exact hnz) hln
          (by rw [hq, hls]; exact hhead) hsteps
        refine ⟨arr, ?_⟩
        have h1 : issued e ({ e3 with first_det_stream_ := 0 } : Engine) = issued e1 e3 := by
          unfold issued
          rw [ht]
        rw [h1]
        show notifiedListeners (issued e1 e3) ++ e3.det_streams_q_ = _
        rw [← hq]
        exact harr

theorem fifoEnv_eventsOnly : EventsOnly fifoEnv := by
  intro c x hx
  by_cases hc : c = 10
  · simp only [fifoEnv, hc, if_true, List.mem_singleton] at hx
    exact ⟨[], hx⟩
  · simp only [fifoEnv, if_neg hc, List.not_mem_nil] at hx

theorem detections_are_served_in_arrival_order_witness :
    ∃ st e2, StartBuffering fifoEnv 8 1 sampleQueuedEngine = some (st, e2) ∧
      notifiedListeners (issued sampleQueuedEngine e2) = [1, 2] ∧
      ∃ arrivals, notifiedListeners (issued sampleQueuedEngine e2) ++ e2.det_streams_q_ =
        sampleQueuedEngine.det_streams_q_ ++ arrivals :=
  ⟨_, _, rfl, by decide,
    ((detections_are_served_in_arrival_order fifoEnv rfl).2 fifoEnv_eventsOnly
      (fun _ _ => rfl)).2 8 1 sampleQueuedEngine _ _ (by decide) rfl rfl⟩

/-! ## The copy out of the mapped buffer -/

theorem range_map_split (f : Nat → Nat) (a b : Nat) :
    (List.range (a + b)).map f = (List.range a).map f ++ (List.range b).map (fun i => f (a + i)) := by
  rw [List.range_add, List.map_append, List.map_map]
  rfl

/-- C25: in memory-mapped mode with a mapped length `M > 0` whose double is a
`size_t`, for every read offset `≤ M` and every size `n` with
`0 < n ≤ 2 * M - read_offset`, which the guard of the loop admits, the one- or
two-segment copy is defined, so no segment leaves the mapped buffer, its chunk
has `n` bytes with byte `i` equal to `mapped[(read_offset + i) mod M]`, it reads
the mapped buffer below `M` only, and the new read offset is `≤ M` and congruent
to `read_offset + n` modulo `M`. -/
theorem mmapCopy_wraps_within_mapped_buffer (mapped : Nat → Nat) (M read_offset n : Nat)
    (hM : 0 < M) (h2 : 2 * M < U64) (hro : read_offset ≤ M) (hn : 0 < n)
    (hle : n ≤ 2 * M - read_offset) :
    ¬ (n > (2 * M + U64 - read_offset % U64) % U64) ∧
    ∃ off,
      mmapCopy mapped M read_offset n =
        some ((List.range n).map (fun i => mapped ((read_offset + i) % M)), off) ∧
      ((List.range n).map (fun i => mapped ((read_offset + i) % M))).length = n ∧
      off ≤ M ∧ off % M = (read_offset + n) % M ∧
      ∀ mapped2 : Nat → Nat, (∀ j, j < M → mapped2 j = mapped j) →
        mmapCopy mapped2 M read_offset n = mmapCopy mapped M read_offset n := by
  have hU : U64 = 18446744073709551616 := by norm_num [U64]
  have key : ∀ mp : Nat → Nat, ∃ off,
      mmapCopy mp M read_offset n =
        some ((List.range n).map (fun i => mp ((read_offset + i) % M)), off) ∧
      off ≤ M ∧ off % M = (read_offset + n) % M ∧
      ∀ mp2 : Nat → Nat, mmapCopy mp2 M read_offset n =
        some ((List.range n).map (fun i => mp2 ((read_offset + i) % M)), off) := by
    intro mp
    have hsum : (read_offset + n) % U64 = read_offset + n := Nat.mod_eq_of_lt (by omega)
    by_cases h1 : read_offset + n ≤ M
    · have body : ∀ q : Nat → Nat, mmapCopy q M read_offset n =
          some ((List.range n).map (fun i => q ((read_offset + i) % M)), read_offset + n) := by
        intro q
        unfold mmapCopy
        rw [hsum, if_pos h1, if_pos h1]
        congr 2
        apply List.map_congr_left
        intro i hi
        have hi2 := List.mem_range.1 hi
        rw [Nat.mod_eq_of_lt (by omega)]
      exact ⟨read_offset + n, body mp, h1, rfl, body⟩
    · have hsec : (n + read_offset + U64 - M) % U64 = n + read_offset - M := by
        have : n + read_offset + U64 - M = (n + read_offset - M) + U64 := by omega
        rw [this, Nat.add_mod_right]
        exact Nat.mod_eq_of_lt (by omega)
      have body : ∀ q : Nat → Nat, mmapCopy q M read_offset n =
          some ((List.range n).map (fun i => q ((read_offset + i) % M)),
            n + read_offset - M) := by
        intro q
        unfold mmapCopy
        rw [hsum, if_neg h1, if_neg (by omega)]
        dsimp only
        rw [hsec, if_pos ⟨by omega, by omega⟩]
        congr 2
        have hn2 : n = (M - read_offset) + (n + read_offset - M) := by omega
        conv_rhs => rw [hn2, range_map_split]
        congr 1
        · apply List.map_congr_left
          intro i hi
          have hi2 := List.mem_range.1 hi
          rw [Nat.mod_eq_of_lt (by omega)]
        · apply List.map_congr_left
          intro i hi
          have hi2 := List.mem_range.1 hi
          have : read_offset + (M - read_offset + i) = i + M := by omega
          rw [this, Nat.add_mod_right]
          by_cases hiM : i < M
          · rw [Nat.mod_eq_of_lt hiM]
          · omega
      refine ⟨n + read_offset - M, body mp, by omega, ?_, body⟩
      have : read_offset + n = (n + read_offset - M) + M := by omega
      rw [this, Nat.add_mod_right]
  refine ⟨?_, ?_⟩
  · have : (2 * M + U64 - read_offset % U64) % U64 = 2 * M - read_offset := by
      rw [Nat.mod_eq_of_lt (show read_offset < U64 by omega)]
      have : 2 * M + U64 - read_offset = (2 * M - read_offset) + U64 := by omega
      rw [this, Nat.add_mod_right]
      exact Nat.mod_eq_of_lt (by omega)
    rw [this]
    omega
  · obtain ⟨off, h1, h3, h4, h5⟩ := key mapped
    refine ⟨off, h1, by simp, h3, h4, ?_⟩
    intro mapped2 hsame
    rw [h5 mapped2, h1]
    congr 2
    apply List.map_congr_left
    intro i _
    exact hsame _ (Nat.mod_lt _ hM)

theorem mmapCopy_wraps_within_mapped_buffer_witness :
    ¬ (6 > (2 * 8 + U64 - 5 % U64) % U64) ∧
    ∃ off,
      mmapCopy (fun j => 10 + j) 8 5 6 =
        some ((List.range 6).map (fun i => (fun j => 10 + j) ((5 + i) % 8)), off) ∧
      ((List.range 6).map (fun i => (fun j => 10 + j) ((5 + i) % 8))).length = 6 ∧
      off ≤ 8 ∧ off % 8 = (5 + 6) % 8 ∧
      ∀ mapped2 : Nat → Nat, (∀ j, j < 8 → mapped2 j = (fun j => 10 + j) j) →
        mmapCopy mapped2 8 5 6 = mmapCopy (fun j => 10 + j) 8 5 6 :=
  mmapCopy_wraps_within_mapped_buffer (fun j => 10 + j) 8 5 6 (by decide)
    (by decide) (by decide) (by decide) (by decide)

/-! ## The outcome of a start -/

theorem wakeLockOps_append (a b : List Effect) :
    wakeLockOps (a ++ b) = wakeLockOps a ++ wakeLockOps b := by
  simp [wakeLockOps, List.filterMap_append]

theorem wakeLockOps_log (x : Engine) (f : Effect) :
    wakeLockOps (x.log f).trace = wakeLockOps x.trace ++ wakeLockOps [f] := by
  simp [Engine.log, wakeLockOps_append]

theorem wakeLockOps_log_other (x : Engine) (f : Effect) (h : wakeLockOps [f] = []) :
    wakeLockOps (x.log f).trace = wakeLockOps x.trace := by
  rw [wakeLockOps_log, h, List.append_nil]

theorem wakeLockOps_configSteps (l : List Effect) (h : ∀ x ∈ l, isConfigStep x = true) :
    wakeLockOps l = [] := by
  unfold wakeLockOps
  rw [List.filterMap_eq_nil_iff]
  intro x hx
  have := h x hx
  cases x <;> first | rfl | simp [isConfigStep] at this

theorem wakeLockOps_payloadSteps (tag : Nat) (p : st_param_id_type_t) (l : List Effect)
    (h : ∀ x ∈ l, isPayloadStep tag p x) : wakeLockOps l = [] := by
  unfold wakeLockOps
  rw [List.filterMap_eq_nil_iff]
  intro x hx
  rcases h x hx with h1 | h1 | ⟨sp, _, h1⟩ <;> subst h1 <;> rfl

theorem UpdateSessionPayload_wakeLock (env : Env) (p : st_param_id_type_t) (e : Engine) :
    wakeLockOps (UpdateSessionPayload env p e).2.trace = wakeLockOps e.trace := by
  obtain ⟨suffix, m1, m2, cd, cds, hU, hs, _⟩ := UpdateSessionPayload_shape env p e
  rw [hU]
  show wakeLockOps (e.trace ++ Effect.updateSessionPayload p :: suffix) = _
  rw [wakeLockOps_append]
  have : wakeLockOps (Effect.updateSessionPayload p :: suffix) = [] := by
    have h2 := wakeLockOps_payloadSteps _ p suffix hs
    have h3 : Effect.updateSessionPayload p :: suffix = [Effect.updateSessionPayload p] ++ suffix := rfl
    rw [h3, wakeLockOps_append, h2]
    rfl
  rw [this, List.append_nil]

theorem startConfigs_configFrame (env : Env) (s : StreamPtr) (e : Engine) (st : Int)
    (s1 : StreamPtr) (e3 : Engine) (h : startConfigs env s e = some (st, s1, e3)) :
    ConfigFrame e e3 := by
  by_cases hdef : e.isPDK = true → e.updated_cfg_ = [] → dynCast env e.clk s = true
  · obtain ⟨st2, s2, e4, heq, hf, _⟩ := startConfigs_some env s e hdef
    rw [h] at heq
    simp only [Option.some.injEq, Prod.mk.injEq] at heq
    obtain ⟨-, -, rfl⟩ := heq
    exact hf
  · exfalso
    simp only [Classical.not_imp] at hdef
    obtain ⟨hp, hu, hd⟩ := hdef
    unfold startConfigs at h
    rw [if_neg (by simp [hu]), if_pos hp, if_neg hd] at h
    cases h

theorem startMmap_outcome (env : Env) (s : StreamPtr) (e : Engine) (st : Int) (e2 : Engine)
    (h : startMmap env s e = some (st, e2)) :
    e2.eng_state_ = e.eng_state_ ∧ wakeLockOps e2.trace = wakeLockOps e.trace ∧
      (e.mmap_buffer_size_ = 0 → e2.mmap_buffer_size_ = 0) := by
  unfold startMmap at h
  by_cases h1 : e.mmap_buffer_size_ ≠ 0 ∧ e.mmap_buffer_mapped = false
  · rw [if_pos h1] at h
    split at h
    · cases h
    · dsimp only at h
      split_ifs at h
      all_goals
        simp only [Option.some.injEq, Prod.mk.injEq] at h
        obtain ⟨-, rfl⟩ := h
        refine ⟨rfl, ?_, fun h0 => absurd h0 h1.1⟩
        simp [Engine.log, wakeLockOps_append, wakeLockOps]
  · rw [if_neg h1] at h
    simp only [Option.some.injEq, Prod.mk.injEq] at h
    obtain ⟨-, rfl⟩ := h
    exact ⟨rfl, rfl, fun h0 => h0⟩

theorem startSession_outcome (env : Env) (s : StreamPtr) (e : Engine) :
    wakeLockOps (startSession env s e).2.trace = wakeLockOps e.trace ++ [false] ∧
    (((startSession env s e).2.eng_state_ = .ENG_ACTIVE ∧
        (e.mmap_buffer_size_ = 0 → (startSession env s e).1 = 0)) ∨
      ((startSession env s e).2.eng_state_ = e.eng_state_ ∧ (startSession env s e).1 ≠ 0)) := by
  unfold startSession
  dsimp only
  by_cases h1 : env.sessionStart e.clk s ≠ 0
  · rw [if_pos h1]
    refine ⟨?_, Or.inr ⟨rfl, h1⟩⟩
    simp [Engine.log, wakeLockOps_append, wakeLockOps]
  · rw [if_neg h1]
    by_cases h2 : (e.log (.sessionStart s)).mmap_buffer_size_ ≠ 0
    · rw [if_pos h2]
      refine ⟨?_, Or.inl ⟨rfl, fun h0 => absurd h0 h2⟩⟩
      simp [Engine.log, UpdateState, wakeLockOps_append, wakeLockOps]
    · rw [if_neg h2]
      refine ⟨?_, Or.inl ⟨rfl, fun _ => rfl⟩⟩
      simp [Engine.log, UpdateState, wakeLockOps_append, wakeLockOps]

/-- What every return of `ProcessStartRecognition` has in common: one acquire and
then one release of the wake lock, and either the state Active, with status 0 in
pull mode, or the state as before and a status that is not 0. -/
theorem ProcessStartRecognition_outcome (env : Env) (s : StreamPtr) (e : Engine) (st : Int)
    (e2 : Engine) (h : ProcessStartRecognition env s e = some (st, e2)) :
    wakeLockOps e2.trace = wakeLockOps e.trace ++ [true, false] ∧
    ((e2.eng_state_ = .ENG_ACTIVE ∧ (e.mmap_buffer_size_ = 0 → st = 0)) ∨
      (e2.eng_state_ = e.eng_state_ ∧ st ≠ 0)) := by
  unfold ProcessStartRecognition at h
  dsimp only at h
  have hE : ∃ E : Engine, (if (e.log .acquireWakeLock).custom_detection_event.isSome = true then
        ({ e.log .acquireWakeLock with custom_detection_event := none,
                                       custom_detection_event_size := 0 } : Engine)
      else e.log .acquireWakeLock) = E ∧ wakeLockOps E.trace = wakeLockOps e.trace ++ [true] ∧
      E.eng_state_ = e.eng_state_ ∧ E.mmap_buffer_size_ = e.mmap_buffer_size_ := by
    refine ⟨_, rfl, ?_, ?_, ?_⟩
    · split_ifs <;> simp [Engine.log, wakeLockOps_append, wakeLockOps]
    · split_ifs <;> rfl
    · split_ifs <;> rfl
  obtain ⟨E, hEq, hEw, hEs, hEm⟩ := hE
  rw [hEq] at h
  have rel : ∀ x : Engine, wakeLockOps (x.log .releaseWakeLock).trace =
      wakeLockOps x.trace ++ [false] := by
    intro x
    simp [Engine.log, wakeLockOps_append, wakeLockOps]
  split at h
  · cases h
  · rename_i status s1 e3 hc
    have hf := startConfigs_configFrame env s E status s1 e3 hc
    obtain ⟨l, hl, hlc⟩ := hf.trace
    have h3w : wakeLockOps e3.trace = wakeLockOps e.trace ++ [true] := by
      rw [hl, wakeLockOps_append, wakeLockOps_configSteps l hlc, List.append_nil, hEw]
    have h3s : e3.eng_state_ = e.eng_state_ := hf.eng_state_.trans hEs
    have h3m : e3.mmap_buffer_size_ = e.mmap_buffer_size_ := hf.mmap_buffer_size_.trans hEm
    by_cases c1 : status ≠ 0
    · rw [if_pos c1] at h
      simp only [Option.some.injEq, Prod.mk.injEq] at h
      obtain ⟨rfl, rfl⟩ := h
      refine ⟨?_, Or.inr ⟨h3s, c1⟩⟩
      rw [rel, h3w]; simp
    · rw [if_neg c1] at h
      by_cases c2 : env.sessionPrepare e3.clk s1 ≠ 0
      · rw [if_pos c2] at h
        simp only [Option.some.injEq, Prod.mk.injEq] at h
        obtain ⟨rfl, rfl⟩ := h
        refine ⟨?_, Or.inr ⟨h3s, c2⟩⟩
        rw [rel, wakeLockOps_log_other e3 (.sessionPrepare s1) rfl, h3w]; simp
      · rw [if_neg c2] at h
        have h4w : wakeLockOps (e3.log (.sessionPrepare s1)).trace =
            wakeLockOps e.trace ++ [true] := by
          rw [wakeLockOps_log_other e3 (.sessionPrepare s1) rfl, h3w]
        split at h
        · cases h
        · rename_i st5 e5 hm
          obtain ⟨h5s, h5w, h5m⟩ := startMmap_outcome env s1 _ st5 e5 hm
          by_cases c3 : st5 ≠ 0
          · rw [if_pos c3] at h
            simp only [Option.some.injEq, Prod.mk.injEq] at h
            obtain ⟨rfl, rfl⟩ := h
            refine ⟨?_, Or.inr ⟨h5s.trans h3s, c3⟩⟩
            rw [rel, h5w, h4w]; simp
          · rw [if_neg c3] at h
            simp only [Option.some.injEq] at h
            obtain ⟨hw, hcase⟩ := startSession_outcome env s1 e5
            rw [h] at hw hcase
            refine ⟨?_, ?_⟩
            · rw [hw, h5w, h4w]; simp
            · rcases hcase with ⟨ha, hb⟩ | ⟨ha, hb⟩
              · exact Or.inl ⟨ha, fun h0 => hb (h5m (h3m.trans h0))⟩
              · exact Or.inr ⟨ha.trans (h5s.trans h3s), hb⟩

/-- The original claim C21 fails at the sample engine before any model is loaded:
the start is not rejected, the engine becomes Active. -/
theorem start_in_state_idle_reaches_active :
    sampleIdleEngine.eng_state_ = .ENG_IDLE ∧
    ∃ e2, StartRecognition sampleEnv 1 sampleIdleEngine = some (0, e2) ∧
      e2.eng_state_ = .ENG_ACTIVE :=
  ⟨rfl, _, rfl, rfl⟩

/-- C21, amended: `StartRecognition` does not test the engine state.  On an
engine in state Idle it runs the start sequence: whenever it returns, the engine
is Active, or it is still Idle and the status returned is the rewritten status
of a failed step; and where every collaborator call succeeds the call returns 0
and the engine is Active. -/
theorem start_in_state_idle_runs_the_start_sequence (env : Env) (s : StreamPtr) (e : Engine)
    (hidle : e.eng_state_ = .ENG_IDLE) :
    (∀ st e2, StartRecognition env s e = some (st, e2) →
      e2.eng_state_ = .ENG_ACTIVE ∨
        (e2.eng_state_ = .ENG_IDLE ∧ ∃ st0, st0 ≠ 0 ∧ st = ssrStatus env st0 e2)) ∧
    (AllCallsSucceed env → PayloadIdsConfigured e →
      (e.isPDK = true → e.updated_cfg_ = [] → dynCast env (e.clk + 2) s = true) →
      (e.mmap_buffer_size_ ≠ 0 → e.mmap_buffer_mapped = false →
        e.bit_width_ * e.channels_ ≠ 0) →
      ∃ e2, StartRecognition env s e = some (0, e2) ∧ e2.eng_state_ = .ENG_ACTIVE) := by
  have hna : IsEngineActive (({ e with exit_buffering_ := true } : Engine).log
      (.SetModelState s true)) = false := by
    simp [IsEngineActive, Engine.log, hidle]
  refine ⟨?_, ?_⟩
  · intro st e2 h
    unfold StartRecognition at h
    dsimp only at h
    rw [hna] at h
    simp only [Bool.false_eq_true, if_false] at h
    split at h
    · cases h
    · rename_i st1 e4 hp
      obtain ⟨_, hcase⟩ := ProcessStartRecognition_outcome env s _ st1 e4 hp
      by_cases c : st1 ≠ 0
      · rw [if_pos c] at h
        simp only [Option.some.injEq, Prod.mk.injEq] at h
        obtain ⟨rfl, rfl⟩ := h
        rcases hcase with ⟨ha, _⟩ | ⟨ha, _⟩
        · exact Or.inl ha
        · exact Or.inr ⟨ha.trans hidle, st1, c, rfl⟩
      · rw [if_neg c] at h
        simp only [Option.some.injEq, Prod.mk.injEq] at h
        obtain ⟨rfl, rfl⟩ := h
        rcases hcase with ⟨ha, _⟩ | ⟨_, hb⟩
        · exact Or.inl ha
        · exact absurd hb c
  · intro hok hid hdef1 hdef2
    obtain ⟨e2, s1, cfg, mm, rs, hp, hst, _⟩ := ProcessStartRecognition_ok env s
      (({ e with exit_buffering_ := true } : Engine).log (.SetModelState s true)) hok hid
      (by simpa [Engine.log, Engine.clk] using hdef1) hdef2
    refine ⟨e2, ?_, hst⟩
    unfold StartRecognition
    dsimp only
    rw [hna]
    simp only [Bool.false_eq_true, if_false]
    rw [hp]
    simp

theorem start_in_state_idle_runs_the_start_sequence_witness :
    sampleIdleEngine.eng_state_ = .ENG_IDLE ∧
    (∀ st e2, StartRecognition sampleEnv 1 sampleIdleEngine = some (st, e2) →
      e2.eng_state_ = .ENG_ACTIVE ∨
        (e2.eng_state_ = .ENG_IDLE ∧ ∃ st0, st0 ≠ 0 ∧ st = ssrStatus sampleEnv st0 e2)) ∧
    ∃ e2, StartRecognition sampleEnv 1 sampleIdleEngine = some (0, e2) ∧
      e2.eng_state_ = .ENG_ACTIVE :=
  ⟨rfl, (start_in_state_idle_runs_the_start_sequence sampleEnv 1 sampleIdleEngine rfl).1,
    (start_in_state_idle_runs_the_start_sequence sampleEnv 1 sampleIdleEngine rfl).2
      sampleEnv_succeeds (fun _ => ⟨Nat.one_ne_zero, Nat.one_ne_zero⟩)
      (fun h => absurd h (by decide)) (fun h => absurd rfl h)⟩

/-- In pull mode `ProcessStartRecognition` on an engine in state Loaded moves the
engine to Active exactly when it returns 0; in either mode a return of 0 comes
with the state Active, and a state other than Active is the state Loaded with a
status that is not 0. -/
theorem start_status_and_state (env : Env) (s : StreamPtr) (e : Engine) (st : Int)
    (e2 : Engine) (hl : e.eng_state_ = .ENG_LOADED)
    (h : ProcessStartRecognition env s e = some (st, e2)) :
    (st = 0 → e2.eng_state_ = .ENG_ACTIVE) ∧
    (e2.eng_state_ ≠ .ENG_ACTIVE → e2.eng_state_ = .ENG_LOADED ∧ st ≠ 0) ∧
    (e.mmap_buffer_size_ = 0 → (e2.eng_state_ = .ENG_ACTIVE ↔ st = 0)) := by
  obtain ⟨_, hcase⟩ := ProcessStartRecognition_outcome env s e st e2 h
  rcases hcase with ⟨ha, hb⟩ | ⟨ha, hb⟩
  · exact ⟨fun _ => ha, fun hn => absurd ha hn, fun hm => ⟨fun _ => hb hm, fun _ => ha⟩⟩
  · have hne : e2.eng_state_ ≠ .ENG_ACTIVE := by rw [ha, hl]; decide
    exact ⟨fun h0 => absurd h0 hb, fun _ => ⟨ha.trans hl, hb⟩,
      fun _ => ⟨fun h1 => absurd h1 hne, fun h0 => absurd h0 hb⟩⟩

/-- C28: in memory-mapped mode a failed reset of the mmap buffer does not abort
the start.  At the sample engine in state Loaded, with the card online and the
reset answering `-5`, `ProcessStartRecognition` and `StartRecognition` return
`-5` and the engine is Active. -/
theorem mmap_reset_failure_is_returned_in_state_active :
    sampleMmapEngine.eng_state_ = .ENG_LOADED ∧
    (∀ c, mmapResetFailsEnv.cardOnline c = true) ∧
    (∃ e2, StartRecognition mmapResetFailsEnv 1 sampleMmapEngine = some (-5, e2) ∧
      e2.eng_state_ = .ENG_ACTIVE) ∧
    ∃ e3, ProcessStartRecognition mmapResetFailsEnv 1 sampleMmapEngine = some (-5, e3) ∧
      e3.eng_state_ = .ENG_ACTIVE :=
  ⟨rfl, fun _ => rfl, ⟨_, rfl, rfl⟩, _, rfl, rfl⟩

/-! ## The capture loop at the sample engines -/

/-- C30: an iteration in pull mode that finds less free room in the ring buffer
than a chunk issues no read, yet the chunk of the iteration before is forwarded
and submitted again.  At the capture of a replay of 8 bytes in reads of 4 bytes,
with the ring buffer full after the first iteration, two iterations read 4 bytes
in one read and submit 8 bytes. -/
theorem skipped_read_submits_the_previous_chunk_again :
    ∃ l0 e0 l e, startBufferingInit fullRingEnv 1 sampleQueuedEngine = some (.next l0 e0) ∧
      bufferingSteps fullRingEnv 2 l0 e0 = some (.next l e) ∧
      l.total_read_size = 4 ∧
      issued e0 e =
        [.bufferGetFreeSize, .sessionRead 1 4, .UpdateFTRTData [1, 2, 3, 4],
          .bufferWrite [1, 2, 3, 4], .bufferGetFreeSize, .UpdateFTRTData [1, 2, 3, 4],
          .bufferWrite [1, 2, 3, 4]] ∧
      (issued e0 e).countP isSessionRead = 1 ∧
      submittedBytes (issued e0 e) = [1, 2, 3, 4, 1, 2, 3, 4] ∧
      forwardedBytes (issued e0 e) = [1, 2, 3, 4, 1, 2, 3, 4] ∧
      l.total_read_size < (submittedBytes (issued e0 e)).length :=
  ⟨_, _, _, _, rfl, rfl, rfl, rfl, rfl, rfl, rfl, by decide⟩

/-- C26: with concurrent capture enabled the restart after a failed capture is
deferred, because the detected listener is still queued.  At the sample engine
with the single listener 1 detected, a failing read ends `StartBuffering` with
`-5` and an invalid mmap position ends it with `-EINVAL`; the processing thread
calls `RestartRecognition`, which returns without a reset, and the engine is in
state Buffering after the iteration.  With concurrent capture disabled the same
failure ends in state Active. -/
theorem failed_capture_leaves_engine_buffering :
    (∃ e1, StartBuffering readFailsEnv 5 1 sampleCaptureEngine = some (-5, e1)) ∧
    (∃ e2, ProcessEventIteration readFailsEnv 5 sampleCaptureEngine = some e2 ∧
      e2.eng_state_ = .ENG_BUFFERING ∧ e2.det_streams_q_ = [1] ∧
      issued sampleCaptureEngine e2 =
        [.bufferGetFreeSize, .sessionRead 1 8, .mutexReleased, .releaseWakeLock]) ∧
    (∃ e1, StartBuffering badPositionEnv 5 1 sampleMmapCaptureEngine = some (-EINVAL, e1)) ∧
    (∃ e2, ProcessEventIteration badPositionEnv 5 sampleMmapCaptureEngine = some e2 ∧
      e2.eng_state_ = .ENG_BUFFERING ∧
      issued sampleMmapCaptureEngine e2 =
        [.GetMmapPosition 1, .mutexReleased, .releaseWakeLock]) ∧
    (∃ e2, ProcessEventIteration readFailsSerialEnv 5 sampleCaptureEngine = some e2 ∧
      e2.eng_state_ = .ENG_ACTIVE) :=
  ⟨⟨_, rfl⟩, ⟨_, rfl, rfl, rfl, rfl⟩, ⟨_, rfl⟩, ⟨_, rfl, rfl, rfl⟩, ⟨_, rfl, rfl⟩⟩

/-- C29: `UpdateConfigPDK` replaces the merged buffering configuration by the
durations of one model.  On the PDK engine with listeners 1 and 2, the calls of
`UpdateBufConfig` merge the pre-roll to 500 ms; the start of listener 2 leaves
the pre-roll 100 ms and the history 1000 ms, below the 500 ms and 2000 ms
recorded for model 1; and for a detection of listener 1 the drop duration of
`StartBuffering` wraps around to 4294966896 ms. -/
theorem start_replaces_merged_config_by_model_config :
    ∃ e1 e2 e3 e4 l e5,
      UpdateBufConfig twoModelEnv 1 2000 500 samplePDKEngine = some (0, e1) ∧
      UpdateBufConfig twoModelEnv 2 1000 100 e1 = some (0, e2) ∧
      e2.buffer_config_.pre_roll_duration_in_ms = 500 ∧
      e2.buffer_config_.hist_buffer_duration_in_ms = 2000 ∧
      ProcessStartRecognition twoModelEnv 2 e2 = some (0, e3) ∧
      e3.buffer_config_.pre_roll_duration_in_ms = 100 ∧
      e3.buffer_config_.hist_buffer_duration_in_ms = 1000 ∧
      e3.mid_buff_cfg_ = [(1, (500, 2000)), (2, (100, 1000))] ∧
      HandleSessionEvent twoModelEnv [] e3 = some e4 ∧
      e4.det_streams_q_ = [1] ∧
      startBufferingInit twoModelEnv 1 e4 = some (.next l e5) ∧
      (100 + U32 - 500 % U32) % U32 = 4294966896 ∧
      l.bytes_to_drop = UsToBytes e5 ((4294966896 * 1000) % U64) ∧
      l.bytes_to_drop = 4294954496 :=
  ⟨_, _, _, _, _, _, rfl, rfl, rfl, rfl, rfl, rfl, rfl, rfl, rfl, rfl, rfl, by decide, rfl,
    rfl⟩

/-! ## Calls that hand no captured bytes on -/

theorem forwardedBytes_append (a b : List Effect) :
    forwardedBytes (a ++ b) = forwardedBytes a ++ forwardedBytes b := by
  induction a with
  | nil => rfl
  | cons x t ih => cases x <;> simp [forwardedBytes, ih]

theorem submittedBytes_append (a b : List Effect) :
    submittedBytes (a ++ b) = submittedBytes a ++ submittedBytes b := by
  induction a with
  | nil => rfl
  | cons x t ih => cases x <;> simp [submittedBytes, ih]

theorem forwardedBytes_free (t : List Effect) (h : ∀ x ∈ t, isCaptureData x = false) :
    forwardedBytes t = [] := by
  induction t with
  | nil => rfl
  | cons x t ih =>
    have hx := h x (List.mem_cons_self x t)
    have ht := ih (fun y hy => h y (List.mem_cons_of_mem x hy))
    cases x <;> first | simpa [forwardedBytes] using ht | simp [isCaptureData] at hx

theorem submittedBytes_free (t : List Effect) (h : ∀ x ∈ t, isCaptureData x = false) :
    submittedBytes t = [] := by
  induction t with
  | nil => rfl
  | cons x t ih =>
    have hx := h x (List.mem_cons_self x t)
    have ht := ih (fun y hy => h y (List.mem_cons_of_mem x hy))
    cases x <;> first | simpa [submittedBytes] using ht | simp [isCaptureData] at hx

theorem captureFree_same (e : Engine) : CaptureFree e e :=
  ⟨[], by simp, by simp⟩

theorem captureFree_step {a b c : Engine} (h1 : CaptureFree a b) (h2 : CaptureFree b c) :
    CaptureFree a c := by
  obtain ⟨t, ht, hn⟩ := h1
  obtain ⟨u, hu, hm⟩ := h2
  refine ⟨t ++ u, by rw [hu, ht, List.append_assoc], ?_⟩
  intro x hx
  rcases List.mem_append.1 hx with hx | hx
  · exact hn x hx
  · exact hm x hx

theorem captureFree_log (e : Engine) (x : Effect) (h : isCaptureData x = false) :
    CaptureFree e (e.log x) :=
  ⟨[x], rfl, by simpa using h⟩

theorem captureFree_bytes {e e2 : Engine} (h : CaptureFree e e2) :
    forwardedBytes e2.trace = forwardedBytes e.trace ∧
      submittedBytes e2.trace = submittedBytes e.trace := by
  obtain ⟨t, ht, hn⟩ := h
  rw [ht, forwardedBytes_append, submittedBytes_append, forwardedBytes_free t hn,
    submittedBytes_free t hn]
  simp

theorem captureFree_payloadSteps (tag : Nat) (p : st_param_id_type_t) (l : List Effect)
    (h : ∀ x ∈ l, isPayloadStep tag p x) : ∀ x ∈ l, isCaptureData x = false := by
  intro x hx
  rcases h x hx with h1 | h1 | ⟨sp, _, h1⟩ <;> subst h1 <;> rfl

theorem UpdateSessionPayload_captureFree (env : Env) (p : st_param_id_type_t) (e : Engine) :
    CaptureFree e (UpdateSessionPayload env p e).2 := by
  obtain ⟨suffix, m1, m2, cd, cds, hU, hs, _⟩ := UpdateSessionPayload_shape env p e
  rw [hU]
  refine ⟨Effect.updateSessionPayload p :: suffix, rfl, ?_⟩
  intro x hx
  rcases List.mem_cons.1 hx with hx | hx
  · subst hx; rfl
  · exact captureFree_payloadSteps _ p suffix hs x hx

theorem captureFree_intro (e e2 : Engine) (t : List Effect) (ht : e2.trace = e.trace ++ t)
    (hn : t.all (fun x => !isCaptureData x) = true) : CaptureFree e e2 := by
  refine ⟨t, ht, ?_⟩
  intro x hx
  have := List.all_eq_true.1 hn x hx
  simpa using this

theorem captureFree_of_issued (e e2 : Engine) (hp : e.trace <+: e2.trace)
    (hn : (issued e e2).all (fun x => !isCaptureData x) = true) : CaptureFree e e2 := by
  obtain ⟨t, ht⟩ := hp
  have hi : issued e e2 = t := issued_of_trace e e2 t ht.symm
  rw [hi] at hn
  exact captureFree_intro e e2 t ht.symm hn

theorem HandleSessionEvent_captureFree (env : Env) (data : List Nat) (e e2 : Engine)
    (h : HandleSessionEvent env data e = some e2) : CaptureFree e e2 := by
  unfold HandleSessionEvent at h
  dsimp only at h
  by_cases hl : e.eng_state_ = .ENG_LOADED
  · rw [if_pos hl] at h
    simp only [Option.some.injEq] at h
    subst h
    exact UpdateSessionPayload_captureFree env .ENGINE_RESET e
  · rw [if_neg hl] at h
    by_cases hc : (e.eng_state_ ≠ .ENG_ACTIVE ∧
        (if env.concurrentEventCapture = true then
          e.eng_state_ ≠ .ENG_BUFFERING ∧ e.eng_state_ ≠ .ENG_DETECTED
        else True))
    · rw [if_pos hc] at h
      simp only [Option.some.injEq] at h
      subst h
      exact captureFree_same e
    · rw [if_neg hc] at h
      by_cases ha : e.eng_state_ = .ENG_ACTIVE
      · simp only [if_pos ha] at h
        cases hb : e.buffer_ with
        | none => rw [hb] at h; exact absurd h (by simp)
        | some b =>
          rw [hb] at h
          dsimp only at h
          split_ifs at h with h0 hp
          · simp only [Option.some.injEq] at h
            subst h
            exact captureFree_of_issued _ _ (by simp [Engine.log])
              (by simp [issued, Engine.log, isCaptureData])
          · simp only [Option.some.injEq] at h
            subst h
            exact captureFree_of_issued _ _ (by simp [Engine.log])
              (by simp [issued, Engine.log, isCaptureData])
          · unfold handleFirstDetection at h
            simp only [Engine.log, Option.some.injEq] at h
            subst h
            exact captureFree_of_issued _ _ (by simp [Engine.log, UpdateState])
              (by simp [issued, Engine.log, UpdateState, isCaptureData])
      · simp only [if_neg ha] at h
        by_cases h0 : env.GetDetectedStream e.clk data = 0
        · rw [if_pos h0] at h
          simp only [Option.some.injEq] at h
          subst h
          exact captureFree_log _ _ rfl
        · rw [if_neg h0] at h
          by_cases hp : env.ParseDetectionPayload (e.log .GetDetectedStream).clk
              (env.GetDetectedStream e.clk data) data ≠ 0
          · rw [if_pos hp] at h
            simp only [Option.some.injEq] at h
            subst h
            exact captureFree_of_issued _ _ (by simp [Engine.log])
              (by simp [issued, Engine.log, isCaptureData])
          · rw [if_neg hp] at h
            unfold handleConcurrentDetection at h
            dsimp only at h
            cases hb : e.buffer_ with
            | none =>
              simp only [Engine.log, hb] at h
              exact absurd h (by simp)
            | some b =>
              simp only [Engine.log, hb] at h
              by_cases hz : b.getBufferSize = 0
              · rw [if_pos hz] at h
                exact absurd h (by simp)
              · rw [if_neg hz] at h
                simp only [Option.some.injEq] at h
                subst h
                exact captureFree_of_issued _ _ (by simp)
                  (by simp [issued, isCaptureData])

theorem runEvents_captureFree (env : Env) (calls : List EngineCall)
    (hev : ∀ x ∈ calls, ∃ data, x = EngineCall.HandleSessionEvent data) :
    ∀ e e2 : Engine, runEngineCalls env calls e = some e2 → CaptureFree e e2 := by
  induction calls with
  | nil =>
    intro e e2 h
    simp only [runEngineCalls, Option.some.injEq] at h
    subst h
    exact captureFree_same e
  | cons c cs ih =>
    intro e e2 h
    simp only [runEngineCalls] at h
    cases h1 : applyEngineCall env c e with
    | none => rw [h1] at h; exact absurd h (by simp)
    | some e1 =>
      rw [h1] at h
      obtain ⟨data, hc⟩ := hev c (List.mem_cons_self c cs)
      subst hc
      exact captureFree_step (HandleSessionEvent_captureFree env data e e1 h1)
        (ih (fun x hx => hev x (List.mem_cons_of_mem _ hx)) e1 e2 h)

theorem othersRun_captureFree (env : Env) (hev : EventsOnly env) (e e2 : Engine)
    (h : othersRun env e = some e2) : CaptureFree e e2 :=
  runEvents_captureFree env _ (hev e.clk) e e2 h

theorem unlocked_captureFree (env : Env) (hev : EventsOnly env) (e e2 : Engine)
    (h : unlocked env e = some e2) : CaptureFree e e2 := by
  unfold unlocked at h
  exact captureFree_step (captureFree_log e .mutexReleased rfl)
    (othersRun_captureFree env hev _ e2 h)

theorem restartMmap_captureFree (env : Env) (s : StreamPtr) (st : Int) (e : Engine) (r : Int)
    (e2 : Engine) (h : restartMmap env s st e = some (r, e2)) : CaptureFree e e2 := by
  unfold restartMmap at h
  by_cases hm : e.mmap_buffer_size_ ≠ 0
  · rw [if_pos hm] at h
    dsimp only at h
    split at h
    · cases h
    · split_ifs at h
      all_goals
        simp only [Option.some.injEq, Prod.mk.injEq] at h
        obtain ⟨-, rfl⟩ := h
        exact captureFree_intro _ _ [.GetMmapPosition s, .ResetMmapBuffer s]
          (by simp [Engine.log]) rfl
  · rw [if_neg hm] at h
    simp only [Option.some.injEq, Prod.mk.injEq] at h
    obtain ⟨-, rfl⟩ := h
    exact captureFree_same e

theorem RestartRecognition_captureFree (env : Env) (s : StreamPtr) (e : Engine) (r : Int)
    (e2 : Engine) (h : RestartRecognition env s e = some (r, e2)) : CaptureFree e e2 := by
  unfold RestartRecognition at h
  split_ifs at h
  · simp only [Option.some.injEq, Prod.mk.injEq] at h
    obtain ⟨-, rfl⟩ := h
    exact captureFree_same e
  · simp only [Option.some.injEq, Prod.mk.injEq] at h
    obtain ⟨-, rfl⟩ := h
    exact captureFree_same e
  · dsimp only at h
    split at h
    · cases h
    · rename_i st e4 hm
      simp only [Option.some.injEq, Prod.mk.injEq] at h
      obtain ⟨-, rfl⟩ := h
      have h1 := restartMmap_captureFree env s _ _ st e4 hm
      have hE : ∀ x : Engine, x.trace = e.trace →
          CaptureFree e ((UpdateSessionPayload env .ENGINE_RESET x).2.log
            (.waitEOS (env.eosSignalled (UpdateSessionPayload env .ENGINE_RESET x).2.clk))) := by
        intro x hx
        have h2 := UpdateSessionPayload_captureFree env .ENGINE_RESET x
        have h3 : CaptureFree e x := ⟨[], by simp [hx], by simp⟩
        exact captureFree_step (captureFree_step h3 h2) (captureFree_log _ _ rfl)
      have h5 : CaptureFree e e4 := by
        refine captureFree_step (hE _ ?_) h1
        split_ifs <;> rfl
      obtain ⟨t, ht, hn⟩ := h5
      exact ⟨t, ht, hn⟩

theorem notifyDetection_captureFree (env : Env) (hev : EventsOnly env) (s : StreamPtr)
    (e : Engine) (st : Int) (e2 : Engine) (h : notifyDetection env s e = some (st, e2)) :
    CaptureFree e e2 := by
  unfold notifyDetection at h
  split at h
  · cases h
  · rename_i e1 h1
    have c1 := unlocked_captureFree env hev e e1 h1
    dsimp only at h
    split at h
    · cases h
    · rename_i e3 h3
      have c3 : CaptureFree e1 e3 := by
        split_ifs at h3
        · simp only [Option.map_eq_some'] at h3
          obtain ⟨r, hr, rfl⟩ := h3
          exact captureFree_step (captureFree_log e1 (.SetEngineDetectionState s) rfl)
            (RestartRecognition_captureFree env s _ r.1 r.2 hr)
        · simp only [Option.some.injEq] at h3
          subst h3
          exact captureFree_log e1 (.SetEngineDetectionState s) rfl
      simp only [Option.map_eq_some', Prod.mk.injEq] at h
      obtain ⟨e4, h4, -, rfl⟩ := h
      exact captureFree_step (captureFree_step c1 c3) (othersRun_captureFree env hev e3 e4 h4)

theorem notifyWhenReplayRead_captureFree (env : Env) (hev : EventsOnly env) (l : BufLocals)
    (e : Engine) (step : LoopStep) (h : notifyWhenReplayRead env l e = some step) :
    CaptureFree e step.engine := by
  unfold notifyWhenReplayRead at h
  by_cases ht : l.total_read_size ≥ l.ftrt_size
  · rw [if_pos ht] at h
    by_cases hn : l.event_notified = false
    · rw [if_pos hn] at h
      cases hq : e.det_streams_q_ with
      | nil => rw [hq] at h; cases h
      | cons x q =>
        rw [hq] at h
        dsimp only at h
        have c0 : CaptureFree e { e with det_streams_q_ := q } := ⟨[], by simp, by simp⟩
        split at h
        · cases h
        · rename_i status e2 hr
          have c2 : CaptureFree e e2 := by
            split_ifs at hr
            · exact captureFree_step c0 (notifyDetection_captureFree env hev l.s _ status e2 hr)
            · simp only [Option.some.injEq, Prod.mk.injEq] at hr
              obtain ⟨-, rfl⟩ := hr
              exact c0
          by_cases hs0 : status ≠ 0
          · rw [if_pos hs0] at h
            simp only [Option.some.injEq] at h
            subst h
            exact c2
          · rw [if_neg hs0] at h
            simp only [Option.map_eq_some'] at h
            obtain ⟨e3, h3, rfl⟩ := h
            exact captureFree_step c2 (unlocked_captureFree env hev e2 e3 h3)
    · rw [if_neg hn] at h
      simp only [Option.map_eq_some'] at h
      obtain ⟨e2, h2, rfl⟩ := h
      exact unlocked_captureFree env hev e e2 h2
  · rw [if_neg ht] at h
    simp only [Option.some.injEq] at h
    subst h
    exact captureFree_same e

/-! ## The parts of an iteration of the capture loop -/

theorem toInt32_lt (n : Int) : toInt32 n < 2 ^ 31 := by
  unfold toInt32
  have := Int.emod_lt_of_pos (n + 2 ^ 31) (show (0 : Int) < 2 ^ 32 by norm_num)
  omega

theorem toInt32_ge (n : Int) : -(2 ^ 31) ≤ toInt32 n := by
  unfold toInt32
  have := Int.emod_nonneg (n + 2 ^ 31) (show (2 : Int) ^ 32 ≠ 0 by norm_num)
  omega

theorem toSizeT_of_small (i : Int) (h0 : 0 ≤ i) (h1 : i < 2 ^ 31) : toSizeT i = i.toNat := by
  unfold toSizeT
  rw [Int.emod_eq_of_lt h0 (by have : (U64 : Int) = 2 ^ 64 := by norm_num [U64]
                               rw [this]; omega)]

theorem toU32_of_small (i : Int) (h0 : 0 ≤ i) (h1 : i < 2 ^ 31) : toU32 i = i.toNat := by
  unfold toU32
  rw [Int.emod_eq_of_lt h0 (by have : (U32 : Int) = 2 ^ 32 := by norm_num [U32]
                               rw [this]; omega)]

theorem chunkOf_zero (buf : List Nat) (n : Nat) (c : List Nat)
    (h : chunkOf buf 0 n = some c) : c = buf.take n ∧ c.length = n ∧ n ≤ buf.length := by
  unfold chunkOf at h
  split_ifs at h with hle
  simp only [Option.some.injEq] at h
  subst h
  simp only [Nat.zero_add] at hle
  simp [hle]

/-- How an iteration of the capture loop is composed: it is left at its head, or
it reads, and after a read that is not left and does not continue it writes the
chunk and comes to the test of the replay size. -/
theorem bufferingIteration_shape (env : Env) (l : BufLocals) (e : Engine) (step : LoopStep)
    (h : bufferingIteration env l e = some step) :
    ((env.exitBufferingRequested e.clk = true ∨ e.exit_buffering_ = true ∨
        e.eng_state_ ≠ .ENG_BUFFERING) ∧
      ∃ E, step = .exit l.status E ∧ E.trace = e.trace ∧
        E.det_streams_q_ = e.det_streams_q_ ∧ E.eng_state_ = e.eng_state_) ∨
    (env.exitBufferingRequested e.clk = false ∧ e.exit_buffering_ = false ∧
      e.eng_state_ = .ENG_BUFFERING ∧
      ∃ l1 rs, refreshDetection l e = some l1 ∧
        (if e.mmap_buffer_size_ ≠ 0 then readMmap env l1 e else readPull env l1 e) = some rs ∧
        ((∃ st e1, rs = .leave st e1 ∧ step = .exit st e1) ∨
         (∃ l2 e1, rs = .again l2 e1 ∧ step = .next l2 e1) ∨
         (∃ l2 e1 l3 e2, rs = .proceed l2 e1 ∧ writeChunk l2 e1 = some (l3, e2) ∧
            notifyWhenReplayRead env l3 e2 = some step))) := by
  unfold bufferingIteration at h
  dsimp only at h
  by_cases hreq : env.exitBufferingRequested e.clk = true
  · rw [if_pos hreq] at h
    simp only [if_true] at h
    simp only [Option.some.injEq] at h
    subst h
    exact Or.inl ⟨Or.inl hreq, _, rfl, rfl, rfl, rfl⟩
  · rw [if_neg hreq] at h
    by_cases hx : e.exit_buffering_ = true
    · rw [if_pos hx] at h
      simp only [Option.some.injEq] at h
      subst h
      exact Or.inl ⟨Or.inr (Or.inl hx), _, rfl, rfl, rfl, rfl⟩
    · rw [if_neg hx] at h
      by_cases hb : e.eng_state_ ≠ .ENG_BUFFERING
      · rw [if_pos hb] at h
        simp only [Option.some.injEq] at h
        subst h
        exact Or.inl ⟨Or.inr (Or.inr hb), _, rfl, rfl, rfl, rfl⟩
      · rw [if_neg hb] at h
        refine Or.inr ⟨by simpa using hreq, by simpa using hx, by simpa using hb, ?_⟩
        cases hr : refreshDetection l e with
        | none => rw [hr] at h; cases h
        | some l1 =>
          rw [hr] at h
          dsimp only at h
          cases hrd : (if e.mmap_buffer_size_ ≠ 0 then readMmap env l1 e
              else readPull env l1 e) with
          | none => rw [hrd] at h; cases h
          | some rs =>
            rw [hrd] at h
            refine ⟨l1, rs, rfl, hrd, ?_⟩
            cases rs with
            | leave status e1 =>
              simp only [Option.some.injEq] at h
              exact Or.inl ⟨_, _, rfl, h.symm⟩
            | again l2 e1 =>
              simp only [Option.some.injEq] at h
              exact Or.inr (Or.inl ⟨_, _, rfl, h.symm⟩)
            | proceed l2 e1 =>
              dsimp only at h
              cases hw : writeChunk l2 e1 with
              | none => rw [hw] at h; cases h
              | some w =>
                obtain ⟨l3, e2⟩ := w
                rw [hw] at h
                exact Or.inr (Or.inr ⟨_, _, _, _, rfl, hw, h⟩)

theorem refreshDetection_drop (l : BufLocals) (e : Engine) (l1 : BufLocals)
    (h : refreshDetection l e = some l1) :
    l1.bytes_to_drop = l.bytes_to_drop ∧ l1.total_read_size = l.total_read_size ∧
      (l.event_notified = false → l1 = l) := by
  unfold refreshDetection at h
  split_ifs at h with hc
  · split at h
    · simp only [Option.some.injEq] at h
      subst h
      exact ⟨rfl, rfl, fun hn => absurd hc.1 (by rw [hn]; simp)⟩
    · cases h
  · simp only [Option.some.injEq] at h
    subst h
    exact ⟨rfl, rfl, fun _ => rfl⟩

/-- The read of an iteration in mmap mode hands no bytes on and keeps the bytes
to drop; the size it reports is an `int32_t`. -/
theorem readMmap_frame (env : Env) (l : BufLocals) (e : Engine) (rs : ReadStep)
    (h : readMmap env l e = some rs) :
    (∃ st e1, rs = .leave st e1 ∧ CaptureFree e e1) ∨
    (∃ l2 e1, rs = .again l2 e1 ∧ CaptureFree e e1 ∧ l2.bytes_to_drop = l.bytes_to_drop) ∨
    (∃ l2 e1, rs = .proceed l2 e1 ∧ CaptureFree e e1 ∧ l2.bytes_to_drop = l.bytes_to_drop ∧
      l2.size < 2 ^ 31) := by
  unfold readMmap at h
  dsimp only at h
  have hc : CaptureFree e (e.log (.GetMmapPosition l.s)) := captureFree_log _ _ rfl
  split_ifs at h
  · simp only [Option.some.injEq] at h; subst h; exact Or.inl ⟨_, _, rfl, hc⟩
  · simp only [Option.some.injEq] at h; subst h; exact Or.inl ⟨_, _, rfl, hc⟩
  · simp only [Option.some.injEq] at h; subst h; exact Or.inl ⟨_, _, rfl, hc⟩
  · simp only [Option.some.injEq] at h; subst h; exact Or.inr (Or.inl ⟨_, _, rfl, hc, rfl⟩)
  · simp only [Option.some.injEq] at h; subst h; exact Or.inl ⟨_, _, rfl, hc⟩
  · simp only [Option.some.injEq] at h; subst h; exact Or.inl ⟨_, _, rfl, hc⟩
  · split at h
    · cases h
    · simp only [Option.some.injEq] at h
      subst h
      exact Or.inr (Or.inr ⟨_, _, rfl, hc, rfl, toInt32_lt _⟩)

/-- The read of an iteration in pull mode: with less free room in the ring buffer
than the read buffer has bytes no read is issued and the locals stay as they
are; otherwise `pullRequest` bytes are requested, and a status that is not 0
leaves the loop. -/
theorem readPull_shape (env : Env) (l : BufLocals) (e : Engine) (rs : ReadStep)
    (h : readPull env l e = some rs) :
    (env.ringFreeSize e.clk < l.buf_size ∧ rs = .proceed l (e.log .bufferGetFreeSize)) ∨
    (l.buf_size ≤ env.ringFreeSize e.clk ∧
      ∃ e2 : Engine, e2 = (e.log .bufferGetFreeSize).log (.sessionRead l.s (pullRequest l)) ∧
        ((∃ st, st ≠ 0 ∧ rs = .leave st e2) ∨
          (∃ l2, rs = .proceed l2 e2 ∧
            l2.size = toInt32 (env.sessionRead (e.log .bufferGetFreeSize).clk l.s
              (pullRequest l)).2.1 ∧
            l2.total_read_size = (l.total_read_size + toSizeT l2.size) % U64 ∧
            l2.bytes_to_drop = l.bytes_to_drop ∧ l2.ftrt_size = l.ftrt_size ∧
            l2.s = l.s ∧ l2.event_notified = l.event_notified))) := by
  unfold readPull at h
  split at h
  · cases h
  · dsimp only at h
    by_cases hf : env.ringFreeSize e.clk ≥ l.buf_size
    · rw [if_pos hf] at h
      refine Or.inr ⟨hf, _, rfl, ?_⟩
      by_cases hst : (env.sessionRead (e.log .bufferGetFreeSize).clk l.s (pullRequest l)).1 ≠ 0
      · left
        refine ⟨_, hst, ?_⟩
        unfold pullRequest at hst ⊢
        rw [if_pos hst] at h
        simp only [Option.some.injEq] at h
        exact h.symm
      · right
        unfold pullRequest at hst ⊢
        rw [if_neg hst] at h
        simp only [Option.some.injEq] at h
        subst h
        exact ⟨_, rfl, rfl, rfl, rfl, rfl, rfl, rfl⟩
    · rw [if_neg hf] at h
      simp only [Option.some.injEq] at h
      exact Or.inl ⟨by omega, h.symm⟩

/-- The write of an iteration, for a chunk `c` of a size that is not negative:
the chunk is forwarded where the bytes read, this chunk among them, are fewer
than the replay size, the chunk without its first `bytes_to_drop` bytes is
submitted, and the bytes to drop go down by the length of the chunk. -/
theorem writeChunk_bytes (l : BufLocals) (e : Engine) (l2 : BufLocals) (e2 : Engine)
    (c : List Nat) (h : writeChunk l e = some (l2, e2)) (h0 : 0 ≤ l.size)
    (h1 : l.size < 2 ^ 31) (hc : chunkOf l.buf 0 (toSizeT l.size) = some c) :
    submittedBytes e2.trace = submittedBytes e.trace ++ c.drop l.bytes_to_drop ∧
    l2.bytes_to_drop = l.bytes_to_drop - c.length ∧
    forwardedBytes e2.trace =
      forwardedBytes e.trace ++ (if l.total_read_size < l.ftrt_size then c else []) := by
  have hsz := toSizeT_of_small l.size h0 h1
  have hu := toU32_of_small l.size h0 h1
  obtain ⟨hceq, hclen, hcle⟩ := chunkOf_zero _ _ _ hc
  rw [hsz] at hclen hcle hceq
  unfold writeChunk at h
  by_cases hz : l.size = 0
  · rw [if_pos hz] at h
    simp only [Option.some.injEq, Prod.mk.injEq] at h
    obtain ⟨rfl, rfl⟩ := h
    have : c = [] := by
      apply List.eq_nil_of_length_eq_zero
      rw [hclen, hz]; rfl
    subst this
    simp
  · rw [if_neg hz] at h
    dsimp only at h
    rw [hc] at h
    have hE : ∃ e1 : Engine, (if l.total_read_size < l.ftrt_size then
          Option.map (fun c => e.log (Effect.UpdateFTRTData c)) (some c)
        else some e) = some e1 ∧ submittedBytes e1.trace = submittedBytes e.trace ∧
        forwardedBytes e1.trace =
          forwardedBytes e.trace ++ (if l.total_read_size < l.ftrt_size then c else []) ∧
        e1.buffer_ = e.buffer_ := by
      by_cases ht : l.total_read_size < l.ftrt_size
      · rw [if_pos ht, if_pos ht]
        refine ⟨_, rfl, ?_, ?_, rfl⟩
        · simp [Engine.log, submittedBytes_append, submittedBytes]
        · simp [Engine.log, forwardedBytes_append, forwardedBytes]
      · rw [if_neg ht, if_neg ht]
        exact ⟨_, rfl, rfl, by simp, rfl⟩
    obtain ⟨e1, hE1, hs1, hf1, _⟩ := hE
    rw [hE1] at h
    dsimp only at h
    rw [hu, hsz] at h
    by_cases hd : l.bytes_to_drop ≠ 0 ∧ l.size.toNat < l.bytes_to_drop
    · rw [if_pos hd] at h
      simp only [Option.some.injEq, Prod.mk.injEq] at h
      obtain ⟨rfl, rfl⟩ := h
      refine ⟨?_, ?_, hf1⟩
      · rw [hs1, List.drop_eq_nil_of_le (by omega)]
        simp
      · show l.bytes_to_drop - l.size.toNat = _
        rw [hclen]
    · rw [if_neg hd] at h
      split at h
      · rename_i c2 b hc2 hb
        simp only [Option.some.injEq, Prod.mk.injEq] at h
        obtain ⟨rfl, rfl⟩ := h
        have hc2eq : c2 = c.drop l.bytes_to_drop := by
          by_cases hD : l.bytes_to_drop ≠ 0
          · rw [if_pos hD] at hc2
            unfold chunkOf at hc2
            split_ifs at hc2
            simp only [Option.some.injEq] at hc2
            rw [← hc2, hceq, List.drop_take]
          · rw [if_neg hD] at hc2
            have hD0 : l.bytes_to_drop = 0 := by simpa using hD
            rw [hD0] at hc2 ⊢
            rw [hsz, hc2] at hc
            simp only [Option.some.injEq] at hc
            rw [hc]
            simp
        refine ⟨?_, ?_, ?_⟩
        · show submittedBytes (e1.trace ++ [Effect.bufferWrite c2]) = _
          rw [submittedBytes_append, hs1, hc2eq]
          simp [submittedBytes]
        · show 0 = _
          rw [hclen]
          by_cases hD : l.bytes_to_drop = 0
          · omega
          · have : ¬ l.size.toNat < l.bytes_to_drop := fun hlt => hd ⟨hD, hlt⟩
            omega
        · show forwardedBytes (e1.trace ++ [Effect.bufferWrite c2]) = _
          rw [forwardedBytes_append, hf1]
          simp [forwardedBytes]
      · cases h

/-- The test of the replay size at the end of an iteration keeps the bytes to
drop and the bytes read. -/
theorem notifyWhenReplayRead_locals (env : Env) (l : BufLocals) (e : Engine) (l2 : BufLocals)
    (e2 : Engine) (h : notifyWhenReplayRead env l e = some (.next l2 e2)) :
    l2.bytes_to_drop = l.bytes_to_drop ∧ l2.total_read_size = l.total_read_size ∧
      l2.ftrt_size = l.ftrt_size ∧ l2.s = l.s ∧
      (l.total_read_size < l.ftrt_size → l2 = l ∧ e2 = e) ∧
      (l.ftrt_size ≤ l.total_read_size → l.event_notified = false →
        l2.event_notified = true) := by
  unfold notifyWhenReplayRead at h
  by_cases ht : l.total_read_size ≥ l.ftrt_size
  · rw [if_pos ht] at h
    by_cases hn : l.event_notified = false
    · rw [if_pos hn] at h
      split at h
      · cases h
      · dsimp only at h
        split at h
        · cases h
        · rename_i status e4 _
          by_cases hs0 : status ≠ 0
          · rw [if_pos hs0] at h
            cases h
          · rw [if_neg hs0] at h
            simp only [Option.map_eq_some', LoopStep.next.injEq] at h
            obtain ⟨e3, -, rfl, rfl⟩ := h
            exact ⟨rfl, rfl, rfl, rfl, fun hlt => absurd ht (by omega), fun _ _ => rfl⟩
    · rw [if_neg hn] at h
      simp only [Option.map_eq_some', LoopStep.next.injEq] at h
      obtain ⟨e3, -, rfl, rfl⟩ := h
      exact ⟨rfl, rfl, rfl, rfl, fun hlt => absurd ht (by omega), fun _ hf => absurd hf hn⟩
  · rw [if_neg ht] at h
    simp only [Option.some.injEq, LoopStep.next.injEq] at h
    obtain ⟨rfl, rfl⟩ := h
    exact ⟨rfl, rfl, rfl, rfl, fun _ => ⟨rfl, rfl⟩, fun hle => absurd hle ht⟩

/-! ## The bytes to drop -/

/-- The read of an iteration, in either mode, hands no bytes on and keeps the
bytes to drop; where it is performed the size it reports is an `int32_t`. -/
theorem read_frame (env : Env) (l : BufLocals) (e : Engine) (rs : ReadStep)
    (h : (if e.mmap_buffer_size_ ≠ 0 then readMmap env l e else readPull env l e) = some rs)
    (hperf : e.mmap_buffer_size_ = 0 → l.buf_size ≤ env.ringFreeSize e.clk) :
    (∃ st e1, rs = .leave st e1 ∧ CaptureFree e e1) ∨
    (∃ l2 e1, rs = .again l2 e1 ∧ CaptureFree e e1 ∧ l2.bytes_to_drop = l.bytes_to_drop) ∨
    (∃ l2 e1, rs = .proceed l2 e1 ∧ CaptureFree e e1 ∧ l2.bytes_to_drop = l.bytes_to_drop ∧
      l2.size < 2 ^ 31) := by
  by_cases hm : e.mmap_buffer_size_ ≠ 0
  · rw [if_pos hm] at h
    exact readMmap_frame env l e rs h
  · rw [if_neg hm] at h
    have hm0 : e.mmap_buffer_size_ = 0 := by simpa using hm
    have hfree := hperf hm0
    have hcf : ∀ n, CaptureFree e ((e.log .bufferGetFreeSize).log (.sessionRead l.s n)) :=
      fun n => captureFree_step (captureFree_log e .bufferGetFreeSize rfl)
        (captureFree_log _ (.sessionRead l.s n) rfl)
    rcases readPull_shape env l e rs h with ⟨hlt, _⟩ | ⟨_, e2, he2, hcase⟩
    · omega
    · subst he2
      rcases hcase with ⟨st, _, hrs⟩ | ⟨l2, hrs, hsize, _, hD, _⟩
      · exact Or.inl ⟨_, _, hrs, hcf _⟩
      · exact Or.inr (Or.inr ⟨_, _, hrs, hcf _, hD, by rw [hsize]; exact toInt32_lt _⟩)

/-- An iteration that has a chunk submits the chunk without its first
`bytes_to_drop` bytes, and the bytes to drop go down by the length of the
chunk. -/
theorem iteration_submits_chunk_after_drop (env : Env) (hev : EventsOnly env) (l : BufLocals)
    (e : Engine) (c : List Nat) (step : LoopStep) (hc : chunkRead env l e = some c)
    (h : bufferingIteration env l e = some step) :
    submittedBytes step.engine.trace = submittedBytes e.trace ++ c.drop l.bytes_to_drop ∧
    (∀ l2 e2, step = .next l2 e2 → l2.bytes_to_drop = l.bytes_to_drop - c.length) := by
  unfold chunkRead at hc
  rcases bufferingIteration_shape env l e step h with ⟨hhead, _⟩ | ⟨hq, hx, hb, l1, rs, hr, hrd, hcase⟩
  · rw [if_pos hhead] at hc
    cases hc
  · rw [if_neg (by rw [hq, hx, hb]; simp), hr] at hc
    dsimp only at hc
    obtain ⟨hD1, -, -⟩ := refreshDetection_drop l e l1 hr
    have hperf : e.mmap_buffer_size_ = 0 → l1.buf_size ≤ env.ringFreeSize e.clk := by
      intro hm0
      rw [if_neg (by rw [hm0]; simp)] at hc
      by_contra hlt
      rw [if_neg hlt] at hc
      cases hc
    have hchunk : (∃ st e1, rs = .leave st e1) ∨ (∃ l2 e1, rs = .again l2 e1 ∧ c = []) ∨
        (∃ l2 e1, rs = .proceed l2 e1 ∧ 0 ≤ l2.size ∧
          chunkOf l2.buf 0 (toSizeT l2.size) = some c) := by
      have key : ∀ o : Option ReadStep, o = some rs →
          ((match o with
            | some (.proceed l2 _) =>
              if 0 ≤ l2.size then chunkOf l2.buf 0 (toSizeT l2.size) else none
            | some (.again _ _) => some []
            | _ => none) = some c ∨
          (match o with
            | some (.proceed l2 _) =>
              if 0 ≤ l2.size then chunkOf l2.buf 0 (toSizeT l2.size) else none
            | _ => none) = some c) →
          (∃ st e1, rs = .leave st e1) ∨ (∃ l2 e1, rs = .again l2 e1 ∧ c = []) ∨
            (∃ l2 e1, rs = .proceed l2 e1 ∧ 0 ≤ l2.size ∧
              chunkOf l2.buf 0 (toSizeT l2.size) = some c) := by
        intro o ho hm
        subst ho
        cases rs with
        | leave st e1 => exact Or.inl ⟨_, _, rfl⟩
        | again l2 e1 =>
          rcases hm with hm | hm
          · simp only [Option.some.injEq] at hm
            exact Or.inr (Or.inl ⟨_, _, rfl, hm.symm⟩)
          · cases hm
        | proceed l2 e1 =>
          have : (if 0 ≤ l2.size then chunkOf l2.buf 0 (toSizeT l2.size) else none) = some c := by
            rcases hm with hm | hm <;> exact hm
          split_ifs at this with hs
          exact Or.inr (Or.inr ⟨_, _, rfl, hs, this⟩)
      by_cases hm : e.mmap_buffer_size_ ≠ 0
      · rw [if_pos hm] at hc hrd
        exact key _ hrd (Or.inl hc)
      · rw [if_neg hm] at hc hrd
        have hm0 : e.mmap_buffer_size_ = 0 := by simpa using hm
        rw [if_pos (hperf hm0)] at hc
        exact key _ hrd (Or.inr hc)
    rcases read_frame env l1 e rs hrd hperf with ⟨st, e1, hrs, hcf⟩ | ⟨l2, e1, hrs, hcf, hD⟩ |
      ⟨l2, e1, hrs, hcf, hD, hlt⟩
    · subst hrs
      rcases hchunk with ⟨_, _, hk⟩ | ⟨_, _, hk, _⟩ | ⟨_, _, hk, _⟩ <;> cases hk
      -- a read that is left has no chunk
      exfalso
      by_cases hm : e.mmap_buffer_size_ ≠ 0
      · rw [if_pos hm] at hc hrd
        rw [hrd] at hc
        cases hc
      · rw [if_neg hm] at hc hrd
        rw [if_pos (hperf (by simpa using hm)), hrd] at hc
        cases hc
    · subst hrs
      have hc0 : c = [] := by
        rcases hchunk with ⟨_, _, hk⟩ | ⟨_, _, hk, hc0⟩ | ⟨_, _, hk, _⟩
        · cases hk
        · exact hc0
        · cases hk
      subst hc0
      rcases hcase with ⟨_, _, hk, _⟩ | ⟨l2b, e1b, hk, hstep⟩ | ⟨_, _, _, _, hk, _⟩
      · cases hk
      · cases hk
        subst hstep
        refine ⟨?_, ?_⟩
        · show submittedBytes e1.trace = _
          rw [(captureFree_bytes hcf).2]
          simp
        · intro l3 e3 h3
          cases h3
          rw [hD, hD1]
          simp
      · cases hk
    · subst hrs
      obtain ⟨hs0, hck⟩ : 0 ≤ l2.size ∧ chunkOf l2.buf 0 (toSizeT l2.size) = some c := by
        rcases hchunk with ⟨_, _, hk⟩ | ⟨_, _, hk, _⟩ | ⟨_, _, hk, ha, hb⟩
        · cases hk
        · cases hk
        · cases hk
          exact ⟨ha, hb⟩
      rcases hcase with ⟨_, _, hk, _⟩ | ⟨_, _, hk, _⟩ | ⟨l2b, e1b, l3, e2, hk, hw, hnotify⟩
      · cases hk
      · cases hk
      · cases hk
        obtain ⟨hsub, hdrop, _⟩ := writeChunk_bytes l2 e1 l3 e2 c hw hs0 hlt hck
        have hcf2 := notifyWhenReplayRead_captureFree env hev l3 e2 step hnotify
        refine ⟨?_, ?_⟩
        · rw [(captureFree_bytes hcf2).2, hsub, (captureFree_bytes hcf).2, hD, hD1]
        · intro l4 e4 h4
          subst h4
          obtain ⟨hd4, _⟩ := notifyWhenReplayRead_locals env l3 e2 l4 e4 hnotify
          rw [hd4, hdrop, hD, hD1]

theorem drop_duration_plain (pre own : Nat) (hle : own ≤ pre) (hlt : pre < U32) :
    ((pre + U32 - own % U32) % U32 * 1000) % U64 = (pre - own) * 1000 := by
  have hU32 : U32 = 4294967296 := by norm_num [U32]
  have hU64 : U64 = 18446744073709551616 := by norm_num [U64]
  rw [Nat.mod_eq_of_lt (show own < U32 by omega)]
  have : pre + U32 - own = (pre - own) + U32 := by omega
  rw [this, Nat.add_mod_right, Nat.mod_eq_of_lt (show pre - own < U32 by omega)]
  exact Nat.mod_eq_of_lt (by omega)

theorem startBufferingInit_drop (env : Env) (s : StreamPtr) (e : Engine) (l : BufLocals)
    (e1 : Engine) (h : startBufferingInit env s e = some (.next l e1)) :
    l.bytes_to_drop =
      if e.isPDK = true then
        UsToBytes e (((e.buffer_config_.pre_roll_duration_in_ms + U32 -
          (mapIndex (0, 0) e.mid_buff_cfg_ (env.stream e.clk s).modelId).1 % U32) % U32 * 1000)
            % U64)
      else 0 := by
  unfold startBufferingInit at h
  dsimp only at h
  split_ifs at h
  all_goals first
    | cases h
    | (split at h
       · cases h
       · simp only [Option.some.injEq, LoopStep.next.injEq] at h
         obtain ⟨rfl, rfl⟩ := h
         first
           | (have hp : e.isPDK = true := by assumption
              rw [if_pos hp]
              rfl)
           | (have hp : ¬ e.isPDK = true := by assumption
              rw [if_neg hp]))

/-- C24: over a run of the capture loop in which every iteration has a chunk,
with detection events as the only calls of other threads, the bytes submitted
to the ring buffer are the chunks read, one after the other, without their
first `bytes_to_drop` bytes, so their number is the number of bytes read less
the bytes to drop, or 0; the bytes still to drop after the run are the bytes to
drop less the bytes read.  `StartBuffering` enters the loop with no bytes to
drop on an engine that is not PDK and, on a PDK engine, with the bytes of the
pre-roll of the buffering configuration less the pre-roll recorded for the
model of the detected listener, a difference of unsigned 32-bit values. -/
theorem drop_removes_first_bytes_of_capture (env : Env) (hev : EventsOnly env) :
    (∀ (n : Nat) (l : BufLocals) (e : Engine) (chunks : List Nat),
      chunksRead env n l e = some chunks →
        ∃ step, bufferingSteps env n l e = some step ∧
          submittedBytes step.engine.trace =
            submittedBytes e.trace ++ chunks.drop l.bytes_to_drop ∧
          (submittedBytes step.engine.trace).length =
            (submittedBytes e.trace).length + (chunks.length - l.bytes_to_drop) ∧
          (∀ l2 e2, step = .next l2 e2 →
            l2.bytes_to_drop = l.bytes_to_drop - chunks.length)) ∧
    (∀ (s : StreamPtr) (e : Engine) (l : BufLocals) (e1 : Engine),
      startBufferingInit env s e = some (.next l e1) →
        e1.trace = e.trace ∧
        (e.isPDK = false → l.bytes_to_drop = 0) ∧
        (e.isPDK = true →
          (mapIndex (0, 0) e.mid_buff_cfg_ (env.stream e.clk s).modelId).1 ≤
            e.buffer_config_.pre_roll_duration_in_ms →
          e.buffer_config_.pre_roll_duration_in_ms < U32 →
          l.bytes_to_drop =
            UsToBytes e ((e.buffer_config_.pre_roll_duration_in_ms -
              (mapIndex (0, 0) e.mid_buff_cfg_ (env.stream e.clk s).modelId).1) * 1000)) ∧
        l.bytes_to_drop =
          if e.isPDK = true then
            UsToBytes e (((e.buffer_config_.pre_roll_duration_in_ms + U32 -
              (mapIndex (0, 0) e.mid_buff_cfg_ (env.stream e.clk s).modelId).1 % U32) % U32 *
                1000) % U64)
          else 0) := by
  refine ⟨?_, ?_⟩
  · have main : ∀ (n : Nat) (l : BufLocals) (e : Engine) (chunks : List Nat),
        chunksRead env n l e = some chunks →
          ∃ step, bufferingSteps env n l e = some step ∧
            submittedBytes step.engine.trace =
              submittedBytes e.trace ++ chunks.drop l.bytes_to_drop ∧
            (∀ l2 e2, step = .next l2 e2 →
              l2.bytes_to_drop = l.bytes_to_drop - chunks.length) := by
      intro n
      induction n with
      | zero =>
        intro l e chunks h
        simp only [chunksRead, Option.some.injEq] at h
        subst h
        refine ⟨.next l e, rfl, by simp [LoopStep.engine], ?_⟩
        intro l2 e2 h2
        cases h2
        simp
      | succ n ih =>
        intro l e chunks h
        simp only [chunksRead] at h
        cases hc : chunkRead env l e with
        | none => rw [hc] at h; cases h
        | some c =>
          cases hi : bufferingIteration env l e with
          | none => rw [hc, hi] at h; cases h
          | some s1 =>
            rw [hc, hi] at h
            obtain ⟨hsub, hdrop⟩ := iteration_submits_chunk_after_drop env hev l e c s1 hc hi
            cases s1 with
            | exit st e2 =>
              simp only [Option.some.injEq] at h
              subst h
              refine ⟨.exit st e2, by simp [bufferingSteps, hi], hsub, ?_⟩
              intro l2 e3 h3
              cases h3
            | next l2 e2 =>
              simp only [Option.map_eq_some'] at h
              obtain ⟨r, hr, rfl⟩ := h
              obtain ⟨step, hsteps, hsub2, hdrop2⟩ := ih l2 e2 r hr
              have hD2 := hdrop l2 e2 rfl
              refine ⟨step, by simp [bufferingSteps, hi, hsteps], ?_, ?_⟩
              · rw [hsub2]
                show submittedBytes e2.trace ++ _ = _
                have hsub' : submittedBytes e2.trace =
                    submittedBytes e.trace ++ c.drop l.bytes_to_drop := hsub
                rw [hsub', hD2, List.append_assoc, List.drop_append_eq_append_drop]
              · intro l3 e3 h3
                rw [hdrop2 l3 e3 h3, hD2, List.length_append]
                omega
    intro n l e chunks h
    obtain ⟨step, h1, h2, h3⟩ := main n l e chunks h
    refine ⟨step, h1, h2, ?_, h3⟩
    rw [h2, List.length_append, List.length_drop]
  · intro s e l e1 h
    have htrace := (startBufferingInit_next env s e l e1 h).2.2.2.2
    have hdrop := startBufferingInit_drop env s e l e1 h
    refine ⟨htrace, ?_, ?_, hdrop⟩
    · intro hp
      rw [hdrop, if_neg (by rw [hp]; simp)]
    · intro hp hle hlt
      rw [hdrop, if_pos hp, drop_duration_plain _ _ hle hlt]

theorem drop_removes_first_bytes_of_capture_witness :
    EventsOnly dropEnv ∧
    (∃ l0 e0 chunks, startBufferingInit dropEnv 1 sampleDropEngine = some (.next l0 e0) ∧
      chunksRead dropEnv 3 l0 e0 = some chunks ∧ chunks.length = 48 ∧
      l0.bytes_to_drop = 32 ∧
      l0.bytes_to_drop = UsToBytes sampleDropEngine ((501 - 500) * 1000) ∧
      ∃ step, bufferingSteps dropEnv 3 l0 e0 = some step ∧
        submittedBytes step.engine.trace =
          submittedBytes e0.trace ++ chunks.drop l0.bytes_to_drop ∧
        (submittedBytes step.engine.trace).length =
          (submittedBytes e0.trace).length + (chunks.length - l0.bytes_to_drop) ∧
        (∀ l2 e2, step = .next l2 e2 →
          l2.bytes_to_drop = l0.bytes_to_drop - chunks.length)) :=
  ⟨(fun _ _ hx => nomatch hx), _, _, _, rfl, rfl, rfl, rfl,
    ((drop_removes_first_bytes_of_capture dropEnv (fun _ _ hx => nomatch hx)).2 1
      sampleDropEngine _ _ rfl).2.2.1 rfl (by decide) (by decide),
    (drop_removes_first_bytes_of_capture dropEnv (fun _ _ hx => nomatch hx)).1 3 _ _ _ rfl⟩

/-! ## The replay and the notification of the listener -/

theorem writeChunk_mmap (l : BufLocals) (e : Engine) (l2 : BufLocals) (e2 : Engine)
    (h : writeChunk l e = some (l2, e2)) : e2.mmap_buffer_size_ = e.mmap_buffer_size_ := by
  unfold writeChunk at h
  by_cases h0 : l.size = 0
  · rw [if_pos h0] at h
    simp only [Option.some.injEq, Prod.mk.injEq] at h
    obtain ⟨-, rfl⟩ := h
    rfl
  · rw [if_neg h0] at h
    dsimp only at h
    split at h
    · cases h
    · rename_i e1 h1
      have hq1 : e1.mmap_buffer_size_ = e.mmap_buffer_size_ := by
        split_ifs at h1
        · simp only [Option.map_eq_some'] at h1
          obtain ⟨c, -, rfl⟩ := h1
          rfl
        · simp only [Option.some.injEq] at h1
          subst h1
          rfl
      by_cases hd : l.bytes_to_drop ≠ 0 ∧ toU32 l.size < l.bytes_to_drop
      · rw [if_pos hd] at h
        simp only [Option.some.injEq, Prod.mk.injEq] at h
        obtain ⟨-, rfl⟩ := h
        exact hq1
      · rw [if_neg hd] at h
        split at h
        · simp only [Option.some.injEq, Prod.mk.injEq] at h
          obtain ⟨-, rfl⟩ := h
          exact hq1
        · cases h

/-- An iteration in pull mode for a listener that has not been notified: it is
left before its end, having popped and notified nothing, or it reads and writes
quietly and comes to the test of the replay size. -/
theorem pull_iteration_parts (env : Env) (l : BufLocals) (e : Engine) (step : LoopStep)
    (hm : e.mmap_buffer_size_ = 0) (hn : l.event_notified = false)
    (h : bufferingIteration env l e = some step) :
    (∃ st E, step = .exit st E ∧ Quiet e E) ∨
    (e.eng_state_ = .ENG_BUFFERING ∧
      ∃ l2 e1 l3 e2, readPull env l e = some (.proceed l2 e1) ∧
        writeChunk l2 e1 = some (l3, e2) ∧ notifyWhenReplayRead env l3 e2 = some step ∧
        Quiet e e2 ∧ l3.s = l.s ∧ l3.ftrt_size = l.ftrt_size ∧ l3.event_notified = false ∧
        l3.total_read_size = l2.total_read_size ∧ e2.mmap_buffer_size_ = 0) := by
  rcases bufferingIteration_shape env l e step h with ⟨_, E, hE, ht, hq, hs⟩ |
    ⟨_, _, hb, l1, rs, hr, hrd, hcase⟩
  · exact Or.inl ⟨_, E, hE, hq, hs, [], by simp [ht], rfl⟩
  · have hl1 : l1 = l := (refreshDetection_drop l e l1 hr).2.2 hn
    subst hl1
    rw [if_neg (by rw [hm]; simp)] at hrd
    have hk := readPull_keeps env l1 e rs hrd
    rcases hcase with ⟨st, e1, hrs, hstep⟩ | ⟨l2, e1, hrs, hstep⟩ |
      ⟨l2, e1, l3, e2, hrs, hw, hnotify⟩
    · subst hrs
      exact Or.inl ⟨_, _, hstep, hk⟩
    · subst hrs
      exfalso
      rcases readPull_shape env l1 e _ hrd with ⟨_, hx⟩ | ⟨_, _, _, ⟨_, _, hx⟩ | ⟨_, hx, _⟩⟩ <;>
        cases hx
    · subst hrs
      obtain ⟨hq1, hs1, hn1⟩ := hk
      obtain ⟨hq2, hs2, hn2, ht2, hf2, _⟩ := writeChunk_keeps l2 e1 l3 e2 hw
      have hf1 : l2.ftrt_size = l1.ftrt_size ∧ e1.mmap_buffer_size_ = e.mmap_buffer_size_ := by
        rcases readPull_shape env l1 e _ hrd with ⟨_, hx⟩ |
          ⟨_, e9, he9, ⟨_, _, hx⟩ | ⟨l9, hx, _, _, _, hf, _⟩⟩
        · cases hx
          exact ⟨rfl, rfl⟩
        · cases hx
        · cases hx
          subst he9
          exact ⟨hf, rfl⟩
      refine Or.inr ⟨hb, l2, e1, l3, e2, hrd, hw, hnotify, quiet_step hq1 hq2, hs2.trans hs1,
        hf2.trans hf1.1, by rw [hn2, hn1, hn], ht2, ?_⟩
      rw [writeChunk_mmap l2 e1 l3 e2 hw, hf1.2, hm]

/-- While every iteration so far has ended with fewer bytes read than the replay
size, the loop in pull mode has popped and notified nothing and serves the same
listener. -/
theorem outstanding_run (env : Env) (n : Nat) :
    ∀ (l : BufLocals) (e : Engine) (l1 : BufLocals) (e1 : Engine),
      e.mmap_buffer_size_ = 0 → l.event_notified = false →
      replayOutstanding env l.ftrt_size n l e = true →
      bufferingSteps env n l e = some (.next l1 e1) →
      l1.event_notified = false ∧ l1.s = l.s ∧ l1.ftrt_size = l.ftrt_size ∧ Quiet e e1 ∧
        e1.mmap_buffer_size_ = 0 ∧ (1 ≤ n → l1.total_read_size < l.ftrt_size) := by
  induction n with
  | zero =>
    intro l e l1 e1 hm hn _ hrun
    simp only [bufferingSteps, Option.some.injEq, LoopStep.next.injEq] at hrun
    obtain ⟨rfl, rfl⟩ := hrun
    exact ⟨hn, rfl, rfl, quiet_same _, hm, fun h => absurd h (by omega)⟩
  | succ n ih =>
    intro l e l1 e1 hm hn hout hrun
    simp only [bufferingSteps] at hrun
    simp only [replayOutstanding] at hout
    cases hi : bufferingIteration env l e with
    | none => rw [hi] at hrun; cases hrun
    | some s1 =>
      rw [hi] at hrun hout
      cases s1 with
      | exit st e2 => cases hrun
      | next l2 e2 =>
        dsimp only at hrun hout
        rw [Bool.and_eq_true, decide_eq_true_eq] at hout
        obtain ⟨h1, hrest⟩ := hout
        rcases pull_iteration_parts env l e _ hm hn hi with ⟨_, _, hx, _⟩ |
          ⟨_, l3, e3, l4, e4, _, _, hnotify, hq, hs, hf, hnn, _, hm4⟩
        · cases hx
        · obtain ⟨_, ht, _, _, hsame, _⟩ := notifyWhenReplayRead_locals env l4 e4 l2 e2 hnotify
          have hlt4 : l4.total_read_size < l4.ftrt_size := by rw [← ht, hf]; exact h1
          obtain ⟨hl, he⟩ := hsame hlt4
          subst hl
          subst he
          rw [← hf] at hrest
          obtain ⟨r1, r2, r3, r4, r5, r6⟩ := ih l2 e2 l1 e1 hm4 hnn hrest hrun
          refine ⟨r1, r2.trans hs, r3.trans hf, quiet_step hq r4, r5, ?_⟩
          intro _
          by_cases hn0 : 1 ≤ n
          · rw [← hf]; exact r6 hn0
          · have hz : n = 0 := by omega
            subst hz
            simp only [bufferingSteps, Option.some.injEq, LoopStep.next.injEq] at hrun
            obtain ⟨rfl, rfl⟩ := hrun
            exact h1

theorem notified_of_quiet {e e2 : Engine} (h : Quiet e e2) :
    notifiedListeners (issued e e2) = [] := by
  obtain ⟨_, _, t, ht, hn⟩ := h
  rw [issued_of_trace e e2 t ht]
  exact hn

theorem pullRequest_le (l : BufLocals) (h : l.total_read_size < l.ftrt_size) :
    pullRequest l ≤ l.ftrt_size - l.total_read_size := by
  unfold pullRequest
  split_ifs with hc
  · exact le_refl _
  · by_contra hlt
    exact hc ⟨h, by omega⟩

/-! ## The wake lock in the processing thread -/

theorem wakeLockOps_same (e e2 : Engine) (h : e2.trace = e.trace) :
    wakeLockOps e2.trace = wakeLockOps e.trace := by
  rw [h]

theorem restartMmap_wakeLock (env : Env) (s : StreamPtr) (st : Int) (e : Engine) (r : Int)
    (e2 : Engine) (h : restartMmap env s st e = some (r, e2)) :
    wakeLockOps e2.trace = wakeLockOps e.trace := by
  unfold restartMmap at h
  by_cases hm : e.mmap_buffer_size_ ≠ 0
  · rw [if_pos hm] at h
    dsimp only at h
    split at h
    · cases h
    · split_ifs at h
      all_goals
        simp only [Option.some.injEq, Prod.mk.injEq] at h
        obtain ⟨-, rfl⟩ := h
        simp [Engine.log, wakeLockOps_append, wakeLockOps]
  · rw [if_neg hm] at h
    simp only [Option.some.injEq, Prod.mk.injEq] at h
    obtain ⟨-, rfl⟩ := h
    rfl

theorem RestartRecognition_wakeLock (env : Env) (s : StreamPtr) (e : Engine) (r : Int)
    (e2 : Engine) (h : RestartRecognition env s e = some (r, e2)) :
    wakeLockOps e2.trace = wakeLockOps e.trace := by
  unfold RestartRecognition at h
  split_ifs at h
  · simp only [Option.some.injEq, Prod.mk.injEq] at h
    obtain ⟨-, rfl⟩ := h
    rfl
  · simp only [Option.some.injEq, Prod.mk.injEq] at h
    obtain ⟨-, rfl⟩ := h
    rfl
  · dsimp only at h
    split at h
    · cases h
    · rename_i st e4 hm
      simp only [Option.some.injEq, Prod.mk.injEq] at h
      obtain ⟨-, rfl⟩ := h
      have h1 := restartMmap_wakeLock env s _ _ st e4 hm
      have hE : ∀ x : Engine, x.trace = e.trace →
          wakeLockOps ((UpdateSessionPayload env .ENGINE_RESET x).2.log
            (.waitEOS (env.eosSignalled (UpdateSessionPayload env .ENGINE_RESET x).2.clk))).trace =
            wakeLockOps e.trace := by
        intro x hx
        rw [wakeLockOps_log_other _ (.waitEOS _) rfl, UpdateSessionPayload_wakeLock, hx]
      show wakeLockOps e4.trace = _
      rw [h1]
      refine hE _ ?_
      split_ifs <;> rfl

theorem unlocked_idle (env : Env) (hidle : ∀ c, env.otherThreads c = []) (e : Engine) :
    unlocked env e = some (e.log .mutexReleased) := by
  unfold unlocked
  exact othersRun_idle env _ hidle

theorem notifyDetection_wakeLock (env : Env) (hidle : ∀ c, env.otherThreads c = [])
    (s : StreamPtr) (e : Engine) (st : Int) (e2 : Engine)
    (h : notifyDetection env s e = some (st, e2)) :
    wakeLockOps e2.trace = wakeLockOps e.trace := by
  unfold notifyDetection at h
  rw [unlocked_idle env hidle] at h
  dsimp only at h
  split at h
  · cases h
  · rename_i e3 h3
    rw [othersRun_idle env e3 hidle] at h
    simp only [Option.map_some', Option.some.injEq, Prod.mk.injEq] at h
    obtain ⟨-, rfl⟩ := h
    have hbase : wakeLockOps ((e.log .mutexReleased).log (.SetEngineDetectionState s)).trace =
        wakeLockOps e.trace := by
      rw [wakeLockOps_log_other _ (.SetEngineDetectionState s) rfl,
        wakeLockOps_log_other _ .mutexReleased rfl]
    split_ifs at h3
    · simp only [Option.map_eq_some'] at h3
      obtain ⟨r, hr, rfl⟩ := h3
      rw [RestartRecognition_wakeLock env s _ r.1 r.2 hr]
      exact hbase
    · simp only [Option.some.injEq] at h3
      subst h3
      exact hbase

theorem readMmap_wakeLock (env : Env) (l : BufLocals) (e : Engine) (rs : ReadStep)
    (h : readMmap env l e = some rs) :
    (∃ st e1, rs = .leave st e1 ∧ wakeLockOps e1.trace = wakeLockOps e.trace) ∨
    (∃ l2 e1, rs = .again l2 e1 ∧ wakeLockOps e1.trace = wakeLockOps e.trace) ∨
    (∃ l2 e1, rs = .proceed l2 e1 ∧ wakeLockOps e1.trace = wakeLockOps e.trace) := by
  unfold readMmap at h
  dsimp only at h
  have hc : wakeLockOps (e.log (.GetMmapPosition l.s)).trace = wakeLockOps e.trace :=
    wakeLockOps_log_other _ (.GetMmapPosition l.s) rfl
  split_ifs at h
  · simp only [Option.some.injEq] at h; subst h; exact Or.inl ⟨_, _, rfl, hc⟩
  · simp only [Option.some.injEq] at h; subst h; exact Or.inl ⟨_, _, rfl, hc⟩
  · simp only [Option.some.injEq] at h; subst h; exact Or.inl ⟨_, _, rfl, hc⟩
  · simp only [Option.some.injEq] at h; subst h; exact Or.inr (Or.inl ⟨_, _, rfl, hc⟩)
  · simp only [Option.some.injEq] at h; subst h; exact Or.inl ⟨_, _, rfl, hc⟩
  · simp only [Option.some.injEq] at h; subst h; exact Or.inl ⟨_, _, rfl, hc⟩
  · split at h
    · cases h
    · simp only [Option.some.injEq] at h
      subst h
      exact Or.inr (Or.inr ⟨_, _, rfl, hc⟩)

theorem readPull_wakeLock (env : Env) (l : BufLocals) (e : Engine) (rs : ReadStep)
    (h : readPull env l e = some rs) :
    (∃ st e1, rs = .leave st e1 ∧ wakeLockOps e1.trace = wakeLockOps e.trace) ∨
    (∃ l2 e1, rs = .again l2 e1 ∧ wakeLockOps e1.trace = wakeLockOps e.trace) ∨
    (∃ l2 e1, rs = .proceed l2 e1 ∧ wakeLockOps e1.trace = wakeLockOps e.trace) := by
  have h1 : wakeLockOps (e.log .bufferGetFreeSize).trace = wakeLockOps e.trace :=
    wakeLockOps_log_other _ .bufferGetFreeSize rfl
  have h2 : ∀ n, wakeLockOps ((e.log .bufferGetFreeSize).log (.sessionRead l.s n)).trace =
      wakeLockOps e.trace := by
    intro n
    rw [wakeLockOps_log_other _ (.sessionRead l.s n) rfl, h1]
  rcases readPull_shape env l e rs h with ⟨_, hx⟩ | ⟨_, e9, he9, ⟨st, _, hx⟩ | ⟨l9, hx, _⟩⟩
  · exact Or.inr (Or.inr ⟨_, _, hx, h1⟩)
  · subst he9
    exact Or.inl ⟨_, _, hx, h2 _⟩
  · subst he9
    exact Or.inr (Or.inr ⟨_, _, hx, h2 _⟩)

theorem writeChunk_wakeLock (l : BufLocals) (e : Engine) (l2 : BufLocals) (e2 : Engine)
    (h : writeChunk l e = some (l2, e2)) : wakeLockOps e2.trace = wakeLockOps e.trace := by
  unfold writeChunk at h
  by_cases h0 : l.size = 0
  · rw [if_pos h0] at h
    simp only [Option.some.injEq, Prod.mk.injEq] at h
    obtain ⟨-, rfl⟩ := h
    rfl
  · rw [if_neg h0] at h
    dsimp only at h
    split at h
    · cases h
    · rename_i e1 h1
      have hq1 : wakeLockOps e1.trace = wakeLockOps e.trace := by
        split_ifs at h1
        · simp only [Option.map_eq_some'] at h1
          obtain ⟨c, -, rfl⟩ := h1
          exact wakeLockOps_log_other _ (.UpdateFTRTData c) rfl
        · simp only [Option.some.injEq] at h1
          subst h1
          rfl
      by_cases hd : l.bytes_to_drop ≠ 0 ∧ toU32 l.size < l.bytes_to_drop
      · rw [if_pos hd] at h
        simp only [Option.some.injEq, Prod.mk.injEq] at h
        obtain ⟨-, rfl⟩ := h
        exact hq1
      · rw [if_neg hd] at h
        split at h
        · rename_i c b _ _
          simp only [Option.some.injEq, Prod.mk.injEq] at h
          obtain ⟨-, rfl⟩ := h
          show wakeLockOps (e1.log (.bufferWrite c)).trace = _
          rw [wakeLockOps_log_other _ (.bufferWrite c) rfl, hq1]
        · cases h

theorem notifyWhenReplayRead_wakeLock (env : Env) (hidle : ∀ c, env.otherThreads c = [])
    (l : BufLocals) (e : Engine) (step : LoopStep)
    (h : notifyWhenReplayRead env l e = some step) :
    wakeLockOps step.engine.trace = wakeLockOps e.trace := by
  unfold notifyWhenReplayRead at h
  by_cases ht : l.total_read_size ≥ l.ftrt_size
  · rw [if_pos ht] at h
    by_cases hn : l.event_notified = false
    · rw [if_pos hn] at h
      cases hq : e.det_streams_q_ with
      | nil => rw [hq] at h; cases h
      | cons x q =>
        rw [hq] at h
        dsimp only at h
        split at h
        · cases h
        · rename_i status e2 hr
          have c2 : wakeLockOps e2.trace = wakeLockOps e.trace := by
            split_ifs at hr
            · exact notifyDetection_wakeLock env hidle l.s
                ({ e with det_streams_q_ := q } : Engine) status e2 hr
            · simp only [Option.some.injEq, Prod.mk.injEq] at hr
              obtain ⟨-, rfl⟩ := hr
              rfl
          by_cases hs0 : status ≠ 0
          · rw [if_pos hs0] at h
            simp only [Option.some.injEq] at h
            subst h
            exact c2
          · rw [if_neg hs0, unlocked_idle env hidle] at h
            simp only [Option.map_some', Option.some.injEq] at h
            subst h
            show wakeLockOps (e2.log .mutexReleased).trace = _
            rw [wakeLockOps_log_other _ .mutexReleased rfl, c2]
    · rw [if_neg hn, unlocked_idle env hidle] at h
      simp only [Option.map_some', Option.some.injEq] at h
      subst h
      exact wakeLockOps_log_other _ .mutexReleased rfl
  · rw [if_neg ht] at h
    simp only [Option.some.injEq] at h
    subst h
    rfl

theorem bufferingIteration_wakeLock (env : Env) (hidle : ∀ c, env.otherThreads c = [])
    (l : BufLocals) (e : Engine) (step : LoopStep)
    (h : bufferingIteration env l e = some step) :
    wakeLockOps step.engine.trace = wakeLockOps e.trace := by
  rcases bufferingIteration_shape env l e step h with ⟨_, E, hE, ht, _⟩ |
    ⟨_, _, _, l1, rs, _, hrd, hcase⟩
  · subst hE
    exact wakeLockOps_same _ _ ht
  · have hread : (∃ st e1, rs = .leave st e1 ∧ wakeLockOps e1.trace = wakeLockOps e.trace) ∨
        (∃ l2 e1, rs = .again l2 e1 ∧ wakeLockOps e1.trace = wakeLockOps e.trace) ∨
        (∃ l2 e1, rs = .proceed l2 e1 ∧ wakeLockOps e1.trace = wakeLockOps e.trace) := by
      split_ifs at hrd
      · exact readMmap_wakeLock env l1 e rs hrd
      · exact readPull_wakeLock env l1 e rs hrd
    rcases hcase with ⟨st, e1, hrs, hstep⟩ | ⟨l2, e1, hrs, hstep⟩ |
      ⟨l2, e1, l3, e2, hrs, hw, hnotify⟩
    · subst hrs; subst hstep
      rcases hread with ⟨_, _, hk, hw⟩ | ⟨_, _, hk, _⟩ | ⟨_, _, hk, _⟩ <;> cases hk
      exact hw
    · subst hrs; subst hstep
      rcases hread with ⟨_, _, hk, _⟩ | ⟨_, _, hk, hw⟩ | ⟨_, _, hk, _⟩ <;> cases hk
      exact hw
    · subst hrs
      rcases hread with ⟨_, _, hk, _⟩ | ⟨_, _, hk, _⟩ | ⟨_, _, hk, hr⟩ <;> cases hk
      rw [notifyWhenReplayRead_wakeLock env hidle l3 e2 step hnotify,
        writeChunk_wakeLock l2 e1 l3 e2 hw, hr]

theorem bufferingLoop_wakeLock (env : Env) (hidle : ∀ c, env.otherThreads c = [])
    (fuel : Nat) :
    ∀ (l : BufLocals) (e : Engine) (st : Int) (e2 : Engine),
      bufferingLoop env fuel l e = some (st, e2) →
        wakeLockOps e2.trace = wakeLockOps e.trace := by
  induction fuel with
  | zero =>
    intro l e st e2 h
    simp only [bufferingLoop] at h
    cases h
  | succ n ih =>
    intro l e st e2 h
    simp only [bufferingLoop] at h
    cases hi : bufferingIteration env l e with
    | none => rw [hi] at h; cases h
    | some s1 =>
      rw [hi] at h
      have h1 := bufferingIteration_wakeLock env hidle l e s1 hi
      cases s1 with
      | exit status e3 =>
        simp only [Option.some.injEq, Prod.mk.injEq] at h
        obtain ⟨-, rfl⟩ := h
        exact h1
      | next l2 e3 =>
        rw [ih l2 e3 st e2 h]
        exact h1

theorem StartBuffering_wakeLock (env : Env) (hidle : ∀ c, env.otherThreads c = [])
    (fuel : Nat) (s : StreamPtr) (e : Engine) (st : Int) (e2 : Engine)
    (h : StartBuffering env fuel s e = some (st, e2)) :
    wakeLockOps e2.trace = wakeLockOps e.trace := by
  unfold StartBuffering at h
  cases hi : startBufferingInit env s e with
  | none => rw [hi] at h; cases h
  | some s1 =>
    rw [hi] at h
    cases s1 with
    | exit status e1 =>
      simp only [Option.some.injEq, Prod.mk.injEq] at h
      obtain ⟨-, rfl⟩ := h
      exact wakeLockOps_same _ _ (startBufferingInit_exit env s e status e1 hi).2
    | next l e1 =>
      dsimp only at h
      cases hl : bufferingLoop env fuel l e1 with
      | none => rw [hl] at h; cases h
      | some r =>
        obtain ⟨st2, e3⟩ := r
        rw [hl] at h
        simp only [Option.some.injEq, Prod.mk.injEq] at h
        obtain ⟨-, rfl⟩ := h
        show wakeLockOps e3.trace = _
        rw [bufferingLoop_wakeLock env hidle fuel l e1 st2 e3 hl]
        exact wakeLockOps_same _ _ (startBufferingInit_next env s e l e1 hi).2.2.2.2

theorem handleDetection_wakeLock (env : Env) (hidle : ∀ c, env.otherThreads c = [])
    (fuel : Nat) (s : StreamPtr) (e e2 : Engine)
    (h : handleDetection env fuel s e = some e2) :
    wakeLockOps e2.trace = wakeLockOps e.trace := by
  unfold handleDetection at h
  by_cases hc : e.capture_requested_ = true
  · rw [if_pos hc] at h
    cases hs : StartBuffering env fuel s e with
    | none => rw [hs] at h; cases h
    | some r =>
      obtain ⟨status, e1⟩ := r
      rw [hs] at h
      dsimp only at h
      have h1 := StartBuffering_wakeLock env hidle fuel s e status e1 hs
      by_cases hneg : status < 0
      · rw [if_pos hneg, unlocked_idle env hidle] at h
        dsimp only at h
        cases hr : RestartRecognition env s (e1.log .mutexReleased) with
        | none => rw [hr] at h; cases h
        | some r2 =>
          obtain ⟨st3, e3⟩ := r2
          rw [hr] at h
          dsimp only at h
          rw [othersRun_idle env e3 hidle] at h
          simp only [Option.some.injEq] at h
          subst h
          rw [RestartRecognition_wakeLock env s _ st3 e3 hr,
            wakeLockOps_log_other _ .mutexReleased rfl, h1]
      · rw [if_neg hneg] at h
        simp only [Option.some.injEq] at h
        subst h
        exact h1
  · rw [if_neg hc] at h
    dsimp only at h
    simp only [Option.map_eq_some'] at h
    obtain ⟨r, hr, rfl⟩ := h
    rw [notifyDetection_wakeLock env hidle s _ r.1 r.2 hr]
    exact UpdateSessionPayload_wakeLock env .ENGINE_RESET e

/-- Every round of the processing thread ends with one release of the wake lock
and, while no other thread gets the engine mutex meanwhile, makes no other
wake-lock call. -/
theorem ProcessEventIteration_wakeLock (env : Env) (hidle : ∀ c, env.otherThreads c = [])
    (fuel : Nat) (e e2 : Engine) (h : ProcessEventIteration env fuel e = some e2) :
    wakeLockOps e2.trace = wakeLockOps e.trace ++ [false] := by
  have rel : ∀ x : Engine, wakeLockOps (x.log .releaseWakeLock).trace =
      wakeLockOps x.trace ++ [false] := fun x => wakeLockOps_log x .releaseWakeLock
  unfold ProcessEventIteration at h
  by_cases hx : e.exit_thread_ = true
  · rw [if_pos hx] at h
    simp only [Option.some.injEq] at h
    subst h
    exact rel e
  · rw [if_neg hx] at h
    by_cases hd : e.eng_state_ ≠ .ENG_DETECTED
    · rw [if_pos hd] at h
      simp only [Option.some.injEq] at h
      subst h
      exact rel e
    · rw [if_neg hd] at h
      cases hq : e.det_streams_q_ with
      | nil => rw [hq] at h; cases h
      | cons s q =>
        rw [hq] at h
        dsimp only at h
        by_cases hcast : dynCast env e.clk s = true
        · rw [if_pos hcast] at h
          cases hh : handleDetection env fuel s e with
          | none => rw [hh] at h; cases h
          | some e1 =>
            rw [hh] at h
            simp only [Option.some.injEq] at h
            subst h
            rw [rel]
            have h1 := handleDetection_wakeLock env hidle fuel s e e1 hh
            split_ifs
            · show wakeLockOps e1.trace ++ [false] = _
              rw [h1]
            · rw [h1]
        · rw [if_neg hcast] at h
          simp only [Option.some.injEq] at h
          subst h
          exact rel e

theorem ProcessStopRecognition_wakeLock (env : Env) (s : StreamPtr) (e : Engine) :
    wakeLockOps (ProcessStopRecognition env s e).2.trace =
      wakeLockOps e.trace ++ [true, false] := by
  obtain ⟨suffix, _, _, _, _, _, _, _, htrace, hsteps, _⟩ := ProcessStopRecognition_shape env s e
  rw [htrace, wakeLockOps_append]
  have h1 : wakeLockOps suffix = [] := wakeLockOps_payloadSteps _ _ suffix hsteps
  have h2 : Effect.acquireWakeLock :: Effect.updateSessionPayload .ENGINE_RESET ::
      suffix ++ [Effect.sessionStop s, Effect.releaseWakeLock] =
      [Effect.acquireWakeLock, Effect.updateSessionPayload .ENGINE_RESET] ++ suffix ++
        [Effect.sessionStop s, Effect.releaseWakeLock] := by simp
  rw [h2, wakeLockOps_append, wakeLockOps_append, h1]
  rfl

/-- A detection event handled in state Active acquires the wake lock; it releases
the lock again where the detected listener cannot be resolved or the payload
does not parse, and otherwise leaves the lock held and the engine Detected. -/
theorem HandleSessionEvent_wakeLock (env : Env) (data : List Nat) (e e2 : Engine)
    (ha : e.eng_state_ = .ENG_ACTIVE) (h : HandleSessionEvent env data e = some e2) :
    ((env.GetDetectedStream (e.log .acquireWakeLock).clk data = 0 ∨
        env.ParseDetectionPayload ((e.log .acquireWakeLock).log .GetDetectedStream).clk
          (env.GetDetectedStream (e.log .acquireWakeLock).clk data) data ≠ 0) →
      e2.eng_state_ = .ENG_ACTIVE ∧
        wakeLockOps e2.trace = wakeLockOps e.trace ++ [true, false]) ∧
    (¬ (env.GetDetectedStream (e.log .acquireWakeLock).clk data = 0 ∨
        env.ParseDetectionPayload ((e.log .acquireWakeLock).log .GetDetectedStream).clk
          (env.GetDetectedStream (e.log .acquireWakeLock).clk data) data ≠ 0) →
      e2.eng_state_ = .ENG_DETECTED ∧
        wakeLockOps e2.trace = wakeLockOps e.trace ++ [true]) := by
  unfold HandleSessionEvent at h
  dsimp only at h
  rw [if_neg (by rw [ha]; decide), if_neg (by rw [ha]; simp)] at h
  simp only [if_pos ha] at h
  cases hb : e.buffer_ with
  | none => rw [hb] at h; cases h
  | some b =>
    rw [hb] at h
    dsimp only at h
    have hclk1 : ({ e.log .acquireWakeLock with buffer_ := some b.reset } : Engine).clk =
        (e.log .acquireWakeLock).clk := rfl
    by_cases h0 : env.GetDetectedStream (e.log .acquireWakeLock).clk data = 0
    · rw [hclk1, if_pos h0] at h
      simp only [Option.some.injEq] at h
      subst h
      refine ⟨fun _ => ⟨ha, ?_⟩, fun hn => absurd (Or.inl h0) hn⟩
      simp [Engine.log, wakeLockOps_append, wakeLockOps]
    · rw [hclk1, if_neg h0] at h
      by_cases hp : env.ParseDetectionPayload
          ((e.log .acquireWakeLock).log .GetDetectedStream).clk
          (env.GetDetectedStream (e.log .acquireWakeLock).clk data) data ≠ 0
      · have hp2 : env.ParseDetectionPayload
            (({ e.log .acquireWakeLock with buffer_ := some b.reset } : Engine).log
              .GetDetectedStream).clk
            (env.GetDetectedStream (e.log .acquireWakeLock).clk data) data ≠ 0 := hp
        rw [if_pos hp2] at h
        simp only [Option.some.injEq] at h
        subst h
        refine ⟨fun _ => ⟨ha, ?_⟩, fun hn => absurd (Or.inr hp) hn⟩
        simp [Engine.log, wakeLockOps_append, wakeLockOps]
      · have hp2 : ¬ env.ParseDetectionPayload
            (({ e.log .acquireWakeLock with buffer_ := some b.reset } : Engine).log
              .GetDetectedStream).clk
            (env.GetDetectedStream (e.log .acquireWakeLock).clk data) data ≠ 0 := hp
        rw [if_neg hp2] at h
        unfold handleFirstDetection at h
        simp only [Engine.log, Option.some.injEq] at h
        subst h
        refine ⟨fun hy => ?_, fun _ => ⟨rfl, ?_⟩⟩
        · rcases hy with hy | hy
          · exact absurd hy h0
          · exact absurd hy hp
        · simp [UpdateState, wakeLockOps_append, wakeLockOps]

/-- C27: the destructor wakes the processing thread without an acquire of the
wake lock, and the thread releases the lock before it leaves its loop.  At the
shutdown of the sample engine, with no wake-lock call made before, the
destructor makes none and the wake-up it causes makes one release, so the
balance becomes `-1`. -/
theorem shutdown_wake_up_releases_without_acquire :
    wakeLockOps (requestThreadExit sampleEngine).trace = [] ∧
    ∃ e2, ProcessEventIteration sampleEnv 0 (requestThreadExit sampleEngine) = some e2 ∧
      wakeLockOps e2.trace = [false] ∧ wakeLockBalance (wakeLockOps e2.trace) = -1 :=
  ⟨rfl, _, rfl, rfl, rfl⟩

/-- The wake-lock calls of the engine: `ProcessStartRecognition` and
`ProcessStopRecognition` make, on every return, one acquire of the wake lock
followed by one release.  A detection event handled in state Active acquires the
lock; it releases it again where the detected listener cannot be resolved or the
payload does not parse, and otherwise the engine is Detected and the round of
the processing thread it wakes releases the lock, with no other wake-lock call
while no other thread gets the engine mutex.  Every round of the processing
thread makes one release and no acquire, also the round woken by the destructor,
which has acquired nothing. -/
theorem wake_lock_calls_are_paired_except_at_shutdown (env : Env) :
    (∀ s e st e2, ProcessStartRecognition env s e = some (st, e2) →
      wakeLockOps e2.trace = wakeLockOps e.trace ++ [true, false]) ∧
    (∀ s e, wakeLockOps (ProcessStopRecognition env s e).2.trace =
      wakeLockOps e.trace ++ [true, false]) ∧
    (∀ data e e2, e.eng_state_ = .ENG_ACTIVE → HandleSessionEvent env data e = some e2 →
      ((env.GetDetectedStream (e.log .acquireWakeLock).clk data = 0 ∨
          env.ParseDetectionPayload ((e.log .acquireWakeLock).log .GetDetectedStream).clk
            (env.GetDetectedStream (e.log .acquireWakeLock).clk data) data ≠ 0) →
        e2.eng_state_ = .ENG_ACTIVE ∧
          wakeLockOps e2.trace = wakeLockOps e.trace ++ [true, false]) ∧
      (¬ (env.GetDetectedStream (e.log .acquireWakeLock).clk data = 0 ∨
          env.ParseDetectionPayload ((e.log .acquireWakeLock).log .GetDetectedStream).clk
            (env.GetDetectedStream (e.log .acquireWakeLock).clk data) data ≠ 0) →
        e2.eng_state_ = .ENG_DETECTED ∧
          wakeLockOps e2.trace = wakeLockOps e.trace ++ [true] ∧
          ((∀ c, env.otherThreads c = []) → ∀ fuel e3,
            ProcessEventIteration env fuel e2 = some e3 →
              wakeLockOps e3.trace = wakeLockOps e.trace ++ [true, false]))) ∧
    ((∀ c, env.otherThreads c = []) → ∀ fuel e e2,
      ProcessEventIteration env fuel e = some e2 →
        wakeLockOps e2.trace = wakeLockOps e.trace ++ [false]) ∧
    (∀ fuel e, wakeLockOps (requestThreadExit e).trace = wakeLockOps e.trace ∧
      ∃ e2, ProcessEventIteration env fuel (requestThreadExit e) = some e2 ∧
        wakeLockOps e2.trace = wakeLockOps e.trace ++ [false]) := by
  refine ⟨?_, ?_, ?_, ?_, ?_⟩
  · intro s e st e2 h
    exact (ProcessStartRecognition_outcome env s e st e2 h).1
  · intro s e
    exact ProcessStopRecognition_wakeLock env s e
  · intro data e e2 ha h
    obtain ⟨h1, h2⟩ := HandleSessionEvent_wakeLock env data e e2 ha h
    refine ⟨h1, fun hn => ?_⟩
    obtain ⟨hd, hw⟩ := h2 hn
    refine ⟨hd, hw, ?_⟩
    intro hidle fuel e3 h3
    rw [ProcessEventIteration_wakeLock env hidle fuel e2 e3 h3, hw]
    simp
  · intro hidle fuel e e2 h
    exact ProcessEventIteration_wakeLock env hidle fuel e e2 h
  · intro fuel e
    have h0 : wakeLockOps (requestThreadExit e).trace = wakeLockOps e.trace := by
      unfold requestThreadExit
      rw [wakeLockOps_log_other _ .notifyProcessingThread rfl]
    refine ⟨h0, (requestThreadExit e).log .releaseWakeLock, ?_, ?_⟩
    · unfold ProcessEventIteration
      rw [if_pos (by simp [requestThreadExit, Engine.log])]
    · rw [wakeLockOps_log, h0]
      rfl

theorem wake_lock_calls_are_paired_except_at_shutdown_witness :
    (∀ c, sampleEnv.otherThreads c = []) ∧ sampleNoCaptureEngine.eng_state_ = .ENG_ACTIVE ∧
    ∃ e2 e3, HandleSessionEvent sampleEnv [] sampleNoCaptureEngine = some e2 ∧
      ProcessEventIteration sampleEnv 0 e2 = some e3 ∧
      wakeLockOps e2.trace = wakeLockOps sampleNoCaptureEngine.trace ++ [true] ∧
      wakeLockOps e3.trace = wakeLockOps sampleNoCaptureEngine.trace ++ [true, false] ∧
      ∃ st e4, ProcessStartRecognition sampleEnv 1 sampleEngine = some (st, e4) ∧
        wakeLockOps e4.trace = wakeLockOps sampleEngine.trace ++ [true, false] :=
  ⟨fun _ => rfl, rfl, _, _, rfl, rfl,
    (((wake_lock_calls_are_paired_except_at_shutdown sampleEnv).2.2.1 []
      sampleNoCaptureEngine _ rfl rfl).2 (by decide)).2.1,
    (((wake_lock_calls_are_paired_except_at_shutdown sampleEnv).2.2.1 []
      sampleNoCaptureEngine _ rfl rfl).2 (by decide)).2.2 (fun _ => rfl) 0 _ rfl,
    ⟨_, _, rfl, (wake_lock_calls_are_paired_except_at_shutdown sampleEnv).1 1 sampleEngine _ _
      rfl⟩⟩

/-- The original claim C22 fails for a listener with a replay of no bytes: the
first iteration requests 4 bytes, the session returns the 4 bytes requested,
and the listener is notified with 4 bytes read, not with the replay size 0. -/
theorem notification_with_more_than_replay_read :
    ∃ l0 e0 l e, startBufferingInit captureEnv 1 sampleNoReplayEngine = some (.next l0 e0) ∧
      l0.ftrt_size = 0 ∧ l0.event_notified = false ∧ pullRequest l0 = 4 ∧
      (captureEnv.sessionRead (e0.log .bufferGetFreeSize).clk 1 4).2.1 = 4 ∧
      bufferingSteps captureEnv 1 l0 e0 = some (.next l e) ∧
      issued e0 e =
        [.bufferGetFreeSize, .sessionRead 1 4, .bufferWrite [1, 2, 3, 4], .mutexReleased,
          .SetEngineDetectionState 1, .mutexReleased] ∧
      l.event_notified = true ∧ l.total_read_size = 4 ∧ l.ftrt_size = 0 :=
  ⟨_, _, _, _, rfl, rfl, rfl, rfl, rfl, rfl, rfl, rfl, rfl, rfl⟩

/-! ## The status the client operations rewrite -/

/-- The status `StartRecognition` rewrites is the status of
`ProcessStartRecognition`, run on the engine with the model state recorded and,
where that engine is active, stopped for its first listener. -/
theorem StartRecognition_rewrite (env : Env) (s : StreamPtr) (e : Engine) (r : Int)
    (e2 : Engine) (h : StartRecognition env s e = some (r, e2)) :
    ∃ e3 u,
      ((IsEngineActive (modelStateSet s true e) = false ∧ e3 = modelStateSet s true e) ∨
        (IsEngineActive (modelStateSet s true e) = true ∧
          ∃ s0, (modelStateSet s true e).eng_streams_.head? = some s0 ∧
            e3 = (ProcessStopRecognition env s0 (modelStateSet s true e)).2)) ∧
      ProcessStartRecognition env s e3 = some (u, e2) ∧ r = ssrStatus env u e2 := by
  unfold StartRecognition at h
  dsimp only at h
  split at h
  · cases h
  · rename_i e3 heq
    have hentry : (IsEngineActive (modelStateSet s true e) = false ∧
        e3 = modelStateSet s true e) ∨
        (IsEngineActive (modelStateSet s true e) = true ∧
          ∃ s0, (modelStateSet s true e).eng_streams_.head? = some s0 ∧
            e3 = (ProcessStopRecognition env s0 (modelStateSet s true e)).2) := by
      by_cases ha : IsEngineActive (modelStateSet s true e) = true
      · have ha2 := ha
        unfold modelStateSet at ha2
        rw [if_pos ha2] at heq
        split at heq
        · cases heq
        · rename_i s0 rest hs
          simp only [Option.some.injEq] at heq
          exact Or.inr ⟨ha, s0, by unfold modelStateSet; rw [hs]; rfl, heq.symm⟩
      · have ha2 := ha
        unfold modelStateSet at ha2
        rw [if_neg ha2] at heq
        simp only [Option.some.injEq] at heq
        exact Or.inl ⟨by simpa using ha, heq.symm⟩
    split at h
    · cases h
    · rename_i status e4 hp
      by_cases hst : status ≠ 0
      · rw [if_pos hst] at h
        simp only [Option.some.injEq, Prod.mk.injEq] at h
        obtain ⟨h1, h2⟩ := h
        subst h2
        exact ⟨e3, status, hentry, hp, h1.symm⟩
      · rw [if_neg hst] at h
        simp only [Option.some.injEq, Prod.mk.injEq] at h
        obtain ⟨h1, h2⟩ := h
        subst h2
        have h0 : status = 0 := by simpa using hst
        subst h0
        exact ⟨e3, 0, hentry, hp, by rw [← h1, ssrStatus_zero]⟩

/-- The status `StopRecognition` rewrites: 0 on an engine that is not active, the
status of `ProcessStopRecognition` where that is not 0 or no other listener is
active, and the status of the restart of the other listeners otherwise. -/
theorem StopRecognition_rewrite (env : Env) (s : StreamPtr) (e : Engine) (r : Int)
    (e2 : Engine) (h : StopRecognition env s e = some (r, e2)) :
    ∃ u, r = ssrStatus env u e2 ∧
      ((IsEngineActive (modelStateSet s false e) = false ∧ u = 0 ∧
          e2 = modelStateSet s false e) ∨
        (IsEngineActive (modelStateSet s false e) = true ∧
          u = (ProcessStopRecognition env s (modelStateSet s false e)).1 ∧
          e2 = (ProcessStopRecognition env s (modelStateSet s false e)).2 ∧
          (u ≠ 0 ∨ CheckIfOtherStreamsActive env s
            (ProcessStopRecognition env s (modelStateSet s false e)).2 = false)) ∨
        (IsEngineActive (modelStateSet s false e) = true ∧
          (ProcessStopRecognition env s (modelStateSet s false e)).1 = 0 ∧
          CheckIfOtherStreamsActive env s
            (ProcessStopRecognition env s (modelStateSet s false e)).2 = true ∧
          stopRestartOthers env s (ProcessStopRecognition env s (modelStateSet s false e)).2 =
            some (u, e2))) := by
  unfold StopRecognition at h
  dsimp only at h
  split_ifs at h with h1 h2 h3
  · simp only [Option.some.injEq, Prod.mk.injEq] at h
    obtain ⟨ha, hb⟩ := h
    subst hb
    exact ⟨_, ha.symm, Or.inr (Or.inl ⟨h1, rfl, rfl, Or.inl h2⟩)⟩
  · split at h
    · cases h
    · rename_i st e6 hp
      simp only [Option.some.injEq, Prod.mk.injEq] at h
      obtain ⟨ha, hb⟩ := h
      subst hb
      exact ⟨st, ha.symm, Or.inr (Or.inr ⟨h1, by simpa using h2, h3, hp⟩)⟩
  · simp only [Option.some.injEq, Prod.mk.injEq] at h
    obtain ⟨ha, hb⟩ := h
    subst hb
    exact ⟨_, ha.symm, Or.inr (Or.inl ⟨h1, rfl, rfl, Or.inr (by simpa using h3)⟩)⟩
  · simp only [Option.some.injEq, Prod.mk.injEq] at h
    obtain ⟨ha, hb⟩ := h
    subst hb
    exact ⟨0, ha.symm, Or.inl ⟨by simpa using h1, rfl, rfl⟩⟩

theorem restartMmap_status (env : Env) (s : StreamPtr) (st : Int) (e : Engine) (u : Int)
    (e4 : Engine) (h : restartMmap env s st e = some (u, e4)) :
    (e.mmap_buffer_size_ = 0 → u = st) ∧
    (e.mmap_buffer_size_ ≠ 0 → u = env.ResetMmapBuffer (e.clk + 1) s) := by
  unfold restartMmap at h
  by_cases hm : e.mmap_buffer_size_ ≠ 0
  · rw [if_pos hm] at h
    dsimp only at h
    refine ⟨fun h0 => absurd h0 hm, fun _ => ?_⟩
    split at h
    · cases h
    · split_ifs at h
      all_goals
        simp only [Option.some.injEq, Prod.mk.injEq] at h
        obtain ⟨hu, -⟩ := h
        rw [← hu]
        simp [Engine.clk, Engine.log]
  · rw [if_neg hm] at h
    simp only [Option.some.injEq, Prod.mk.injEq] at h
    exact ⟨fun _ => h.1.symm, fun h0 => absurd h0 hm⟩

theorem restartReset_mmap (env : Env) (e : Engine) :
    (restartReset env e).mmap_buffer_size_ = e.mmap_buffer_size_ := by
  obtain ⟨suffix, m1, m2, cd, cds, hU, _, _⟩ :=
    UpdateSessionPayload_shape env .ENGINE_RESET (restartEntry e)
  unfold restartReset
  rw [hU]
  show (restartEntry e).mmap_buffer_size_ = _
  unfold restartEntry
  dsimp only
  split_ifs <;> rfl

/-- The status `RestartRecognition` rewrites: 0 where the engine is not active or
the restart is deferred; otherwise, in pull mode, the status of the engine
reset write, and in mmap mode the status of the reset of the mmap buffer. -/
theorem RestartRecognition_rewrite (env : Env) (s : StreamPtr) (e : Engine) (r : Int)
    (e2 : Engine) (h : RestartRecognition env s e = some (r, e2)) :
    ∃ u, r = ssrStatus env u e2 ∧
      ((IsEngineActive e = false ∧ u = 0 ∧ e2 = e) ∨
        (IsEngineActive e = true ∧ env.concurrentEventCapture = true ∧
          (e.det_streams_q_.isEmpty = false ∨ CheckIfOtherStreamsBuffering env s e = true) ∧
          u = 0 ∧ e2 = e) ∨
        (IsEngineActive e = true ∧
          ¬ (env.concurrentEventCapture = true ∧
            (e.det_streams_q_.isEmpty = false ∨ CheckIfOtherStreamsBuffering env s e = true)) ∧
          (∃ e4, restartMmap env s (UpdateSessionPayload env .ENGINE_RESET (restartEntry e)).1
              (restartReset env e) = some (u, e4) ∧
            e2 = UpdateState .ENG_ACTIVE { e4 with exit_buffering_ := false }) ∧
          (e.mmap_buffer_size_ = 0 →
            u = (UpdateSessionPayload env .ENGINE_RESET (restartEntry e)).1) ∧
          (e.mmap_buffer_size_ ≠ 0 →
            u = env.ResetMmapBuffer ((restartReset env e).clk + 1) s))) := by
  unfold RestartRecognition at h
  split_ifs at h with h1 h2
  · simp only [Option.some.injEq, Prod.mk.injEq] at h
    obtain ⟨ha, hb⟩ := h
    subst hb
    exact ⟨0, by rw [← ha, ssrStatus_zero], Or.inl ⟨h1, rfl, rfl⟩⟩
  · simp only [Option.some.injEq, Prod.mk.injEq] at h
    obtain ⟨ha, hb⟩ := h
    subst hb
    exact ⟨0, by rw [← ha, ssrStatus_zero], Or.inr (Or.inl ⟨by simpa using h1, h2.1, h2.2, rfl, rfl⟩)⟩
  · dsimp only at h
    split at h
    · cases h
    · rename_i status e4 hp
      simp only [Option.some.injEq, Prod.mk.injEq] at h
      obtain ⟨ha, hb⟩ := h
      subst hb
      have hp2 : restartMmap env s (UpdateSessionPayload env .ENGINE_RESET (restartEntry e)).1
          (restartReset env e) = some (status, e4) := hp
      obtain ⟨hs0, hs1⟩ := restartMmap_status env s _ _ status e4 hp2
      rw [restartReset_mmap] at hs0 hs1
      exact ⟨status, ha.symm, Or.inr (Or.inr ⟨by simpa using h1, h2, ⟨e4, hp2, rfl⟩, hs0, hs1⟩)⟩

/-- C18 (amended): for `LoadSoundModel` with data that is not null and, on a PDK
engine, registration data that could be allocated, and for `UnloadSoundModel`,
`StartRecognition`, `StopRecognition` and `RestartRecognition`, the value
returned is the status rewrite of the underlying status of the operation: 0 if
that status is `-ENETRESET` or the sound card is not online, and the underlying
status itself otherwise.  The underlying status is that of `loadModel` on the
registered data, of `unloadModel`, of `ProcessStartRecognition` after the stop
of an active engine, of `ProcessStopRecognition` or of the restart of the other
listeners, and, for a restart that is carried out, of the engine reset write in
pull mode and of the reset of the mmap buffer in mmap mode; it is 0 for a stop
of an engine that is not active and for a restart that is skipped or
deferred. -/
theorem client_operations_rewrite_disconnected_status (env : Env) (s : StreamPtr)
    (d : List Nat) (n : Nat) (e : Engine) (r : Int) (e2 : Engine) :
    (LoadSoundModel env s (some d) n e = some (r, e2) →
      (∀ n2 e1, registerModelPDK env s d n e ≠ some (false, n2, e1)) →
      ∃ n2 e1 u ex, registerModelPDK env s d n e = some (true, n2, e1) ∧
        loadModel env s d n2 e1 = some (u, ex) ∧ r = ssrStatus env u e2) ∧
    (UnloadSoundModel env s e = some (r, e2) →
      ∃ u ex, unloadModel env s e = some (u, ex) ∧ r = ssrStatus env u e2) ∧
    (StartRecognition env s e = some (r, e2) →
      ∃ e3 u,
        ((IsEngineActive (modelStateSet s true e) = false ∧ e3 = modelStateSet s true e) ∨
          (IsEngineActive (modelStateSet s true e) = true ∧
            ∃ s0, (modelStateSet s true e).eng_streams_.head? = some s0 ∧
              e3 = (ProcessStopRecognition env s0 (modelStateSet s true e)).2)) ∧
        ProcessStartRecognition env s e3 = some (u, e2) ∧ r = ssrStatus env u e2) ∧
    (StopRecognition env s e = some (r, e2) →
      ∃ u, r = ssrStatus env u e2 ∧
        ((IsEngineActive (modelStateSet s false e) = false ∧ u = 0 ∧
            e2 = modelStateSet s false e) ∨
          (IsEngineActive (modelStateSet s false e) = true ∧
            u = (ProcessStopRecognition env s (modelStateSet s false e)).1 ∧
            e2 = (ProcessStopRecognition env s (modelStateSet s false e)).2 ∧
            (u ≠ 0 ∨ CheckIfOtherStreamsActive env s
              (ProcessStopRecognition env s (modelStateSet s false e)).2 = false)) ∨
          (IsEngineActive (modelStateSet s false e) = true ∧
            (ProcessStopRecognition env s (modelStateSet s false e)).1 = 0 ∧
            CheckIfOtherStreamsActive env s
              (ProcessStopRecognition env s (modelStateSet s false e)).2 = true ∧
            stopRestartOthers env s
              (ProcessStopRecognition env s (modelStateSet s false e)).2 = some (u, e2)))) ∧
    (RestartRecognition env s e = some (r, e2) →
      ∃ u, r = ssrStatus env u e2 ∧
        ((IsEngineActive e = false ∧ u = 0 ∧ e2 = e) ∨
          (IsEngineActive e = true ∧ env.concurrentEventCapture = true ∧
            (e.det_streams_q_.isEmpty = false ∨
              CheckIfOtherStreamsBuffering env s e = true) ∧
            u = 0 ∧ e2 = e) ∨
          (IsEngineActive e = true ∧
            ¬ (env.concurrentEventCapture = true ∧
              (e.det_streams_q_.isEmpty = false ∨
                CheckIfOtherStreamsBuffering env s e = true)) ∧
            (∃ e4, restartMmap env s
                (UpdateSessionPayload env .ENGINE_RESET (restartEntry e)).1
                (restartReset env e) = some (u, e4) ∧
              e2 = UpdateState .ENG_ACTIVE { e4 with exit_buffering_ := false }) ∧
            (e.mmap_buffer_size_ = 0 →
              u = (UpdateSessionPayload env .ENGINE_RESET (restartEntry e)).1) ∧
            (e.mmap_buffer_size_ ≠ 0 →
              u = env.ResetMmapBuffer ((restartReset env e).clk + 1) s)))) ∧
    (∀ u : Int,
      ((u = -ENETRESET ∨ env.cardOnline e2.clk = false) → ssrStatus env u e2 = 0) ∧
      (u ≠ -ENETRESET → env.cardOnline e2.clk = true → ssrStatus env u e2 = u)) := by
  refine ⟨?_, UnloadSoundModel_status env s e r e2, StartRecognition_rewrite env s e r e2,
    StopRecognition_rewrite env s e r e2, RestartRecognition_rewrite env s e r e2, ?_⟩
  · intro h hreg
    rcases LoadSoundModel_status env s d n e r e2 h with ⟨n2, e1, h1, _, _⟩ | h2
    · exact absurd h1 (hreg n2 e1)
    · exact h2
  · intro u
    unfold ssrStatus
    constructor
    · intro h
      rw [if_pos h]
    · intro h1 h2
      rw [if_neg (by simp [h1, h2])]

theorem client_operations_rewrite_disconnected_status_witness :
    ∃ e2, StartRecognition disconnectedEnv 1 sampleEngine = some (0, e2) ∧
      ∃ e3 u,
        ((IsEngineActive (modelStateSet 1 true sampleEngine) = false ∧
            e3 = modelStateSet 1 true sampleEngine) ∨
          (IsEngineActive (modelStateSet 1 true sampleEngine) = true ∧
            ∃ s0, (modelStateSet 1 true sampleEngine).eng_streams_.head? = some s0 ∧
              e3 = (ProcessStopRecognition disconnectedEnv s0
                (modelStateSet 1 true sampleEngine)).2)) ∧
        ProcessStartRecognition disconnectedEnv 1 e3 = some (u, e2) ∧
        (0 : Int) = ssrStatus disconnectedEnv u e2 :=
  ⟨_, rfl,
    (client_operations_rewrite_disconnected_status disconnectedEnv 1 [] 0 sampleEngine 0 _).2.2.1
      rfl⟩

/-! ## The notification of the listener once the replay is read -/

theorem runEvents_noNotification (env : Env) (calls : List EngineCall)
    (hev : ∀ x ∈ calls, ∃ data, x = EngineCall.HandleSessionEvent data) :
    ∀ e e2 : Engine, runEngineCalls env calls e = some e2 →
      ∃ t, e2.trace = e.trace ++ t ∧ notifiedListeners t = [] := by
  induction calls with
  | nil =>
    intro e e2 h
    simp only [runEngineCalls, Option.some.injEq] at h
    subst h
    exact ⟨[], by simp, rfl⟩
  | cons c cs ih =>
    intro e e2 h
    simp only [runEngineCalls] at h
    cases h1 : applyEngineCall env c e with
    | none => rw [h1] at h; cases h
    | some e1 =>
      rw [h1] at h
      obtain ⟨data, hc⟩ := hev c (List.mem_cons_self c cs)
      subst hc
      obtain ⟨⟨t1, ht1, hn1⟩, _⟩ := HandleSessionEvent_queue env data e e1 h1
      obtain ⟨t2, ht2, hn2⟩ := ih (fun x hx => hev x (List.mem_cons_of_mem _ hx)) e1 e2 h
      refine ⟨t1 ++ t2, by rw [ht2, ht1, List.append_assoc], ?_⟩
      rw [notifiedListeners_append, hn1, hn2]
      rfl

theorem othersRun_noNotification (env : Env) (hev : EventsOnly env) (e e2 : Engine)
    (h : othersRun env e = some e2) :
    ∃ t, e2.trace = e.trace ++ t ∧ notifiedListeners t = [] :=
  runEvents_noNotification env _ (hev e.clk) e e2 h

/-- The notification of the listener `s`, with detection events arriving
meanwhile, whether or not concurrent capture is enabled: `s` is the one listener
notified; and where concurrent capture is enabled or the notification does not
fail with a negative status, so that no restart follows it, the queue grows at
its tail. -/
theorem notifyDetection_notifies (env : Env) (hev : EventsOnly env) (s : StreamPtr)
    (e : Engine) (st : Int) (e2 : Engine) (h : notifyDetection env s e = some (st, e2))
    (hs : QueueSafe e) :
    (∃ t, e2.trace = e.trace ++ t ∧ notifiedListeners t = [s]) ∧
    ((env.concurrentEventCapture = true ∨ ¬ st < 0) →
      (∃ a, e2.det_streams_q_ = e.det_streams_q_ ++ a) ∧ QueueSafe e2) := by
  have h0 := h
  unfold notifyDetection at h
  split at h
  · cases h
  · rename_i e1 h1
    obtain ⟨⟨⟨a1, hq1⟩, t1, ht1, hn1⟩, hs1⟩ := unlocked_grows env hev e e1 h1 hs
    dsimp only at h
    split at h
    · cases h
    · rename_i e3 h3
      simp only [Option.map_eq_some', Prod.mk.injEq] at h
      obtain ⟨e4, h4, hst, rfl⟩ := h
      have hmid : ∃ t3, e3.trace = e1.trace ++ Effect.SetEngineDetectionState s :: t3 ∧
          notifiedListeners t3 = [] := by
        split_ifs at h3
        · simp only [Option.map_eq_some'] at h3
          obtain ⟨r, hr, rfl⟩ := h3
          obtain ⟨_, ⟨t, ht, hn⟩, _⟩ := RestartRecognition_quiet env s _ r.1 r.2 hr
          exact ⟨t, by rw [ht]; simp [Engine.log], hn⟩
        · simp only [Option.some.injEq] at h3
          subst h3
          exact ⟨[], by simp [Engine.log], rfl⟩
      obtain ⟨t3, ht3, hn3⟩ := hmid
      obtain ⟨t4, ht4, hn4⟩ := othersRun_noNotification env hev e3 e4 h4
      refine ⟨⟨t1 ++ (Effect.SetEngineDetectionState s :: t3) ++ t4, ?_, ?_⟩, ?_⟩
      · rw [ht4, ht3, ht1]
        simp
      · rw [notifiedListeners_append, notifiedListeners_append, hn1, hn4]
        have : notifiedListeners (Effect.SetEngineDetectionState s :: t3) = [s] := by
          unfold notifiedListeners at hn3 ⊢
          rw [List.filterMap_cons]
          simp [hn3]
        rw [this]
        rfl
      · intro hcase
        rcases hcase with hcc | hneg
        · obtain ⟨hq, _, hsafe⟩ := notifyDetection_serves env hcc hev s e st e4 h0 hs
          exact ⟨hq, hsafe⟩
        · rw [← hst] at hneg
          rw [if_neg hneg] at h3
          simp only [Option.some.injEq] at h3
          subst h3
          have hs3 : QueueSafe (e1.log (.SetEngineDetectionState s)) := hs1
          obtain ⟨⟨⟨a4, hq4⟩, _⟩, hs4⟩ := othersRun_grows env hev _ e4 h4 hs3
          refine ⟨⟨a1 ++ a4, ?_⟩, hs4⟩
          rw [hq4]
          show e1.det_streams_q_ ++ a4 = _
          rw [hq1, List.append_assoc]

/-- The test of the replay size for a listener that has not been notified, once
the bytes read cover the replay size: the head of the queue is popped and the
listener is notified, the one listener notified meanwhile; detection events may
add to the tail of the queue. -/
theorem notifyWhenReplayRead_serves (env : Env) (hev : EventsOnly env) (l : BufLocals)
    (e : Engine) (step : LoopStep)
    (h : notifyWhenReplayRead env l e = some step) (ht : l.ftrt_size ≤ l.total_read_size)
    (hn : l.event_notified = false) (hsafe : QueueSafe e)
    (hb : e.eng_state_ = .ENG_BUFFERING) (hcast : dynCast env e.clk l.s = true) :
    ∃ x q t, e.det_streams_q_ = x :: q ∧
      step.engine.trace = e.trace ++ t ∧ notifiedListeners t = [l.s] ∧
      (∀ l2 e2, step = .next l2 e2 → l2.event_notified = true) ∧
      ((env.concurrentEventCapture = true ∨ ∃ l2 e2, step = .next l2 e2) →
        ∃ a, step.engine.det_streams_q_ = q ++ a) := by
  unfold notifyWhenReplayRead at h
  rw [if_pos ht, if_pos hn] at h
  cases hq : e.det_streams_q_ with
  | nil => rw [hq] at h; cases h
  | cons x q =>
    rw [hq] at h
    dsimp only at h
    have hcast2 : dynCast env ({ e with det_streams_q_ := q } : Engine).clk l.s = true := hcast
    rw [if_pos hcast2] at h
    have hsafe1 : QueueSafe { e with det_streams_q_ := q } := by
      refine ⟨fun y hy => hsafe.1 y (by rw [hq]; exact List.mem_cons_of_mem x hy), ?_⟩
      intro hact
      rw [show ({ e with det_streams_q_ := q } : Engine).eng_state_ = e.eng_state_ from rfl,
        hb] at hact
      exact absurd hact (by simp)
    cases hr : notifyDetection env l.s { e with det_streams_q_ := q } with
    | none => rw [hr] at h; cases h
    | some r =>
      obtain ⟨status, e2⟩ := r
      rw [hr] at h
      dsimp only at h
      obtain ⟨⟨t2, ht2, hn2⟩, hgrow⟩ :=
        notifyDetection_notifies env hev l.s _ status e2 hr hsafe1
      by_cases hs0 : status ≠ 0
      · rw [if_pos hs0] at h
        simp only [Option.some.injEq] at h
        subst h
        refine ⟨x, q, t2, rfl, ht2, hn2, ?_, ?_⟩
        · intro l2 e3 h3
          cases h3
        · intro hcase
          rcases hcase with hcc | ⟨l2, e3, h3⟩
          · exact (hgrow (Or.inl hcc)).1
          · cases h3
      · rw [if_neg hs0] at h
        simp only [Option.map_eq_some'] at h
        obtain ⟨e3, h3, rfl⟩ := h
        have hz : status = 0 := by simpa using hs0
        obtain ⟨⟨a2, hq2⟩, hsafe2⟩ := hgrow (Or.inr (by rw [hz]; decide))
        obtain ⟨⟨⟨a3, hq3⟩, t3, ht3, hn3⟩, _⟩ := unlocked_grows env hev e2 e3 h3 hsafe2
        refine ⟨x, q, t2 ++ t3, rfl, ?_, ?_, ?_, ?_⟩
        · show e3.trace = _
          rw [ht3, ht2]
          simp
        · rw [notifiedListeners_append, hn2, hn3]
          rfl
        · intro l2 e4 h4
          cases h4
          rfl
        · intro _
          refine ⟨a2 ++ a3, ?_⟩
          show e3.det_streams_q_ = _
          rw [hq3, hq2]
          simp

/-- C22, amended: in pull mode, with concurrent capture enabled or not, with
detection events as the only calls of other threads and every stream a
sound-trigger stream,
for a listener that is the head of the detection queue and has not been
notified, and for whatever the session returns: while every iteration so far
has ended with fewer bytes read than the replay size of the listener, nothing
has been popped and nobody has been notified; the next iteration is left before
its end, or ends below the replay size, both without a pop or a notification,
or it ends with the bytes read at or above the replay size, and then the head
of the queue, the listener, has been popped and notified.  While the replay is
outstanding the read requests no more than the rest of the replay; and where
the iteration that notifies begins with the replay outstanding and its read
returns no more than requested, and no negative size, the bytes read are the
replay size when the listener is notified. -/
theorem listener_is_notified_when_replay_is_read (env : Env) (hev : EventsOnly env)
    (hst : SoundTriggerStreams env) (l : BufLocals) (e : Engine)
    (hm : e.mmap_buffer_size_ = 0) (hn : l.event_notified = false) (hsafe : QueueSafe e)
    (hhead : e.det_streams_q_.head? = some l.s) (n : Nat) (l1 : BufLocals) (e1 : Engine)
    (hout : replayOutstanding env l.ftrt_size n l e = true)
    (hrun : bufferingSteps env n l e = some (.next l1 e1)) :
    (l1.event_notified = false ∧ l1.s = l.s ∧ l1.ftrt_size = l.ftrt_size ∧
      e1.det_streams_q_ = e.det_streams_q_ ∧ notifiedListeners (issued e e1) = []) ∧
    (∀ step, bufferingIteration env l1 e1 = some step →
      (∃ st e2, step = .exit st e2 ∧ e2.det_streams_q_ = e1.det_streams_q_ ∧
        notifiedListeners (issued e1 e2) = []) ∨
      (∃ l2 e2, step = .next l2 e2 ∧ l2.total_read_size < l.ftrt_size ∧
        l2.event_notified = false ∧ e2.det_streams_q_ = e1.det_streams_q_ ∧
        notifiedListeners (issued e1 e2) = []) ∨
      (∃ q, e1.det_streams_q_ = l.s :: q ∧
        notifiedListeners (issued e1 step.engine) = [l.s] ∧
        ((env.concurrentEventCapture = true ∨ ∃ l2 e2, step = .next l2 e2) →
          ∃ a, step.engine.det_streams_q_ = q ++ a) ∧
        ∀ l2 e2, step = .next l2 e2 →
          l.ftrt_size ≤ l2.total_read_size ∧ l2.event_notified = true)) ∧
    (l1.total_read_size < l.ftrt_size → pullRequest l1 ≤ l.ftrt_size - l1.total_read_size) ∧
    (∀ l2 e2, readPull env l1 e1 = some (.proceed l2 e2) →
      issued e1 e2 = [.bufferGetFreeSize] ∨
      issued e1 e2 = [.bufferGetFreeSize, .sessionRead l.s (pullRequest l1)]) ∧
    (l1.total_read_size < l.ftrt_size → l.ftrt_size < U64 →
      (0 ≤ toInt32 (env.sessionRead (e1.log .bufferGetFreeSize).clk l1.s (pullRequest l1)).2.1 ∧
        toInt32 (env.sessionRead (e1.log .bufferGetFreeSize).clk l1.s (pullRequest l1)).2.1 ≤
          (pullRequest l1 : Int)) →
      ∀ l2 e2, bufferingIteration env l1 e1 = some (.next l2 e2) →
        l.ftrt_size ≤ l2.total_read_size → l2.total_read_size = l.ftrt_size) := by
  obtain ⟨hn1, hs1, hf1, hq1, hm1, _⟩ := outstanding_run env n l e l1 e1 hm hn hout hrun
  have hsafe1 : QueueSafe e1 := queueSafe_of_quiet hq1 hsafe
  have hhead1 : e1.det_streams_q_.head? = some l.s := by rw [hq1.1]; exact hhead
  have hs0 : l.s ≠ 0 := by
    cases hq : e.det_streams_q_ with
    | nil => rw [hq] at hhead; cases hhead
    | cons x q =>
      rw [hq] at hhead
      simp only [List.head?_cons, Option.some.injEq] at hhead
      rw [← hhead]
      exact hsafe.1 x (by rw [hq]; exact List.mem_cons_self x q)
  refine ⟨⟨hn1, hs1, hf1, hq1.1, notified_of_quiet hq1⟩, ?_, ?_, ?_, ?_⟩
  · intro step hi
    rcases pull_iteration_parts env l1 e1 step hm1 hn1 hi with ⟨st, E, hx, hq⟩ |
      ⟨hb, l3, e3, l4, e4, _, _, hnotify, hq4, hs4, hf4, hn4, _, _⟩
    · exact Or.inl ⟨st, E, hx, hq.1, notified_of_quiet hq⟩
    · by_cases hlt : l4.total_read_size < l4.ftrt_size
      · right; left
        have hstep : step = .next l4 e4 := by
          unfold notifyWhenReplayRead at hnotify
          rw [if_neg (by omega)] at hnotify
          simp only [Option.some.injEq] at hnotify
          exact hnotify.symm
        refine ⟨l4, e4, hstep, ?_, hn4, hq4.1, notified_of_quiet hq4⟩
        rw [← hf1, ← hf4]
        exact hlt
      · right; right
        have hge : l4.ftrt_size ≤ l4.total_read_size := by omega
        obtain ⟨x, q, t, hqx, htr, hnt, hnext, hqa⟩ :=
          notifyWhenReplayRead_serves env hev l4 e4 step hnotify hge hn4
            (queueSafe_of_quiet hq4 hsafe1) (hq4.2.1.trans hb)
            (by rw [hs4, hs1]; exact dynCast_of_soundTrigger env hst _ l.s hs0)
        have hx : x = l.s := by
          rw [← hq4.1, hqx] at hhead1
          simpa using hhead1
        subst hx
        refine ⟨q, by rw [← hq4.1]; exact hqx, ?_, hqa, ?_⟩
        · obtain ⟨_, _, t4, ht4, hn4t⟩ := hq4
          rw [issued_of_trace e1 step.engine (t4 ++ t) (by rw [htr, ht4, List.append_assoc]),
            notifiedListeners_append, hn4t, hnt, hs4, hs1]
          rfl
        · intro l2 e2 h2
          subst h2
          obtain ⟨_, ht2, _⟩ := notifyWhenReplayRead_locals env l4 e4 l2 e2 hnotify
          refine ⟨?_, hnext l2 e2 rfl⟩
          rw [ht2, ← hf1, ← hf4]
          exact hge
  · intro hlt
    rw [← hf1]
    exact pullRequest_le l1 (by rw [hf1]; exact hlt)
  · intro l2 e2 hr
    rcases readPull_shape env l1 e1 _ hr with ⟨_, hx⟩ | ⟨_, e9, he9, ⟨_, _, hx⟩ | ⟨l9, hx, _⟩⟩
    · cases hx
      left
      simp [issued, Engine.log]
    · cases hx
    · cases hx
      subst he9
      right
      rw [← hs1]
      simp [issued, Engine.log]
  · intro hlt hU hbound l2 e2 hi hge
    rcases pull_iteration_parts env l1 e1 _ hm1 hn1 hi with ⟨_, _, hx, _⟩ |
      ⟨_, l3, e3, l4, e4, hr, _, hnotify, _, _, _, _, ht43, _⟩
    · cases hx
    · obtain ⟨_, ht2, _⟩ := notifyWhenReplayRead_locals env l4 e4 l2 e2 hnotify
      have hreq := pullRequest_le l1 (by rw [hf1]; exact hlt)
      rw [hf1] at hreq
      rcases readPull_shape env l1 e1 _ hr with ⟨_, hx⟩ |
        ⟨_, e9, he9, ⟨_, _, hx⟩ | ⟨l9, hx, hsize, htot, _⟩⟩
      · cases hx
        omega
      · cases hx
      · cases hx
        obtain ⟨hb0, hb1⟩ := hbound
        rw [← hsize] at hb0 hb1
        have hsz : toSizeT l3.size = l3.size.toNat :=
          toSizeT_of_small l3.size hb0 (by rw [hsize]; exact toInt32_lt _)
        have hle : l3.size.toNat ≤ pullRequest l1 := by omega
        rw [hsz, Nat.mod_eq_of_lt (by omega)] at htot
        omega

theorem listener_is_notified_when_replay_is_read_witness :
    serialCaptureEnv.concurrentEventCapture = false ∧ EventsOnly serialCaptureEnv ∧
    SoundTriggerStreams serialCaptureEnv ∧ QueueSafe sampleLoopEngine ∧
    sampleLoopEngine.det_streams_q_.head? = some sampleCaptureLocals.s ∧
    ∃ l1 e1 l2 e2,
      bufferingSteps serialCaptureEnv 1 sampleCaptureLocals sampleLoopEngine =
        some (.next l1 e1) ∧
      bufferingIteration serialCaptureEnv l1 e1 = some (.next l2 e2) ∧
      (l1.event_notified = false ∧ l1.s = 1 ∧ l1.ftrt_size = 8 ∧
        e1.det_streams_q_ = [1] ∧ notifiedListeners (issued sampleLoopEngine e1) = []) ∧
      pullRequest l1 ≤ 8 - l1.total_read_size ∧
      l2.total_read_size = 8 :=
  ⟨rfl, (fun _ _ hx => nomatch hx), (fun _ _ => rfl),
    ⟨by decide, fun h => absurd h (by decide)⟩, rfl, _, _, _, _, rfl, rfl,
    (listener_is_notified_when_replay_is_read serialCaptureEnv (fun _ _ hx => nomatch hx)
      (fun _ _ => rfl) sampleCaptureLocals sampleLoopEngine rfl rfl
      ⟨by decide, fun h => absurd h (by decide)⟩ rfl 1 _ _ rfl rfl).1,
    (listener_is_notified_when_replay_is_read serialCaptureEnv (fun _ _ hx => nomatch hx)
      (fun _ _ => rfl) sampleCaptureLocals sampleLoopEngine rfl rfl
      ⟨by decide, fun h => absurd h (by decide)⟩ rfl 1 _ _ rfl rfl).2.2.1 (by decide),
    (listener_is_notified_when_replay_is_read serialCaptureEnv (fun _ _ hx => nomatch hx)
      (fun _ _ => rfl) sampleCaptureLocals sampleLoopEngine rfl rfl
      ⟨by decide, fun h => absurd h (by decide)⟩ rfl 1 _ _ rfl rfl).2.2.2.2 (by decide)
      (by decide) ⟨by decide, by decide⟩ _ _ rfl (Nat.le_refl 8)⟩

end SoundTrigger
